import Mathlib

/-!
Verification of the oSUS beatmap library core (`src/osus/src`).

Modelling conventions:
* Rust `f64` values are modelled as exact rationals (`ℚ`).  All the code under
  study only compares, adds, subtracts, multiplies and divides timestamps and
  coordinates, so the rational model is the natural shallow embedding;
  `f64::EPSILON` becomes the rational constant `2⁻⁵²`.
* Rust slices become `List`s; slice iterators become structural recursion.
* Fallible Rust functions returning `Result`/`Option` become `Except`/`Option`.
* Transcendental `f64` operations (`atan2`, `hypot`, `sin`, `cos`, the constant
  `TAU`) and the numeric-convergence `while` loop of the circular-arc
  approximation have no exact rational counterpart; they are abstracted into a
  `FloatOps` parameter.  Every theorem about the code that touches them is
  proved for an arbitrary interpretation of those operations, which only ever
  appear in branches the theorems do not depend on.
-/

namespace Osus

/-- Decidable equality for `Except`, used to evaluate parse results on concrete
inputs. -/
instance {ε α : Type} [DecidableEq ε] [DecidableEq α] : DecidableEq (Except ε α) := fun a b =>
  match a, b with
  | .ok x, .ok y =>
    if h : x = y then .isTrue (by rw [h])
    else .isFalse (fun hc => h (Except.ok.inj hc))
  | .error x, .error y =>
    if h : x = y then .isTrue (by rw [h])
    else .isFalse (fun hc => h (Except.error.inj hc))
  | .ok _, .error _ => .isFalse (fun hc => Except.noConfusion hc)
  | .error _, .ok _ => .isFalse (fun hc => Except.noConfusion hc)

/-- Timestamps (`pub type Timestamp = f64` in `src/osus/src/file/beatmap.rs`),
modelled as exact rationals. -/
abbrev Timestamp : Type := ℚ

/-- Mirror of `is_close` (`src/osus/src/lib.rs`): `(a - b).abs() <= tolerance`. -/
def is_close (a b tolerance : ℚ) : Bool :=
  decide (|a - b| ≤ tolerance)

/-- Mirror of `Timestamped::basically_at` (`src/osus/src/lib.rs`), with its fixed
tolerance of `2.0` ms.  The trait method `timestamp()` is modelled by an explicit
projection `ts`. -/
def basically_at {α : Type} (ts : α → Timestamp) (o : α) (t : Timestamp) : Bool :=
  is_close (ts o) t 2

/-- Mirror of `f64::total_cmp` restricted to the (non-NaN) rational model. -/
def total_cmp (a b : ℚ) : Ordering :=
  if a < b then .lt else if a = b then .eq else .gt

/-- Loop of Rust's `[T]::binary_search_by` (`core::slice`, used by
`at_timestamp` and `partition_point` in `src/osus/src/lib.rs`).  The `while
left < right` loop shrinks the interval by at least one element per iteration,
so running it with `fuel = right - left` is exactly the Rust loop: the
`fuel = 0` case coincides with the loop exit (`Err(left)`), because the
interval is empty whenever the fuel runs out.  The slice access `f(&self[mid])`
is modelled by handing the search the comparator already composed with the
indexing function; the search only ever evaluates `f` at indices in
`[left, right)`. -/
def binary_search_loop (f : Nat → Ordering) : Nat → Nat → Nat → Except Nat Nat
  | 0, left, _ => .error left
  | fuel + 1, left, right =>
    if left < right then
      let mid := left + (right - left) / 2
      match f mid with
      | .lt => binary_search_loop f fuel (mid + 1) right
      | .gt => binary_search_loop f fuel left mid
      | .eq => .ok mid
    else
      .error left

/-- Mirror of Rust's `[T]::binary_search_by`: run the loop on `[left, right)`. -/
def binary_search_by (f : Nat → Ordering) (left right : Nat) : Except Nat Nat :=
  binary_search_loop f (right - left) left right

/-- Comparator used by `TimestampedSlice::at_timestamp`
(`src/osus/src/lib.rs`): `Equal` when `o.basically_at(timestamp)`, otherwise
`o.timestamp().total_cmp(&timestamp)`.  Out-of-range indices (never reached by
the search) are mapped to `.eq`. -/
def at_timestamp_cmp {α : Type} (ts : α → Timestamp) (xs : List α) (t : Timestamp)
    (i : Nat) : Ordering :=
  match xs[i]? with
  | some o => if basically_at ts o t then .eq else total_cmp (ts o) t
  | none => .eq

/-- Mirror of `TimestampedSlice::at_timestamp` (`src/osus/src/lib.rs`):
`binary_search_by(...).ok().and_then(|index| self.get(index))`. -/
def at_timestamp {α : Type} (ts : α → Timestamp) (xs : List α) (t : Timestamp) :
    Option α :=
  match binary_search_by (at_timestamp_cmp ts xs t) 0 xs.length with
  | .ok i => xs[i]?
  | .error _ => none

/-- Mirror of Rust's `[T]::partition_point`, which is implemented as
`self.binary_search_by(|x| if pred(x) { Less } else { Greater }).unwrap_or_else(|i| i)`. -/
def partition_point {α : Type} (pred : α → Bool) (xs : List α) : Nat :=
  match binary_search_by
      (fun i =>
        match xs[i]? with
        | some o => if pred o then .lt else .gt
        | none => .eq)
      0 xs.length with
  | .ok i => i
  | .error i => i

/-- Model of `std::ops::Bound<Timestamp>` for one end of a range. -/
inductive Bound where
  | included (t : Timestamp)
  | excluded (t : Timestamp)
  | unbounded
deriving DecidableEq

/-- Model of a `RangeBounds<Timestamp>` value: a pair of end bounds. -/
structure TimeRange where
  start_bound : Bound
  end_bound : Bound
deriving DecidableEq

/-- Start index computed by `TimestampedSlice::between` (`src/osus/src/lib.rs`). -/
def between_start_index {α : Type} (ts : α → Timestamp) (xs : List α)
    (r : TimeRange) : Nat :=
  match r.start_bound with
  | .included start => partition_point (fun o => decide (ts o < start)) xs
  | .excluded start => partition_point (fun o => decide (ts o ≤ start)) xs
  | .unbounded => 0

/-- End index computed by `TimestampedSlice::between` (`src/osus/src/lib.rs`). -/
def between_end_index {α : Type} (ts : α → Timestamp) (xs : List α)
    (r : TimeRange) : Nat :=
  match r.end_bound with
  | .included e => partition_point (fun o => decide (ts o ≤ e)) xs
  | .excluded e => partition_point (fun o => decide (ts o < e)) xs
  | .unbounded => xs.length

/-- Mirror of `TimestampedSlice::between` (`src/osus/src/lib.rs`).  The final
`&self[start_index..end_index]` panics in Rust when
`start_index > end_index` (or `end_index > len`); the panic is modelled by
`none`. -/
def between {α : Type} (ts : α → Timestamp) (xs : List α) (r : TimeRange) :
    Option (List α) :=
  let start_index := between_start_index ts xs r
  let end_index := between_end_index ts xs r
  if start_index ≤ end_index ∧ end_index ≤ xs.length then
    some ((xs.drop start_index).take (end_index - start_index))
  else
    none

/-- Mirror of `InterleavedTimestampedIterator::next` (`src/osus/src/lib.rs`),
run to exhaustion.  `Ok(&T)` items (left slice) become `Sum.inl`, `Err(&U)`
items (right slice) become `Sum.inr`.  Note the comparison is strict: on a tie
the branch taking the right head is chosen. -/
def interleave_timestamped {α β : Type} (ta : α → Timestamp) (tb : β → Timestamp) :
    List α → List β → List (α ⊕ β)
  | fst :: remaining_fst, snd :: remaining_snd =>
    if ta fst < tb snd then
      .inl fst :: interleave_timestamped ta tb remaining_fst (snd :: remaining_snd)
    else
      .inr snd :: interleave_timestamped ta tb (fst :: remaining_fst) remaining_snd
  | fst :: remaining, [] => .inl fst :: interleave_timestamped ta tb remaining []
  | [], snd :: remaining => .inr snd :: interleave_timestamped ta tb [] remaining
  | [], [] => []
termination_by a b => a.length + b.length

/-- Auxiliary fact used for the termination of `group_timestamped`. -/
theorem length_dropWhile_le {α : Type} (p : α → Bool) (l : List α) :
    (l.dropWhile p).length ≤ l.length := by
  induction l with
  | nil => simp [List.dropWhile]
  | cons a l ih =>
    simp only [List.dropWhile]
    cases p a
    · simp
    · exact Nat.le_succ_of_le ih

/-- Mirror of `GroupedTimestampedIterator::next` (`src/osus/src/lib.rs`), run to
exhaustion: each step counts the longest prefix whose timestamps are within
`1.0` of the first element's timestamp and splits it off. -/
def group_timestamped {α : Type} (ts : α → Timestamp) : List α → List (List α)
  | [] => []
  | elem0 :: rest =>
    (elem0 :: rest).takeWhile (fun elem => is_close (ts elem) (ts elem0) 1) ::
      group_timestamped ts
        ((elem0 :: rest).dropWhile (fun elem => is_close (ts elem) (ts elem0) 1))
termination_by xs => xs.length
decreasing_by
  simp only [List.dropWhile]
  have h0 : is_close (ts elem0) (ts elem0) 1 = true := by
    simp [is_close]
  rw [h0]
  exact Nat.lt_succ_of_le (length_dropWhile_le _ _)

/-- Mirror of `SampleBank` (`src/osus/src/file/beatmap.rs`). -/
inductive SampleBank where
  | Auto
  | Normal
  | Soft
  | Drum
deriving DecidableEq

/-- Numeric value of a `SampleBank` (`SampleBank as u8`, discriminants 0–3). -/
def SampleBank.toNat : SampleBank → Nat
  | .Auto => 0
  | .Normal => 1
  | .Soft => 2
  | .Drum => 3

/-- Mirror of `TimingPoint` (`src/osus/src/file/beatmap.rs`).  `meter: i32` is
modelled as `ℤ`, `sample_index: u32`, `volume: u8` and `effects: u32` as `ℕ`. -/
structure TimingPoint where
  time : Timestamp
  beat_length : ℚ
  meter : ℤ
  sample_set : SampleBank
  sample_index : ℕ
  volume : ℕ
  uninherited : Bool
  effects : ℕ
deriving DecidableEq

/-- Mirror of `TimingPoint::default()` (all-zero / `Auto` / `false`). -/
def TimingPoint.default : TimingPoint :=
  { time := 0, beat_length := 0, meter := 0, sample_set := .Auto,
    sample_index := 0, volume := 0, uninherited := false, effects := 0 }

/-- The rational value of `f64::EPSILON`, i.e. `2⁻⁵²`. -/
def epsilonF64 : ℚ := 1 / 2 ^ 52

/-- Mirror of `TimingPoint::is_duplicate` (`src/osus/src/file/beatmap.rs`):
`(self.beat_length - other.beat_length).abs() < f64::EPSILON` and equality of
`meter`, `sample_set`, `sample_index`, `volume` and `effects` (but not of `time`
or `uninherited`). -/
def TimingPoint.is_duplicate (self other : TimingPoint) : Bool :=
  decide (|self.beat_length - other.beat_length| < epsilonF64) &&
    decide (self.meter = other.meter) &&
    decide (self.sample_set = other.sample_set) &&
    decide (self.sample_index = other.sample_index) &&
    decide (self.volume = other.volume) &&
    decide (self.effects = other.effects)

/-- Loop body of `remove_duplicates` (`src/osus/src/algos/mod.rs`): fold over
`timing_points[1..]` keeping `prev_timing_point` as the last retained point. -/
def remove_duplicates_go (prev_timing_point : TimingPoint) :
    List TimingPoint → List TimingPoint
  | [] => []
  | timing_point :: rest =>
    if timing_point.uninherited || !(timing_point.is_duplicate prev_timing_point) then
      timing_point :: remove_duplicates_go timing_point rest
    else
      remove_duplicates_go prev_timing_point rest

/-- Mirror of `remove_duplicates` (`src/osus/src/algos/mod.rs`). -/
def remove_duplicates (timing_points : List TimingPoint) : List TimingPoint :=
  match timing_points with
  | [] => []
  | tp0 :: rest => tp0 :: remove_duplicates_go tp0 rest

/-- Mirror of `Point` (`src/osus/src/point.rs`), with `f64` coordinates modelled
as rationals. -/
structure Point where
  x : ℚ
  y : ℚ
deriving DecidableEq

instance : Neg Point := ⟨fun p => ⟨-p.x, -p.y⟩⟩

instance : Add Point := ⟨fun p q => ⟨p.x + q.x, p.y + q.y⟩⟩

instance : Sub Point := ⟨fun p q => ⟨p.x - q.x, p.y - q.y⟩⟩

instance : HMul Point ℚ Point := ⟨fun p r => ⟨p.x * r, p.y * r⟩⟩

instance : HDiv Point ℚ Point := ⟨fun p r => ⟨p.x / r, p.y / r⟩⟩

/-- Mirror of `Point::dot` (`src/osus/src/point.rs`). -/
def Point.dot (self rhs : Point) : ℚ :=
  self.x * rhs.x + self.y * rhs.y

/-- Mirror of `SliderCurveType` (`src/osus/src/file/beatmap.rs`). -/
inductive SliderCurveType where
  | Inherit
  | Bezier
  | Catmull
  | Linear
  | PerfectCurve
deriving DecidableEq

/-- Mirror of `SliderPoint` (`src/osus/src/file/beatmap.rs`). -/
structure SliderPoint where
  curve_type : SliderCurveType
  x : ℤ
  y : ℤ
deriving DecidableEq

instance : Inhabited SliderPoint := ⟨⟨.Inherit, 0, 0⟩⟩

/-- Mirror of `SliderPoint::to_point` (`src/osus/src/file/beatmap.rs`). -/
def SliderPoint.to_point (self : SliderPoint) : Point :=
  ⟨(self.x : ℚ), (self.y : ℚ)⟩

/-- Mirror of `CircleArcProperties` (`src/osus/src/algos/bezier.rs`). -/
structure CircleArcProperties where
  theta_start : ℚ
  theta_range : ℚ
  direction : ℚ
  radius : ℚ
  center : Point

/-- Abstraction of the transcendental `f64` operations used by the circular-arc
conversion in `src/osus/src/algos/bezier.rs` (`atan2`, `hypot`, `sin`, `cos`,
the constant `TAU`) together with its numeric-convergence `while` loop
(`converge_arc arc arc_len theta_range` stands for the loop at
`bezier.rs:220-233`, which has no a-priori termination bound).  All theorems
below hold for every interpretation of these operations. -/
structure FloatOps where
  atan2 : ℚ → ℚ → ℚ
  hypot : ℚ → ℚ → ℚ
  sin : ℚ → ℚ
  cos : ℚ → ℚ
  tau : ℚ
  converge_arc : List Point → ℚ → ℚ → List Point

/-- Mirror of `BezierConversionError` (`src/osus/src/algos/bezier.rs`). -/
inductive BezierConversionError where
  | NoControlPoints
  | PerfectCurveWithMoreThan3Points
deriving DecidableEq

/-- Mirror of `get_circle_arc_properties` (`src/osus/src/algos/bezier.rs`,
lines 123–183).  The degeneracy test and the circumcenter computation are exact
rational arithmetic (`mul_add` folds to plain `*`/`+`); `radius` (`da.len()`,
i.e. `hypot`), the two `atan2` calls and the uses of `TAU` go through the
abstract `FloatOps`.  `f64::ceil` is exact and modelled by `Int.ceil`. -/
def get_circle_arc_properties (ops : FloatOps) (cp0 cp1 cp2 : SliderPoint) :
    Option CircleArcProperties :=
  let a := cp0.to_point
  let b := cp1.to_point
  let c := cp2.to_point
  if is_close 0 ((b.y - a.y) * (c.x - a.x) + -((b.x - a.x) * (c.y - a.y))) epsilonF64 then
    none
  else
    let d := 2 * (c.x * (a - b).y + (a.x * (b - c).y + b.x * (c - a).y))
    let a_sq := a.dot a
    let b_sq := b.dot b
    let c_sq := c.dot c
    let center : Point :=
      ⟨c_sq * (a - b).y + (a_sq * (b - c).y + b_sq * (c - a).y),
       c_sq * (b - a).x + (a_sq * (c - b).x + b_sq * (a - c).x)⟩
    let center := center / d
    let da := a - center
    let dc := c - center
    let radius := ops.hypot da.x da.y
    let theta_start := ops.atan2 da.y da.x
    let theta_end :=
      let theta_end := ops.atan2 dc.y dc.x
      ops.tau * (⌈(theta_start - theta_end) / ops.tau⌉ : ℤ) + theta_end
    let theta_range := theta_end - theta_start
    let direction : ℚ := 1
    let ortho_a_to_c := c - a
    let ortho_a_to_c : Point := ⟨ortho_a_to_c.y, -ortho_a_to_c.x⟩
    let (direction, theta_range) :=
      if ortho_a_to_c.dot (b - a) < 0 then (-direction, ops.tau - theta_range)
      else (direction, theta_range)
    some { theta_start, theta_range, direction, radius, center }

/-- Control points of the five `CIRCLE_PRESETS` (`src/osus/src/algos/bezier.rs`,
lines 25–76) together with their maximum representable arc angles.  The `f64`
literals are exact decimal constants, except the `TAU` max angle of the 7-point
preset, which is taken from the abstract `FloatOps`. -/
def circle_preset_3 : ℚ × List Point :=
  (0.4993379862754501,
   [⟨1, 0⟩, ⟨1, 0.2549893626632736⟩, ⟨0.8778997558480327, 0.47884446188920726⟩])

def circle_preset_4 : ℚ × List Point :=
  (1.7579419829169447,
   [⟨1, 0⟩, ⟨1, 0.6263026⟩, ⟨0.42931178, 1.0990661⟩, ⟨-0.18605515, 0.9825393⟩])

def circle_preset_5 : ℚ × List Point :=
  (3.1385246920140215,
   [⟨1, 0⟩, ⟨1, 0.87084764⟩, ⟨0.002304826, 1.5033062⟩, ⟨-0.9973236, 0.8739115⟩,
    ⟨-0.9999953, 0.0030679568⟩])

def circle_preset_6 : ℚ × List Point :=
  (5.69720464620727,
   [⟨1, 0⟩, ⟨1, 1.4137783⟩, ⟨-1.4305235, 2.0779421⟩, ⟨-2.3410065, -0.94017583⟩,
    ⟨0.05132711, -1.7309346⟩, ⟨0.8331702, -0.5530167⟩])

def circle_preset_7 (ops : FloatOps) : ℚ × List Point :=
  (ops.tau,
   [⟨1, 0⟩, ⟨1, 1.2447058⟩, ⟨-0.8526471, 2.118367⟩, ⟨-2.6211002, 7.854936e-6⟩,
    ⟨-0.8526448, -2.118357⟩, ⟨1, -1.2447058⟩, ⟨1, 0⟩])

/-- Mirror of `convert_circle_to_bezier_anchors` (`src/osus/src/algos/bezier.rs`,
lines 185–257).  The preset-selection `if` chain and the final
rotate/scale/translate pass are exact; the convergence `while` loop is the
abstract `ops.converge_arc`.  The `first_mut`/`last_mut` writes are `List.set`
at the two ends. -/
def convert_circle_to_bezier_anchors (ops : FloatOps) (p0 p1 p2 : SliderPoint) :
    List Point :=
  match get_circle_arc_properties ops p0 p1 p2 with
  | none => [p0.to_point, p1.to_point, p2.to_point]
  | some cs =>
    let (arc_len, arc) :=
      if circle_preset_3.1 ≥ cs.theta_range then circle_preset_3
      else if circle_preset_4.1 ≥ cs.theta_range then circle_preset_4
      else if circle_preset_5.1 ≥ cs.theta_range then circle_preset_5
      else if circle_preset_6.1 ≥ cs.theta_range then circle_preset_6
      else circle_preset_7 ops
    let arc := ops.converge_arc arc arc_len cs.theta_range
    let rot_a : Point := ⟨ops.cos cs.theta_start, -(ops.sin cs.theta_start) * cs.direction⟩
    let rot_a := rot_a * cs.radius
    let rot_b : Point := ⟨ops.sin cs.theta_start, ops.cos cs.theta_start * cs.direction⟩
    let rot_b := rot_b * cs.radius
    let arc := arc.map (fun point => (⟨rot_a.dot point, rot_b.dot point⟩ : Point) + cs.center)
    let arc := arc.set 0 p0.to_point
    let arc := arc.set (arc.length - 1) p2.to_point
    arc

/-- Mirror of `convert_catmull_to_bezier_anchors` (`src/osus/src/algos/bezier.rs`,
lines 259–288).  In-bound indexing of the Rust loop is modelled with `getD`;
the Rust code panics on a one-point input (its `0..(len - 1)` range underflows),
which the `ℕ`-truncated range here turns into an empty loop — no claim touches
that case. -/
def convert_catmull_to_bezier_anchors (points : List SliderPoint) : List Point :=
  match points with
  | [] => []
  | first_point :: points =>
    let cubics :=
      first_point.to_point ::
        (List.range (points.length - 1)).flatMap (fun i =>
          let v1 := (points.getD (if i > 0 then i - 1 else i) default).to_point
          let v2 := (points.getD i default).to_point
          let v3 :=
            if i < points.length - 1 then (points.getD (i + 1) default).to_point
            else v2 + v2 - v1
          let v4 :=
            if i < points.length - 2 then (points.getD (i + 2) default).to_point
            else v3 + v3 - v2
          [(-v1 + v2 * (6 : ℚ) + v3) / (6 : ℚ), (-v4 + v3 * (6 : ℚ) + v2) / (6 : ℚ), v3, v3])
    cubics.dropLast

/-- Mirror of `convert_linear_to_bezier_anchors` (`src/osus/src/algos/bezier.rs`,
lines 290–304): starts from the first point, then pushes every point of the
slice (including the first one again) twice, and drops the final element. -/
def convert_linear_to_bezier_anchors (points : List SliderPoint) : List Point :=
  match points with
  | [] => []
  | first_point :: _ =>
    (first_point.to_point :: points.flatMap (fun point => [point.to_point, point.to_point])).dropLast

/-- Mirror of `convert_to_bezier_anchors` (`src/osus/src/algos/bezier.rs`,
lines 93–112).  The `try_into` to `&[SliderPoint; 3]` succeeds exactly on
three-point slices. -/
def convert_to_bezier_anchors (ops : FloatOps) (control_points : List SliderPoint) :
    Except BezierConversionError (List Point) :=
  match control_points with
  | [] => .error .NoControlPoints
  | cp0 :: _ =>
    match cp0.curve_type with
    | .Linear => .ok (convert_linear_to_bezier_anchors control_points)
    | .PerfectCurve =>
      if control_points.length = 2 then
        .ok (convert_linear_to_bezier_anchors control_points)
      else
        match control_points with
        | [p0, p1, p2] => .ok (convert_circle_to_bezier_anchors ops p0 p1 p2)
        | _ => .error .PerfectCurveWithMoreThan3Points
    | .Catmull => .ok (convert_catmull_to_bezier_anchors control_points)
    | _ => .ok (control_points.map SliderPoint.to_point)

/-! Generic correctness of the binary search used by `at_timestamp` and
`partition_point`. -/

/-- Rank of an `Ordering`, used to state that a comparator is monotone along
the indices of a slice. -/
def ordRank : Ordering → Nat
  | .lt => 0
  | .eq => 1
  | .gt => 2

theorem ordRank_le_zero {o : Ordering} (h : ordRank o ≤ 0) : o = .lt := by
  cases o <;> simp [ordRank] at h ⊢

theorem ordRank_ge_two {o : Ordering} (h : 2 ≤ ordRank o) : o = .gt := by
  cases o <;> simp [ordRank] at h ⊢

/-- Correctness of `binary_search_loop` for a comparator that is monotone (by
`ordRank`) on the indices below `n`: an `ok` result points at an `.eq` index,
and an `error` result is the partition point of the `.lt` prefix, in which case
no index compares `.eq` at all. -/
theorem binary_search_loop_spec (f : Nat → Ordering) (n : Nat)
    (mono : ∀ i j, i < j → j < n → ordRank (f i) ≤ ordRank (f j)) :
    ∀ (m left right : Nat), right - left ≤ m → left ≤ right → right ≤ n →
      (∀ i, i < left → f i = .lt) → (∀ i, right ≤ i → i < n → f i = .gt) →
      ((∀ k, binary_search_loop f m left right = .ok k → k < n ∧ f k = .eq) ∧
        (∀ k, binary_search_loop f m left right = .error k →
          k ≤ n ∧ (∀ i, i < n → f i ≠ .eq) ∧ (∀ i, i < k → f i = .lt) ∧
            (∀ i, k ≤ i → i < n → f i = .gt))) := by
  intro m
  induction m with
  | zero =>
    intro left right hm hlr hrn hlo hhi
    have hnl : ¬ left < right := by omega
    simp only [binary_search_loop]
    constructor
    · intro k hk
      simp at hk
    · intro k hk
      have hk' : k = left := by simpa using hk.symm
      refine ⟨by omega, ?_, fun i hi => hlo i (by omega), fun i hki hin => hhi i (by omega) hin⟩
      intro i hin
      rcases Nat.lt_or_ge i left with h | h
      · rw [hlo i h]
        simp
      · rw [hhi i (by omega) hin]
        simp
  | succ m ih =>
    intro left right hm hlr hrn hlo hhi
    by_cases h : left < right
    · simp only [binary_search_loop]
      rw [if_pos h]
      have hmid_ge : left ≤ left + (right - left) / 2 := by omega
      have hmid_lt : left + (right - left) / 2 < right := by omega
      cases hfm : f (left + (right - left) / 2) with
      | lt =>
        refine ih (left + (right - left) / 2 + 1) right (by omega) (by omega) hrn ?_ hhi
        intro i hi
        rcases Nat.lt_or_ge i left with h' | h'
        · exact hlo i h'
        · rcases Nat.lt_or_ge i (left + (right - left) / 2) with h'' | h''
          · have := mono i (left + (right - left) / 2) h'' (by omega)
            rw [hfm] at this
            exact ordRank_le_zero (by simpa [ordRank] using this)
          · have : i = left + (right - left) / 2 := by omega
            rw [this, hfm]
      | gt =>
        refine ih left (left + (right - left) / 2) (by omega) (by omega) (by omega) hlo ?_
        intro i hi hin
        rcases Nat.lt_or_ge (left + (right - left) / 2) i with h' | h'
        · have := mono (left + (right - left) / 2) i h' hin
          rw [hfm] at this
          exact ordRank_ge_two (by simpa [ordRank] using this)
        · have : i = left + (right - left) / 2 := by omega
          rw [this, hfm]
      | eq =>
        constructor
        · intro k hk
          have hk' : k = left + (right - left) / 2 := by simpa using hk.symm
          subst hk'
          exact ⟨by omega, hfm⟩
        · intro k hk
          simp at hk
    · simp only [binary_search_loop]
      rw [if_neg h]
      constructor
      · intro k hk
        simp at hk
      · intro k hk
        have hk' : k = left := by simpa using hk.symm
        refine ⟨by omega, ?_, fun i hi => hlo i (by omega), fun i hki hin => hhi i (by omega) hin⟩
        intro i hin
        rcases Nat.lt_or_ge i left with h' | h'
        · rw [hlo i h']
          simp
        · rw [hhi i (by omega) hin]
          simp

/-- Correctness of `binary_search_by`, instantiating the loop specification at
its actual fuel `right - left`. -/
theorem binary_search_by_spec (f : Nat → Ordering) (n : Nat)
    (mono : ∀ i j, i < j → j < n → ordRank (f i) ≤ ordRank (f j)) :
    ∀ (m left right : Nat), right - left ≤ m → left ≤ right → right ≤ n →
      (∀ i, i < left → f i = .lt) → (∀ i, right ≤ i → i < n → f i = .gt) →
      ((∀ k, binary_search_by f left right = .ok k → k < n ∧ f k = .eq) ∧
        (∀ k, binary_search_by f left right = .error k →
          k ≤ n ∧ (∀ i, i < n → f i ≠ .eq) ∧ (∀ i, i < k → f i = .lt) ∧
            (∀ i, k ≤ i → i < n → f i = .gt))) := by
  intro _m left right _ hlr hrn hlo hhi
  exact binary_search_loop_spec f n mono (right - left) left right (le_refl _) hlr hrn hlo hhi

/-- Correctness of `partition_point` for a predicate that is downward closed
along the list: the returned index splits the list into a prefix of elements
satisfying the predicate and a suffix of elements falsifying it. -/
theorem partition_point_spec {α : Type} (pred : α → Bool) (xs : List α)
    (hmono : ∀ i j : Nat, i < j → ∀ x y, xs[i]? = some x → xs[j]? = some y →
      pred y = true → pred x = true) :
    partition_point pred xs ≤ xs.length ∧
      (∀ x ∈ xs.take (partition_point pred xs), pred x = true) ∧
      (∀ x ∈ xs.drop (partition_point pred xs), pred x = false) := by
  have hspec := binary_search_by_spec
    (fun i =>
      match xs[i]? with
      | some o => if pred o then .lt else .gt
      | none => .eq)
    xs.length
    (by
      intro i j hij hj
      have hi : i < xs.length := by omega
      rcases List.getElem?_eq_some_iff.mpr ⟨hi, rfl⟩ with hxi
      rcases List.getElem?_eq_some_iff.mpr ⟨hj, rfl⟩ with hxj
      simp only [hxi, hxj]
      by_cases hpj : pred (xs[j]) = true
      · have hpi := hmono i j hij _ _ hxi hxj hpj
        simp [hpi, hpj, ordRank]
      · cases hpi : pred (xs[i]) <;> simp [hpj, ordRank])
    xs.length 0 xs.length (by omega) (by omega) (by omega)
    (by intro i hi; omega)
    (by intro i hi hin; omega)
  unfold partition_point
  cases hres : binary_search_by
      (fun i =>
        match xs[i]? with
        | some o => if pred o then .lt else .gt
        | none => .eq)
      0 xs.length with
  | ok k =>
    exfalso
    obtain ⟨hk, hfk⟩ := hspec.1 k hres
    rcases List.getElem?_eq_some_iff.mpr ⟨hk, rfl⟩ with hxk
    simp only [hxk] at hfk
    cases hpk : pred (xs[k]) <;> simp [hpk] at hfk
  | error k =>
    obtain ⟨hkn, _, hlt, hgt⟩ := hspec.2 k hres
    refine ⟨hkn, ?_, ?_⟩
    · intro x hx
      obtain ⟨i, hi⟩ := List.mem_iff_getElem?.mp hx
      rw [List.getElem?_take] at hi
      by_cases hik : i < k
      · simp only [hik, if_true] at hi
        have := hlt i hik
        simp only [hi] at this
        cases hpx : pred x <;> simp [hpx] at this ⊢
      · simp [hik] at hi
    · intro x hx
      obtain ⟨i, hi⟩ := List.mem_iff_getElem?.mp hx
      rw [List.getElem?_drop] at hi
      have hin : k + i < xs.length := (List.getElem?_eq_some_iff.mp hi).1
      have := hgt (k + i) (by omega) hin
      simp only [hi] at this
      cases hpx : pred x <;> simp [hpx] at this ⊢

/-- The partition predicate used for the start bound of `between`
(see `between_start_index`): elements strictly before the start of the range. -/
def bound_start_pred (b : Bound) (t : ℚ) : Bool :=
  match b with
  | .included start => decide (t < start)
  | .excluded start => decide (t ≤ start)
  | .unbounded => false

/-- The partition predicate used for the end bound of `between`
(see `between_end_index`): elements not after the end of the range. -/
def bound_end_pred (b : Bound) (t : ℚ) : Bool :=
  match b with
  | .included e => decide (t ≤ e)
  | .excluded e => decide (t < e)
  | .unbounded => true

/-- Reference predicate, following the specification's words: a timestamp
satisfies a range iff it satisfies both of its bounds. -/
def in_range (r : TimeRange) (t : ℚ) : Bool :=
  !bound_start_pred r.start_bound t && bound_end_pred r.end_bound t

theorem between_start_index_eq {α : Type} (ts : α → Timestamp) (xs : List α)
    (r : TimeRange) :
    between_start_index ts xs r =
      partition_point (fun o => bound_start_pred r.start_bound (ts o)) xs := by
  cases hb : r.start_bound with
  | included s => simp [between_start_index, bound_start_pred, hb]
  | excluded s => simp [between_start_index, bound_start_pred, hb]
  | unbounded =>
    simp only [between_start_index, bound_start_pred, hb]
    obtain ⟨hle, htake, -⟩ :=
      partition_point_spec (fun _ : α => false) xs (by intro i j _ x y _ _ h; simp at h)
    rcases Nat.eq_zero_or_pos (partition_point (fun _ : α => false) xs) with h0 | h0
    · exact h0.symm
    · exfalso
      have hne : xs.take (partition_point (fun _ : α => false) xs) ≠ [] := by
        simp only [ne_eq, List.take_eq_nil_iff]
        push_neg
        constructor <;> [omega; intro hxs]
        simp [hxs, partition_point, binary_search_by, binary_search_loop] at h0
      obtain ⟨x, hx⟩ := List.exists_mem_of_ne_nil _ hne
      simpa using htake x hx

theorem between_end_index_eq {α : Type} (ts : α → Timestamp) (xs : List α)
    (r : TimeRange) :
    between_end_index ts xs r =
      partition_point (fun o => bound_end_pred r.end_bound (ts o)) xs := by
  cases hb : r.end_bound with
  | included e => simp [between_end_index, bound_end_pred, hb]
  | excluded e => simp [between_end_index, bound_end_pred, hb]
  | unbounded =>
    simp only [between_end_index, bound_end_pred, hb]
    obtain ⟨hle, -, hdrop⟩ :=
      partition_point_spec (fun _ : α => true) xs (by intro i j _ x y _ _ _; rfl)
    rcases Nat.lt_or_ge (partition_point (fun _ : α => true) xs) xs.length with h0 | h0
    · exfalso
      have hne : xs.drop (partition_point (fun _ : α => true) xs) ≠ [] := by
        simpa [List.drop_eq_nil_iff] using h0
      obtain ⟨x, hx⟩ := List.exists_mem_of_ne_nil _ hne
      simpa using hdrop x hx
    · omega

/-- Elements accessed through `getElem?` on a `Chain' (ts · ≤ ts ·)` list are
ordered by index. -/
theorem chain'_ts_le_of_getElem {α : Type} (ts : α → Timestamp) (xs : List α)
    (hs : List.Chain' (fun p q => ts p ≤ ts q) xs) (i j : Nat) (hij : i < j)
    (x y : α) (hx : xs[i]? = some x) (hy : xs[j]? = some y) : ts x ≤ ts y := by
  haveI : IsTrans α (fun p q => ts p ≤ ts q) := ⟨fun _ _ _ hab hbc => le_trans hab hbc⟩
  have hpair := List.chain'_iff_pairwise.mp hs
  have hi : i < xs.length := (List.getElem?_eq_some_iff.mp hx).1
  have hj : j < xs.length := (List.getElem?_eq_some_iff.mp hy).1
  have := List.pairwise_iff_getElem.mp hpair i j hi hj hij
  rw [(List.getElem?_eq_some_iff.mp hx).2] at this
  rwa [(List.getElem?_eq_some_iff.mp hy).2] at this

theorem between_spec_aux {α : Type} (ts : α → Timestamp) (xs : List α) (r : TimeRange)
    (hs : List.Chain' (fun p q => ts p ≤ ts q) xs) :
    partition_point (fun o => bound_start_pred r.start_bound (ts o)) xs ≤ xs.length ∧
      (∀ x ∈ xs.take (partition_point (fun o => bound_start_pred r.start_bound (ts o)) xs),
        bound_start_pred r.start_bound (ts x) = true) ∧
      (∀ x ∈ xs.drop (partition_point (fun o => bound_start_pred r.start_bound (ts o)) xs),
        bound_start_pred r.start_bound (ts x) = false) := by
  refine partition_point_spec _ xs ?_
  intro i j hij x y hx hy hpy
  have hxy := chain'_ts_le_of_getElem ts xs hs i j hij x y hx hy
  cases hb : r.start_bound <;> simp [bound_start_pred, hb] at hpy ⊢ <;>
    first
      | exact lt_of_le_of_lt hxy hpy
      | exact le_trans hxy hpy

theorem between_spec_aux_end {α : Type} (ts : α → Timestamp) (xs : List α) (r : TimeRange)
    (hs : List.Chain' (fun p q => ts p ≤ ts q) xs) :
    partition_point (fun o => bound_end_pred r.end_bound (ts o)) xs ≤ xs.length ∧
      (∀ x ∈ xs.take (partition_point (fun o => bound_end_pred r.end_bound (ts o)) xs),
        bound_end_pred r.end_bound (ts x) = true) ∧
      (∀ x ∈ xs.drop (partition_point (fun o => bound_end_pred r.end_bound (ts o)) xs),
        bound_end_pred r.end_bound (ts x) = false) := by
  refine partition_point_spec _ xs ?_
  intro i j hij x y hx hy hpy
  have hxy := chain'_ts_le_of_getElem ts xs hs i j hij x y hx hy
  cases hb : r.end_bound <;> simp [bound_end_pred, hb] at hpy ⊢ <;>
    first
      | exact le_trans hxy hpy
      | exact lt_of_le_of_lt hxy hpy

/-- Claim C7 (amended): for every slice sorted ascending by timestamp and every
range whose two computed partition indices do not cross, `between` returns
exactly the elements whose timestamps satisfy the bounds — equal to a
linear-scan reference filter.  (For a crossed range the Rust slice indexing
panics, modelled by `none`; see the counterexample.) -/
theorem C7_between_range_query {α : Type} (ts : α → Timestamp) (xs : List α)
    (r : TimeRange) (hs : List.Chain' (fun p q => ts p ≤ ts q) xs)
    (hcross : between_start_index ts xs r ≤ between_end_index ts xs r) :
    between ts xs r = some (xs.filter (fun o => in_range r (ts o))) := by
  have hsi := between_start_index_eq ts xs r
  have hei := between_end_index_eq ts xs r
  obtain ⟨hsle, hstake, hsdrop⟩ := between_spec_aux ts xs r hs
  obtain ⟨hele, hetake, hedrop⟩ := between_spec_aux_end ts xs r hs
  rw [← hsi] at hsle hstake hsdrop
  rw [← hei] at hele hetake hedrop
  set si := between_start_index ts xs r with hsidef
  set ei := between_end_index ts xs r with heidef
  have hcond : si ≤ ei ∧ ei ≤ xs.length := ⟨hcross, hele⟩
  show (if si ≤ ei ∧ ei ≤ xs.length then some ((xs.drop si).take (ei - si)) else none) = _
  rw [if_pos hcond]
  congr 1
  have harith : si + (ei - si) = ei := by omega
  have hM2 : (xs.drop si).take (ei - si) = (xs.take ei).drop si := by
    rw [List.take_drop, harith]
  have hdd : (xs.drop si).drop (ei - si) = xs.drop ei := by
    rw [List.drop_drop, harith]
  have hxs : xs = xs.take si ++ ((xs.drop si).take (ei - si) ++ (xs.drop si).drop (ei - si)) := by
    rw [List.take_append_drop, List.take_append_drop]
  conv_rhs => rw [hxs]
  rw [List.filter_append, List.filter_append]
  have h1 : (xs.take si).filter (fun o => in_range r (ts o)) = [] := by
    rw [List.filter_eq_nil_iff]
    intro a ha
    simp [in_range, hstake a ha]
  have h2 : ((xs.drop si).take (ei - si)).filter (fun o => in_range r (ts o)) =
      (xs.drop si).take (ei - si) := by
    rw [List.filter_eq_self]
    intro a ha
    have hsp := hsdrop a (List.mem_of_mem_take ha)
    have hep := hetake a (by rw [hM2] at ha; exact List.mem_of_mem_drop ha)
    simp [in_range, hsp, hep]
  have h3 : ((xs.drop si).drop (ei - si)).filter (fun o => in_range r (ts o)) = [] := by
    rw [hdd, List.filter_eq_nil_iff]
    intro a ha
    simp [in_range, hedrop a ha]
  rw [h1, h2, h3]
  simp

/-! Characterisation of the comparator of `at_timestamp`. -/

theorem at_timestamp_cmp_of_within {α : Type} (ts : α → Timestamp) (xs : List α)
    (t : Timestamp) (i : Nat) (x : α) (hx : xs[i]? = some x)
    (hw : |ts x - t| ≤ 2) : at_timestamp_cmp ts xs t i = .eq := by
  unfold at_timestamp_cmp
  rw [hx]
  have hb : basically_at ts x t = true := by simp [basically_at, is_close, hw]
  simp [hb]

theorem at_timestamp_cmp_of_lt {α : Type} (ts : α → Timestamp) (xs : List α)
    (t : Timestamp) (i : Nat) (x : α) (hx : xs[i]? = some x)
    (hnw : ¬ |ts x - t| ≤ 2) (hlt : ts x < t) : at_timestamp_cmp ts xs t i = .lt := by
  unfold at_timestamp_cmp
  rw [hx]
  have hb : basically_at ts x t = false := by simp [basically_at, is_close, hnw]
  simp [hb, total_cmp, hlt]

theorem at_timestamp_cmp_of_gt {α : Type} (ts : α → Timestamp) (xs : List α)
    (t : Timestamp) (i : Nat) (x : α) (hx : xs[i]? = some x)
    (hnw : ¬ |ts x - t| ≤ 2) (hgt : t < ts x) : at_timestamp_cmp ts xs t i = .gt := by
  unfold at_timestamp_cmp
  rw [hx]
  have hb : basically_at ts x t = false := by simp [basically_at, is_close, hnw]
  have h1 : ¬ ts x < t := by linarith
  have h2 : ¬ ts x = t := by intro h; exact h1 (by linarith [hgt, h.le])
  simp [hb, total_cmp, h1, h2]

theorem at_timestamp_cmp_eq_within {α : Type} (ts : α → Timestamp) (xs : List α)
    (t : Timestamp) (i : Nat) (x : α) (hx : xs[i]? = some x)
    (heq : at_timestamp_cmp ts xs t i = .eq) : |ts x - t| ≤ 2 := by
  by_contra hnw
  rcases lt_trichotomy (ts x) t with h | h | h
  · rw [at_timestamp_cmp_of_lt ts xs t i x hx hnw h] at heq
    simp at heq
  · exact hnw (by rw [h]; simp)
  · rw [at_timestamp_cmp_of_gt ts xs t i x hx hnw h] at heq
    simp at heq

/-- Claim C6: over a slice sorted ascending by timestamp whose consecutive
elements are spaced more than 2 × tolerance apart (tolerance = the fixed 2.0 ms
of `basically_at`), `at_timestamp t` returns `some` of the unique element whose
timestamp lies within tolerance of `t` when one exists, and `none` when every
element is farther than the tolerance. -/
theorem C6_at_timestamp_near_match {α : Type} (ts : α → Timestamp) (xs : List α)
    (t : Timestamp) (hsp : List.Chain' (fun p q => ts p + 4 < ts q) xs) :
    ((∃ x ∈ xs, |ts x - t| ≤ 2) →
      ∃ x, at_timestamp ts xs t = some x ∧ |ts x - t| ≤ 2 ∧
        ∀ y ∈ xs, |ts y - t| ≤ 2 → y = x) ∧
    ((∀ x ∈ xs, ¬ |ts x - t| ≤ 2) → at_timestamp ts xs t = none) := by
  have hsep : ∀ i j : Nat, i < j → ∀ x y : α, xs[i]? = some x → xs[j]? = some y →
      ts x + 4 < ts y := by
    haveI : IsTrans α (fun p q => ts p + 4 < ts q) :=
      ⟨fun a b c hab hbc => by linarith⟩
    have hpair := List.chain'_iff_pairwise.mp hsp
    intro i j hij x y hx hy
    have hi : i < xs.length := (List.getElem?_eq_some_iff.mp hx).1
    have hj : j < xs.length := (List.getElem?_eq_some_iff.mp hy).1
    have := List.pairwise_iff_getElem.mp hpair i j hi hj hij
    rw [(List.getElem?_eq_some_iff.mp hx).2] at this
    rwa [(List.getElem?_eq_some_iff.mp hy).2] at this
  have hmono : ∀ i j, i < j → j < xs.length →
      ordRank (at_timestamp_cmp ts xs t i) ≤ ordRank (at_timestamp_cmp ts xs t j) := by
    intro i j hij hj
    have hi : i < xs.length := by omega
    rcases List.getElem?_eq_some_iff.mpr ⟨hi, rfl⟩ with hxi
    rcases List.getElem?_eq_some_iff.mpr ⟨hj, rfl⟩ with hxj
    have hij_sep := hsep i j hij _ _ hxi hxj
    cases hcmp : at_timestamp_cmp ts xs t i with
    | lt => simp [ordRank]
    | eq =>
      have hwi := at_timestamp_cmp_eq_within ts xs t i _ hxi hcmp
      have hwin : ts (xs[i]) ≥ t - 2 := by
        rcases abs_le.mp hwi with ⟨h1, h2⟩
        linarith
      have hj_far : ¬ |ts (xs[j]) - t| ≤ 2 := by
        intro hwj
        rcases abs_le.mp hwj with ⟨h1, h2⟩
        linarith
      have hj_gt : t < ts (xs[j]) := by linarith
      rw [at_timestamp_cmp_of_gt ts xs t j _ hxj hj_far hj_gt]
      simp [ordRank]
    | gt =>
      have hi_props : ¬ |ts (xs[i]) - t| ≤ 2 ∧ t < ts (xs[i]) := by
        by_contra hcon
        rcases Classical.em (|ts (xs[i]) - t| ≤ 2) with hw | hnw
        · rw [at_timestamp_cmp_of_within ts xs t i _ hxi hw] at hcmp
          simp at hcmp
        · rcases lt_trichotomy (ts (xs[i])) t with h | h | h
          · rw [at_timestamp_cmp_of_lt ts xs t i _ hxi hnw h] at hcmp
            simp at hcmp
          · exact hnw (by rw [h]; simp)
          · exact hcon ⟨hnw, h⟩
      have hi_gt : ts (xs[i]) > t + 2 := by
        rcases hi_props with ⟨hnw, hgt⟩
        by_contra hle
        exact hnw (abs_le.mpr ⟨by linarith, by linarith⟩)
      have hj_far : ¬ |ts (xs[j]) - t| ≤ 2 := by
        intro hwj
        rcases abs_le.mp hwj with ⟨h1, h2⟩
        linarith
      have hj_gt : t < ts (xs[j]) := by linarith
      rw [at_timestamp_cmp_of_gt ts xs t j _ hxj hj_far hj_gt]
  have hspec := binary_search_by_spec (at_timestamp_cmp ts xs t) xs.length hmono
    xs.length 0 xs.length (by omega) (by omega) (by omega)
    (by intro i hi; omega) (by intro i hi hin; omega)
  constructor
  · rintro ⟨x, hx, hw⟩
    obtain ⟨i, hi⟩ := List.mem_iff_getElem?.mp hx
    unfold at_timestamp
    cases hres : binary_search_by (at_timestamp_cmp ts xs t) 0 xs.length with
    | ok k =>
      obtain ⟨hk, hfk⟩ := hspec.1 k hres
      rcases List.getElem?_eq_some_iff.mpr ⟨hk, rfl⟩ with hxk
      have hwk := at_timestamp_cmp_eq_within ts xs t k _ hxk hfk
      refine ⟨xs[k], hxk, hwk, ?_⟩
      intro y hy hwy
      obtain ⟨j, hj⟩ := List.mem_iff_getElem?.mp hy
      have hjn : j < xs.length := (List.getElem?_eq_some_iff.mp hj).1
      rcases Nat.lt_trichotomy j k with hjk | hjk | hjk
      · exfalso
        have := hsep j k hjk _ _ hj hxk
        rcases abs_le.mp hwy with ⟨h1, h2⟩
        rcases abs_le.mp hwk with ⟨h3, h4⟩
        linarith
      · rw [hjk] at hj
        rw [hj] at hxk
        exact Option.some.inj hxk
      · exfalso
        have := hsep k j hjk _ _ hxk hj
        rcases abs_le.mp hwy with ⟨h1, h2⟩
        rcases abs_le.mp hwk with ⟨h3, h4⟩
        linarith
    | error k =>
      exfalso
      obtain ⟨-, hnoeq, -, -⟩ := hspec.2 k hres
      have hin : i < xs.length := (List.getElem?_eq_some_iff.mp hi).1
      exact hnoeq i hin (at_timestamp_cmp_of_within ts xs t i x hi hw)
  · intro hfar
    unfold at_timestamp
    cases hres : binary_search_by (at_timestamp_cmp ts xs t) 0 xs.length with
    | ok k =>
      exfalso
      obtain ⟨hk, hfk⟩ := hspec.1 k hres
      rcases List.getElem?_eq_some_iff.mpr ⟨hk, rfl⟩ with hxk
      have hwk := at_timestamp_cmp_eq_within ts xs t k _ hxk hfk
      exact hfar _ (List.getElem?_mem hxk) hwk
    | error k => rfl

/-! Lemmas about `interleave_timestamped`. -/

theorem interleave_head {α β : Type} (ta : α → Timestamp) (tb : β → Timestamp) :
    ∀ (a : List α) (b : List β) (s : α ⊕ β),
      (interleave_timestamped ta tb a b).head? = some s →
      (∃ x, a.head? = some x ∧ s = .inl x) ∨ (∃ y, b.head? = some y ∧ s = .inr y) := by
  intro a b
  match a, b with
  | fst :: ra, snd :: rb =>
    intro s hs
    by_cases h : ta fst < tb snd
    · simp only [interleave_timestamped, if_pos h, List.head?_cons] at hs
      exact .inl ⟨fst, rfl, (Option.some.inj hs).symm⟩
    · simp only [interleave_timestamped, if_neg h, List.head?_cons] at hs
      exact .inr ⟨snd, rfl, (Option.some.inj hs).symm⟩
  | fst :: ra, [] =>
    intro s hs
    simp only [interleave_timestamped, List.head?_cons] at hs
    exact .inl ⟨fst, rfl, (Option.some.inj hs).symm⟩
  | [], snd :: rb =>
    intro s hs
    simp only [interleave_timestamped, List.head?_cons] at hs
    exact .inr ⟨snd, rfl, (Option.some.inj hs).symm⟩
  | [], [] =>
    intro s hs
    simp [interleave_timestamped] at hs

theorem interleave_length {α β : Type} (ta : α → Timestamp) (tb : β → Timestamp) :
    ∀ (a : List α) (b : List β),
      (interleave_timestamped ta tb a b).length = a.length + b.length := by
  intro a b
  induction a, b using interleave_timestamped.induct ta tb with
  | case1 fst ra snd rb h ih => simp only [interleave_timestamped, if_pos h, List.length_cons, ih]; omega
  | case2 fst ra snd rb h ih => simp only [interleave_timestamped, if_neg h, List.length_cons, ih]; omega
  | case3 fst ra ih => simp [interleave_timestamped, ih]
  | case4 snd rb ih => simp [interleave_timestamped, ih]
  | case5 => simp [interleave_timestamped]

theorem interleave_left {α β : Type} (ta : α → Timestamp) (tb : β → Timestamp) :
    ∀ (a : List α) (b : List β),
      (interleave_timestamped ta tb a b).filterMap Sum.getLeft? = a := by
  intro a b
  induction a, b using interleave_timestamped.induct ta tb with
  | case1 fst ra snd rb h ih => simp [interleave_timestamped, if_pos h, ih]
  | case2 fst ra snd rb h ih => simp [interleave_timestamped, if_neg h, ih]
  | case3 fst ra ih => simp [interleave_timestamped, ih]
  | case4 snd rb ih => simp [interleave_timestamped, ih]
  | case5 => simp [interleave_timestamped]

theorem interleave_right {α β : Type} (ta : α → Timestamp) (tb : β → Timestamp) :
    ∀ (a : List α) (b : List β),
      (interleave_timestamped ta tb a b).filterMap Sum.getRight? = b := by
  intro a b
  induction a, b using interleave_timestamped.induct ta tb with
  | case1 fst ra snd rb h ih => simp [interleave_timestamped, if_pos h, ih]
  | case2 fst ra snd rb h ih => simp [interleave_timestamped, if_neg h, ih]
  | case3 fst ra ih => simp [interleave_timestamped, ih]
  | case4 snd rb ih => simp [interleave_timestamped, ih]
  | case5 => simp [interleave_timestamped]

theorem interleave_sorted {α β : Type} (ta : α → Timestamp) (tb : β → Timestamp) :
    ∀ (a : List α) (b : List β),
      List.Chain' (fun p q => ta p ≤ ta q) a →
      List.Chain' (fun p q => tb p ≤ tb q) b →
      List.Chain' (fun p q => Sum.elim ta tb p ≤ Sum.elim ta tb q)
        (interleave_timestamped ta tb a b) := by
  intro a b
  induction a, b using interleave_timestamped.induct ta tb with
  | case1 fst ra snd rb h ih =>
    intro ha hb
    simp only [interleave_timestamped, if_pos h]
    rw [List.chain'_cons']
    refine ⟨?_, ih (List.Chain'.tail ha) hb⟩
    intro s hs
    rcases interleave_head ta tb ra (snd :: rb) s hs with ⟨x, hx, rfl⟩ | ⟨y, hy, rfl⟩
    · exact (List.chain'_cons'.mp ha).1 x hx
    · have : snd = y := by simpa using hy
      subst this
      exact le_of_lt h
  | case2 fst ra snd rb h ih =>
    intro ha hb
    simp only [interleave_timestamped, if_neg h]
    rw [List.chain'_cons']
    refine ⟨?_, ih ha (List.Chain'.tail hb)⟩
    intro s hs
    rcases interleave_head ta tb (fst :: ra) rb s hs with ⟨x, hx, rfl⟩ | ⟨y, hy, rfl⟩
    · have : fst = x := by simpa using hx
      subst this
      simpa using le_of_not_lt h
    · exact (List.chain'_cons'.mp hb).1 y hy
  | case3 fst ra ih =>
    intro ha hb
    simp only [interleave_timestamped]
    rw [List.chain'_cons']
    refine ⟨?_, ih (List.Chain'.tail ha) hb⟩
    intro s hs
    rcases interleave_head ta tb ra [] s hs with ⟨x, hx, rfl⟩ | ⟨y, hy, rfl⟩
    · exact (List.chain'_cons'.mp ha).1 x hx
    · simp at hy
  | case4 snd rb ih =>
    intro ha hb
    simp only [interleave_timestamped]
    rw [List.chain'_cons']
    refine ⟨?_, ih ha (List.Chain'.tail hb)⟩
    intro s hs
    rcases interleave_head ta tb [] rb s hs with ⟨x, hx, rfl⟩ | ⟨y, hy, rfl⟩
    · simp at hx
    · exact (List.chain'_cons'.mp hb).1 y hy
  | case5 =>
    intro ha hb
    simp [interleave_timestamped]

/-- Claim C5 (amended): for every pair of slices `a` (length m) and `b`
(length n), each sorted ascending by timestamp, `interleave_timestamped` yields
exactly m+n items covering every element of both inputs in order, the yielded
timestamps are in ascending order, and on an exact timestamp tie the element
from the **right** slice `b` is yielded before the tied element of `a` (the code
takes the left head only when its timestamp is strictly smaller). -/
theorem C5_interleave_merge {α β : Type} (ta : α → Timestamp) (tb : β → Timestamp)
    (a : List α) (b : List β)
    (ha : List.Chain' (fun p q => ta p ≤ ta q) a)
    (hb : List.Chain' (fun p q => tb p ≤ tb q) b) :
    (interleave_timestamped ta tb a b).length = a.length + b.length ∧
    (interleave_timestamped ta tb a b).filterMap Sum.getLeft? = a ∧
    (interleave_timestamped ta tb a b).filterMap Sum.getRight? = b ∧
    List.Chain' (fun p q => Sum.elim ta tb p ≤ Sum.elim ta tb q)
      (interleave_timestamped ta tb a b) ∧
    (∀ (x : α) (ra : List α) (y : β) (rb : List β), a = x :: ra → b = y :: rb →
      ta x = tb y →
      interleave_timestamped ta tb a b =
        .inr y :: interleave_timestamped ta tb (x :: ra) rb) := by
  refine ⟨interleave_length ta tb a b, interleave_left ta tb a b,
    interleave_right ta tb a b, interleave_sorted ta tb a b ha hb, ?_⟩
  intro x ra y rb hxa hyb htie
  subst hxa
  subst hyb
  have hnlt : ¬ ta x < tb y := by rw [htie]; exact lt_irrefl _
  simp [interleave_timestamped, if_neg hnlt]

/-- Claim C5 counterexample: with the singleton slices `[0]` and `[0]` (an exact
timestamp tie) the iterator yields the right element first, so the output is not
the left-biased `[inl 0, inr 0]` the claim requires. -/
theorem C5_counterexample :
    interleave_timestamped (fun t : ℚ => t) (fun t : ℚ => t) [(0 : ℚ)] [(0 : ℚ)] =
      [.inr 0, .inl 0] ∧
    interleave_timestamped (fun t : ℚ => t) (fun t : ℚ => t) [(0 : ℚ)] [(0 : ℚ)] ≠
      [.inl 0, .inr 0] := by
  have h : interleave_timestamped (fun t : ℚ => t) (fun t : ℚ => t)
      [(0 : ℚ)] [(0 : ℚ)] = [.inr 0, .inl 0] := by
    norm_num [interleave_timestamped]
  exact ⟨h, by rw [h]; simp⟩

/-- Witness for C5: the amended statement at `a = [1, 5]`, `b = [1, 3]`. -/
theorem C5_witness :
    (List.Chain' (fun p q : ℚ => p ≤ q) [1, 5] ∧
      List.Chain' (fun p q : ℚ => p ≤ q) [1, 3]) ∧
    ((interleave_timestamped (fun t : ℚ => t) (fun t : ℚ => t) [1, 5] [1, 3]).length =
        ([(1 : ℚ), 5] : List ℚ).length + ([(1 : ℚ), 3] : List ℚ).length ∧
      (interleave_timestamped (fun t : ℚ => t) (fun t : ℚ => t) [1, 5] [1, 3]).filterMap
          Sum.getLeft? = [1, 5] ∧
      (interleave_timestamped (fun t : ℚ => t) (fun t : ℚ => t) [1, 5] [1, 3]).filterMap
          Sum.getRight? = [1, 3] ∧
      List.Chain'
        (fun p q => Sum.elim (fun t : ℚ => t) (fun t : ℚ => t) p ≤
          Sum.elim (fun t : ℚ => t) (fun t : ℚ => t) q)
        (interleave_timestamped (fun t : ℚ => t) (fun t : ℚ => t) [1, 5] [1, 3]) ∧
      (∀ (x : ℚ) (ra : List ℚ) (y : ℚ) (rb : List ℚ),
        ([(1 : ℚ), 5] : List ℚ) = x :: ra → ([(1 : ℚ), 3] : List ℚ) = y :: rb →
        x = y →
        interleave_timestamped (fun t : ℚ => t) (fun t : ℚ => t) [1, 5] [1, 3] =
          .inr y :: interleave_timestamped (fun t : ℚ => t) (fun t : ℚ => t)
            (x :: ra) rb)) := by
  have h1 : List.Chain' (fun p q : ℚ => p ≤ q) [1, 5] := by norm_num
  have h2 : List.Chain' (fun p q : ℚ => p ≤ q) [1, 3] := by norm_num
  exact ⟨⟨h1, h2⟩,
    C5_interleave_merge (fun t : ℚ => t) (fun t : ℚ => t) [1, 5] [1, 3] h1 h2⟩

/-- Claim C10: concatenating the groups yielded by `group_timestamped`
reproduces the original slice, every group is non-empty, and within each group
every element's timestamp is within 1.0 ms of the group's first element's
timestamp (the grouping tolerance is the 1.0 of `is_close ... 1.0`, not the
2.0 of `basically_at`). -/
theorem C10_group_timestamped_invariant {α : Type} (ts : α → Timestamp)
    (xs : List α) :
    (group_timestamped ts xs).flatten = xs ∧
    (∀ g ∈ group_timestamped ts xs, g ≠ []) ∧
    (∀ g ∈ group_timestamped ts xs, ∀ h tl, g = h :: tl →
      ∀ x ∈ g, |ts x - ts h| ≤ 1) := by
  induction xs using group_timestamped.induct ts with
  | case1 => simp [group_timestamped]
  | case2 elem0 rest ih =>
    obtain ⟨ih1, ih2, ih3⟩ := ih
    have hp0 : is_close (ts elem0) (ts elem0) 1 = true := by simp [is_close]
    have htw : (elem0 :: rest).takeWhile (fun elem => is_close (ts elem) (ts elem0) 1) =
        elem0 :: rest.takeWhile (fun elem => is_close (ts elem) (ts elem0) 1) := by
      simp [List.takeWhile_cons, hp0]
    refine ⟨?_, ?_, ?_⟩
    · simp only [group_timestamped, List.flatten_cons, ih1]
      exact List.takeWhile_append_dropWhile _ _
    · intro g hg
      simp only [group_timestamped, List.mem_cons] at hg
      rcases hg with hg | hg
      · rw [hg, htw]
        simp
      · exact ih2 g hg
    · intro g hg h tl hgh x hx
      simp only [group_timestamped, List.mem_cons] at hg
      rcases hg with hg | hg
      · have hhead : h = elem0 := by
          rw [hg, htw] at hgh
          exact (List.cons.injEq _ _ _ _ ▸ hgh).1.symm ▸ rfl
        subst hhead
        rw [hg] at hx
        have hpx := List.mem_takeWhile_imp hx
        simpa [is_close] using hpx
      · exact ih3 g hg h tl hgh x hx

/-- A timing point that differs from `A` only in its `time` field is a
duplicate of `A` (its `beat_length` distance is `0 < f64::EPSILON`). -/
theorem is_duplicate_time_change (A : TimingPoint) (t' : ℚ) :
    TimingPoint.is_duplicate { A with time := t' } A = true := by
  simp only [TimingPoint.is_duplicate]
  norm_num [epsilonF64]

/-- Claim C8 (amended): `remove_duplicates [A, A', B]`, where `A'` is `A` with
only its `time` changed, drops `A'` when `A'.uninherited` is false and keeps it
when `A'.uninherited` is true; `B` is kept exactly when it is uninherited or not
a duplicate of the last kept point (`A'` resp. `A`).  A point counts as a
duplicate when every field except `time` and `uninherited` matches the previous
kept point, with `beat_length` compared within `f64::EPSILON` rather than
exactly. -/
theorem C8_remove_duplicates_dedup (A B : TimingPoint) (t' : ℚ) :
    remove_duplicates [A, { A with time := t' }, B] =
      if A.uninherited = true then
        [A, { A with time := t' }] ++
          (if B.uninherited || !(B.is_duplicate { A with time := t' }) then [B] else [])
      else
        [A] ++ (if B.uninherited || !(B.is_duplicate A) then [B] else []) := by
  obtain ⟨At, Abl, Am, Ass, Asi, Av, Au, Ae⟩ := A
  have hdup0 : TimingPoint.is_duplicate ⟨t', Abl, Am, Ass, Asi, Av, Au, Ae⟩
      ⟨At, Abl, Am, Ass, Asi, Av, Au, Ae⟩ = true := by
    simp only [TimingPoint.is_duplicate]
    norm_num [epsilonF64]
  cases Au with
  | true =>
    cases hB : B.uninherited || !(B.is_duplicate ⟨t', Abl, Am, Ass, Asi, Av, true, Ae⟩) <;>
      simp [remove_duplicates, remove_duplicates_go, hB]
  | false =>
    cases hB : B.uninherited || !(B.is_duplicate ⟨At, Abl, Am, Ass, Asi, Av, false, Ae⟩) <;>
      simp [remove_duplicates, remove_duplicates_go, hB, hdup0]

/-- Claim C8 counterexample: with `A = default`, `A' = A` at time 1 and
`B = A` at time 2 (all inherited), the code returns `[A]` — `B` is also dropped
as a duplicate of `A` — not the `[A, B]` the claim requires. -/
theorem C8_counterexample :
    remove_duplicates
      [TimingPoint.default, { TimingPoint.default with time := 1 },
        { TimingPoint.default with time := 2 }] = [TimingPoint.default] ∧
    ([TimingPoint.default] : List TimingPoint) ≠
      [TimingPoint.default, { TimingPoint.default with time := 2 }] := by
  constructor
  · norm_num [remove_duplicates, remove_duplicates_go, TimingPoint.default,
      TimingPoint.is_duplicate, epsilonF64]
  · simp

/-- Claim C4: evaluation of the code at its failing input.  The linear
conversion pushes every point of the slice twice — including the first point,
which is already seeded into the output — so the 2-point Linear chain
`[(0,0),(10,0)]` converts to `[(0,0),(0,0),(0,0),(10,0)]` with two spurious
duplicates of the head, not to the `[(0,0),(10,0)]` the claim (and the Python
source this code was ported from) prescribes. -/
theorem C4_linear_expansion_eval (ops : FloatOps) :
    convert_to_bezier_anchors ops [⟨.Linear, 0, 0⟩, ⟨.Inherit, 10, 0⟩] =
      .ok [⟨0, 0⟩, ⟨0, 0⟩, ⟨0, 0⟩, ⟨10, 0⟩] ∧
    convert_to_bezier_anchors ops [⟨.Linear, 0, 0⟩, ⟨.Inherit, 10, 0⟩] ≠
      .ok [⟨0, 0⟩, ⟨10, 0⟩] := by
  have h : convert_to_bezier_anchors ops [⟨.Linear, 0, 0⟩, ⟨.Inherit, 10, 0⟩] =
      .ok [⟨0, 0⟩, ⟨0, 0⟩, ⟨0, 0⟩, ⟨10, 0⟩] := by
    simp [convert_to_bezier_anchors, convert_linear_to_bezier_anchors,
      SliderPoint.to_point]
  refine ⟨h, ?_⟩
  rw [h]
  intro hcon
  have := Except.ok.inj hcon
  simp at this

/-- Claim C9: a 3-point `PerfectCurve` chain whose points are collinear (the
cross product of the two edge vectors is zero) converts to those same 3 points
unchanged — the degeneracy test of `get_circle_arc_properties` fires and the
points are passed through, with no error and no arc computation.  Proved for
every interpretation of the transcendental operations. -/
theorem C9_degenerate_arc (ops : FloatOps) (p0 p1 p2 : SliderPoint)
    (h0 : p0.curve_type = .PerfectCurve)
    (hcol : ((p1.y : ℚ) - (p0.y : ℚ)) * ((p2.x : ℚ) - (p0.x : ℚ)) -
      ((p1.x : ℚ) - (p0.x : ℚ)) * ((p2.y : ℚ) - (p0.y : ℚ)) = 0) :
    convert_to_bezier_anchors ops [p0, p1, p2] =
      .ok [p0.to_point, p1.to_point, p2.to_point] := by
  have hclose : is_close 0
      ((p1.to_point.y - p0.to_point.y) * (p2.to_point.x - p0.to_point.x) +
        -((p1.to_point.x - p0.to_point.x) * (p2.to_point.y - p0.to_point.y)))
      epsilonF64 = true := by
    have hval : (p1.to_point.y - p0.to_point.y) * (p2.to_point.x - p0.to_point.x) +
        -((p1.to_point.x - p0.to_point.x) * (p2.to_point.y - p0.to_point.y)) = 0 := by
      simp only [SliderPoint.to_point]
      linarith
    simp only [is_close, decide_eq_true_eq, hval]
    norm_num [epsilonF64]
  have hprops : get_circle_arc_properties ops p0 p1 p2 = none := by
    simp only [get_circle_arc_properties, hclose]
    rfl
  have hcircle : convert_circle_to_bezier_anchors ops p0 p1 p2 =
      [p0.to_point, p1.to_point, p2.to_point] := by
    unfold convert_circle_to_bezier_anchors
    rw [hprops]
  simp only [convert_to_bezier_anchors, h0, List.length_cons, List.length_nil]
  norm_num [hcircle]

/-- Witness for C9: the concrete collinear chain `(0,0),(5,0),(10,0)` tagged
`PerfectCurve` converts to exactly those three points. -/
theorem C9_witness :
    ((⟨.PerfectCurve, 0, 0⟩ : SliderPoint).curve_type = .PerfectCurve ∧
      (((0 : ℤ) : ℚ) - ((0 : ℤ) : ℚ)) * (((10 : ℤ) : ℚ) - ((0 : ℤ) : ℚ)) -
        (((5 : ℤ) : ℚ) - ((0 : ℤ) : ℚ)) * (((0 : ℤ) : ℚ) - ((0 : ℤ) : ℚ)) = 0) ∧
    (∀ ops : FloatOps,
      convert_to_bezier_anchors ops
        [⟨.PerfectCurve, 0, 0⟩, ⟨.Inherit, 5, 0⟩, ⟨.Inherit, 10, 0⟩] =
        .ok [(⟨.PerfectCurve, 0, 0⟩ : SliderPoint).to_point,
          (⟨.Inherit, 5, 0⟩ : SliderPoint).to_point,
          (⟨.Inherit, 10, 0⟩ : SliderPoint).to_point]) := by
  have h0 : (⟨.PerfectCurve, 0, 0⟩ : SliderPoint).curve_type = .PerfectCurve := rfl
  have hcol : (((0 : ℤ) : ℚ) - ((0 : ℤ) : ℚ)) * (((10 : ℤ) : ℚ) - ((0 : ℤ) : ℚ)) -
      (((5 : ℤ) : ℚ) - ((0 : ℤ) : ℚ)) * (((0 : ℤ) : ℚ) - ((0 : ℤ) : ℚ)) = 0 := by
    norm_num
  exact ⟨⟨h0, by norm_num⟩, fun ops =>
    C9_degenerate_arc ops ⟨.PerfectCurve, 0, 0⟩ ⟨.Inherit, 5, 0⟩ ⟨.Inherit, 10, 0⟩ h0 hcol⟩

/-- Witness for C6: on the slice `[0, 10, 20]` (spacing 10 > 4) with query
timestamp 9, the near-match query behaves as claimed. -/
theorem C6_witness :
    List.Chain' (fun p q : ℚ => p + 4 < q) [0, 10, 20] ∧
    (((∃ x ∈ ([(0 : ℚ), 10, 20] : List ℚ), |x - 9| ≤ 2) →
      ∃ x, at_timestamp (fun t : ℚ => t) [0, 10, 20] 9 = some x ∧ |x - 9| ≤ 2 ∧
        ∀ y ∈ ([(0 : ℚ), 10, 20] : List ℚ), |y - 9| ≤ 2 → y = x) ∧
    ((∀ x ∈ ([(0 : ℚ), 10, 20] : List ℚ), ¬ |x - 9| ≤ 2) →
      at_timestamp (fun t : ℚ => t) [0, 10, 20] 9 = none)) := by
  have h : List.Chain' (fun p q : ℚ => p + 4 < q) [0, 10, 20] := by norm_num
  exact ⟨h, C6_at_timestamp_near_match (fun t : ℚ => t) [0, 10, 20] 9 h⟩

/-- Witness for C7: on the sorted slice `[50, 150, 250]` with the non-crossing
range `100.0..200.0`, `between` agrees with the reference filter. -/
theorem C7_witness :
    (List.Chain' (fun p q : ℚ => p ≤ q) [50, 150, 250] ∧
      between_start_index (fun t : ℚ => t) [50, 150, 250]
          ⟨.included 100, .excluded 200⟩ ≤
        between_end_index (fun t : ℚ => t) [50, 150, 250]
          ⟨.included 100, .excluded 200⟩) ∧
    between (fun t : ℚ => t) [50, 150, 250] ⟨.included 100, .excluded 200⟩ =
      some (([(50 : ℚ), 150, 250] : List ℚ).filter
        (fun o => in_range ⟨.included 100, .excluded 200⟩ o)) := by
  have h1 : List.Chain' (fun p q : ℚ => p ≤ q) [50, 150, 250] := by norm_num
  have h2 : between_start_index (fun t : ℚ => t) [50, 150, 250]
      ⟨.included 100, .excluded 200⟩ ≤
      between_end_index (fun t : ℚ => t) [50, 150, 250]
        ⟨.included 100, .excluded 200⟩ := by
    norm_num [between_start_index, between_end_index, partition_point,
      binary_search_by, binary_search_loop]
  exact ⟨⟨h1, h2⟩, C7_between_range_query (fun t : ℚ => t) [50, 150, 250]
    ⟨.included 100, .excluded 200⟩ h1 h2⟩

/-- Claim C7 counterexample: on the sorted slice `[150]` the crossed range
`200.0..100.0` makes `start_index = 1 > 0 = end_index`, so the final
`&self[start_index..end_index]` panics (modelled by `none`) instead of
returning the empty list of elements satisfying the bounds. -/
theorem C7_counterexample :
    between (fun t : ℚ => t) [(150 : ℚ)] ⟨.included 200, .excluded 100⟩ = none ∧
    ([(150 : ℚ)] : List ℚ).filter
      (fun o => in_range ⟨.included 200, .excluded 100⟩ o) = [] := by
  constructor
  · norm_num [between, between_start_index, between_end_index, partition_point,
      binary_search_by, binary_search_loop]
  · norm_num [in_range, bound_start_pred, bound_end_pred]

/-! Embedding of the parser (`src/osus/src/file/beatmap/parsing.rs`) and the
serializer (`src/osus/src/file/beatmap/deserializing.rs`).

Rust strings are modelled as `List Char` (`Str`), with the handful of standard
string operations the code uses (`split`, `split_once`, `trim`,
`starts_with`/`ends_with`, `strip_prefix`) defined below.  Rust's
`str::parse::<uN/iN>` is modelled with its sign/digit grammar and range checks;
`str::parse::<f32/f64>` is modelled as the exact decimal grammar evaluated in
`ℚ` (the floats-as-rationals convention; `inf`/`NaN` forms are out of the
model).  `Display` of integers is exact decimal printing; `Display` of floats
is printed as the exact (finite) decimal expansion of the rational, which
agrees with Rust's shortest-round-trip printing on the canonically-encodable
values. -/

/-- Rust strings / string slices, modelled as lists of characters. -/
abbrev Str : Type := List Char

/-- Convenience: the character list of a string literal. -/
def str (s : String) : Str := s.data

/-- Model of Rust `str::split(sep)` for a `char` separator: every occurrence
splits, empty pieces are kept, and there is always at least one piece. -/
def split_char (sep : Char) : Str → List Str
  | [] => [[]]
  | c :: rest =>
    match split_char sep rest with
    | [] => [[c]]
    | p :: ps => if c = sep then [] :: p :: ps else (c :: p) :: ps

/-- Model of Rust `str::split_once(sep)` for a `char` separator. -/
def split_once (sep : Char) : Str → Option (Str × Str)
  | [] => none
  | c :: rest =>
    if c = sep then some ([], rest)
    else (split_once sep rest).map (fun ab => (c :: ab.1, ab.2))

/-- Model of Rust `str::trim_start` (ASCII whitespace suffices here). -/
def trim_start (s : Str) : Str := s.dropWhile Char.isWhitespace

/-- Model of Rust `str::trim_end`. -/
def trim_end (s : Str) : Str := (s.reverse.dropWhile Char.isWhitespace).reverse

/-- Model of Rust `str::trim`. -/
def trim (s : Str) : Str := trim_end (trim_start s)

/-- Model of Rust `str::starts_with` for a string pattern. -/
def starts_with (pat s : Str) : Bool := pat.isPrefixOf s

/-- Model of Rust `str::ends_with` for a `char` pattern. -/
def ends_with (c : Char) (s : Str) : Bool := s.getLast? = some c

/-- Model of Rust `str::strip_prefix`: `some` of the remainder when the pattern
is a prefix. -/
def strip_start (pat s : Str) : Option Str :=
  if starts_with pat s then some (s.drop pat.length) else none

/-- Digit-string to number: `some` iff the string is non-empty and all ASCII
digits. -/
def parse_digits (s : Str) : Option ℕ :=
  if s ≠ [] && s.all Char.isDigit then
    some (s.foldl (fun acc c => acc * 10 + (c.toNat - 48)) 0)
  else
    none

/-- Model of Rust `str::parse::<uN>`: an optional `+` sign, digits, and the
range check of the target width (`max` is the largest representable value). -/
def parse_uint (max : ℕ) (s : Str) : Option ℕ :=
  let digits := if s.head? = some '+' then s.tail else s
  match parse_digits digits with
  | some n => if n ≤ max then some n else none
  | none => none

/-- Model of Rust `str::parse::<iN>`: an optional sign, digits, and the
two's-complement range check `[-(max+1), max]`. -/
def parse_sint (max : ℕ) (s : Str) : Option ℤ :=
  if s.head? = some '-' then
    match parse_digits s.tail with
    | some n => if n ≤ max + 1 then some (-(n : ℤ)) else none
    | none => none
  else
    let digits := if s.head? = some '+' then s.tail else s
    match parse_digits digits with
    | some n => if n ≤ max then some (n : ℤ) else none
    | none => none

/-- Mantissa of the Rust float grammar: `digits`, `digits.digits`, `digits.` or
`.digits` (at least one digit overall); value returned as
(numerator, number of fractional digits). -/
def parse_mantissa (s : Str) : Option (ℕ × ℕ) :=
  match split_once '.' s with
  | none =>
    match parse_digits s with
    | some n => some (n, 0)
    | none => none
  | some (int_part, frac_part) =>
    if int_part = [] && frac_part = [] then none
    else if (int_part.all Char.isDigit) && (frac_part.all Char.isDigit) then
      some ((int_part ++ frac_part).foldl (fun acc c => acc * 10 + (c.toNat - 48)) 0,
        frac_part.length)
    else none

/-- Model of Rust `str::parse::<f32/f64>` restricted to finite decimal forms:
optional sign, mantissa, optional `e`/`E` exponent; evaluated exactly in `ℚ`.
(`inf`/`NaN` spellings have no rational counterpart and are out of the model;
Rust's rounding to the nearest float is the identity on the canonical values
considered here.) -/
def parse_float (s : Str) : Option ℚ :=
  let (sign, rest) : ℚ × Str :=
    if s.head? = some '-' then (-1, s.tail)
    else if s.head? = some '+' then (1, s.tail)
    else (1, s)
  let (mant_str, exp_val) : Str × Option ℤ :=
    match split_once 'e' rest with
    | some (m, e) => (m, parse_sint 100000 e)
    | none =>
      match split_once 'E' rest with
      | some (m, e) => (m, parse_sint 100000 e)
      | none => (rest, some 0)
  match parse_mantissa mant_str, exp_val with
  | some (num, fracs), some e =>
    some (sign * (num : ℚ) / 10 ^ fracs * (10 : ℚ) ^ e)
  | _, _ => none

/-- Decimal digits of a natural number, via an explicit division loop
(`fuel ≥ n` bounds the number of divisions by 10). -/
def nat_to_str_aux : ℕ → ℕ → Str → Str
  | 0, _, acc => acc
  | fuel + 1, n, acc =>
    let acc' := Char.ofNat (48 + n % 10) :: acc
    if n < 10 then acc' else nat_to_str_aux fuel (n / 10) acc'

/-- Decimal printing of a natural number (Rust `Display` for unsigned ints). -/
def nat_to_str (n : ℕ) : Str := nat_to_str_aux (n + 1) n []

/-- Decimal printing of an integer (Rust `Display` for signed ints). -/
def int_to_str (z : ℤ) : Str :=
  if z < 0 then '-' :: nat_to_str z.natAbs else nat_to_str z.toNat

/-- Number of times `p` divides `n` (for `p ≥ 2`, `n ≥ 1`; fuel-bounded). -/
def pow_count_aux (p : ℕ) : ℕ → ℕ → ℕ → ℕ
  | 0, _, acc => acc
  | fuel + 1, n, acc => if n % p = 0 && n ≠ 0 then pow_count_aux p fuel (n / p) (acc + 1) else acc

/-- Number of times `p` divides `n`. -/
def pow_count (p n : ℕ) : ℕ := pow_count_aux p n n 0

/-- Exact decimal printing of a rational (model of Rust `Display` for `f32` /
`f64`): integers print without a decimal point; other finite-decimal rationals
print with the shortest exact fractional part.  Rationals without a finite
decimal expansion (unreachable from parsed floats, whose denominators divide a
power of ten) fall back to `num/den`. -/
def q_to_str (q : ℚ) : Str :=
  if q.den = 1 then int_to_str q.num
  else
    let k := Nat.max (pow_count 2 q.den) (pow_count 5 q.den)
    if q.den ∣ 10 ^ k then
      let digits := q.num.natAbs * 10 ^ k / q.den
      let int_part := digits / 10 ^ k
      let frac_part := digits % 10 ^ k
      let frac_str := nat_to_str frac_part
      let frac_padded := List.replicate (k - frac_str.length) '0' ++ frac_str
      (if q.num < 0 then ['-'] else []) ++ nat_to_str int_part ++ '.' :: frac_padded
    else
      int_to_str q.num ++ '/' :: nat_to_str q.den

/-- Mirror of `OverlayPosition` (`src/osus/src/file/beatmap.rs`). -/
inductive OverlayPosition where
  | NoChange
  | Below
  | Above
deriving DecidableEq

/-- Mirror of `OverlayPosition::from_str`. -/
def OverlayPosition.from_str (s : Str) : Option OverlayPosition :=
  if s = str "NoChange" then some .NoChange
  else if s = str "Below" then some .Below
  else if s = str "Above" then some .Above
  else none

/-- Mirror of `GeneralSection` (`src/osus/src/file/beatmap.rs`); `String`
fields are `Str`, `i32` is `ℤ`, `u8` is `ℕ`, `f64` is `ℚ`. -/
structure GeneralSection where
  audio_filename : Str
  audio_lead_in : ℤ
  audio_hash : Option Str
  preview_time : Timestamp
  countdown : ℤ
  sample_set : Str
  stack_leniency : ℚ
  mode : ℕ
  letterbox_in_breaks : Bool
  story_fire_in_front : Bool
  use_skin_sprites : Bool
  always_show_playfield : Bool
  overlay_position : OverlayPosition
  skin_preference : Option Str
  epilepsy_warning : Bool
  countdown_offset : ℤ
  special_style : Bool
  widescreen_storyboard : Bool
  samples_match_playback_rate : Bool
deriving DecidableEq

/-- Mirror of `GeneralSection::default()`. -/
def GeneralSection.default : GeneralSection :=
  { audio_filename := [], audio_lead_in := 0, audio_hash := none,
    preview_time := -1, countdown := 1, sample_set := str "Normal",
    stack_leniency := 0.7, mode := 0, letterbox_in_breaks := false,
    story_fire_in_front := true, use_skin_sprites := false,
    always_show_playfield := false, overlay_position := .NoChange,
    skin_preference := none, epilepsy_warning := false, countdown_offset := 0,
    special_style := false, widescreen_storyboard := false,
    samples_match_playback_rate := false }

/-- Mirror of `EditorSection` (`src/osus/src/file/beatmap.rs`); the `f32`
bookmarks are `ℚ`. -/
structure EditorSection where
  bookmarks : List ℚ
  distance_spacing : ℚ
  beat_divisor : ℚ
  grid_size : ℤ
  timeline_zoom : Option ℚ
deriving DecidableEq

/-- Mirror of `MetadataSection` (`src/osus/src/file/beatmap.rs`). -/
structure MetadataSection where
  title : Str
  title_unicode : Str
  artist : Str
  artist_unicode : Str
  creator : Str
  version : Str
  source : Str
  tags : List Str
  beatmap_id : Option ℤ
  beatmap_set_id : Option ℤ
deriving DecidableEq

/-- Mirror of `MetadataSection::default()` (derived `Default`). -/
def MetadataSection.default : MetadataSection :=
  { title := [], title_unicode := [], artist := [], artist_unicode := [],
    creator := [], version := [], source := [], tags := [],
    beatmap_id := none, beatmap_set_id := none }

/-- Mirror of `DifficultySection` (`src/osus/src/file/beatmap.rs`); `f32`
fields are `ℚ`. -/
structure DifficultySection where
  hp_drain_rate : ℚ
  circle_size : ℚ
  overall_difficulty : ℚ
  approach_rate : ℚ
  slider_multiplier : ℚ
  slider_tick_rate : ℚ
deriving DecidableEq

/-- Mirror of `DifficultySection::default()`. -/
def DifficultySection.default : DifficultySection :=
  { hp_drain_rate := 0, circle_size := 0, overall_difficulty := 0,
    approach_rate := 0, slider_multiplier := 0, slider_tick_rate := 0 }

/-- Mirror of `EventParams` (`src/osus/src/file/beatmap.rs`). -/
inductive EventParams where
  | Background (filename : Str) (x_offset : ℤ) (y_offset : ℤ)
  | Video (filename : Str) (x_offset : ℤ) (y_offset : ℤ)
  | Break (end_time : Timestamp)
deriving DecidableEq

/-- Mirror of `Event` (`src/osus/src/file/beatmap.rs`). -/
structure Event where
  event_type : Str
  start_time : Timestamp
  params : EventParams
deriving DecidableEq

/-- Mirror of `Color` (`src/osus/src/file/beatmap.rs`); `u8` components are
`ℕ`. -/
structure Color where
  r : ℕ
  g : ℕ
  b : ℕ
  a : Option ℕ
deriving DecidableEq

/-- Mirror of `Color::to_osu_string`. -/
def Color.to_osu_string (self : Color) : Str :=
  match self.a with
  | none => nat_to_str self.r ++ ',' :: nat_to_str self.g ++ ',' :: nat_to_str self.b
  | some a =>
    nat_to_str self.r ++ ',' :: nat_to_str self.g ++ ',' :: nat_to_str self.b ++
      ',' :: nat_to_str a

/-- Mirror of `ColorsSection` (`src/osus/src/file/beatmap.rs`). -/
structure ColorsSection where
  combo_colors : List Color
  slider_track_override : Option Color
  slider_border : Option Color
deriving DecidableEq

/-- Mirror of `ColorsSection::default()`. -/
def ColorsSection.default : ColorsSection :=
  { combo_colors := [], slider_track_override := none, slider_border := none }

/-- Mirror of `SampleBank::from_str`. -/
def SampleBank.from_str (s : Str) : Option SampleBank :=
  if s = str "0" then some .Auto
  else if s = str "1" then some .Normal
  else if s = str "2" then some .Soft
  else if s = str "3" then some .Drum
  else none

/-- Mirror of `HitSampleSet` (`src/osus/src/file/beatmap.rs`). -/
structure HitSampleSet where
  normal_set : SampleBank
  addition_set : SampleBank
deriving DecidableEq

/-- Mirror of `HitSampleSet::default()`. -/
def HitSampleSet.default : HitSampleSet := { normal_set := .Auto, addition_set := .Auto }

/-- Mirror of `HitSampleSet::to_osu_string`. -/
def HitSampleSet.to_osu_string (self : HitSampleSet) : Str :=
  nat_to_str self.normal_set.toNat ++ ':' :: nat_to_str self.addition_set.toNat

/-- Mirror of `HitSampleSet::from_str`. -/
def HitSampleSet.from_str (s : Str) : Option HitSampleSet :=
  match split_once ':' s with
  | none => none
  | some (ns, as_) =>
    match SampleBank.from_str ns, SampleBank.from_str as_ with
    | some normal_set, some addition_set => some ⟨normal_set, addition_set⟩
    | _, _ => none

/-- Mirror of `HitSample` (`src/osus/src/file/beatmap.rs`). -/
structure HitSample where
  normal_set : SampleBank
  addition_set : SampleBank
  index : ℕ
  volume : ℕ
  filename : Option Str
deriving DecidableEq

/-- Mirror of `HitSample::default()`. -/
def HitSample.default : HitSample :=
  { normal_set := .Auto, addition_set := .Auto, index := 0, volume := 0,
    filename := none }

/-- Mirror of `HitSample::to_osu_string`. -/
def HitSample.to_osu_string (self : HitSample) : Str :=
  nat_to_str self.normal_set.toNat ++ ':' :: nat_to_str self.addition_set.toNat ++
    ':' :: nat_to_str self.index ++ ':' :: nat_to_str self.volume ++
    ':' :: (match self.filename with | some f => f | none => [])

/-- Mirror of `HitSound` (`src/osus/src/file/beatmap.rs`): a `u8` bitmask. -/
structure HitSound where
  bits : ℕ
deriving DecidableEq

/-- Mirror of `HitSound::NONE`. -/
def HitSound.NONE : HitSound := ⟨0⟩

/-- Mirror of `HitSound::from_str` (`u8::from_str`). -/
def HitSound.from_str (s : Str) : Option HitSound :=
  (parse_uint 255 s).map HitSound.mk

/-- Mirror of `HitObjectType` (`src/osus/src/file/beatmap.rs`). -/
inductive HitObjectType where
  | HitCircle
  | Slider
  | Spinner
  | Hold
deriving DecidableEq

/-- Mirror of `HitObjectParams` (`src/osus/src/file/beatmap.rs`). -/
inductive HitObjectParams where
  | HitCircle
  | Slider (first_curve_type : SliderCurveType) (curve_points : List SliderPoint)
      (slides : ℕ) (length : ℚ) (edge_hitsounds : List HitSound)
      (edge_samplesets : List HitSampleSet)
  | Spinner (end_time : Timestamp)
  | Hold (end_time : Timestamp)
deriving DecidableEq

/-- Mirror of `HitObject` (`src/osus/src/file/beatmap.rs`). -/
structure HitObject where
  x : ℤ
  y : ℤ
  time : Timestamp
  object_type : HitObjectType
  combo_color_skip : Option ℕ
  hit_sound : HitSound
  object_params : HitObjectParams
  hit_sample : HitSample
deriving DecidableEq

/-- Mirror of `HitObject::raw_is_base_type`: `raw & (1 << bit) > 0`. -/
def raw_is_base_type (raw_object_type : ℕ) (base_type : ℕ) : Bool :=
  raw_object_type.land (1 <<< base_type) > 0

/-- Mirror of `HitObject::raw_object_type`: rebuild the on-disk type byte from
the variant and the combo-skip field. -/
def HitObject.raw_object_type (self : HitObject) : ℕ :=
  let rt : ℕ := match self.object_type with
    | .HitCircle => 0
    | .Slider => 1
    | .Spinner => 3
    | .Hold => 7
  let ccskip : ℕ := match self.combo_color_skip with
    | none => 0
    | some n => (1 <<< 2).lor ((n.land 0b111) <<< 4)
  (1 <<< rt).lor ccskip

/-- Mirror of `BeatmapFile` (`src/osus/src/file/beatmap.rs`). -/
structure BeatmapFile where
  osu_file_format : ℕ
  general : Option GeneralSection
  editor : Option EditorSection
  metadata : Option MetadataSection
  difficulty : Option DifficultySection
  events : List Event
  timing_points : List TimingPoint
  colors : Option ColorsSection
  hit_objects : List HitObject
deriving DecidableEq

/-- Mirror of `BeatmapFile::default()` (derived `Default`). -/
def BeatmapFile.default : BeatmapFile :=
  { osu_file_format := 0, general := none, editor := none, metadata := none,
    difficulty := none, events := [], timing_points := [], colors := none,
    hit_objects := [] }

/-! The parser (`src/osus/src/file/beatmap/parsing.rs`).  Each section parser
consumes lines from the reader until it meets a `[...]` header line (returned
as the new `section_header`) or the end of input; the shared mutable reader is
modelled by threading the remaining line list through.  Structured error
payloads are simplified to the section name and offending line (the `kind`
field of `SectionParseError`, which no claim depends on, is dropped). -/

/-- Mirror of `SectionParseError` (without its `kind` payload). -/
structure SectionParseError where
  section_name : Str
  line : Str
deriving DecidableEq

/-- Mirror of `parse_field_value_pair` (`parsing.rs:23`): split at the first
colon, trim both sides. -/
def parse_field_value_pair (line : Str) : Option (Str × Str) :=
  match split_once ':' line with
  | none => none
  | some (field, value) => some (trim field, trim value)

/-- Mirror of `parse_list_of_with_sep` (`parsing.rs:55`): split on `sep`, skip
empty items, parse every remaining item (first failure aborts). -/
def parse_list_items {T : Type} (f : Str → Option T) : List Str → Option (List T)
  | [] => some []
  | v :: rest =>
    if v = [] then parse_list_items f rest
    else
      match f v, parse_list_items f rest with
      | some t, some ts => some (t :: ts)
      | _, _ => none

/-- Mirror of `parse_list_of_with_sep` applied to a line. -/
def parse_list_of_with_sep {T : Type} (f : Str → Option T) (line : Str) (sep : Char) :
    Option (List T) :=
  parse_list_items f (split_char sep line)

/-- Mirror of `to_standardized_path` (`parsing.rs:73`). -/
def to_standardized_path (path : Str) : Str :=
  path.map (fun c => if c = '\\' then '/' else c)

/-- The section-boundary test used by every section loop:
`line.starts_with('[') && line.ends_with(']')`. -/
def is_section_boundary (line : Str) : Bool :=
  (line.head? = some '[') && ends_with ']' line

/-- Maximum `u8` value (for `parse::<u8>`). -/
def u8_max : ℕ := 255

/-- Maximum `u32` value (for `parse::<u32>`). -/
def u32_max : ℕ := 4294967295

/-- Maximum `i32` magnitude (for `parse::<i32>`, range `[-(i32_max+1), i32_max]`). -/
def i32_max : ℕ := 2147483647

/-- Mirror of `parse_general_section` (`parsing.rs:198`). -/
def parse_general_section (sec : GeneralSection) :
    List Str → Except SectionParseError (GeneralSection × Option Str × List Str)
  | [] => .ok (sec, none, [])
  | line :: reader =>
    if is_section_boundary line then .ok (sec, some line, reader)
    else
      match parse_field_value_pair line with
      | none => .error ⟨str "[General]", line⟩
      | some (field, value) =>
        if field = str "AudioFilename" then
          parse_general_section { sec with audio_filename := to_standardized_path value } reader
        else if field = str "AudioLeadIn" then
          match parse_sint i32_max value with
          | some v => parse_general_section { sec with audio_lead_in := v } reader
          | none => .error ⟨str "[General]", line⟩
        else if field = str "AudioHash" then
          parse_general_section { sec with audio_hash := some value } reader
        else if field = str "PreviewTime" then
          match parse_float value with
          | some v => parse_general_section { sec with preview_time := v } reader
          | none => .error ⟨str "[General]", line⟩
        else if field = str "Countdown" then
          match parse_sint i32_max value with
          | some v => parse_general_section { sec with countdown := v } reader
          | none => .error ⟨str "[General]", line⟩
        else if field = str "SampleSet" then
          parse_general_section { sec with sample_set := value } reader
        else if field = str "StackLeniency" then
          match parse_float value with
          | some v => parse_general_section { sec with stack_leniency := v } reader
          | none => .error ⟨str "[General]", line⟩
        else if field = str "Mode" then
          match parse_uint u8_max value with
          | some v => parse_general_section { sec with mode := v } reader
          | none => .error ⟨str "[General]", line⟩
        else if field = str "LetterboxInBreaks" then
          match parse_uint u8_max value with
          | some v => parse_general_section { sec with letterbox_in_breaks := v ≠ 0 } reader
          | none => .error ⟨str "[General]", line⟩
        else if field = str "StoryFireInFront" then
          match parse_uint u8_max value with
          | some v => parse_general_section { sec with story_fire_in_front := v ≠ 0 } reader
          | none => .error ⟨str "[General]", line⟩
        else if field = str "UseSkinSprites" then
          match parse_uint u8_max value with
          | some v => parse_general_section { sec with use_skin_sprites := v ≠ 0 } reader
          | none => .error ⟨str "[General]", line⟩
        else if field = str "AlwaysShowPlayfield" then
          match parse_uint u8_max value with
          | some v => parse_general_section { sec with always_show_playfield := v ≠ 0 } reader
          | none => .error ⟨str "[General]", line⟩
        else if field = str "OverlayPosition" then
          match OverlayPosition.from_str value with
          | some v => parse_general_section { sec with overlay_position := v } reader
          | none => .error ⟨str "[General]", line⟩
        else if field = str "SkinPreference" then
          parse_general_section { sec with skin_preference := some value } reader
        else if field = str "EpilepsyWarning" then
          match parse_uint u8_max value with
          | some v => parse_general_section { sec with epilepsy_warning := v ≠ 0 } reader
          | none => .error ⟨str "[General]", line⟩
        else if field = str "CountdownOffset" then
          match parse_sint i32_max value with
          | some v => parse_general_section { sec with countdown_offset := v } reader
          | none => .error ⟨str "[General]", line⟩
        else if field = str "SpecialStyle" then
          match parse_uint u8_max value with
          | some v => parse_general_section { sec with special_style := v ≠ 0 } reader
          | none => .error ⟨str "[General]", line⟩
        else if field = str "WidescreenStoryboard" then
          match parse_uint u8_max value with
          | some v => parse_general_section { sec with widescreen_storyboard := v ≠ 0 } reader
          | none => .error ⟨str "[General]", line⟩
        else if field = str "SamplesMatchPlaybackRate" then
          match parse_uint u8_max value with
          | some v => parse_general_section { sec with samples_match_playback_rate := v ≠ 0 } reader
          | none => .error ⟨str "[General]", line⟩
        else
          -- unknown field: logged and ignored
          parse_general_section sec reader

/-- Accumulator of `parse_editor_section`, mirroring its five locals. -/
structure EditorAcc where
  bookmarks : List ℚ
  distance_spacing : Option ℚ
  beat_divisor : Option ℚ
  grid_size : Option ℤ
  timeline_zoom : Option ℚ

/-- Final assembly of `parse_editor_section` (`parsing.rs:362`): missing
required fields are `UnspecifiedFieldError`s (which the source wraps — note —
with section name `[General]` and line `[Editor]`). -/
def editor_acc_build (acc : EditorAcc) (section_header : Option Str)
    (reader : List Str) : Except SectionParseError (EditorSection × Option Str × List Str) :=
  match acc.distance_spacing, acc.beat_divisor, acc.grid_size with
  | some distance_spacing, some beat_divisor, some grid_size =>
    .ok ({ bookmarks := acc.bookmarks, distance_spacing, beat_divisor, grid_size,
           timeline_zoom := acc.timeline_zoom }, section_header, reader)
  | _, _, _ => .error ⟨str "[General]", str "[Editor]"⟩

/-- Mirror of `parse_editor_section` (`parsing.rs:312`). -/
def parse_editor_section (acc : EditorAcc) :
    List Str → Except SectionParseError (EditorSection × Option Str × List Str)
  | [] => editor_acc_build acc none []
  | line :: reader =>
    if is_section_boundary line then editor_acc_build acc (some line) reader
    else
      match parse_field_value_pair line with
      | none => .error ⟨str "[Editor]", line⟩
      | some (field, value) =>
        if field = str "Bookmarks" then
          match parse_list_of_with_sep parse_float value ',' with
          | some v => parse_editor_section { acc with bookmarks := v } reader
          | none => .error ⟨str "[Editor]", line⟩
        else if field = str "DistanceSpacing" then
          match parse_float value with
          | some v => parse_editor_section { acc with distance_spacing := some v } reader
          | none => .error ⟨str "[Editor]", line⟩
        else if field = str "BeatDivisor" then
          match parse_float value with
          | some v => parse_editor_section { acc with beat_divisor := some v } reader
          | none => .error ⟨str "[Editor]", line⟩
        else if field = str "GridSize" then
          match parse_sint i32_max value with
          | some v => parse_editor_section { acc with grid_size := some v } reader
          | none => .error ⟨str "[Editor]", line⟩
        else if field = str "TimelineZoom" then
          match parse_float value with
          | some v => parse_editor_section { acc with timeline_zoom := some v } reader
          | none => .error ⟨str "[Editor]", line⟩
        else
          parse_editor_section acc reader

/-- Mirror of `parse_metadata_section` (`parsing.rs:378`). -/
def parse_metadata_section (sec : MetadataSection) :
    List Str → Except SectionParseError (MetadataSection × Option Str × List Str)
  | [] => .ok (sec, none, [])
  | line :: reader =>
    if is_section_boundary line then .ok (sec, some line, reader)
    else
      match parse_field_value_pair line with
      | none => .error ⟨str "[Metadata]", line⟩
      | some (field, value) =>
        if field = str "Title" then
          parse_metadata_section { sec with title := value } reader
        else if field = str "TitleUnicode" then
          parse_metadata_section { sec with title_unicode := value } reader
        else if field = str "Artist" then
          parse_metadata_section { sec with artist := value } reader
        else if field = str "ArtistUnicode" then
          parse_metadata_section { sec with artist_unicode := value } reader
        else if field = str "Creator" then
          parse_metadata_section { sec with creator := value } reader
        else if field = str "Version" then
          parse_metadata_section { sec with version := value } reader
        else if field = str "Source" then
          parse_metadata_section { sec with source := value } reader
        else if field = str "Tags" then
          parse_metadata_section { sec with tags := split_char ' ' value } reader
        else if field = str "BeatmapID" then
          match parse_sint i32_max value with
          | some v => parse_metadata_section { sec with beatmap_id := some v } reader
          | none => .error ⟨str "[Metadata]", line⟩
        else if field = str "BeatmapSetID" then
          match parse_sint i32_max value with
          | some v => parse_metadata_section { sec with beatmap_set_id := some v } reader
          | none => .error ⟨str "[Metadata]", line⟩
        else
          parse_metadata_section sec reader

/-- Mirror of `parse_difficulty_section` (`parsing.rs:428`). -/
def parse_difficulty_section (sec : DifficultySection) :
    List Str → Except SectionParseError (DifficultySection × Option Str × List Str)
  | [] => .ok (sec, none, [])
  | line :: reader =>
    if is_section_boundary line then .ok (sec, some line, reader)
    else
      match parse_field_value_pair line with
      | none => .error ⟨str "[Difficulty]", line⟩
      | some (field, value) =>
        if field = str "HPDrainRate" then
          match parse_float value with
          | some v => parse_difficulty_section { sec with hp_drain_rate := v } reader
          | none => .error ⟨str "[Difficulty]", line⟩
        else if field = str "CircleSize" then
          match parse_float value with
          | some v => parse_difficulty_section { sec with circle_size := v } reader
          | none => .error ⟨str "[Difficulty]", line⟩
        else if field = str "OverallDifficulty" then
          match parse_float value with
          | some v => parse_difficulty_section { sec with overall_difficulty := v } reader
          | none => .error ⟨str "[Difficulty]", line⟩
        else if field = str "ApproachRate" then
          match parse_float value with
          | some v => parse_difficulty_section { sec with approach_rate := v } reader
          | none => .error ⟨str "[Difficulty]", line⟩
        else if field = str "SliderMultiplier" then
          match parse_float value with
          | some v => parse_difficulty_section { sec with slider_multiplier := v } reader
          | none => .error ⟨str "[Difficulty]", line⟩
        else if field = str "SliderTickRate" then
          match parse_float value with
          | some v => parse_difficulty_section { sec with slider_tick_rate := v } reader
          | none => .error ⟨str "[Difficulty]", line⟩
        else
          parse_difficulty_section sec reader

/-- Mirror of `EventParseError` (payloads simplified to the raw token). -/
inductive EventParseError where
  | UnknownEventType (t : Str)
  | Empty
  | NoStartTime
  | InvalidStartTime
  | SpecificEvent
deriving DecidableEq

/-- The storyboard-only event kinds that `parse_event` recognises and skips. -/
def storyboard_event_types : List Str :=
  [str "3", str "4", str "5", str "6", str "Sample", str "Sprite",
   str "Animation", str "F", str "M", str "MX", str "MY", str "S", str "V",
   str "R", str "C", str "L", str "T", str "P"]

/-- Mirror of `parse_event` (`parsing.rs:525`): `ok none` is a skipped
storyboard event. -/
def parse_event (line : Str) : Except EventParseError (Option Event) :=
  match split_char ',' line with
  | [] => .error .Empty
  | event_type_raw :: values =>
    let event_type := trim event_type_raw
    if storyboard_event_types.contains event_type then .ok none
    else
      match values with
      | [] => .error .NoStartTime
      | start_time_str :: values =>
        match parse_float start_time_str with
        | none => .error .InvalidStartTime
        | some start_time =>
          if event_type = str "0" then
            match values with
            | [] => .error .SpecificEvent
            | filename :: values =>
              let x_offset_str := match values with
                | v :: _ => v
                | [] => str "0"
              let y_offset_str := match values with
                | _ :: v :: _ => v
                | _ => str "0"
              match parse_sint i32_max x_offset_str, parse_sint i32_max y_offset_str with
              | some x_offset, some y_offset =>
                .ok (some ⟨event_type, start_time, .Background filename x_offset y_offset⟩)
              | _, _ => .error .SpecificEvent
          else if event_type = str "1" || event_type = str "Video" then
            match values with
            | [] => .error .SpecificEvent
            | filename :: values =>
              let x_offset_str := match values with
                | v :: _ => v
                | [] => str "0"
              let y_offset_str := match values with
                | _ :: v :: _ => v
                | _ => str "0"
              match parse_sint i32_max x_offset_str, parse_sint i32_max y_offset_str with
              | some x_offset, some y_offset =>
                .ok (some ⟨event_type, start_time, .Video filename x_offset y_offset⟩)
              | _, _ => .error .SpecificEvent
          else if event_type = str "2" || event_type = str "Break" then
            match values with
            | [] => .error .SpecificEvent
            | end_time_str :: _ =>
              match parse_float end_time_str with
              | some end_time => .ok (some ⟨event_type, start_time, .Break end_time⟩)
              | none => .error .SpecificEvent
          else
            .error (.UnknownEventType event_type)

/-- Mirror of `parse_events_section` (`parsing.rs:621`). -/
def parse_events_section (events : List Event) :
    List Str → Except SectionParseError (List Event × Option Str × List Str)
  | [] => .ok (events, none, [])
  | line :: reader =>
    if is_section_boundary line then .ok (events, some line, reader)
    else
      match parse_event line with
      | .error _ => .error ⟨str "[Events]", line⟩
      | .ok none => parse_events_section events reader
      | .ok (some event) => parse_events_section (events ++ [event]) reader

/-- Mirror of `TimingPointParseError` (payload kinds flattened). -/
inductive TimingPointParseError where
  | LessThan2Values (n : ℕ)
  | MoreThan8Values (n : ℕ)
  | InvalidFloat
  | InvalidInt
  | InvalidSampleBank
deriving DecidableEq

/-- Mirror of `parse_timing_point` (`parsing.rs:676`): 2–8 comma-separated
positional fields front-filling a default `TimingPoint`. -/
def parse_timing_point (line : Str) : Except TimingPointParseError TimingPoint := do
  let values := split_char ',' line
  if values.length < 2 then
    throw (.LessThan2Values values.length)
  else if values.length > 8 then
    throw (.MoreThan8Values values.length)
  else do
    let tp : TimingPoint := TimingPoint.default
    let tp ← match values[0]? with
      | none => pure tp
      | some v => match parse_float v with
        | some t => pure { tp with time := t }
        | none => throw .InvalidFloat
    let tp ← match values[1]? with
      | none => pure tp
      | some v => match parse_float v with
        | some t => pure { tp with beat_length := t }
        | none => throw .InvalidFloat
    let tp ← match values[2]? with
      | none => pure tp
      | some v => match parse_sint i32_max v with
        | some t => pure { tp with meter := t }
        | none => throw .InvalidInt
    let tp ← match values[3]? with
      | none => pure tp
      | some v => match SampleBank.from_str v with
        | some t => pure { tp with sample_set := t }
        | none => throw .InvalidSampleBank
    let tp ← match values[4]? with
      | none => pure tp
      | some v => match parse_uint u32_max v with
        | some t => pure { tp with sample_index := t }
        | none => throw .InvalidInt
    let tp ← match values[5]? with
      | none => pure tp
      | some v => match parse_uint u8_max v with
        | some t => pure { tp with volume := t }
        | none => throw .InvalidInt
    let tp ← match values[6]? with
      | none => pure tp
      | some v => match parse_uint u8_max v with
        | some t => pure { tp with uninherited := t ≠ 0 }
        | none => throw .InvalidInt
    let tp ← match values[7]? with
      | none => pure tp
      | some v => match parse_uint u32_max v with
        | some t => pure { tp with effects := t }
        | none => throw .InvalidInt
    return tp

/-- Mirror of `parse_timing_points_section` (`parsing.rs:718`). -/
def parse_timing_points_section (timing_points : List TimingPoint) :
    List Str → Except SectionParseError (List TimingPoint × Option Str × List Str)
  | [] => .ok (timing_points, none, [])
  | line :: reader =>
    if is_section_boundary line then .ok (timing_points, some line, reader)
    else
      match parse_timing_point line with
      | .error _ => .error ⟨str "[TimingPoints]", line⟩
      | .ok tp => parse_timing_points_section (timing_points ++ [tp]) reader

/-- Mirror of `ColorParseError`. -/
inductive ColorParseError where
  | InvalidList
  | WrongNumberCount
  | UnknownColorField (s : Str)
deriving DecidableEq

/-- Mirror of `parse_color` (`parsing.rs:762`). -/
def parse_color (line : Str) : Except ColorParseError Color :=
  match parse_list_of_with_sep (parse_uint u8_max) line ',' with
  | none => .error .InvalidList
  | some nums =>
    match nums with
    | [r, g, b] => .ok ⟨r, g, b, none⟩
    | [r, g, b, a] => .ok ⟨r, g, b, some a⟩
    | _ => .error .WrongNumberCount

/-- Mirror of `parse_colors_section` (`parsing.rs:773`). -/
def parse_colors_section (colors_section : ColorsSection) :
    List Str → Except SectionParseError (ColorsSection × Option Str × List Str)
  | [] => .ok (colors_section, none, [])
  | line :: reader =>
    if is_section_boundary line then .ok (colors_section, some line, reader)
    else
      match parse_field_value_pair line with
      | none => .error ⟨str "[Colours]", line⟩
      | some (field, value) =>
        match parse_color value with
        | .error _ => .error ⟨str "[Colours]", line⟩
        | .ok color =>
          if starts_with (str "Combo") field then
            parse_colors_section
              { colors_section with combo_colors := colors_section.combo_colors ++ [color] }
              reader
          else if field = str "SliderTrackOverride" then
            parse_colors_section { colors_section with slider_track_override := some color } reader
          else if field = str "SliderBorder" then
            parse_colors_section { colors_section with slider_border := some color } reader
          else
            parse_colors_section colors_section reader

/-- Mirror of `HitSampleParseError`. -/
inductive HitSampleParseError where
  | NotEnoughArguments (n : ℕ)
  | InvalidSampleBank
  | InvalidInt
deriving DecidableEq

/-- Mirror of `parse_hit_sample` (`parsing.rs:828`): colon-separated
`normalSet:additionSet[:index:volume:filename]`; the optional trailing group is
read only when it has exactly three items. -/
def parse_hit_sample (line : Str) : Except HitSampleParseError HitSample := do
  match split_char ':' line with
  | normal_set_str :: addition_set_str :: leftover =>
    let normal_set ← match SampleBank.from_str normal_set_str with
      | some b => pure b
      | none => throw .InvalidSampleBank
    let addition_set ← match SampleBank.from_str addition_set_str with
      | some b => pure b
      | none => throw .InvalidSampleBank
    match leftover with
    | [idx, vol, filn] => do
      let index ← match parse_uint u32_max idx with
        | some n => pure n
        | none => throw .InvalidInt
      let volume ← match parse_uint u32_max vol with
        | some n => pure n
        | none => throw .InvalidInt
      let filename := if filn ≠ [] then some filn else none
      return { normal_set, addition_set, index, volume, filename }
    | _ => return { normal_set, addition_set, index := 0, volume := 0, filename := none }
  | args => throw (.NotEnoughArguments args.length)

/-- Mirror of `CurvePointsParseError`. -/
inductive CurvePointsParseError where
  | NotEnoughTokens
  | UnknownCurveType (t : Str)
  | InvalidSliderPoint
deriving DecidableEq

/-- Letter-token table of `parse_curve_points`. -/
def curve_type_of_token (t : Str) : Option SliderCurveType :=
  if t = str "B" then some .Bezier
  else if t = str "C" then some .Catmull
  else if t = str "L" then some .Linear
  else if t = str "P" then some .PerfectCurve
  else none

/-- Loop of `parse_curve_points` over the remaining `|`-separated tokens: a
letter token sets the current curve type for the next coordinate token, which
resets it to `Inherit`. -/
def parse_curve_tokens (curve_type : SliderCurveType) :
    List Str → Except CurvePointsParseError (List SliderPoint)
  | [] => .ok []
  | curve_token :: rest =>
    match curve_type_of_token curve_token with
    | some ct => parse_curve_tokens ct rest
    | none =>
      match split_once ':' curve_token with
      | none => .error .InvalidSliderPoint
      | some (xs, ys) =>
        match parse_sint i32_max xs, parse_sint i32_max ys with
        | some x, some y =>
          match parse_curve_tokens .Inherit rest with
          | .ok points => .ok (⟨curve_type, x, y⟩ :: points)
          | .error e => .error e
        | _, _ => .error .InvalidSliderPoint

/-- Mirror of `parse_curve_points` (`parsing.rs:870`): the first `|`-token must
be a letter giving the chain's first curve type. -/
def parse_curve_points (line : Str) :
    Except CurvePointsParseError (SliderCurveType × List SliderPoint) :=
  match split_char '|' line with
  | [] => .error .NotEnoughTokens
  | first_curve_token :: curve_tokens =>
    match curve_type_of_token first_curve_token with
    | none => .error (.UnknownCurveType first_curve_token)
    | some first_curve_type =>
      match parse_curve_tokens .Inherit curve_tokens with
      | .ok curve_points => .ok (first_curve_type, curve_points)
      | .error e => .error e

/-- Mirror of `HitObjectParseError` (payload kinds flattened). -/
inductive HitObjectParseError where
  | UnknownHitObjectType (t : Str)
  | NotEnoughArguments (n : ℕ)
  | WrongSliderParameterCount (n : ℕ)
  | WrongSpinnerParameterCount (n : ℕ)
  | WrongHoldParameterCount (n : ℕ)
  | InvalidList
  | CurvePointsParse (e : CurvePointsParseError)
  | HitSampleParse (e : HitSampleParseError)
  | InvalidHold
  | InvalidFloat
  | InvalidInt
deriving DecidableEq

/-- Mirror of `parse_hit_object` (`parsing.rs:973`). -/
def parse_hit_object (line : Str) : Except HitObjectParseError HitObject := do
  match split_char ',' line with
  | x_str :: y_str :: time_str :: object_type_str :: hit_sound_str :: object_params_args =>
    let x ← match parse_sint i32_max x_str with
      | some v => pure v
      | none => throw .InvalidInt
    let y ← match parse_sint i32_max y_str with
      | some v => pure v
      | none => throw .InvalidInt
    let time ← match parse_float time_str with
      | some v => pure v
      | none => throw .InvalidFloat
    let object_type_raw ← match parse_uint u8_max object_type_str with
      | some v => pure v
      | none => throw .InvalidInt
    let hit_sound ← match HitSound.from_str hit_sound_str with
      | some v => pure v
      | none => throw .InvalidInt
    let (object_params, hit_sample_leftover) ←
      if raw_is_base_type object_type_raw 0 then
        -- hit circle
        match object_params_args with
        | [hit_sample] => pure (HitObjectParams.HitCircle, some hit_sample)
        | _ => pure (HitObjectParams.HitCircle, (none : Option Str))
      else if raw_is_base_type object_type_raw 1 then
        -- slider
        match object_params_args with
        | curve_points_str :: slides_str :: length_str :: leftover => do
          let (first_curve_type, curve_points) ← match parse_curve_points curve_points_str with
            | .ok v => pure v
            | .error e => throw (.CurvePointsParse e)
          let slides ← match parse_uint u32_max slides_str with
            | some v => pure v
            | none => throw .InvalidInt
          let length ← match parse_float length_str with
            | some v => pure v
            | none => throw .InvalidFloat
          let (edge_hitsounds, edge_samplesets, hs_leftover) ←
            match leftover with
            | [ehitsounds, esamplesets, hit_sample] => do
              let eh ← match parse_list_of_with_sep HitSound.from_str ehitsounds '|' with
                | some v => pure v
                | none => throw HitObjectParseError.InvalidList
              let es ← match parse_list_of_with_sep HitSampleSet.from_str esamplesets '|' with
                | some v => pure v
                | none => throw HitObjectParseError.InvalidList
              pure (eh, es, some hit_sample)
            | _ => pure (([] : List HitSound), ([] : List HitSampleSet), (none : Option Str))
          -- Just in case there were no edge hitsounds/samplesets
          let (edge_hitsounds, edge_samplesets) :=
            if edge_hitsounds = [] then
              (List.replicate (slides + 1) HitSound.NONE,
               List.replicate (slides + 1) HitSampleSet.default)
            else (edge_hitsounds, edge_samplesets)
          pure (HitObjectParams.Slider first_curve_type curve_points slides length
            edge_hitsounds edge_samplesets, hs_leftover)
        | _ => throw (.WrongSliderParameterCount object_params_args.length)
      else if raw_is_base_type object_type_raw 3 then
        -- spinner
        match object_params_args with
        | end_time_str :: leftover => do
          let end_time ← match parse_float end_time_str with
            | some v => pure v
            | none => throw .InvalidFloat
          let hs_leftover := match leftover with
            | [hit_sample] => some hit_sample
            | _ => none
          pure (HitObjectParams.Spinner end_time, hs_leftover)
        | _ => throw (.WrongSpinnerParameterCount object_params_args.length)
      else if raw_is_base_type object_type_raw 7 then
        -- osu!mania hold
        match object_params_args with
        | [leftover] => do
          match split_once ':' leftover with
          | none => throw .InvalidHold
          | some (end_time_str, hit_sample) => do
            let end_time ← match parse_float end_time_str with
              | some v => pure v
              | none => throw .InvalidFloat
            let hs_leftover := if hit_sample ≠ [] then some hit_sample else none
            pure (HitObjectParams.Hold end_time, hs_leftover)
        | _ => throw (.WrongHoldParameterCount object_params_args.length)
      else
        throw (.UnknownHitObjectType object_type_str)
    let hit_sample ← match hit_sample_leftover with
      | some [] => pure HitSample.default
      | some s =>
        match parse_hit_sample s with
        | .ok hs => pure hs
        | .error e => throw (.HitSampleParse e)
      | none => pure HitSample.default
    let combo_color_skip :=
      if raw_is_base_type object_type_raw 2 then
        some ((object_type_raw.land 0b01110000) >>> 4)
      else none
    let object_type := match object_params with
      | .HitCircle => HitObjectType.HitCircle
      | .Slider _ _ _ _ _ _ => HitObjectType.Slider
      | .Spinner _ => HitObjectType.Spinner
      | .Hold _ => HitObjectType.Hold
    return (⟨x, y, time, object_type, combo_color_skip, hit_sound, object_params,
      hit_sample⟩ : HitObject)
  | args => throw (.NotEnoughArguments args.length)

/-- Mirror of `parse_hit_objects_section` (`parsing.rs:1084`). -/
def parse_hit_objects_section (hit_objects : List HitObject) :
    List Str → Except SectionParseError (List HitObject × Option Str × List Str)
  | [] => .ok (hit_objects, none, [])
  | line :: reader =>
    if is_section_boundary line then .ok (hit_objects, some line, reader)
    else
      match parse_hit_object line with
      | .error _ => .error ⟨str "[HitObjects]", line⟩
      | .ok ho => parse_hit_objects_section (hit_objects ++ [ho]) reader

/-- Mirror of `BeatmapFileParseErrorKind` (`parsing.rs:1120`).  The
`InvalidFileName` and `Io` variants concern the file-system wrapper, which is
outside the text-parsing model. -/
inductive BeatmapFileParseErrorKind where
  | FileIsEmpty
  | InvalidOsuFileFormat
  | SectionParse (e : SectionParseError)
deriving DecidableEq

/-- Model of Rust `BufRead::lines`: split on `'\n'`, do not yield a final empty
line after a trailing newline, and strip one trailing `'\r'` from each line. -/
def rust_lines (text : Str) : List Str :=
  (if (split_char '\n' text).getLast? = some [] then (split_char '\n' text).dropLast
   else split_char '\n' text).map
    (fun l => if l.getLast? = some '\r' then l.dropLast else l)

/-- The comment/blank filter installed on the reader (`parsing.rs:1173`): keep a
line iff its trim is non-empty and does not start with `//`. -/
def keep_line (line : Str) : Bool :=
  !(trim line).isEmpty && !starts_with (str "//") (trim line)

/-- The `while let Some(section_str) = &section_header` loop of `parse_osu_file`
(`parsing.rs:1216`-1262).  Every iteration either returns or hands the reader
to a section parser, which consumes at least one line before reporting another
section header, so running the loop with `fuel = lines + 2` is exact; the
`fuel = 0` case is unreachable.  An unrecognised header falls into the final
arm, which clears `section_header` and thereby ends the loop successfully. -/
def parse_sections_loop :
    ℕ → Option Str → BeatmapFile → List Str →
      Except BeatmapFileParseErrorKind BeatmapFile
  | 0, _, beatmap, _ => .ok beatmap
  | _ + 1, none, beatmap, _ => .ok beatmap
  | fuel + 1, some section_str, beatmap, reader =>
    if section_str = str "[General]" then
      match parse_general_section GeneralSection.default reader with
      | .error e => .error (.SectionParse e)
      | .ok (sec, section_header, reader) =>
        parse_sections_loop fuel section_header { beatmap with general := some sec } reader
    else if section_str = str "[Editor]" then
      match parse_editor_section ⟨[], none, none, none, none⟩ reader with
      | .error e => .error (.SectionParse e)
      | .ok (sec, section_header, reader) =>
        parse_sections_loop fuel section_header { beatmap with editor := some sec } reader
    else if section_str = str "[Metadata]" then
      match parse_metadata_section MetadataSection.default reader with
      | .error e => .error (.SectionParse e)
      | .ok (sec, section_header, reader) =>
        parse_sections_loop fuel section_header { beatmap with metadata := some sec } reader
    else if section_str = str "[Difficulty]" then
      match parse_difficulty_section DifficultySection.default reader with
      | .error e => .error (.SectionParse e)
      | .ok (sec, section_header, reader) =>
        parse_sections_loop fuel section_header { beatmap with difficulty := some sec } reader
    else if section_str = str "[Events]" then
      match parse_events_section [] reader with
      | .error e => .error (.SectionParse e)
      | .ok (evs, section_header, reader) =>
        parse_sections_loop fuel section_header { beatmap with events := evs } reader
    else if section_str = str "[TimingPoints]" then
      match parse_timing_points_section [] reader with
      | .error e => .error (.SectionParse e)
      | .ok (tps, section_header, reader) =>
        parse_sections_loop fuel section_header { beatmap with timing_points := tps } reader
    else if section_str = str "[Colours]" then
      match parse_colors_section ColorsSection.default reader with
      | .error e => .error (.SectionParse e)
      | .ok (sec, section_header, reader) =>
        parse_sections_loop fuel section_header { beatmap with colors := some sec } reader
    else if section_str = str "[HitObjects]" then
      match parse_hit_objects_section [] reader with
      | .error e => .error (.SectionParse e)
      | .ok (hos, section_header, reader) =>
        parse_sections_loop fuel section_header { beatmap with hit_objects := hos } reader
    else
      -- `_ => section_header = None`: the loop exits and parsing
      -- succeeds with the document accumulated so far
      .ok beatmap

/-- Mirror of `parse_osu_file` (`parsing.rs:1157`) on an in-memory text (the
file-system access and file-name handling of the Rust function are outside the
model): filtered lines, the BOM-tolerant `osu file format v<digits>` header,
then the section loop. -/
def parse_osu_file (text : Str) : Except BeatmapFileParseErrorKind BeatmapFile :=
  match (rust_lines text).filter keep_line with
  | [] => .error .FileIsEmpty
  | fformat_string :: reader =>
    match strip_start (str "osu file format v")
        (fformat_string.dropWhile (fun c => c = '﻿')) with
    | none => .error .InvalidOsuFileFormat
    | some format_version =>
      match parse_uint u32_max format_version with
      | none => .error .InvalidOsuFileFormat
      | some v =>
        match reader with
        | [] => .ok { BeatmapFile.default with osu_file_format := v }
        | line :: reader =>
          parse_sections_loop (reader.length + 2) (some line)
            { BeatmapFile.default with osu_file_format := v } reader

/-! The serializer (`src/osus/src/file/beatmap/deserializing.rs`), modelled as
pure functions producing the written text. -/

/-- One newline, as written by `writeln!`. -/
def nl : Str := ['\n']

/-- Rust `u8::from(bool)` rendered by `Display`. -/
def bool_to_str (b : Bool) : Str := if b then str "1" else str "0"

/-- `{:?}` (`Debug`) rendering of `OverlayPosition`. -/
def OverlayPosition.debug_str : OverlayPosition → Str
  | .NoChange => str "NoChange"
  | .Below => str "Below"
  | .Above => str "Above"

/-- Mirror of `deserialize_general_section` (`deserializing.rs:9`). -/
def deserialize_general_section (sec : GeneralSection) : Str :=
  str "[General]" ++ nl ++
  str "AudioFilename: " ++ sec.audio_filename ++ nl ++
  str "AudioLeadIn: " ++ int_to_str sec.audio_lead_in ++ nl ++
  -- do not write AudioHash (deprecated)
  str "PreviewTime: " ++ q_to_str sec.preview_time ++ nl ++
  str "Countdown: " ++ int_to_str sec.countdown ++ nl ++
  str "SampleSet: " ++ sec.sample_set ++ nl ++
  str "StackLeniency: " ++ q_to_str sec.stack_leniency ++ nl ++
  str "Mode: " ++ nat_to_str sec.mode ++ nl ++
  str "LetterboxInBreaks: " ++ bool_to_str sec.letterbox_in_breaks ++ nl ++
  -- do not write StoryFireInFront (deprecated)
  (if sec.use_skin_sprites then
    str "UseSkinSprites: " ++ bool_to_str sec.use_skin_sprites ++ nl
  else []) ++
  -- do not write AlwaysShowPlayfield (deprecated)
  (if sec.overlay_position ≠ .NoChange then
    str "OverlayPosition: " ++ sec.overlay_position.debug_str ++ nl
  else []) ++
  (match sec.skin_preference with
    | some skin_preference => str "SkinPreference: " ++ skin_preference ++ nl
    | none => []) ++
  (if sec.epilepsy_warning then
    str "EpilepsyWarning: " ++ bool_to_str sec.epilepsy_warning ++ nl
  else []) ++
  (if sec.countdown_offset ≠ 0 then
    str "CountdownOffset: " ++ int_to_str sec.countdown_offset ++ nl
  else []) ++
  (if sec.special_style then
    str "SpecialStyle: " ++ bool_to_str sec.special_style ++ nl
  else []) ++
  str "WidescreenStoryboard: " ++ bool_to_str sec.widescreen_storyboard ++ nl ++
  str "SamplesMatchPlaybackRate: " ++ bool_to_str sec.samples_match_playback_rate ++ nl ++
  nl

/-- Mirror of `deserialize_editor_section` (`deserializing.rs:68`). -/
def deserialize_editor_section (sec : EditorSection) : Str :=
  str "[Editor]" ++ nl ++
  (if sec.bookmarks ≠ [] then
    str "Bookmarks: " ++ List.intercalate (str ",") (sec.bookmarks.map q_to_str) ++ nl
  else []) ++
  str "DistanceSpacing: " ++ q_to_str sec.distance_spacing ++ nl ++
  str "BeatDivisor: " ++ q_to_str sec.beat_divisor ++ nl ++
  str "GridSize: " ++ int_to_str sec.grid_size ++ nl ++
  (match sec.timeline_zoom with
    | some timeline_zoom => str "TimelineZoom: " ++ q_to_str timeline_zoom ++ nl
    | none => []) ++
  nl

/-- Mirror of `deserialize_metadata_section` (`deserializing.rs:86`). -/
def deserialize_metadata_section (sec : MetadataSection) : Str :=
  str "[Metadata]" ++ nl ++
  str "Title: " ++ sec.title ++ nl ++
  str "TitleUnicode: " ++ sec.title_unicode ++ nl ++
  str "Artist: " ++ sec.artist ++ nl ++
  str "ArtistUnicode: " ++ sec.artist_unicode ++ nl ++
  str "Creator: " ++ sec.creator ++ nl ++
  str "Version: " ++ sec.version ++ nl ++
  str "Source: " ++ sec.source ++ nl ++
  (if sec.tags ≠ [] then
    str "Tags: " ++ List.intercalate (str " ") sec.tags ++ nl
  else []) ++
  (match sec.beatmap_id with
    | some beatmap_id => str "BeatmapID: " ++ int_to_str beatmap_id ++ nl
    | none => []) ++
  (match sec.beatmap_set_id with
    | some beatmap_set_id => str "BeatmapSetID: " ++ int_to_str beatmap_set_id ++ nl
    | none => []) ++
  nl

/-- Mirror of `deserialize_difficulty_section` (`deserializing.rs:110`). -/
def deserialize_difficulty_section (sec : DifficultySection) : Str :=
  str "[Difficulty]" ++ nl ++
  str "HPDrainRate: " ++ q_to_str sec.hp_drain_rate ++ nl ++
  str "CircleSize: " ++ q_to_str sec.circle_size ++ nl ++
  str "OverallDifficulty: " ++ q_to_str sec.overall_difficulty ++ nl ++
  str "ApproachRate: " ++ q_to_str sec.approach_rate ++ nl ++
  str "SliderMultiplier: " ++ q_to_str sec.slider_multiplier ++ nl ++
  str "SliderTickRate: " ++ q_to_str sec.slider_tick_rate ++ nl ++
  nl

/-- Mirror of `deserialize_event` (`deserializing.rs:124`). -/
def deserialize_event (event : Event) : Str :=
  event.event_type ++ ',' :: q_to_str event.start_time ++ [','] ++
  (match event.params with
    | .Background filename x_offset y_offset =>
      filename ++ ',' :: int_to_str x_offset ++ ',' :: int_to_str y_offset ++ nl
    | .Video filename x_offset y_offset =>
      filename ++ ',' :: int_to_str x_offset ++ ',' :: int_to_str y_offset ++ nl
    | .Break end_time => q_to_str end_time ++ nl)

/-- Mirror of `deserialize_timing_point` (`deserializing.rs:145`). -/
def deserialize_timing_point (timing_point : TimingPoint) : Str :=
  q_to_str timing_point.time ++ ',' :: q_to_str timing_point.beat_length ++
  ',' :: int_to_str timing_point.meter ++
  ',' :: nat_to_str timing_point.sample_set.toNat ++
  ',' :: nat_to_str timing_point.sample_index ++
  ',' :: nat_to_str timing_point.volume ++
  ',' :: bool_to_str timing_point.uninherited ++
  ',' :: nat_to_str timing_point.effects ++ nl

/-- Combo-color lines of `deserialize_color_section` (the `enumerate`d loop). -/
def deserialize_combo_colors (i : ℕ) : List Color → Str
  | [] => []
  | combo_color :: rest =>
    str "Combo" ++ nat_to_str (i + 1) ++ str ": " ++ combo_color.to_osu_string ++ nl ++
      deserialize_combo_colors (i + 1) rest

/-- Mirror of `deserialize_color_section` (`deserializing.rs:168`). -/
def deserialize_color_section (sec : ColorsSection) : Str :=
  str "[Colours]" ++ nl ++
  deserialize_combo_colors 0 sec.combo_colors ++
  (match sec.slider_track_override with
    | some c => str "SliderTrackOverride: " ++ c.to_osu_string ++ nl
    | none => []) ++
  (match sec.slider_border with
    | some c => str "SliderBorder: " ++ c.to_osu_string ++ nl
    | none => []) ++
  nl

/-- Letter prefix written for a slider point's curve type
(`deserializing.rs:198`). -/
def curve_type_letter : SliderCurveType → Str
  | .Inherit => []
  | .Bezier => str "B|"
  | .Catmull => str "C|"
  | .Linear => str "L|"
  | .PerfectCurve => str "P|"

/-- Loop of `deserialize_curve_points` (`deserializing.rs:186`): a `|`
separator between points, a double letter when the first point's own type
differs from the chain's nominal type. -/
def deserialize_curve_points_go (first_curve_type : SliderCurveType) (started : Bool) :
    List SliderPoint → Str
  | [] => []
  | curve_point :: rest =>
    (if started then str "|" else []) ++
    (if !started && curve_point.curve_type ≠ first_curve_type then
      curve_type_letter first_curve_type
    else []) ++
    curve_type_letter curve_point.curve_type ++
    int_to_str curve_point.x ++ ':' :: int_to_str curve_point.y ++
    deserialize_curve_points_go first_curve_type true rest

/-- Mirror of `deserialize_curve_points` (`deserializing.rs:186`). -/
def deserialize_curve_points (first_curve_type : SliderCurveType)
    (curve_points : List SliderPoint) : Str :=
  deserialize_curve_points_go first_curve_type false curve_points

/-- Mirror of `deserialize_hit_object` (`deserializing.rs:224`). -/
def deserialize_hit_object (hit_object : HitObject) : Str :=
  int_to_str hit_object.x ++ ',' :: int_to_str hit_object.y ++
  ',' :: q_to_str hit_object.time ++
  ',' :: nat_to_str hit_object.raw_object_type ++
  ',' :: nat_to_str hit_object.hit_sound.bits ++
  (match hit_object.object_params with
    | .HitCircle => ',' :: hit_object.hit_sample.to_osu_string ++ nl
    | .Slider first_curve_type curve_points slides length edge_hitsounds edge_samplesets =>
      ',' :: deserialize_curve_points first_curve_type curve_points ++
      ',' :: nat_to_str slides ++ ',' :: q_to_str length ++
      (if edge_hitsounds ≠ [] && edge_samplesets ≠ [] then
        ',' :: List.intercalate (str "|")
          (edge_hitsounds.map (fun h => nat_to_str h.bits)) ++
        ',' :: List.intercalate (str "|")
          (edge_samplesets.map HitSampleSet.to_osu_string)
      else []) ++
      ',' :: hit_object.hit_sample.to_osu_string ++ nl
    | .Spinner end_time =>
      ',' :: q_to_str end_time ++ ',' :: hit_object.hit_sample.to_osu_string ++ nl
    | .Hold end_time =>
      ',' :: q_to_str end_time ++ ':' :: hit_object.hit_sample.to_osu_string ++ nl)

/-- Mirror of `deserialize_beatmap_file` (`deserializing.rs:283`).  Note the
header: the source writes `"osu file format v{}\n\n"` with the literal `128`
("I could use self.osu_file_format, but I'm not deserializing to old
formats"), ignoring the document's `osu_file_format` field. -/
def deserialize_beatmap_file (bm_file : BeatmapFile) : Str :=
  str "osu file format v128" ++ nl ++ nl ++
  (match bm_file.general with
    | some general => deserialize_general_section general
    | none => []) ++
  (match bm_file.editor with
    | some editor => deserialize_editor_section editor
    | none => []) ++
  (match bm_file.metadata with
    | some metadata => deserialize_metadata_section metadata
    | none => []) ++
  (match bm_file.difficulty with
    | some difficulty => deserialize_difficulty_section difficulty
    | none => []) ++
  (if bm_file.events ≠ [] then
    str "[Events]" ++ nl ++
      (bm_file.events.map deserialize_event).flatten ++ nl
  else []) ++
  (if bm_file.timing_points ≠ [] then
    str "[TimingPoints]" ++ nl ++
      (bm_file.timing_points.map deserialize_timing_point).flatten ++ nl
  else []) ++
  (match bm_file.colors with
    | some colors => deserialize_color_section colors
    | none => []) ++
  (if bm_file.hit_objects ≠ [] then
    str "[HitObjects]" ++ nl ++
      (bm_file.hit_objects.map deserialize_hit_object).flatten
  else [])

/-! Lemmas about line splitting, and the claims C1–C3. -/

theorem split_char_ne_nil (sep : Char) (s : Str) : split_char sep s ≠ [] := by
  cases s with
  | nil => simp [split_char]
  | cons c rest =>
    simp only [split_char]
    cases h : split_char sep rest with
    | nil => simp
    | cons p ps =>
      by_cases hc : c = sep <;> simp [hc]

theorem split_char_append (sep : Char) (x y : Str) (hx : sep ∉ x) :
    split_char sep (x ++ sep :: y) = x :: split_char sep y := by
  induction x with
  | nil =>
    simp only [List.nil_append, split_char]
    cases h : split_char sep y with
    | nil => exact absurd h (split_char_ne_nil sep y)
    | cons p ps => simp
  | cons c x' ih =>
    have hc : c ≠ sep := fun h => hx (h ▸ List.mem_cons_self c x')
    have hx' : sep ∉ x' := fun h => hx (List.mem_cons_of_mem c h)
    simp only [List.cons_append, split_char, List.append_eq]
    rw [ih hx']
    simp [hc]

/-- Peeling one full line off the front of a text: when `x` contains no newline
and does not end in `'\r'`, `rust_lines (x ++ '\n' :: y) = x :: rust_lines y`. -/
theorem rust_lines_cons (x y : Str) (hx : '\n' ∉ x)
    (hcr : x.getLast? ≠ some '\r') :
    rust_lines (x ++ '\n' :: y) = x :: rust_lines y := by
  unfold rust_lines
  rw [split_char_append '\n' x y hx]
  cases h : split_char '\n' y with
  | nil => exact absurd h (split_char_ne_nil '\n' y)
  | cons p ps =>
    have hlast : (x :: p :: ps).getLast? = (p :: ps).getLast? := by
      simp [List.getLast?_cons_cons]
    rw [hlast]
    by_cases hnil : (p :: ps).getLast? = some []
    · simp only [hnil, if_true]
      have hdl : (x :: p :: ps).dropLast = x :: (p :: ps).dropLast := by
        simp [List.dropLast]
      rw [hdl]
      simp only [List.map_cons]
      rw [if_neg hcr]
    · simp only [hnil, if_false]
      simp only [List.map_cons]
      rw [if_neg hcr]

/-- First line of a text that starts with a newline-free piece. -/
theorem headI_split_char (x y : Str) (hx : '\n' ∉ x) :
    (split_char '\n' (x ++ '\n' :: y)).headI = x := by
  rw [split_char_append '\n' x y hx]
  rfl

/-- Claim C2 (amended): the serializer always emits `osu file format v128` as
its first line — the `128` is hardcoded at `deserializing.rs:285` — so the
header does not reflect the document's `osu_file_format` field, and two
documents differing only in `osu_file_format` serialize to identical texts. -/
theorem C2_serializer_header (d : BeatmapFile) (n : ℕ) :
    (split_char '\n' (deserialize_beatmap_file d)).headI = str "osu file format v128" ∧
    deserialize_beatmap_file { d with osu_file_format := n } =
      deserialize_beatmap_file d := by
  constructor
  · unfold deserialize_beatmap_file
    simp only [nl, List.append_assoc, List.cons_append, List.nil_append]
    exact headI_split_char _ _ (by decide)
  · rfl

/-- Claim C2 counterexample: a document declaring format version 14 does not
serialize with first line `osu file format v14`; the header is the hardcoded
`osu file format v128`. -/
theorem C2_counterexample :
    (split_char '\n' (deserialize_beatmap_file
        { BeatmapFile.default with osu_file_format := 14 })).headI ≠
      str "osu file format v14" ∧
    (split_char '\n' (deserialize_beatmap_file
        { BeatmapFile.default with osu_file_format := 14 })).headI =
      str "osu file format v128" := by
  constructor <;> decide

/-- The eight recognised section header lines of `parse_osu_file`. -/
def known_section_headers : List Str :=
  [str "[General]", str "[Editor]", str "[Metadata]", str "[Difficulty]",
   str "[Events]", str "[TimingPoints]", str "[Colours]", str "[HitObjects]"]

/-- Claim C3 (amended): a bracketed section header whose name is not one of the
eight recognised identifiers does not make parsing fail with an
unknown-section error (no such error exists in `BeatmapFileParseErrorKind`);
instead the main loop's final arm clears `section_header` and parsing returns
`Ok` with the document accumulated so far, silently dropping that section and
everything after it.  Here: with the unknown header as the first section line,
the whole remainder of the input is ignored. -/
theorem C3_unknown_section_silently_succeeds (u : Str) (rest : Str)
    (hbrack : u.head? = some '[' ∧ ends_with ']' u = true)
    (hknown : u ∉ known_section_headers)
    (hnl : '\n' ∉ u)
    (hkeep : keep_line u = true) :
    parse_osu_file (str "osu file format v14" ++ '\n' :: u ++ '\n' :: rest) =
      .ok { BeatmapFile.default with osu_file_format := 14 } := by
  have hcr : u.getLast? ≠ some '\r' := by
    rw [show u.getLast? = some ']' from by simpa [ends_with] using hbrack.2]
    simp
  have hosu : rust_lines (str "osu file format v14" ++ '\n' :: (u ++ '\n' :: rest)) =
      str "osu file format v14" :: u :: rust_lines rest := by
    rw [rust_lines_cons _ _ (by decide) (by decide), rust_lines_cons _ _ hnl hcr]
  unfold parse_osu_file
  rw [show str "osu file format v14" ++ '\n' :: u ++ '\n' :: rest =
    str "osu file format v14" ++ '\n' :: (u ++ '\n' :: rest) by simp]
  rw [hosu]
  simp only [List.filter_cons,
    show keep_line (str "osu file format v14") = true from by decide, hkeep, if_true,
    show (str "osu file format v14").dropWhile (fun c => c = '﻿') =
      str "osu file format v14" from by decide,
    show strip_start (str "osu file format v") (str "osu file format v14") =
      some (str "14") from by decide,
    show parse_uint u32_max (str "14") = some 14 from by decide]
  simp only [parse_sections_loop]
  have h1 : ¬ u = str "[General]" := fun h => hknown (by simp [known_section_headers, h])
  have h2 : ¬ u = str "[Editor]" := fun h => hknown (by simp [known_section_headers, h])
  have h3 : ¬ u = str "[Metadata]" := fun h => hknown (by simp [known_section_headers, h])
  have h4 : ¬ u = str "[Difficulty]" := fun h => hknown (by simp [known_section_headers, h])
  have h5 : ¬ u = str "[Events]" := fun h => hknown (by simp [known_section_headers, h])
  have h6 : ¬ u = str "[TimingPoints]" := fun h => hknown (by simp [known_section_headers, h])
  have h7 : ¬ u = str "[Colours]" := fun h => hknown (by simp [known_section_headers, h])
  have h8 : ¬ u = str "[HitObjects]" := fun h => hknown (by simp [known_section_headers, h])
  simp [h1, h2, h3, h4, h5, h6, h7, h8]

/-- Witness for C3: the unknown header `[Foo]` followed by arbitrary further
content (here a whole `[General]` section). -/
theorem C3_witness :
    (((str "[Foo]").head? = some '[' ∧ ends_with ']' (str "[Foo]") = true) ∧
      str "[Foo]" ∉ known_section_headers ∧ '\n' ∉ str "[Foo]" ∧
      keep_line (str "[Foo]") = true) ∧
    parse_osu_file (str "osu file format v14" ++ '\n' :: str "[Foo]" ++
        '\n' :: str "[General]\nMode: 3\n") =
      .ok { BeatmapFile.default with osu_file_format := 14 } := by
  refine ⟨⟨⟨by decide, by decide⟩, by decide, by decide, by decide⟩, ?_⟩
  exact C3_unknown_section_silently_succeeds (str "[Foo]") (str "[General]\nMode: 3\n")
    ⟨by decide, by decide⟩ (by decide) (by decide) (by decide)

/-- Claim C3 counterexample: parsing a file whose body contains the
unrecognised bracketed header `[Foo]` succeeds (with the `[General]` section
after it silently dropped), instead of failing with an unknown-section
error naming `[Foo]`. -/
theorem C3_counterexample :
    parse_osu_file (str "osu file format v14\n\n[Foo]\n[General]\nMode: 3\n") =
      .ok { BeatmapFile.default with osu_file_format := 14 } := by
  decide

/-- Claim C1 counterexample: the document parsed from the (canonical) text
`osu file format v14\n` has `osu_file_format = 14`, but its serialization is
headed `osu file format v128` (hardcoded at `deserializing.rs:285`), so
re-parsing yields a document with `osu_file_format = 128`, which is not
structurally equal to the original. -/
theorem C1_counterexample :
    parse_osu_file (str "osu file format v14\n") =
      .ok { BeatmapFile.default with osu_file_format := 14 } ∧
    deserialize_beatmap_file { BeatmapFile.default with osu_file_format := 14 } =
      str "osu file format v128\n\n" ∧
    parse_osu_file (str "osu file format v128\n\n") =
      .ok { BeatmapFile.default with osu_file_format := 128 } ∧
    ({ BeatmapFile.default with osu_file_format := 128 } : BeatmapFile) ≠
      { BeatmapFile.default with osu_file_format := 14 } := by
  refine ⟨by decide, by decide, by decide, by decide⟩

/-! Round-trip lemmas for the numeric printers and parsers, towards the
(amended) round-trip property C1. -/

/-- Folded value of a digit string (the accumulator of `parse_digits`). -/
def digitsVal (s : Str) : ℕ :=
  s.foldl (fun acc c => acc * 10 + (c.toNat - 48)) 0

theorem char_ofNat_toNat (m : ℕ) (h : m < 55296) : (Char.ofNat m).toNat = m := by
  unfold Char.ofNat
  rw [dif_pos (Or.inl (by omega) : m.isValidChar)]
  rfl

theorem char_isDigit_iff (c : Char) :
    c.isDigit = true ↔ 48 ≤ c.toNat ∧ c.toNat ≤ 57 := by
  simp [Char.isDigit, UInt32.le_def, Char.toNat, BitVec.le_def, UInt32.toNat]

theorem digit_char_isDigit (m : ℕ) (h : m < 10) :
    (Char.ofNat (48 + m)).isDigit = true := by
  rw [char_isDigit_iff, char_ofNat_toNat (48 + m) (by omega)]
  omega

theorem nat_to_str_aux_append (fuel : ℕ) :
    ∀ (n : ℕ) (acc : Str),
      nat_to_str_aux fuel n acc = nat_to_str_aux fuel n [] ++ acc := by
  induction fuel with
  | zero => intro n acc; simp [nat_to_str_aux]
  | succ fuel ih =>
    intro n acc
    simp only [nat_to_str_aux]
    by_cases h : n < 10
    · simp [h]
    · simp only [h, if_false]
      rw [ih (n / 10) (Char.ofNat (48 + n % 10) :: acc),
        ih (n / 10) [Char.ofNat (48 + n % 10)]]
      simp

theorem digits_foldl_acc (s : Str) :
    ∀ v : ℕ, s.foldl (fun acc c => acc * 10 + (c.toNat - 48)) v =
      v * 10 ^ s.length + digitsVal s := by
  induction s with
  | nil => intro v; simp [digitsVal]
  | cons c s ih =>
    intro v
    simp only [List.foldl_cons, List.length_cons]
    rw [ih (v * 10 + (c.toNat - 48))]
    have hd : digitsVal (c :: s) = (c.toNat - 48) * 10 ^ s.length + digitsVal s := by
      unfold digitsVal
      simp only [List.foldl_cons]
      rw [ih (0 * 10 + (c.toNat - 48))]
      ring_nf
      simp [digitsVal]
    rw [hd]
    ring

theorem digitsVal_append (a b : Str) :
    digitsVal (a ++ b) = digitsVal a * 10 ^ b.length + digitsVal b := by
  unfold digitsVal
  rw [List.foldl_append]
  rw [digits_foldl_acc b (List.foldl (fun acc c => acc * 10 + (c.toNat - 48)) 0 a)]
  simp [digitsVal]

theorem nat_to_str_aux_spec (fuel : ℕ) :
    ∀ n : ℕ, n < 10 ^ fuel → 0 < fuel →
      (nat_to_str_aux fuel n []).all Char.isDigit = true ∧
      nat_to_str_aux fuel n [] ≠ [] ∧
      digitsVal (nat_to_str_aux fuel n []) = n := by
  induction fuel with
  | zero => intro n _ h0; omega
  | succ fuel ih =>
    intro n hn _
    simp only [nat_to_str_aux]
    by_cases h : n < 10
    · simp only [h, if_true]
      refine ⟨?_, by simp, ?_⟩
      · simp [List.all_cons, digit_char_isDigit (n % 10) (Nat.mod_lt n (by omega))]
      · unfold digitsVal
        simp only [List.foldl_cons, List.foldl_nil]
        rw [char_ofNat_toNat (48 + n % 10) (by omega)]
        omega
    · simp only [h, if_false]
      rw [nat_to_str_aux_append fuel (n / 10) [Char.ofNat (48 + n % 10)]]
      have hdiv : n / 10 < 10 ^ fuel := by
        rcases Nat.eq_zero_or_pos fuel with hf | hf
        · subst hf; simp at hn; omega
        · have : n < 10 ^ (fuel + 1) := hn
          have h10 : 10 ^ (fuel + 1) = 10 ^ fuel * 10 := by ring
          omega
      have hfpos : 0 < fuel := by
        by_contra hf
        have : fuel = 0 := by omega
        subst this
        simp at hn
        omega
      obtain ⟨ha, hne, hval⟩ := ih (n / 10) hdiv hfpos
      refine ⟨?_, by simp [hne], ?_⟩
      · rw [List.all_append, ha]
        simp [digit_char_isDigit (n % 10) (Nat.mod_lt n (by omega))]
      · rw [digitsVal_append, hval]
        unfold digitsVal
        simp only [List.foldl_cons, List.foldl_nil, List.length_cons, List.length_nil]
        rw [char_ofNat_toNat (48 + n % 10) (by omega)]
        omega

theorem nat_to_str_aux_congr (f1 : ℕ) :
    ∀ (f2 n : ℕ), n < 10 ^ f1 → n < 10 ^ f2 → 0 < f1 → 0 < f2 →
      nat_to_str_aux f1 n [] = nat_to_str_aux f2 n [] := by
  induction f1 with
  | zero => intro f2 n _ _ h0 _; omega
  | succ f1 ih =>
    intro f2 n h1 h2 _ hf2
    obtain ⟨f2', rfl⟩ : ∃ f2', f2 = f2' + 1 := ⟨f2 - 1, by omega⟩
    simp only [nat_to_str_aux]
    by_cases h : n < 10
    · simp [h]
    · simp only [h, if_false]
      rw [nat_to_str_aux_append f1 (n / 10), nat_to_str_aux_append f2' (n / 10)]
      have hd1 : n / 10 < 10 ^ f1 := by
        rcases Nat.eq_zero_or_pos f1 with hf | hf
        · subst hf; simp at h1; omega
        · have h10 : 10 ^ (f1 + 1) = 10 ^ f1 * 10 := by ring
          omega
      have hd2 : n / 10 < 10 ^ f2' := by
        rcases Nat.eq_zero_or_pos f2' with hf | hf
        · subst hf; simp at h2; omega
        · have h10 : 10 ^ (f2' + 1) = 10 ^ f2' * 10 := by ring
          omega
      have hp1 : 0 < f1 := by
        by_contra hf
        have : f1 = 0 := by omega
        subst this
        simp at h1
        omega
      have hp2 : 0 < f2' := by
        by_contra hf
        have : f2' = 0 := by omega
        subst this
        simp at h2
        omega
      rw [ih f2' (n / 10) hd1 hd2 hp1 hp2]

theorem nat_to_str_aux_length (fuel : ℕ) :
    ∀ n : ℕ, n < 10 ^ fuel → (nat_to_str_aux fuel n []).length ≤ fuel := by
  induction fuel with
  | zero => intro n _; simp [nat_to_str_aux]
  | succ fuel ih =>
    intro n hn
    simp only [nat_to_str_aux]
    by_cases h : n < 10
    · simp [h]
    · simp only [h, if_false]
      rw [nat_to_str_aux_append fuel (n / 10)]
      have hd : n / 10 < 10 ^ fuel := by
        rcases Nat.eq_zero_or_pos fuel with hf | hf
        · subst hf; simp at hn; omega
        · have h10 : 10 ^ (fuel + 1) = 10 ^ fuel * 10 := by ring
          omega
      have := ih (n / 10) hd
      simp only [List.length_append, List.length_cons, List.length_nil]
      omega

theorem nat_lt_ten_pow_succ (n : ℕ) : n < 10 ^ (n + 1) := by
  calc n < 10 ^ n := Nat.lt_pow_self (by omega) n
  _ ≤ 10 ^ (n + 1) := Nat.pow_le_pow_right (by omega) (by omega)

theorem nat_to_str_spec (n : ℕ) :
    (nat_to_str n).all Char.isDigit = true ∧ nat_to_str n ≠ [] ∧
      digitsVal (nat_to_str n) = n :=
  nat_to_str_aux_spec (n + 1) n (nat_lt_ten_pow_succ n) (by omega)

theorem nat_to_str_length_le (n m : ℕ) (hm : 0 < m) (hn : n < 10 ^ m) :
    (nat_to_str n).length ≤ m := by
  unfold nat_to_str
  rw [nat_to_str_aux_congr (n + 1) m n (nat_lt_ten_pow_succ n) hn (by omega) hm]
  exact nat_to_str_aux_length m n hn

theorem parse_digits_nat_to_str (n : ℕ) : parse_digits (nat_to_str n) = some n := by
  obtain ⟨hall, hne, hval⟩ := nat_to_str_spec n
  unfold parse_digits
  rw [if_pos]
  · rw [show (nat_to_str n).foldl (fun acc c => acc * 10 + (c.toNat - 48)) 0 =
      digitsVal (nat_to_str n) from rfl, hval]
  · simp [hne, hall]

theorem nat_to_str_head_isDigit (n : ℕ) :
    ∃ c rest, nat_to_str n = c :: rest ∧ c.isDigit = true := by
  obtain ⟨hall, hne, -⟩ := nat_to_str_spec n
  cases h : nat_to_str n with
  | nil => exact absurd h hne
  | cons c rest =>
    refine ⟨c, rest, rfl, ?_⟩
    rw [h] at hall
    simp only [List.all_cons, Bool.and_eq_true] at hall
    exact hall.1

theorem isDigit_ne (c : Char) (hc : c.isDigit = true) (d : Char)
    (hd : d.toNat < 48 ∨ 57 < d.toNat) : c ≠ d := by
  rw [char_isDigit_iff] at hc
  intro h
  subst h
  omega

theorem nat_to_str_head_ne (n : ℕ) (d : Char) (hd : d.toNat < 48 ∨ 57 < d.toNat) :
    (nat_to_str n).head? ≠ some d := by
  obtain ⟨c, rest, heq, hc⟩ := nat_to_str_head_isDigit n
  rw [heq]
  simp only [List.head?_cons]
  exact fun hh => isDigit_ne c hc d hd (Option.some.inj hh)

theorem parse_uint_nat_to_str (max n : ℕ) (h : n ≤ max) :
    parse_uint max (nat_to_str n) = some n := by
  simp only [parse_uint, if_neg (nat_to_str_head_ne n '+' (by left; decide)),
    parse_digits_nat_to_str, if_pos h]

theorem parse_sint_int_to_str (max : ℕ) (z : ℤ) (hlo : -((max : ℤ) + 1) ≤ z)
    (hhi : z ≤ max) : parse_sint max (int_to_str z) = some z := by
  by_cases hneg : z < 0
  · have hz : int_to_str z = '-' :: nat_to_str z.natAbs := by
      rw [int_to_str, if_pos hneg]
    rw [hz]
    simp only [parse_sint]
    rw [if_pos (show (('-' : Char) :: nat_to_str z.natAbs).head? = some '-' from rfl)]
    simp only [List.tail_cons, parse_digits_nat_to_str]
    rw [if_pos (show z.natAbs ≤ max + 1 by omega)]
    congr 1
    omega
  · have hz : int_to_str z = nat_to_str z.toNat := by
      rw [int_to_str, if_neg hneg]
    rw [hz]
    simp only [parse_sint, if_neg (nat_to_str_head_ne z.toNat '-' (by left; decide)),
      if_neg (nat_to_str_head_ne z.toNat '+' (by left; decide)),
      parse_digits_nat_to_str]
    rw [if_pos (by omega)]
    congr 1
    omega

theorem split_once_eq_none (c : Char) (s : Str) (h : c ∉ s) : split_once c s = none := by
  induction s with
  | nil => rfl
  | cons d t ih =>
    simp only [List.mem_cons, not_or] at h
    rw [split_once, if_neg (fun hh => h.1 hh.symm), ih h.2]
    rfl

theorem split_once_append (c : Char) (a b : Str) (h : c ∉ a) :
    split_once c (a ++ c :: b) = some (a, b) := by
  induction a with
  | nil => simp [split_once]
  | cons d t ih =>
    simp only [List.mem_cons, not_or] at h
    rw [List.cons_append, split_once, if_neg (fun hh => h.1 hh.symm), ih h.2]
    rfl

theorem not_mem_of_all_digits (s : Str) (hall : s.all Char.isDigit = true)
    (d : Char) (hd : d.toNat < 48 ∨ 57 < d.toNat) : d ∉ s := by
  intro hmem
  rw [List.all_eq_true] at hall
  exact isDigit_ne d (hall d hmem) d hd rfl

theorem digitsVal_replicate_zero (m : ℕ) : digitsVal (List.replicate m '0') = 0 := by
  induction m with
  | zero => rfl
  | succ j ih =>
    rw [List.replicate_succ,
      show ('0' :: List.replicate j '0') = ['0'] ++ List.replicate j '0' from rfl,
      digitsVal_append, ih, show digitsVal ['0'] = 0 from by decide]
    simp

theorem replicate_zero_all_digits (m : ℕ) :
    (List.replicate m '0').all Char.isDigit = true := by
  rw [List.all_eq_true]
  intro c hc
  rw [List.eq_of_mem_replicate hc]
  decide

theorem parse_float_decimal_pos (ip fp k : ℕ) (hk : 0 < k) (hfp : fp < 10 ^ k) :
    parse_float (nat_to_str ip ++ '.' ::
        (List.replicate (k - (nat_to_str fp).length) '0' ++ nat_to_str fp)) =
      some ((ip * 10 ^ k + fp : ℕ) / (10 ^ k : ℚ)) := by
  obtain ⟨hallA, hneA, hvalA⟩ := nat_to_str_spec ip
  obtain ⟨hallF, hneF, hvalF⟩ := nat_to_str_spec fp
  have hallP : (List.replicate (k - (nat_to_str fp).length) '0' ++
      nat_to_str fp).all Char.isDigit = true := by
    rw [List.all_append, replicate_zero_all_digits, hallF]
    rfl
  have hlenF : (nat_to_str fp).length ≤ k := nat_to_str_length_le fp k hk hfp
  have hlenP : (List.replicate (k - (nat_to_str fp).length) '0' ++
      nat_to_str fp).length = k := by
    rw [List.length_append, List.length_replicate]
    omega
  have hvalP : digitsVal (List.replicate (k - (nat_to_str fp).length) '0' ++
      nat_to_str fp) = fp := by
    rw [digitsVal_append, digitsVal_replicate_zero, hvalF]
    simp
  have hmem : ∀ d : Char, 57 < d.toNat → d ∉ nat_to_str ip ++ '.' ::
      (List.replicate (k - (nat_to_str fp).length) '0' ++ nat_to_str fp) := by
    intro d hd hmemd
    rcases List.mem_append.mp hmemd with h1 | h1
    · exact not_mem_of_all_digits _ hallA d (Or.inr hd) h1
    · rcases List.mem_cons.mp h1 with h2 | h2
      · rw [h2] at hd
        exact absurd hd (by decide)
      · exact not_mem_of_all_digits _ hallP d (Or.inr hd) h2
  obtain ⟨c, crest, hAeq, hcdig⟩ := nat_to_str_head_isDigit ip
  have hhead : (nat_to_str ip ++ '.' ::
      (List.replicate (k - (nat_to_str fp).length) '0' ++ nat_to_str fp)).head? =
      some c := by
    rw [hAeq]
    rfl
  have hc1 : (nat_to_str ip ++ '.' ::
      (List.replicate (k - (nat_to_str fp).length) '0' ++ nat_to_str fp)).head? ≠
      some '-' := by
    rw [hhead]
    exact fun hh => isDigit_ne c hcdig '-' (by left; decide) (Option.some.inj hh)
  have hc2 : (nat_to_str ip ++ '.' ::
      (List.replicate (k - (nat_to_str fp).length) '0' ++ nat_to_str fp)).head? ≠
      some '+' := by
    rw [hhead]
    exact fun hh => isDigit_ne c hcdig '+' (by left; decide) (Option.some.inj hh)
  have he := split_once_eq_none 'e' _ (hmem 'e' (by decide))
  have hE := split_once_eq_none 'E' _ (hmem 'E' (by decide))
  have hdot := split_once_append '.' (nat_to_str ip)
    (List.replicate (k - (nat_to_str fp).length) '0' ++ nat_to_str fp)
    (not_mem_of_all_digits _ hallA '.' (Or.inl (by decide)))
  simp only [parse_float, if_neg hc1, if_neg hc2, he, hE, parse_mantissa, hdot]
  rw [if_neg (by simp [hAeq])]
  rw [if_pos (by rw [hallA, hallP]; rfl)]
  have hnum : (nat_to_str ip ++ (List.replicate (k - (nat_to_str fp).length) '0' ++
      nat_to_str fp)).foldl (fun acc c => acc * 10 + (c.toNat - 48)) 0 =
      ip * 10 ^ k + fp := by
    rw [show (nat_to_str ip ++ (List.replicate (k - (nat_to_str fp).length) '0' ++
        nat_to_str fp)).foldl (fun acc c => acc * 10 + (c.toNat - 48)) 0 =
        digitsVal (nat_to_str ip ++ (List.replicate (k - (nat_to_str fp).length) '0' ++
        nat_to_str fp)) from rfl, digitsVal_append, hvalA, hvalP, hlenP]
  rw [hnum, hlenP]
  show some (1 * ((ip * 10 ^ k + fp : ℕ) : ℚ) / 10 ^ k * (10 : ℚ) ^ (0 : ℤ)) =
    some ((ip * 10 ^ k + fp : ℕ) / (10 ^ k : ℚ))
  rw [zpow_zero, one_mul, mul_one]

theorem parse_float_decimal_neg (ip fp k : ℕ) (hk : 0 < k) (hfp : fp < 10 ^ k) :
    parse_float ('-' :: (nat_to_str ip ++ '.' ::
        (List.replicate (k - (nat_to_str fp).length) '0' ++ nat_to_str fp))) =
      some (-((ip * 10 ^ k + fp : ℕ) / (10 ^ k : ℚ))) := by
  obtain ⟨hallA, hneA, hvalA⟩ := nat_to_str_spec ip
  obtain ⟨hallF, hneF, hvalF⟩ := nat_to_str_spec fp
  have hallP : (List.replicate (k - (nat_to_str fp).length) '0' ++
      nat_to_str fp).all Char.isDigit = true := by
    rw [List.all_append, replicate_zero_all_digits, hallF]
    rfl
  have hlenF : (nat_to_str fp).length ≤ k := nat_to_str_length_le fp k hk hfp
  have hlenP : (List.replicate (k - (nat_to_str fp).length) '0' ++
      nat_to_str fp).length = k := by
    rw [List.length_append, List.length_replicate]
    omega
  have hvalP : digitsVal (List.replicate (k - (nat_to_str fp).length) '0' ++
      nat_to_str fp) = fp := by
    rw [digitsVal_append, digitsVal_replicate_zero, hvalF]
    simp
  have hmem : ∀ d : Char, 57 < d.toNat → d ∉ nat_to_str ip ++ '.' ::
      (List.replicate (k - (nat_to_str fp).length) '0' ++ nat_to_str fp) := by
    intro d hd hmemd
    rcases List.mem_append.mp hmemd with h1 | h1
    · exact not_mem_of_all_digits _ hallA d (Or.inr hd) h1
    · rcases List.mem_cons.mp h1 with h2 | h2
      · rw [h2] at hd
        exact absurd hd (by decide)
      · exact not_mem_of_all_digits _ hallP d (Or.inr hd) h2
  obtain ⟨c, crest, hAeq, hcdig⟩ := nat_to_str_head_isDigit ip
  have he := split_once_eq_none 'e' _ (hmem 'e' (by decide))
  have hE := split_once_eq_none 'E' _ (hmem 'E' (by decide))
  have hdot := split_once_append '.' (nat_to_str ip)
    (List.replicate (k - (nat_to_str fp).length) '0' ++ nat_to_str fp)
    (not_mem_of_all_digits _ hallA '.' (Or.inl (by decide)))
  simp only [parse_float]
  rw [if_pos (show (('-' : Char) :: (nat_to_str ip ++ '.' ::
      (List.replicate (k - (nat_to_str fp).length) '0' ++ nat_to_str fp))).head? =
      some '-' from rfl)]
  simp only [List.tail_cons, he, hE, parse_mantissa, hdot]
  rw [if_neg (by simp [hAeq])]
  rw [if_pos (by rw [hallA, hallP]; rfl)]
  have hnum : (nat_to_str ip ++ (List.replicate (k - (nat_to_str fp).length) '0' ++
      nat_to_str fp)).foldl (fun acc c => acc * 10 + (c.toNat - 48)) 0 =
      ip * 10 ^ k + fp := by
    rw [show (nat_to_str ip ++ (List.replicate (k - (nat_to_str fp).length) '0' ++
        nat_to_str fp)).foldl (fun acc c => acc * 10 + (c.toNat - 48)) 0 =
        digitsVal (nat_to_str ip ++ (List.replicate (k - (nat_to_str fp).length) '0' ++
        nat_to_str fp)) from rfl, digitsVal_append, hvalA, hvalP, hlenP]
  rw [hnum, hlenP]
  show some (-1 * ((ip * 10 ^ k + fp : ℕ) : ℚ) / 10 ^ k * (10 : ℚ) ^ (0 : ℤ)) =
    some (-((ip * 10 ^ k + fp : ℕ) / (10 ^ k : ℚ)))
  rw [zpow_zero, mul_one]
  congr 1
  ring

/-- `parse_float` inverts `q_to_str` on every rational whose denominator divides
the power of ten that `q_to_str` computes (exactly the finite-decimal values). -/
theorem parse_float_q_to_str (q : ℚ)
    (h : q.den ∣ 10 ^ Nat.max (pow_count 2 q.den) (pow_count 5 q.den)) :
    parse_float (q_to_str q) = some q := by
  by_cases hden : q.den = 1
  · have hq : ((q.num : ℚ)) = q := by
      have hh := Rat.num_div_den q
      rwa [hden, Nat.cast_one, div_one] at hh
    rw [show q_to_str q = int_to_str q.num from by simp only [q_to_str, if_pos hden]]
    by_cases hneg : q.num < 0
    · rw [show int_to_str q.num = '-' :: nat_to_str q.num.natAbs from by
        rw [int_to_str, if_pos hneg]]
      obtain ⟨hall, hne, hval⟩ := nat_to_str_spec q.num.natAbs
      have he := split_once_eq_none 'e' _
        (not_mem_of_all_digits _ hall 'e' (Or.inr (by decide)))
      have hE := split_once_eq_none 'E' _
        (not_mem_of_all_digits _ hall 'E' (Or.inr (by decide)))
      have hdot := split_once_eq_none '.' _
        (not_mem_of_all_digits _ hall '.' (Or.inl (by decide)))
      simp only [parse_float]
      rw [if_pos (show (('-' : Char) :: nat_to_str q.num.natAbs).head? = some '-'
        from rfl)]
      simp only [List.tail_cons, he, hE, parse_mantissa, hdot, parse_digits_nat_to_str]
      have habs : ((q.num.natAbs : ℚ)) = -(q.num : ℚ) := by
        have h1 : (q.num.natAbs : ℤ) = -q.num := by omega
        rw [← Int.cast_natCast (R := ℚ), h1, Int.cast_neg]
      rw [habs, zpow_zero, pow_zero, ← hq]
      norm_num
    · rw [show int_to_str q.num = nat_to_str q.num.toNat from by
        rw [int_to_str, if_neg hneg]]
      obtain ⟨hall, hne, hval⟩ := nat_to_str_spec q.num.toNat
      have he := split_once_eq_none 'e' _
        (not_mem_of_all_digits _ hall 'e' (Or.inr (by decide)))
      have hE := split_once_eq_none 'E' _
        (not_mem_of_all_digits _ hall 'E' (Or.inr (by decide)))
      have hdot := split_once_eq_none '.' _
        (not_mem_of_all_digits _ hall '.' (Or.inl (by decide)))
      simp only [parse_float, if_neg (nat_to_str_head_ne q.num.toNat '-' (by left; decide)),
        if_neg (nat_to_str_head_ne q.num.toNat '+' (by left; decide)),
        he, hE, parse_mantissa, hdot, parse_digits_nat_to_str]
      have htn : ((q.num.toNat : ℚ)) = (q.num : ℚ) := by
        have h1 : (q.num.toNat : ℤ) = q.num := Int.toNat_of_nonneg (by omega)
        rw [← Int.cast_natCast (R := ℚ), h1]
      rw [htn, zpow_zero, pow_zero, ← hq]
      norm_num
  · have hkpos : 0 < Nat.max (pow_count 2 q.den) (pow_count 5 q.den) := by
      rcases Nat.eq_zero_or_pos (Nat.max (pow_count 2 q.den) (pow_count 5 q.den)) with
        h0 | hpos
      · rw [h0, pow_zero, Nat.dvd_one] at h
        exact absurd h hden
      · exact hpos
    generalize hK : Nat.max (pow_count 2 q.den) (pow_count 5 q.den) = K at h hkpos
    have hden0 : (q.den : ℚ) ≠ 0 := Nat.cast_ne_zero.mpr q.den_nz
    have h10 : ((10 : ℚ)) ^ K ≠ 0 := by positivity
    have hdvd : q.den ∣ q.num.natAbs * 10 ^ K := Dvd.dvd.mul_left h q.num.natAbs
    have hDmul : q.num.natAbs * 10 ^ K / q.den * q.den = q.num.natAbs * 10 ^ K :=
      Nat.div_mul_cancel hdvd
    have hsplit : q.num.natAbs * 10 ^ K / q.den / 10 ^ K * 10 ^ K +
        q.num.natAbs * 10 ^ K / q.den % 10 ^ K = q.num.natAbs * 10 ^ K / q.den :=
      Nat.div_add_mod' _ _
    have hfpb : q.num.natAbs * 10 ^ K / q.den % 10 ^ K < 10 ^ K :=
      Nat.mod_lt _ (by positivity)
    have hcast : ((q.num.natAbs * 10 ^ K / q.den : ℕ) : ℚ) * q.den =
        (q.num.natAbs : ℚ) * 10 ^ K := by
      exact_mod_cast congrArg (fun n : ℕ => (n : ℚ)) hDmul
    have hqq := Rat.num_div_den q
    by_cases hneg : q.num < 0
    · rw [show q_to_str q = '-' :: (nat_to_str (q.num.natAbs * 10 ^ K / q.den / 10 ^ K) ++
          '.' :: (List.replicate (K - (nat_to_str (q.num.natAbs * 10 ^ K / q.den %
          10 ^ K)).length) '0' ++ nat_to_str (q.num.natAbs * 10 ^ K / q.den % 10 ^ K)))
          from by
        simp only [q_to_str, if_neg hden, hK, if_pos h, if_pos hneg,
          List.singleton_append, List.cons_append, List.append_assoc, List.nil_append]]
      rw [parse_float_decimal_neg _ _ K hkpos hfpb]
      congr 1
      rw [hsplit]
      have habs : ((q.num.natAbs : ℚ)) = -(q.num : ℚ) := by
        have h1 : (q.num.natAbs : ℤ) = -q.num := by omega
        rw [← Int.cast_natCast (R := ℚ), h1, Int.cast_neg]
      refine Eq.trans ?_ hqq
      rw [← neg_div, div_eq_div_iff h10 hden0]
      linear_combination -hcast - 10 ^ K * habs
    · rw [show q_to_str q = nat_to_str (q.num.natAbs * 10 ^ K / q.den / 10 ^ K) ++
          '.' :: (List.replicate (K - (nat_to_str (q.num.natAbs * 10 ^ K / q.den %
          10 ^ K)).length) '0' ++ nat_to_str (q.num.natAbs * 10 ^ K / q.den % 10 ^ K))
          from by
        simp only [q_to_str, if_neg hden, hK, if_pos h, if_neg hneg, List.nil_append]]
      rw [parse_float_decimal_pos _ _ K hkpos hfpb]
      congr 1
      rw [hsplit]
      have habs : ((q.num.natAbs : ℚ)) = (q.num : ℚ) := by
        have h1 : (q.num.natAbs : ℤ) = q.num := by omega
        rw [← Int.cast_natCast (R := ℚ), h1]
      refine Eq.trans ?_ hqq
      rw [div_eq_div_iff h10 hden0]
      linear_combination hcast + 10 ^ K * habs

/-! Infrastructure for the amended round-trip property (C1): texts as lists of
lines, character-set facts about the numeric printers, and `trim` stability. -/

/-- A text assembled from newline-terminated lines (the shape of every
serializer output). -/
def unlines (ls : List Str) : Str := (ls.map (fun l => l ++ nl)).flatten

theorem unlines_nil : unlines [] = [] := rfl

theorem unlines_cons (l : Str) (ls : List Str) :
    unlines (l :: ls) = l ++ '\n' :: unlines ls := by
  simp [unlines, nl]

theorem unlines_append (a b : List Str) :
    unlines (a ++ b) = unlines a ++ unlines b := by
  simp [unlines]

/-- A line the `BufRead::lines` model reproduces verbatim: no `'\n'`, no
`'\r'`. -/
def line_ok (l : Str) : Bool := l.all (fun c => !(c = '\n') && !(c = '\r'))

theorem mem_of_getLast_opt {α : Type} (l : List α) (a : α) (h : l.getLast? = some a) :
    a ∈ l := by
  induction l with
  | nil => simp at h
  | cons c t ih =>
    cases t with
    | nil =>
      simp only [List.getLast?_singleton, Option.some.injEq] at h
      simp [h]
    | cons d t' =>
      rw [List.getLast?_cons_cons] at h
      exact List.mem_cons_of_mem c (ih h)

theorem line_ok_no_nl (l : Str) (h : line_ok l = true) : '\n' ∉ l := by
  intro hm
  rw [line_ok, List.all_eq_true] at h
  simpa using h '\n' hm

theorem line_ok_no_cr (l : Str) (h : line_ok l = true) : l.getLast? ≠ some '\r' := by
  intro hl
  rw [line_ok, List.all_eq_true] at h
  simpa using h '\r' (mem_of_getLast_opt l '\r' hl)

/-- `rust_lines` inverts `unlines` on clean lines. -/
theorem rust_lines_unlines (ls : List Str) (h : ∀ l ∈ ls, line_ok l = true) :
    rust_lines (unlines ls) = ls := by
  induction ls with
  | nil => decide
  | cons l t ih =>
    rw [unlines_cons, rust_lines_cons l (unlines t)
      (line_ok_no_nl l (h l (List.mem_cons_self l t)))
      (line_ok_no_cr l (h l (List.mem_cons_self l t)))]
    rw [ih (fun x hx => h x (List.mem_cons_of_mem l hx))]

theorem line_ok_append (a b : Str) :
    line_ok (a ++ b) = (line_ok a && line_ok b) := by
  simp [line_ok, List.all_append]

/-- Character class of numeric output: digits, minus, dot. -/
def num_char (c : Char) : Prop := c.isDigit = true ∨ c = '-' ∨ c = '.'

theorem nat_to_str_chars (n : ℕ) : ∀ c ∈ nat_to_str n, num_char c := by
  intro c hc
  obtain ⟨hall, -, -⟩ := nat_to_str_spec n
  rw [List.all_eq_true] at hall
  exact Or.inl (hall c hc)

theorem int_to_str_chars (z : ℤ) : ∀ c ∈ int_to_str z, num_char c := by
  intro c hc
  unfold int_to_str at hc
  by_cases hz : z < 0
  · rw [if_pos hz] at hc
    rcases List.mem_cons.mp hc with h | h
    · exact Or.inr (Or.inl h)
    · exact nat_to_str_chars _ c h
  · rw [if_neg hz] at hc
    exact nat_to_str_chars _ c hc

theorem replicate_zero_chars (m : ℕ) : ∀ c ∈ List.replicate m '0', num_char c := by
  intro c hc
  rw [List.eq_of_mem_replicate hc]
  left
  decide

theorem q_to_str_chars (q : ℚ)
    (h : q.den ∣ 10 ^ Nat.max (pow_count 2 q.den) (pow_count 5 q.den)) :
    ∀ c ∈ q_to_str q, num_char c := by
  intro c hc
  by_cases hden : q.den = 1
  · rw [show q_to_str q = int_to_str q.num from by simp only [q_to_str, if_pos hden]] at hc
    exact int_to_str_chars _ c hc
  · simp only [q_to_str, if_neg hden, if_pos h] at hc
    rcases List.mem_append.mp hc with h1 | h1
    · rcases List.mem_append.mp h1 with h2 | h2
      · by_cases hneg : q.num < 0
        · rw [if_pos hneg] at h2
          rcases List.mem_singleton.mp h2 with h3
          exact Or.inr (Or.inl h3)
        · rw [if_neg hneg] at h2
          simp at h2
      · exact nat_to_str_chars _ c h2
    · rcases List.mem_cons.mp h1 with h2 | h2
      · exact Or.inr (Or.inr h2)
      · rcases List.mem_append.mp h2 with h3 | h3
        · exact replicate_zero_chars _ c h3
        · exact nat_to_str_chars _ c h3

theorem num_char_props (c : Char) (h : num_char c) :
    c.isWhitespace = false ∧ c ≠ '\n' ∧ c ≠ '\r' ∧ c ≠ ',' ∧ c ≠ ':' ∧
      c ≠ '|' ∧ c ≠ '[' ∧ c ≠ ']' ∧ c ≠ '/' := by
  rcases h with h | h | h
  · rw [char_isDigit_iff] at h
    have key : ∀ x : Char, ¬(48 ≤ x.toNat ∧ x.toNat ≤ 57) → c ≠ x := by
      intro x hx he
      rw [he] at h
      exact hx h
    refine ⟨?_, key _ (by decide), key _ (by decide), key _ (by decide),
      key _ (by decide), key _ (by decide), key _ (by decide),
      key _ (by decide), key _ (by decide)⟩
    have k1 : ¬ c = ' ' := key _ (by decide)
    have k2 : ¬ c = '\t' := key _ (by decide)
    have k3 : ¬ c = '\r' := key _ (by decide)
    have k4 : ¬ c = '\n' := key _ (by decide)
    simp [Char.isWhitespace, k1, k2, k3, k4]
  · subst h; refine ⟨by decide, by decide, by decide, by decide, by decide,
      by decide, by decide, by decide, by decide⟩
  · subst h; refine ⟨by decide, by decide, by decide, by decide, by decide,
      by decide, by decide, by decide, by decide⟩

theorem not_mem_of_num_chars (s : Str) (h : ∀ c ∈ s, num_char c) (d : Char)
    (hd : ¬ num_char d) : d ∉ s := fun hm => hd (h d hm)

theorem line_ok_of_num_chars (s : Str) (h : ∀ c ∈ s, num_char c) :
    line_ok s = true := by
  rw [line_ok, List.all_eq_true]
  intro c hc
  obtain ⟨-, h1, h2, -⟩ := num_char_props c (h c hc)
  simp [h1, h2]

/-! `trim` stability lemmas. -/

theorem trim_start_cons_of_not_ws (c : Char) (s : Str) (h : c.isWhitespace = false) :
    trim_start (c :: s) = c :: s := by
  rw [trim_start, List.dropWhile_cons, h]
  rfl

theorem trim_end_cons_of_not_ws (c : Char) (s : Str) (h : c.isWhitespace = false) :
    trim_end (c :: s) = c :: trim_end s := by
  rw [trim_end, trim_end, List.reverse_cons, List.dropWhile_append]
  by_cases he : (s.reverse.dropWhile Char.isWhitespace).isEmpty = true
  · rw [if_pos he, List.dropWhile_cons, h]
    rw [List.isEmpty_iff] at he
    simp [he]
  · rw [if_neg he]
    simp

theorem trim_cons_of_not_ws (c : Char) (s : Str) (h : c.isWhitespace = false) :
    trim (c :: s) = c :: trim_end s := by
  rw [trim, trim_start_cons_of_not_ws c s h, trim_end_cons_of_not_ws c s h]

theorem trim_space_cons (s : Str) : trim (' ' :: s) = trim s := by
  rw [trim, trim, trim_start, trim_start, List.dropWhile_cons]
  rfl

theorem trim_eq_self_of_all (s : Str) (h : ∀ c ∈ s, c.isWhitespace = false) :
    trim s = s := by
  have h1 : trim_start s = s := by
    cases s with
    | nil => rfl
    | cons c t => exact trim_start_cons_of_not_ws c t (h c (List.mem_cons_self c t))
  have h2 : trim_end s = s := by
    have hd : s.reverse.dropWhile Char.isWhitespace = s.reverse := by
      rw [List.dropWhile_eq_self_iff]
      intro hne hw
      have hmem : s.reverse.get ⟨0, hne⟩ ∈ s :=
        List.mem_reverse.mp (s.reverse.get_mem _ _)
      rw [h _ hmem] at hw
      exact absurd hw (by simp)
    rw [trim_end, hd, List.reverse_reverse]
  rw [trim, h1, h2]

theorem trim_of_num_chars (s : Str) (h : ∀ c ∈ s, num_char c) : trim s = s :=
  trim_eq_self_of_all s (fun c hc => (num_char_props c (h c hc)).1)

/-! Line-classification lemmas: which serializer lines survive the
comment/blank filter and which look like section boundaries. -/

theorem keep_line_cons (c : Char) (s : Str) (hws : c.isWhitespace = false)
    (hsl : c ≠ '/') : keep_line (c :: s) = true := by
  rw [keep_line, trim_cons_of_not_ws c s hws]
  simp only [List.isEmpty_cons, Bool.not_false, Bool.true_and, starts_with]
  rw [show str "//" = '/' :: ['/'] from rfl]
  simp [List.isPrefixOf, Ne.symm hsl]

theorem is_section_boundary_cons (c : Char) (s : Str) (h : c ≠ '[') :
    is_section_boundary (c :: s) = false := by
  rw [is_section_boundary]
  simp [h]

theorem split_char_single (sep : Char) (s : Str) (h : sep ∉ s) :
    split_char sep s = [s] := by
  induction s with
  | nil => rfl
  | cons c t ih =>
    simp only [List.mem_cons, not_or] at h
    rw [split_char, ih h.2]
    show (if c = sep then [[], t] else [c :: t]) = [c :: t]
    rw [if_neg (fun hh => h.1 hh.symm)]

theorem split_char_intercalate (sep : Char) (parts : List Str)
    (h : ∀ p ∈ parts, sep ∉ p) (hne : parts ≠ []) :
    split_char sep (List.intercalate [sep] parts) = parts := by
  induction parts with
  | nil => exact absurd rfl hne
  | cons p rest ih =>
    cases rest with
    | nil =>
      rw [show List.intercalate [sep] [p] = p from by simp [List.intercalate]]
      exact split_char_single sep p (h p (List.mem_singleton.mpr rfl))
    | cons q rest' =>
      rw [show List.intercalate [sep] (p :: q :: rest') =
          p ++ sep :: List.intercalate [sep] (q :: rest') from by
        simp [List.intercalate, List.intersperse]]
      rw [split_char_append sep _ _ (h p (List.mem_cons_self p _)),
        ih (fun x hx => h x (List.mem_cons_of_mem p hx)) (by simp)]

theorem parse_list_items_map {T : Type} (f : Str → Option T) (g : T → Str)
    (xs : List T) (h : ∀ x ∈ xs, g x ≠ [] ∧ f (g x) = some x) :
    parse_list_items f (xs.map g) = some xs := by
  induction xs with
  | nil => rfl
  | cons x rest ih =>
    obtain ⟨hne, hf⟩ := h x (List.mem_cons_self x rest)
    rw [List.map_cons, parse_list_items, if_neg hne, hf,
      ih (fun y hy => h y (List.mem_cons_of_mem x hy))]

theorem parse_list_sep_inverse {T : Type} (f : Str → Option T) (g : T → Str)
    (sep : Char) (xs : List T) (hxs : xs ≠ [])
    (h : ∀ x ∈ xs, g x ≠ [] ∧ sep ∉ g x ∧ f (g x) = some x) :
    parse_list_of_with_sep f (List.intercalate [sep] (xs.map g)) sep = some xs := by
  rw [parse_list_of_with_sep, split_char_intercalate sep (xs.map g)
    (by intro p hp; obtain ⟨x, hx, rfl⟩ := List.mem_map.mp hp; exact (h x hx).2.1)
    (by simp [hxs]),
    parse_list_items_map f g xs (fun x hx => ⟨(h x hx).1, (h x hx).2.2⟩)]

/-- `parse_field_value_pair` on a canonical `Key: value` line. -/
theorem pfvp_key (k v : Str) (hk : ':' ∉ k) :
    parse_field_value_pair (k ++ ':' :: ' ' :: v) = some (trim k, trim v) := by
  rw [parse_field_value_pair, split_once_append ':' k (' ' :: v) hk]
  show some (trim k, trim (' ' :: v)) = some (trim k, trim v)
  rw [trim_space_cons]

/-- Canonically-encodable float value: the denominator divides the power of ten
that `q_to_str` computes (as a decidable check). -/
def FiniteDec (q : ℚ) : Bool :=
  10 ^ Nat.max (pow_count 2 q.den) (pow_count 5 q.den) % q.den = 0

theorem FiniteDec_dvd (q : ℚ) (h : FiniteDec q = true) :
    q.den ∣ 10 ^ Nat.max (pow_count 2 q.den) (pow_count 5 q.den) :=
  Nat.dvd_of_mod_eq_zero (by simpa [FiniteDec] using h)

theorem parse_float_q (q : ℚ) (h : FiniteDec q = true) :
    parse_float (q_to_str q) = some q :=
  parse_float_q_to_str q (FiniteDec_dvd q h)

theorem q_chars (q : ℚ) (h : FiniteDec q = true) : ∀ c ∈ q_to_str q, num_char c :=
  q_to_str_chars q (FiniteDec_dvd q h)

/-- `i32` range check for canonical integer values. -/
def i32_ok (z : ℤ) : Bool := decide (-2147483648 ≤ z) && decide (z ≤ 2147483647)

theorem parse_sint_i32 (z : ℤ) (h : i32_ok z = true) :
    parse_sint i32_max (int_to_str z) = some z := by
  rw [i32_ok, Bool.and_eq_true, decide_eq_true_eq, decide_eq_true_eq] at h
  exact parse_sint_int_to_str i32_max z (by rw [i32_max]; omega) (by rw [i32_max]; omega)

theorem parse_uint_u8 (n : ℕ) (h : n ≤ 255) :
    parse_uint u8_max (nat_to_str n) = some n :=
  parse_uint_nat_to_str u8_max n (by rw [u8_max]; omega)

theorem parse_uint_u32 (n : ℕ) (h : n ≤ 4294967295) :
    parse_uint u32_max (nat_to_str n) = some n :=
  parse_uint_nat_to_str u32_max n (by rw [u32_max]; omega)

theorem nat_to_str_ne_nil (n : ℕ) : nat_to_str n ≠ [] := (nat_to_str_spec n).2.1

theorem int_to_str_ne_nil (z : ℤ) : int_to_str z ≠ [] := by
  rw [int_to_str]
  by_cases hz : z < 0
  · rw [if_pos hz]; simp
  · rw [if_neg hz]; exact nat_to_str_ne_nil _

theorem q_to_str_ne_nil (q : ℚ) : q_to_str q ≠ [] := by
  by_cases hden : q.den = 1
  · rw [show q_to_str q = int_to_str q.num from by simp only [q_to_str, if_pos hden]]
    exact int_to_str_ne_nil _
  · simp only [q_to_str, if_neg hden]
    by_cases h : q.den ∣ 10 ^ Nat.max (pow_count 2 q.den) (pow_count 5 q.den)
    · rw [if_pos h]
      intro heq
      simp [List.append_eq_nil] at heq
    · rw [if_neg h]
      intro heq
      rcases List.append_eq_nil.mp heq with ⟨h1, -⟩
      exact int_to_str_ne_nil _ h1

theorem int_to_str_head (z : ℤ) : ∃ c t, int_to_str z = c :: t ∧ num_char c := by
  rw [int_to_str]
  by_cases hz : z < 0
  · rw [if_pos hz]
    exact ⟨'-', _, rfl, Or.inr (Or.inl rfl)⟩
  · rw [if_neg hz]
    obtain ⟨c, t, heq, hc⟩ := nat_to_str_head_isDigit z.toNat
    exact ⟨c, t, heq, Or.inl hc⟩

theorem q_to_str_head (q : ℚ) : ∃ c t, q_to_str q = c :: t ∧ num_char c := by
  by_cases hden : q.den = 1
  · rw [show q_to_str q = int_to_str q.num from by simp only [q_to_str, if_pos hden]]
    exact int_to_str_head _
  · simp only [q_to_str, if_neg hden]
    by_cases h : q.den ∣ 10 ^ Nat.max (pow_count 2 q.den) (pow_count 5 q.den)
    · rw [if_pos h]
      by_cases hneg : q.num < 0
      · rw [if_pos hneg]
        exact ⟨'-', _, rfl, Or.inr (Or.inl rfl)⟩
      · rw [if_neg hneg, List.nil_append]
        obtain ⟨c, t, heq, hc⟩ := nat_to_str_head_isDigit
          (q.num.natAbs * 10 ^ Nat.max (pow_count 2 q.den) (pow_count 5 q.den) / q.den /
            10 ^ Nat.max (pow_count 2 q.den) (pow_count 5 q.den))
        rw [heq]
        exact ⟨c, _, rfl, Or.inl hc⟩
    · rw [if_neg h]
      obtain ⟨c, t, heq, hc⟩ := int_to_str_head q.num
      rw [heq]
      exact ⟨c, _, rfl, hc⟩

theorem keep_line_of_head_num (c : Char) (s : Str) (h : num_char c) :
    keep_line (c :: s) = true := by
  obtain ⟨hws, -, -, -, -, -, -, -, hsl⟩ := num_char_props c h
  exact keep_line_cons c s hws hsl

theorem boundary_of_head_num (c : Char) (s : Str) (h : num_char c) :
    is_section_boundary (c :: s) = false := by
  obtain ⟨-, -, -, -, -, -, hbr, -⟩ := num_char_props c h
  exact is_section_boundary_cons c s hbr

/-! End-based `trim` stability, for values with interior whitespace (tag
lists). -/

theorem trim_start_eq_of_head (s : Str)
    (h : ∀ c, s.head? = some c → c.isWhitespace = false) : trim_start s = s := by
  cases s with
  | nil => rfl
  | cons c t => exact trim_start_cons_of_not_ws c t (h c rfl)

theorem trim_end_eq_of_last (s : Str)
    (h : ∀ c, s.getLast? = some c → c.isWhitespace = false) : trim_end s = s := by
  rw [trim_end]
  cases hr : s.reverse with
  | nil =>
    have : s = [] := by simpa using congrArg List.reverse hr
    simp [this]
  | cons c t =>
    have hlast : s.getLast? = some c := by
      rw [← List.head?_reverse, hr]
      rfl
    rw [List.dropWhile_cons, h c hlast]
    show (c :: t).reverse = s
    rw [← hr, List.reverse_reverse]

theorem trim_eq_of_ends (s : Str)
    (hh : ∀ c, s.head? = some c → c.isWhitespace = false)
    (hl : ∀ c, s.getLast? = some c → c.isWhitespace = false) : trim s = s := by
  rw [trim, trim_start_eq_of_head s hh, trim_end_eq_of_last s hl]

theorem intercalate_head (sep : Char) (p : Str) (parts : List Str) (hp : p ≠ []) :
    (List.intercalate [sep] (p :: parts)).head? = p.head? := by
  cases parts with
  | nil =>
    rw [show List.intercalate [sep] [p] = p from by simp [List.intercalate]]
  | cons q rest =>
    rw [show List.intercalate [sep] (p :: q :: rest) =
        p ++ sep :: List.intercalate [sep] (q :: rest) from by
      simp [List.intercalate, List.intersperse]]
    cases p with
    | nil => exact absurd rfl hp
    | cons c t => rfl

theorem intercalate_last (sep : Char) (parts : List Str)
    (h : ∀ p ∈ parts, p ≠ []) (hne : parts ≠ []) :
    ∃ c, (List.intercalate [sep] parts).getLast? = some c ∧ ∃ p ∈ parts, c ∈ p := by
  induction parts with
  | nil => exact absurd rfl hne
  | cons p rest ih =>
    cases rest with
    | nil =>
      rw [show List.intercalate [sep] [p] = p from by simp [List.intercalate]]
      cases hlp : p.getLast? with
      | none =>
        have := h p (List.mem_cons_self p [])
        cases p with
        | nil => exact absurd rfl this
        | cons c t => simp [List.getLast?_eq_none_iff] at hlp
      | some c =>
        exact ⟨c, rfl, p, List.mem_cons_self p [], mem_of_getLast_opt p c hlp⟩
    | cons q rest' =>
      obtain ⟨c, hc, p', hp', hcp⟩ :=
        ih (fun x hx => h x (List.mem_cons_of_mem p hx)) (by simp)
      have hq : List.intercalate [sep] (q :: rest') ≠ [] := by
        intro he
        rw [he] at hc
        simp at hc
      refine ⟨c, ?_, p', List.mem_cons_of_mem p hp', hcp⟩
      rw [show List.intercalate [sep] (p :: q :: rest') =
          p ++ sep :: List.intercalate [sep] (q :: rest') from by
        simp [List.intercalate, List.intersperse]]
      rw [List.getLast?_append_of_ne_nil p (by simp),
        show sep :: List.intercalate [sep] (q :: rest') =
          [sep] ++ List.intercalate [sep] (q :: rest') from rfl,
        List.getLast?_append_of_ne_nil [sep] hq, hc]

/-- Canonical tag: non-empty, no whitespace characters. -/
def tag_ok (t : Str) : Bool := !t.isEmpty && t.all (fun c => !c.isWhitespace)

theorem tags_round (tags : List Str) (h : ∀ t ∈ tags, tag_ok t = true)
    (hne : tags ≠ []) :
    trim (List.intercalate [' '] tags) = List.intercalate [' '] tags ∧
    split_char ' ' (List.intercalate [' '] tags) = tags := by
  have hinfo : ∀ t ∈ tags, t ≠ [] ∧ ∀ c ∈ t, c.isWhitespace = false := by
    intro t ht
    have := h t ht
    rw [tag_ok, Bool.and_eq_true, List.all_eq_true] at this
    refine ⟨by simpa [List.isEmpty_iff] using this.1, fun c hc => by
      simpa using this.2 c hc⟩
  constructor
  · apply trim_eq_of_ends
    · intro c hc
      cases tags with
      | nil => exact absurd rfl hne
      | cons p rest =>
        rw [intercalate_head ' ' p rest (hinfo p (List.mem_cons_self p rest)).1] at hc
        exact (hinfo p (List.mem_cons_self p rest)).2 c (by
          cases p with
          | nil => simp at hc
          | cons d t => simp_all)
    · intro c hc
      obtain ⟨c', hc', p', hp', hcp⟩ :=
        intercalate_last ' ' tags (fun p hp => (hinfo p hp).1) hne
      rw [hc'] at hc
      obtain rfl : c = c' := by simpa using hc.symm
      exact (hinfo p' hp').2 c hcp
  · apply split_char_intercalate
    · intro p hp hsp
      have := (hinfo p hp).2 ' ' hsp
      simp at this
    · exact hne

/-! Round-trips of the small enumerated types. -/

theorem overlay_round (op : OverlayPosition) :
    OverlayPosition.from_str op.debug_str = some op := by
  cases op <;> decide

theorem sample_bank_round (b : SampleBank) :
    SampleBank.from_str (nat_to_str b.toNat) = some b := by
  cases b <;> decide

theorem hss_round (hss : HitSampleSet) :
    HitSampleSet.from_str hss.to_osu_string = some hss := by
  obtain ⟨ns, as⟩ := hss
  cases ns <;> cases as <;> decide

theorem bool_parse_round (b : Bool) :
    parse_uint u8_max (bool_to_str b) = some (if b then 1 else 0) := by
  cases b <;> decide

theorem bool_decide_ne (b : Bool) : (decide ((if b then (1 : ℕ) else 0) ≠ 0)) = b := by
  cases b <;> rfl

theorem hit_sound_round (n : ℕ) (h : n ≤ 255) :
    HitSound.from_str (nat_to_str n) = some ⟨n⟩ := by
  rw [HitSound.from_str, parse_uint_nat_to_str 255 n h]
  rfl

theorem bool_to_str_chars (b : Bool) : ∀ c ∈ bool_to_str b, num_char c := by
  intro c hc
  left
  cases b
  · rw [show bool_to_str false = ['0'] from rfl] at hc
    rw [List.mem_singleton.mp hc]
    decide
  · rw [show bool_to_str true = ['1'] from rfl] at hc
    rw [List.mem_singleton.mp hc]
    decide

instance num_char_decidable (c : Char) : Decidable (num_char c) := by
  unfold num_char
  infer_instance

theorem nat_no_colon (n : ℕ) : ':' ∉ nat_to_str n :=
  not_mem_of_num_chars _ (nat_to_str_chars n) ':' (by decide)

theorem nat_no_comma (n : ℕ) : ',' ∉ nat_to_str n :=
  not_mem_of_num_chars _ (nat_to_str_chars n) ',' (by decide)

theorem nat_no_pipe (n : ℕ) : '|' ∉ nat_to_str n :=
  not_mem_of_num_chars _ (nat_to_str_chars n) '|' (by decide)

theorem int_no_comma (z : ℤ) : ',' ∉ int_to_str z :=
  not_mem_of_num_chars _ (int_to_str_chars z) ',' (by decide)

theorem int_no_colon (z : ℤ) : ':' ∉ int_to_str z :=
  not_mem_of_num_chars _ (int_to_str_chars z) ':' (by decide)

theorem q_no_comma (q : ℚ) (h : FiniteDec q = true) : ',' ∉ q_to_str q :=
  not_mem_of_num_chars _ (q_chars q h) ',' (by decide)

theorem q_no_colon (q : ℚ) (h : FiniteDec q = true) : ':' ∉ q_to_str q :=
  not_mem_of_num_chars _ (q_chars q h) ':' (by decide)

theorem q_no_pipe (q : ℚ) (h : FiniteDec q = true) : '|' ∉ q_to_str q :=
  not_mem_of_num_chars _ (q_chars q h) '|' (by decide)

theorem bool_no_comma (b : Bool) : ',' ∉ bool_to_str b :=
  not_mem_of_num_chars _ (bool_to_str_chars b) ',' (by decide)

/-- Canonically-encodable hit sample. -/
def hit_sample_ok (hs : HitSample) : Bool :=
  (hs.index ≤ 4294967295) && (hs.volume ≤ 4294967295) &&
  (match hs.filename with
   | none => true
   | some f => !f.isEmpty && line_ok f && decide (':' ∉ f) && decide (',' ∉ f))

theorem parse_hit_sample_round (hs : HitSample) (h : hit_sample_ok hs = true) :
    parse_hit_sample hs.to_osu_string = .ok hs := by
  obtain ⟨ns, as, idx, vol, fn⟩ := hs
  rw [hit_sample_ok] at h
  dsimp only at h
  rw [Bool.and_eq_true, Bool.and_eq_true] at h
  obtain ⟨⟨hidx, hvol⟩, hfn⟩ := h
  rw [decide_eq_true_eq] at hidx hvol
  cases fn with
  | none =>
    have hsplit : split_char ':' (HitSample.to_osu_string ⟨ns, as, idx, vol, none⟩) =
        [nat_to_str ns.toNat, nat_to_str as.toNat, nat_to_str idx, nat_to_str vol,
          []] := by
      rw [HitSample.to_osu_string]
      dsimp only
      simp only [List.cons_append, List.append_assoc]
      rw [split_char_append ':' _ _ (nat_no_colon _),
        split_char_append ':' _ _ (nat_no_colon _),
        split_char_append ':' _ _ (nat_no_colon _),
        split_char_append ':' _ _ (nat_no_colon _)]
      rfl
    rw [parse_hit_sample, hsplit]
    simp only [sample_bank_round, parse_uint_u32 idx hidx, parse_uint_u32 vol hvol,
      pure_bind]
    rfl
  | some f =>
    dsimp only at hfn
    rw [Bool.and_eq_true, Bool.and_eq_true, Bool.and_eq_true] at hfn
    obtain ⟨⟨⟨hfe, hfl⟩, hfc⟩, hfcc⟩ := hfn
    rw [decide_eq_true_eq] at hfc hfcc
    have hne : f ≠ [] := by
      intro he
      rw [he] at hfe
      simp at hfe
    have hsplit : split_char ':' (HitSample.to_osu_string ⟨ns, as, idx, vol, some f⟩) =
        [nat_to_str ns.toNat, nat_to_str as.toNat, nat_to_str idx, nat_to_str vol,
          f] := by
      rw [HitSample.to_osu_string]
      dsimp only
      simp only [List.cons_append, List.append_assoc]
      rw [split_char_append ':' _ _ (nat_no_colon _),
        split_char_append ':' _ _ (nat_no_colon _),
        split_char_append ':' _ _ (nat_no_colon _),
        split_char_append ':' _ _ (nat_no_colon _),
        split_char_single ':' f hfc]
    rw [parse_hit_sample, hsplit]
    simp only [sample_bank_round, parse_uint_u32 idx hidx, parse_uint_u32 vol hvol,
      pure_bind]
    simp only [if_pos hne]
    rfl

/-- Canonically-encodable colour. -/
def color_ok (c : Color) : Bool :=
  (c.r ≤ 255) && (c.g ≤ 255) && (c.b ≤ 255) &&
  (match c.a with | none => true | some a => a ≤ 255)

theorem parse_color_round (c : Color) (h : color_ok c = true) :
    parse_color c.to_osu_string = .ok c := by
  obtain ⟨r, g, b, a⟩ := c
  rw [color_ok] at h
  dsimp only at h
  rw [Bool.and_eq_true, Bool.and_eq_true, Bool.and_eq_true] at h
  obtain ⟨⟨⟨hr, hg⟩, hb⟩, ha⟩ := h
  rw [decide_eq_true_eq] at hr hg hb
  cases a with
  | none =>
    have hsplit : split_char ',' (Color.to_osu_string ⟨r, g, b, none⟩) =
        [nat_to_str r, nat_to_str g, nat_to_str b] := by
      rw [Color.to_osu_string]
      dsimp only
      simp only [List.cons_append, List.append_assoc]
      rw [split_char_append ',' _ _ (nat_no_comma _),
        split_char_append ',' _ _ (nat_no_comma _),
        split_char_single ',' _ (nat_no_comma _)]
    rw [parse_color, parse_list_of_with_sep, hsplit]
    rw [parse_list_items, if_neg (nat_to_str_ne_nil r), parse_uint_u8 r hr,
      parse_list_items, if_neg (nat_to_str_ne_nil g), parse_uint_u8 g hg,
      parse_list_items, if_neg (nat_to_str_ne_nil b), parse_uint_u8 b hb,
      parse_list_items]
  | some a =>
    rw [decide_eq_true_eq] at ha
    have hsplit : split_char ',' (Color.to_osu_string ⟨r, g, b, some a⟩) =
        [nat_to_str r, nat_to_str g, nat_to_str b, nat_to_str a] := by
      rw [Color.to_osu_string]
      dsimp only
      simp only [List.cons_append, List.append_assoc]
      rw [split_char_append ',' _ _ (nat_no_comma _),
        split_char_append ',' _ _ (nat_no_comma _),
        split_char_append ',' _ _ (nat_no_comma _),
        split_char_single ',' _ (nat_no_comma _)]
    rw [parse_color, parse_list_of_with_sep, hsplit]
    rw [parse_list_items, if_neg (nat_to_str_ne_nil r), parse_uint_u8 r hr,
      parse_list_items, if_neg (nat_to_str_ne_nil g), parse_uint_u8 g hg,
      parse_list_items, if_neg (nat_to_str_ne_nil b), parse_uint_u8 b hb,
      parse_list_items, if_neg (nat_to_str_ne_nil a), parse_uint_u8 a ha,
      parse_list_items]

/-- The timing-point line without its terminating newline. -/
def timing_point_line (tp : TimingPoint) : Str :=
  q_to_str tp.time ++ ',' :: q_to_str tp.beat_length ++
  ',' :: int_to_str tp.meter ++
  ',' :: nat_to_str tp.sample_set.toNat ++
  ',' :: nat_to_str tp.sample_index ++
  ',' :: nat_to_str tp.volume ++
  ',' :: bool_to_str tp.uninherited ++
  ',' :: nat_to_str tp.effects

theorem deserialize_tp_eq (tp : TimingPoint) :
    deserialize_timing_point tp = timing_point_line tp ++ nl := by
  rw [deserialize_timing_point, timing_point_line]

/-- Canonically-encodable timing point. -/
def timing_point_ok (tp : TimingPoint) : Bool :=
  FiniteDec tp.time && FiniteDec tp.beat_length && i32_ok tp.meter &&
  (tp.sample_index ≤ 4294967295) && (tp.volume ≤ 255) && (tp.effects ≤ 4294967295)

theorem parse_timing_point_round (tp : TimingPoint) (h : timing_point_ok tp = true) :
    parse_timing_point (timing_point_line tp) = .ok tp := by
  obtain ⟨t, bl, mt, ss, si, vol, uh, eff⟩ := tp
  rw [timing_point_ok] at h
  dsimp only at h
  rw [Bool.and_eq_true, Bool.and_eq_true, Bool.and_eq_true, Bool.and_eq_true,
    Bool.and_eq_true] at h
  obtain ⟨⟨⟨⟨⟨ht, hbl⟩, hmt⟩, hsi⟩, hvol⟩, heff⟩ := h
  rw [decide_eq_true_eq] at hsi hvol heff
  have hsplit : split_char ',' (timing_point_line ⟨t, bl, mt, ss, si, vol, uh, eff⟩) =
      [q_to_str t, q_to_str bl, int_to_str mt, nat_to_str ss.toNat, nat_to_str si,
        nat_to_str vol, bool_to_str uh, nat_to_str eff] := by
    rw [timing_point_line]
    dsimp only
    simp only [List.cons_append, List.append_assoc]
    rw [split_char_append ',' _ _ (q_no_comma t ht),
      split_char_append ',' _ _ (q_no_comma bl hbl),
      split_char_append ',' _ _ (int_no_comma mt),
      split_char_append ',' _ _ (nat_no_comma _),
      split_char_append ',' _ _ (nat_no_comma _),
      split_char_append ',' _ _ (nat_no_comma _),
      split_char_append ',' _ _ (bool_no_comma uh),
      split_char_single ',' _ (nat_no_comma _)]
  rw [parse_timing_point, hsplit]
  simp only [List.length_cons, List.length_nil]
  rw [if_neg (by omega), if_neg (by omega)]
  simp only [List.getElem?_cons_zero, List.getElem?_cons_succ,
    parse_float_q t ht, parse_float_q bl hbl, parse_sint_i32 mt hmt,
    sample_bank_round ss, parse_uint_u32 si hsi, parse_uint_u8 vol hvol,
    bool_parse_round uh, parse_uint_u32 eff heff, bool_decide_ne, pure_bind]
  rfl

/-- The event line without its terminating newline. -/
def event_line (e : Event) : Str :=
  e.event_type ++ ',' :: q_to_str e.start_time ++ [','] ++
  (match e.params with
    | .Background filename x_offset y_offset =>
      filename ++ ',' :: int_to_str x_offset ++ ',' :: int_to_str y_offset
    | .Video filename x_offset y_offset =>
      filename ++ ',' :: int_to_str x_offset ++ ',' :: int_to_str y_offset
    | .Break end_time => q_to_str end_time)

theorem deserialize_event_eq (e : Event) :
    deserialize_event e = event_line e ++ nl := by
  obtain ⟨et, st, ps⟩ := e
  cases ps <;>
    (rw [deserialize_event, event_line]
     dsimp only
     simp only [List.cons_append, List.append_assoc])

/-- Canonically-encodable event: the stored `event_type` string and the typed
parameters agree, strings are clean, offsets fit `i32`. -/
def event_ok (e : Event) : Bool :=
  FiniteDec e.start_time &&
  (match e.params with
   | .Background f x y => (e.event_type = str "0") && line_ok f &&
       decide (',' ∉ f) && i32_ok x && i32_ok y
   | .Video f x y => ((e.event_type = str "1") || (e.event_type = str "Video")) &&
       line_ok f && decide (',' ∉ f) && i32_ok x && i32_ok y
   | .Break t2 => ((e.event_type = str "2") || (e.event_type = str "Break")) &&
       FiniteDec t2)

theorem parse_event_round (e : Event) (h : event_ok e = true) :
    parse_event (event_line e) = .ok (some e) := by
  obtain ⟨et, st, ps⟩ := e
  rw [event_ok] at h
  dsimp only at h
  rw [Bool.and_eq_true] at h
  obtain ⟨hst, hps⟩ := h
  cases ps with
  | Background f x y =>
    rw [Bool.and_eq_true, Bool.and_eq_true, Bool.and_eq_true, Bool.and_eq_true] at hps
    obtain ⟨⟨⟨⟨het, hf⟩, hfc⟩, hx⟩, hy⟩ := hps
    rw [decide_eq_true_eq] at het hfc
    subst het
    have hsplit : split_char ',' (event_line ⟨str "0", st, .Background f x y⟩) =
        [str "0", q_to_str st, f, int_to_str x, int_to_str y] := by
      rw [event_line]
      dsimp only
      simp only [List.cons_append, List.append_assoc, List.nil_append]
      rw [split_char_append ',' _ _ (by decide),
        split_char_append ',' _ _ (q_no_comma st hst),
        split_char_append ',' _ _ hfc,
        split_char_append ',' _ _ (int_no_comma x),
        split_char_single ',' _ (int_no_comma y)]
    rw [parse_event, hsplit]
    simp only [show trim (str "0") = str "0" from by decide,
      show storyboard_event_types.contains (str "0") = false from by decide,
      Bool.false_eq_true, if_false, parse_float_q st hst,
      show (str "0" = str "0") = True from by simp, if_true,
      parse_sint_i32 x hx, parse_sint_i32 y hy]
  | Video f x y =>
    rw [Bool.and_eq_true, Bool.and_eq_true, Bool.and_eq_true, Bool.and_eq_true] at hps
    obtain ⟨⟨⟨⟨het, hf⟩, hfc⟩, hx⟩, hy⟩ := hps
    rw [decide_eq_true_eq] at hfc
    rw [Bool.or_eq_true, decide_eq_true_eq, decide_eq_true_eq] at het
    rcases het with het | het
    · subst het
      have hsplit : split_char ',' (event_line ⟨str "1", st, .Video f x y⟩) =
          [str "1", q_to_str st, f, int_to_str x, int_to_str y] := by
        rw [event_line]
        dsimp only
        simp only [List.cons_append, List.append_assoc, List.nil_append]
        rw [split_char_append ',' _ _ (by decide),
          split_char_append ',' _ _ (q_no_comma st hst),
          split_char_append ',' _ _ hfc,
          split_char_append ',' _ _ (int_no_comma x),
          split_char_single ',' _ (int_no_comma y)]
      rw [parse_event, hsplit]
      simp only [show trim (str "1") = str "1" from by decide,
        show storyboard_event_types.contains (str "1") = false from by decide,
        Bool.false_eq_true, if_false, parse_float_q st hst,
        show (str "1" = str "0") = False from by decide, if_false,
        show ((str "1" = str "1" : Bool) || (str "1" = str "Video" : Bool)) = true
          from by decide, if_true,
        parse_sint_i32 x hx, parse_sint_i32 y hy]
      simp
    · subst het
      have hsplit : split_char ',' (event_line ⟨str "Video", st, .Video f x y⟩) =
          [str "Video", q_to_str st, f, int_to_str x, int_to_str y] := by
        rw [event_line]
        dsimp only
        simp only [List.cons_append, List.append_assoc, List.nil_append]
        rw [split_char_append ',' _ _ (by decide),
          split_char_append ',' _ _ (q_no_comma st hst),
          split_char_append ',' _ _ hfc,
          split_char_append ',' _ _ (int_no_comma x),
          split_char_single ',' _ (int_no_comma y)]
      rw [parse_event, hsplit]
      simp only [show trim (str "Video") = str "Video" from by decide,
        show storyboard_event_types.contains (str "Video") = false from by decide,
        Bool.false_eq_true, if_false, parse_float_q st hst,
        show (str "Video" = str "0") = False from by decide, if_false,
        show ((str "Video" = str "1" : Bool) || (str "Video" = str "Video" : Bool)) =
          true from by decide, if_true,
        parse_sint_i32 x hx, parse_sint_i32 y hy]
      simp
  | Break t2 =>
    rw [Bool.and_eq_true] at hps
    obtain ⟨het, ht2⟩ := hps
    rw [Bool.or_eq_true, decide_eq_true_eq, decide_eq_true_eq] at het
    rcases het with het | het
    · subst het
      have hsplit : split_char ',' (event_line ⟨str "2", st, .Break t2⟩) =
          [str "2", q_to_str st, q_to_str t2] := by
        rw [event_line]
        dsimp only
        simp only [List.cons_append, List.append_assoc, List.nil_append]
        rw [split_char_append ',' _ _ (by decide),
          split_char_append ',' _ _ (q_no_comma st hst),
          split_char_single ',' _ (q_no_comma t2 ht2)]
      rw [parse_event, hsplit]
      simp only [show trim (str "2") = str "2" from by decide,
        show storyboard_event_types.contains (str "2") = false from by decide,
        Bool.false_eq_true, if_false, parse_float_q st hst,
        show (str "2" = str "0") = False from by decide, if_false,
        show ((str "2" = str "1" : Bool) || (str "2" = str "Video" : Bool)) = false
          from by decide, Bool.false_eq_true, if_false,
        show ((str "2" = str "2" : Bool) || (str "2" = str "Break" : Bool)) = true
          from by decide, if_true, parse_float_q t2 ht2]
      simp
    · subst het
      have hsplit : split_char ',' (event_line ⟨str "Break", st, .Break t2⟩) =
          [str "Break", q_to_str st, q_to_str t2] := by
        rw [event_line]
        dsimp only
        simp only [List.cons_append, List.append_assoc, List.nil_append]
        rw [split_char_append ',' _ _ (by decide),
          split_char_append ',' _ _ (q_no_comma st hst),
          split_char_single ',' _ (q_no_comma t2 ht2)]
      rw [parse_event, hsplit]
      simp only [show trim (str "Break") = str "Break" from by decide,
        show storyboard_event_types.contains (str "Break") = false from by decide,
        Bool.false_eq_true, if_false, parse_float_q st hst,
        show (str "Break" = str "0") = False from by decide, if_false,
        show ((str "Break" = str "1" : Bool) || (str "Break" = str "Video" : Bool)) =
          false from by decide, Bool.false_eq_true, if_false,
        show ((str "Break" = str "2" : Bool) || (str "Break" = str "Break" : Bool)) =
          true from by decide, if_true, parse_float_q t2 ht2]
      simp

/-! Curve-point serialization and its inverse. -/

/-- The single-letter tag of a non-`Inherit` curve type. -/
def curve_letter_char : SliderCurveType → Char
  | .Inherit => '?'
  | .Bezier => 'B'
  | .Catmull => 'C'
  | .Linear => 'L'
  | .PerfectCurve => 'P'

theorem curve_type_letter_eq (ct : SliderCurveType) (h : ct ≠ .Inherit) :
    curve_type_letter ct = [curve_letter_char ct, '|'] := by
  cases ct <;> first | exact absurd rfl h | rfl

theorem curve_letter_round (ct : SliderCurveType) (h : ct ≠ .Inherit) :
    curve_type_of_token [curve_letter_char ct] = some ct := by
  cases ct <;> first | exact absurd rfl h | decide

/-- `x:y` coordinate token of a slider point. -/
def coord_str (p : SliderPoint) : Str := int_to_str p.x ++ ':' :: int_to_str p.y

/-- Per-point emission of the curve-point loop (letter tag plus coordinates). -/
def tok_line (p : SliderPoint) : Str := curve_type_letter p.curve_type ++ coord_str p

/-- The `|`-tokens a point contributes. -/
def tokens_of (p : SliderPoint) : List Str :=
  if p.curve_type = .Inherit then [coord_str p]
  else [[curve_letter_char p.curve_type], coord_str p]

theorem coord_chars (p : SliderPoint) : ∀ c ∈ coord_str p, num_char c ∨ c = ':' := by
  intro c hc
  rcases List.mem_append.mp hc with h | h
  · exact Or.inl (int_to_str_chars _ c h)
  · rcases List.mem_cons.mp h with h | h
    · exact Or.inr h
    · exact Or.inl (int_to_str_chars _ c h)

theorem coord_no_pipe (p : SliderPoint) : '|' ∉ coord_str p := by
  intro hm
  rcases coord_chars p '|' hm with h | h
  · exact absurd ((num_char_props '|' h).2.2.2.2.2.1) (by simp)
  · simp at h

theorem go_true_eq (fct : SliderCurveType) (ps : List SliderPoint) :
    deserialize_curve_points_go fct true ps =
      (ps.map (fun p => '|' :: tok_line p)).flatten := by
  induction ps with
  | nil => rfl
  | cons p rest ih =>
    rw [deserialize_curve_points_go, ih]
    simp [tok_line, coord_str, str, List.append_assoc]

theorem split_tok_chain (ps : List SliderPoint) :
    ∀ p : SliderPoint,
      split_char '|' (tok_line p ++ (ps.map (fun q => '|' :: tok_line q)).flatten) =
        tokens_of p ++ (ps.map tokens_of).flatten := by
  induction ps with
  | nil =>
    intro p
    simp only [List.map_nil, List.flatten_nil, List.append_nil]
    rw [tok_line, tokens_of]
    by_cases hct : p.curve_type = .Inherit
    · rw [if_pos hct, hct]
      show split_char '|' ([] ++ coord_str p) = [coord_str p]
      rw [List.nil_append, split_char_single '|' _ (coord_no_pipe p)]
    · rw [if_neg hct, curve_type_letter_eq _ hct]
      rw [show ([curve_letter_char p.curve_type, '|'] ++ coord_str p) =
        [curve_letter_char p.curve_type] ++ '|' :: coord_str p from by simp]
      rw [split_char_append '|' _ _ (by
          intro hm
          have hmm := List.mem_singleton.mp hm
          revert hmm
          cases p.curve_type <;> decide),
        split_char_single '|' _ (coord_no_pipe p)]
  | cons q rest ih =>
    intro p
    simp only [List.map_cons, List.flatten_cons]
    rw [tok_line, tokens_of]
    by_cases hct : p.curve_type = .Inherit
    · rw [if_pos hct, hct]
      rw [show ((curve_type_letter .Inherit ++ coord_str p) ++
          ('|' :: tok_line q ++ (rest.map (fun r => '|' :: tok_line r)).flatten)) =
          coord_str p ++ '|' ::
            (tok_line q ++ (rest.map (fun r => '|' :: tok_line r)).flatten) from by
        simp [curve_type_letter]]
      rw [split_char_append '|' _ _ (coord_no_pipe p), ih q]
      rfl
    · rw [if_neg hct, curve_type_letter_eq _ hct]
      rw [show (([curve_letter_char p.curve_type, '|'] ++ coord_str p) ++
          ('|' :: tok_line q ++ (rest.map (fun r => '|' :: tok_line r)).flatten)) =
          [curve_letter_char p.curve_type] ++ '|' ::
            (coord_str p ++ '|' ::
              (tok_line q ++ (rest.map (fun r => '|' :: tok_line r)).flatten)) from by
        simp]
      rw [split_char_append '|' _ _ (by
          intro hm
          have hmm := List.mem_singleton.mp hm
          revert hmm
          cases p.curve_type <;> decide),
        split_char_append '|' _ _ (coord_no_pipe p), ih q]
      rfl

theorem parse_coord (p : SliderPoint) (ct : SliderCurveType)
    (hx : i32_ok p.x = true) (hy : i32_ok p.y = true) :
    split_once ':' (coord_str p) = some (int_to_str p.x, int_to_str p.y) ∧
    curve_type_of_token (coord_str p) = none := by
  constructor
  · rw [coord_str, split_once_append ':' _ _ (int_no_colon _)]
  · have hcol : ':' ∈ coord_str p := by
      rw [coord_str]
      exact List.mem_append.mpr (Or.inr (List.mem_cons_self ':' _))
    rw [curve_type_of_token]
    rw [if_neg (by intro he; rw [he] at hcol; simp [str] at hcol),
      if_neg (by intro he; rw [he] at hcol; simp [str] at hcol),
      if_neg (by intro he; rw [he] at hcol; simp [str] at hcol),
      if_neg (by intro he; rw [he] at hcol; simp [str] at hcol)]

theorem parse_curve_tokens_round (ps : List SliderPoint)
    (h : ∀ p ∈ ps, i32_ok p.x = true ∧ i32_ok p.y = true) :
    parse_curve_tokens .Inherit ((ps.map tokens_of).flatten) = .ok ps := by
  induction ps with
  | nil => rfl
  | cons p rest ih =>
    obtain ⟨hx, hy⟩ := h p (List.mem_cons_self p rest)
    have ihr := ih (fun q hq => h q (List.mem_cons_of_mem p hq))
    obtain ⟨hsp, hnt⟩ := parse_coord p .Inherit hx hy
    obtain ⟨pct, px, py⟩ := p
    dsimp only at hsp hnt hx hy
    simp only [List.map_cons, List.flatten_cons]
    rw [tokens_of]
    dsimp only
    by_cases hct : pct = .Inherit
    · rw [if_pos hct, List.cons_append, List.nil_append]
      simp only [parse_curve_tokens, hnt, hsp, parse_sint_i32 _ hx,
        parse_sint_i32 _ hy, ihr]
      rw [hct]
    · rw [if_neg hct, List.cons_append, List.cons_append, List.nil_append]
      simp only [parse_curve_tokens, curve_letter_round _ hct, hnt, hsp,
        parse_sint_i32 _ hx, parse_sint_i32 _ hy, ihr]

theorem parse_curve_points_round (fct : SliderCurveType) (pts : List SliderPoint)
    (hfct : fct ≠ .Inherit) (hpts : pts ≠ [])
    (hhead : ∀ p, pts.head? = some p → p.curve_type ≠ fct)
    (hxy : ∀ p ∈ pts, i32_ok p.x = true ∧ i32_ok p.y = true) :
    parse_curve_points (deserialize_curve_points fct pts) = .ok (fct, pts) := by
  cases pts with
  | nil => exact absurd rfl hpts
  | cons p rest =>
    have hpne : p.curve_type ≠ fct := hhead p rfl
    have hstring : deserialize_curve_points fct (p :: rest) =
        [curve_letter_char fct] ++ '|' ::
          (tok_line p ++ (rest.map (fun q => '|' :: tok_line q)).flatten) := by
      rw [deserialize_curve_points, deserialize_curve_points_go, go_true_eq]
      rw [if_neg (by simp), if_pos (by simp [hpne]), curve_type_letter_eq fct hfct]
      simp [tok_line, coord_str, List.append_assoc]
    rw [parse_curve_points, hstring,
      split_char_append '|' _ _ (by
        intro hm
        have hmm := List.mem_singleton.mp hm
        revert hmm
        cases fct <;> decide),
      split_tok_chain rest p]
    rw [show (([curve_letter_char fct] :: (tokens_of p ++
        (rest.map tokens_of).flatten) : List Str)) =
      [curve_letter_char fct] :: (((p :: rest).map tokens_of).flatten) from by simp]
    simp only [curve_letter_round fct hfct, parse_curve_tokens_round (p :: rest) hxy]

/-- Character class of serialized curve points. -/
def slider_char (c : Char) : Prop :=
  num_char c ∨ c = ':' ∨ c = '|' ∨ c = 'B' ∨ c = 'C' ∨ c = 'L' ∨ c = 'P'

instance slider_char_decidable (c : Char) : Decidable (slider_char c) := by
  unfold slider_char
  infer_instance

theorem slider_char_props (c : Char) (h : slider_char c) :
    c ≠ ',' ∧ c ≠ '\n' ∧ c ≠ '\r' := by
  rcases h with h | h | h | h | h | h | h
  · obtain ⟨-, h1, h2, h3, -⟩ := num_char_props c h
    exact ⟨h3, h1, h2⟩
  all_goals (subst h; exact ⟨by decide, by decide, by decide⟩)

theorem all_ite_nil (c : Prop) [Decidable c] (s : Str) (P : Char → Bool)
    (h : s.all P = true) : (if c then s else []).all P = true := by
  by_cases hc : c
  · rw [if_pos hc]; exact h
  · rw [if_neg hc]; rfl

theorem all_slider_int (z : ℤ) :
    (int_to_str z).all (fun c => decide (slider_char c)) = true := by
  rw [List.all_eq_true]
  intro c hc
  simp only [decide_eq_true_eq]
  exact Or.inl (int_to_str_chars z c hc)

theorem all_slider_letter (ct : SliderCurveType) :
    (curve_type_letter ct).all (fun c => decide (slider_char c)) = true := by
  cases ct <;> decide

theorem go_chars (fct : SliderCurveType) (ps : List SliderPoint) :
    ∀ started, (deserialize_curve_points_go fct started ps).all
      (fun c => decide (slider_char c)) = true := by
  induction ps with
  | nil => intro started; rfl
  | cons p rest ih =>
    intro started
    rw [deserialize_curve_points_go]
    simp only [List.all_append, List.all_cons, Bool.and_eq_true]
    repeat' apply And.intro
    all_goals
      first
        | exact all_ite_nil _ _ _ (by decide)
        | exact all_ite_nil _ _ _ (all_slider_letter fct)
        | exact all_slider_letter _
        | exact all_slider_int _
        | exact ih true
        | decide

theorem curve_str_all (fct : SliderCurveType) (pts : List SliderPoint) :
    (deserialize_curve_points fct pts).all (fun c => decide (slider_char c)) = true :=
  go_chars fct pts false

theorem curve_str_no_comma (fct : SliderCurveType) (pts : List SliderPoint) :
    ',' ∉ deserialize_curve_points fct pts := by
  intro hm
  have := curve_str_all fct pts
  rw [List.all_eq_true] at this
  have h2 := this ',' hm
  rw [decide_eq_true_eq] at h2
  exact absurd rfl (slider_char_props ',' h2).1

theorem curve_str_line_ok (fct : SliderCurveType) (pts : List SliderPoint) :
    line_ok (deserialize_curve_points fct pts) = true := by
  rw [line_ok, List.all_eq_true]
  intro c hc
  have := curve_str_all fct pts
  rw [List.all_eq_true] at this
  have h2 := this c hc
  rw [decide_eq_true_eq] at h2
  obtain ⟨-, h3, h4⟩ := slider_char_props c h2
  simp [h3, h4]

theorem mem_intercalate (sep : Char) (parts : List Str) (c : Char)
    (hc : c ∈ List.intercalate [sep] parts) : c = sep ∨ ∃ p ∈ parts, c ∈ p := by
  induction parts with
  | nil => simp [List.intercalate] at hc
  | cons p rest ih =>
    cases rest with
    | nil =>
      rw [show List.intercalate [sep] [p] = p from by simp [List.intercalate]] at hc
      exact Or.inr ⟨p, List.mem_cons_self p [], hc⟩
    | cons q rest2 =>
      rw [show List.intercalate [sep] (p :: q :: rest2) =
          p ++ sep :: List.intercalate [sep] (q :: rest2) from by
        simp [List.intercalate, List.intersperse]] at hc
      rcases List.mem_append.mp hc with h | h
      · exact Or.inr ⟨p, List.mem_cons_self p _, h⟩
      · rcases List.mem_cons.mp h with h | h
        · exact Or.inl h
        · rcases ih h with h2 | ⟨p2, hp2, hcp2⟩
          · exact Or.inl h2
          · exact Or.inr ⟨p2, List.mem_cons_of_mem p hp2, hcp2⟩

theorem hit_sound_round_rec (h : HitSound) (hb : h.bits ≤ 255) :
    HitSound.from_str (nat_to_str h.bits) = some h := by
  obtain ⟨b⟩ := h
  exact hit_sound_round b hb

theorem hs_to_osu_cons (hs : HitSample) :
    ∃ c t, hs.to_osu_string = c :: t ∧ c.isDigit = true := by
  obtain ⟨c, t, heq, hc⟩ := nat_to_str_head_isDigit hs.normal_set.toNat
  rw [HitSample.to_osu_string, heq]
  exact ⟨c, _, rfl, hc⟩

/-- "clean" character predicate for a line fragment: not a newline, carriage
return or comma. -/
def frag_char (c : Char) : Bool := !(c = '\n') && !(c = '\x0d') && !(c = ',')

theorem nat_all_frag (n : ℕ) : (nat_to_str n).all frag_char = true := by
  rw [List.all_eq_true]
  intro c hc
  obtain ⟨-, h1, h2, h3, -⟩ := num_char_props c (nat_to_str_chars n c hc)
  simp [frag_char, h1, h2, h3]

theorem all_frag_of (s : Str) (hl : line_ok s = true) (hnc : ',' ∉ s) :
    s.all frag_char = true := by
  rw [List.all_eq_true]
  intro c hc
  rw [line_ok, List.all_eq_true] at hl
  have h1 := hl c hc
  simp only [Bool.and_eq_true, Bool.not_eq_eq_eq_not, Bool.not_true,
    decide_eq_false_iff_not] at h1
  have h2 : ¬ c = ',' := fun he => hnc (he ▸ hc)
  simp [frag_char, h1.1, h1.2, h2]

theorem frag_line_ok (s : Str) (h : s.all frag_char = true) :
    line_ok s = true ∧ ',' ∉ s := by
  rw [List.all_eq_true] at h
  constructor
  · rw [line_ok, List.all_eq_true]
    intro c hc
    have := h c hc
    simp only [frag_char, Bool.and_eq_true, Bool.not_eq_eq_eq_not, Bool.not_true,
      decide_eq_false_iff_not] at this
    simp [this.1.1, this.1.2]
  · intro hm
    have := h ',' hm
    simp [frag_char] at this

theorem hs_all_frag (hs : HitSample) (h : hit_sample_ok hs = true) :
    hs.to_osu_string.all frag_char = true := by
  obtain ⟨ns, as, idx, vol, fn⟩ := hs
  rw [hit_sample_ok] at h
  dsimp only at h
  rw [Bool.and_eq_true, Bool.and_eq_true] at h
  obtain ⟨-, hfn⟩ := h
  have hfl : (match fn with | some f => f | none => ([] : Str)).all frag_char =
      true := by
    cases fn with
    | none => rfl
    | some f =>
      dsimp only at hfn ⊢
      rw [Bool.and_eq_true, Bool.and_eq_true, Bool.and_eq_true] at hfn
      exact all_frag_of f hfn.1.1.2 (by
        have := hfn.2
        rwa [decide_eq_true_eq] at this)
  rw [HitSample.to_osu_string]
  dsimp only
  simp only [List.all_append, List.all_cons, Bool.and_eq_true]
  repeat' apply And.intro
  all_goals
    first
      | exact nat_all_frag _
      | exact hfl
      | decide

theorem hs_line_ok (hs : HitSample) (h : hit_sample_ok hs = true) :
    line_ok hs.to_osu_string = true :=
  (frag_line_ok _ (hs_all_frag hs h)).1

theorem hs_no_comma (hs : HitSample) (h : hit_sample_ok hs = true) :
    ',' ∉ hs.to_osu_string :=
  (frag_line_ok _ (hs_all_frag hs h)).2

/-- Bit-level behaviour of the on-disk type byte rebuilt by
`raw_object_type`, for canonical `combo_color_skip` values (`< 8`). -/
theorem raw_facts (t : HitObjectType) (cc : Option ℕ)
    (hcc : ∀ n, cc = some n → n < 8) :
    ∀ (x y : ℤ) (tm : Timestamp) (hsnd : HitSound) (ps : HitObjectParams)
      (hsam : HitSample),
      (HitObject.raw_object_type ⟨x, y, tm, t, cc, hsnd, ps, hsam⟩ ≤ 255) ∧
      (raw_is_base_type (HitObject.raw_object_type ⟨x, y, tm, t, cc, hsnd, ps, hsam⟩)
        0 = decide (t = .HitCircle)) ∧
      (raw_is_base_type (HitObject.raw_object_type ⟨x, y, tm, t, cc, hsnd, ps, hsam⟩)
        1 = decide (t = .Slider)) ∧
      (raw_is_base_type (HitObject.raw_object_type ⟨x, y, tm, t, cc, hsnd, ps, hsam⟩)
        3 = decide (t = .Spinner)) ∧
      (raw_is_base_type (HitObject.raw_object_type ⟨x, y, tm, t, cc, hsnd, ps, hsam⟩)
        7 = decide (t = .Hold)) ∧
      ((if raw_is_base_type (HitObject.raw_object_type ⟨x, y, tm, t, cc, hsnd, ps,
          hsam⟩) 2 then
          some (((HitObject.raw_object_type ⟨x, y, tm, t, cc, hsnd, ps,
            hsam⟩).land 112) >>> 4)
        else none) = cc) := by
  intro x y tm hsnd ps hsam
  rw [HitObject.raw_object_type]
  dsimp only
  cases cc with
  | none => cases t <;> exact ⟨by decide, by decide, by decide, by decide,
      by decide, by decide⟩
  | some n =>
    have hn : n < 8 := hcc n rfl
    interval_cases n <;> cases t <;>
      exact ⟨by decide, by decide, by decide, by decide, by decide, by decide⟩

theorem hss_ne_nil (x : HitSampleSet) : x.to_osu_string ≠ [] := by
  rw [HitSampleSet.to_osu_string]
  intro he
  exact nat_to_str_ne_nil _ (List.append_eq_nil.mp he).1

theorem hss_chars (x : HitSampleSet) :
    ∀ c ∈ x.to_osu_string, num_char c ∨ c = ':' := by
  intro c hc
  rw [HitSampleSet.to_osu_string] at hc
  rcases List.mem_append.mp hc with h | h
  · exact Or.inl (nat_to_str_chars _ c h)
  · rcases List.mem_cons.mp h with h | h
    · exact Or.inr h
    · exact Or.inl (nat_to_str_chars _ c h)

theorem hss_no_pipe (x : HitSampleSet) : '|' ∉ x.to_osu_string := by
  intro hm
  rcases hss_chars x '|' hm with h | h
  · exact absurd ((num_char_props '|' h).2.2.2.2.2.1) (by simp)
  · simp at h

theorem hss_no_comma (x : HitSampleSet) : ',' ∉ x.to_osu_string := by
  intro hm
  rcases hss_chars x ',' hm with h | h
  · exact absurd ((num_char_props ',' h).2.2.2.1) (by simp)
  · simp at h

/-- The hit-object line without its terminating newline. -/
def hit_object_line (ho : HitObject) : Str :=
  int_to_str ho.x ++ ',' :: int_to_str ho.y ++
  ',' :: q_to_str ho.time ++
  ',' :: nat_to_str ho.raw_object_type ++
  ',' :: nat_to_str ho.hit_sound.bits ++
  (match ho.object_params with
    | .HitCircle => ',' :: ho.hit_sample.to_osu_string
    | .Slider first_curve_type curve_points slides length edge_hitsounds
        edge_samplesets =>
      ',' :: deserialize_curve_points first_curve_type curve_points ++
      ',' :: nat_to_str slides ++ ',' :: q_to_str length ++
      (if edge_hitsounds ≠ [] && edge_samplesets ≠ [] then
        ',' :: List.intercalate (str "|")
          (edge_hitsounds.map (fun h => nat_to_str h.bits)) ++
        ',' :: List.intercalate (str "|")
          (edge_samplesets.map HitSampleSet.to_osu_string)
      else []) ++
      ',' :: ho.hit_sample.to_osu_string
    | .Spinner end_time =>
      ',' :: q_to_str end_time ++ ',' :: ho.hit_sample.to_osu_string
    | .Hold end_time =>
      ',' :: q_to_str end_time ++ ':' :: ho.hit_sample.to_osu_string)

theorem deserialize_ho_eq (ho : HitObject) :
    deserialize_hit_object ho = hit_object_line ho ++ nl := by
  obtain ⟨x, y, tm, t, cc, hsnd, ps, hsam⟩ := ho
  cases ps <;>
    (rw [deserialize_hit_object, hit_object_line]
     dsimp only
     simp only [List.cons_append, List.append_assoc])

/-- Canonical slider point. -/
def slider_point_ok (p : SliderPoint) : Bool := i32_ok p.x && i32_ok p.y

/-- Canonically-encodable hit object. -/
def hit_object_ok (ho : HitObject) : Bool :=
  i32_ok ho.x && i32_ok ho.y && FiniteDec ho.time && (ho.hit_sound.bits ≤ 255) &&
  (match ho.combo_color_skip with | none => true | some n => n < 8) &&
  hit_sample_ok ho.hit_sample &&
  (match ho.object_params with
   | .HitCircle => ho.object_type = HitObjectType.HitCircle
   | .Slider fct pts slides len ehs ess =>
     (ho.object_type = HitObjectType.Slider) && decide (fct ≠ .Inherit) &&
     !pts.isEmpty &&
     (match pts.head? with
      | some p => decide (p.curve_type ≠ fct)
      | none => true) &&
     pts.all slider_point_ok && (slides ≤ 4294967295) && FiniteDec len &&
     !ehs.isEmpty && !ess.isEmpty && ehs.all (fun hh => hh.bits ≤ 255)
   | .Spinner et => (ho.object_type = HitObjectType.Spinner) && FiniteDec et
   | .Hold et => (ho.object_type = HitObjectType.Hold) && FiniteDec et)

theorem parse_hit_object_round (ho : HitObject) (h : hit_object_ok ho = true) :
    parse_hit_object (hit_object_line ho) = .ok ho := by
  obtain ⟨x, y, tm, t, cc, hsnd, ps, hsam⟩ := ho
  rw [hit_object_ok] at h
  dsimp only at h
  rw [Bool.and_eq_true, Bool.and_eq_true, Bool.and_eq_true, Bool.and_eq_true,
    Bool.and_eq_true, Bool.and_eq_true] at h
  obtain ⟨⟨⟨⟨⟨⟨hx, hy⟩, htm⟩, hbits⟩, hcc⟩, hhs⟩, hps⟩ := h
  rw [decide_eq_true_eq] at hbits
  have hccf : ∀ n, cc = some n → n < 8 := by
    intro n hn
    rw [hn] at hcc
    dsimp only at hcc
    rwa [decide_eq_true_eq] at hcc
  obtain ⟨hraw255, hb0, hb1, hb3, hb7, hb2⟩ := raw_facts t cc hccf x y tm hsnd ps hsam
  obtain ⟨hc0, ht0, hcs, -⟩ := hs_to_osu_cons hsam
  have hhsne : hsam.to_osu_string ≠ [] := by
    rw [hcs]
    simp
  cases ps with
  | HitCircle =>
    dsimp only at hps
    rw [decide_eq_true_eq] at hps
    subst hps
    rw [show decide (HitObjectType.HitCircle = HitObjectType.HitCircle) = true from
      by decide] at hb0
    have hsplit : split_char ','
        (hit_object_line ⟨x, y, tm, .HitCircle, cc, hsnd, .HitCircle, hsam⟩) =
        [int_to_str x, int_to_str y, q_to_str tm,
         nat_to_str (HitObject.raw_object_type
           ⟨x, y, tm, .HitCircle, cc, hsnd, .HitCircle, hsam⟩),
         nat_to_str hsnd.bits, hsam.to_osu_string] := by
      rw [hit_object_line]
      dsimp only
      simp only [List.cons_append, List.append_assoc]
      rw [split_char_append ',' _ _ (int_no_comma x),
        split_char_append ',' _ _ (int_no_comma y),
        split_char_append ',' _ _ (q_no_comma tm htm),
        split_char_append ',' _ _ (nat_no_comma _),
        split_char_append ',' _ _ (nat_no_comma _),
        split_char_single ',' _ (hs_no_comma hsam hhs)]
    rw [parse_hit_object, hsplit]
    simp only [parse_sint_i32 x hx, parse_sint_i32 y hy, parse_float_q tm htm,
      parse_uint_u8 _ hraw255, hit_sound_round_rec hsnd hbits, pure_bind,
      hb0, if_true]
    rw [hcs]
    simp only [← hcs, parse_hit_sample_round hsam hhs, pure_bind, hb2]
    rfl
  | Spinner et =>
    dsimp only at hps
    rw [Bool.and_eq_true] at hps
    obtain ⟨hot, het⟩ := hps
    rw [decide_eq_true_eq] at hot
    subst hot
    rw [show decide (HitObjectType.Spinner = HitObjectType.HitCircle) = false from
      by decide] at hb0
    rw [show decide (HitObjectType.Spinner = HitObjectType.Slider) = false from
      by decide] at hb1
    rw [show decide (HitObjectType.Spinner = HitObjectType.Spinner) = true from
      by decide] at hb3
    have hsplit : split_char ','
        (hit_object_line ⟨x, y, tm, .Spinner, cc, hsnd, .Spinner et, hsam⟩) =
        [int_to_str x, int_to_str y, q_to_str tm,
         nat_to_str (HitObject.raw_object_type
           ⟨x, y, tm, .Spinner, cc, hsnd, .Spinner et, hsam⟩),
         nat_to_str hsnd.bits, q_to_str et, hsam.to_osu_string] := by
      rw [hit_object_line]
      dsimp only
      simp only [List.cons_append, List.append_assoc]
      rw [split_char_append ',' _ _ (int_no_comma x),
        split_char_append ',' _ _ (int_no_comma y),
        split_char_append ',' _ _ (q_no_comma tm htm),
        split_char_append ',' _ _ (nat_no_comma _),
        split_char_append ',' _ _ (nat_no_comma _),
        split_char_append ',' _ _ (q_no_comma et het),
        split_char_single ',' _ (hs_no_comma hsam hhs)]
    rw [parse_hit_object, hsplit]
    simp only [parse_sint_i32 x hx, parse_sint_i32 y hy, parse_float_q tm htm,
      parse_uint_u8 _ hraw255, hit_sound_round_rec hsnd hbits, pure_bind,
      hb0, hb1, hb3, Bool.false_eq_true, if_false, if_true,
      parse_float_q et het]
    rw [hcs]
    simp only [← hcs, parse_hit_sample_round hsam hhs, pure_bind, hb2]
    rfl
  | Hold et =>
    dsimp only at hps
    rw [Bool.and_eq_true] at hps
    obtain ⟨hot, het⟩ := hps
    rw [decide_eq_true_eq] at hot
    subst hot
    rw [show decide (HitObjectType.Hold = HitObjectType.HitCircle) = false from
      by decide] at hb0
    rw [show decide (HitObjectType.Hold = HitObjectType.Slider) = false from
      by decide] at hb1
    rw [show decide (HitObjectType.Hold = HitObjectType.Spinner) = false from
      by decide] at hb3
    rw [show decide (HitObjectType.Hold = HitObjectType.Hold) = true from
      by decide] at hb7
    have hlast : ',' ∉ q_to_str et ++ ':' :: hsam.to_osu_string := by
      intro hm
      rcases List.mem_append.mp hm with h1 | h1
      · exact q_no_comma et het h1
      · rcases List.mem_cons.mp h1 with h1 | h1
        · simp at h1
        · exact hs_no_comma hsam hhs h1
    have hsplit : split_char ','
        (hit_object_line ⟨x, y, tm, .Hold, cc, hsnd, .Hold et, hsam⟩) =
        [int_to_str x, int_to_str y, q_to_str tm,
         nat_to_str (HitObject.raw_object_type
           ⟨x, y, tm, .Hold, cc, hsnd, .Hold et, hsam⟩),
         nat_to_str hsnd.bits, q_to_str et ++ ':' :: hsam.to_osu_string] := by
      rw [hit_object_line]
      dsimp only
      simp only [List.cons_append, List.append_assoc]
      rw [split_char_append ',' _ _ (int_no_comma x),
        split_char_append ',' _ _ (int_no_comma y),
        split_char_append ',' _ _ (q_no_comma tm htm),
        split_char_append ',' _ _ (nat_no_comma _),
        split_char_append ',' _ _ (nat_no_comma _),
        split_char_single ',' _ hlast]
    rw [parse_hit_object, hsplit]
    simp only [parse_sint_i32 x hx, parse_sint_i32 y hy, parse_float_q tm htm,
      parse_uint_u8 _ hraw255, hit_sound_round_rec hsnd hbits, pure_bind,
      hb0, hb1, hb3, hb7, Bool.false_eq_true, if_false, if_true,
      split_once_append ':' _ _ (q_no_colon et het), parse_float_q et het,
      if_pos hhsne]
    rw [hcs]
    simp only [← hcs, parse_hit_sample_round hsam hhs, pure_bind, hb2]
    rfl
  | Slider fct pts slides len ehs ess =>
    dsimp only at hps
    rw [Bool.and_eq_true, Bool.and_eq_true, Bool.and_eq_true, Bool.and_eq_true,
      Bool.and_eq_true, Bool.and_eq_true, Bool.and_eq_true, Bool.and_eq_true,
      Bool.and_eq_true] at hps
    obtain ⟨⟨⟨⟨⟨⟨⟨⟨⟨hot, hfct⟩, hpe⟩, hhead⟩, hall⟩, hsl⟩, hlen⟩, hehs⟩, hess⟩,
      hallb⟩ := hps
    rw [decide_eq_true_eq] at hot hfct hsl
    subst hot
    have hptsne : pts ≠ [] := by simpa [List.isEmpty_iff] using hpe
    have hehsne : ehs ≠ [] := by simpa [List.isEmpty_iff] using hehs
    have hessne : ess ≠ [] := by simpa [List.isEmpty_iff] using hess
    have hheadf : ∀ p, pts.head? = some p → p.curve_type ≠ fct := by
      intro p hp
      rw [hp] at hhead
      dsimp only at hhead
      rwa [decide_eq_true_eq] at hhead
    have hxyf : ∀ p ∈ pts, i32_ok p.x = true ∧ i32_ok p.y = true := by
      intro p hp
      have := List.all_eq_true.mp hall p hp
      rw [slider_point_ok, Bool.and_eq_true] at this
      exact this
    have hballb : ∀ hh ∈ ehs, hh.bits ≤ 255 := by
      intro hh hm
      have := List.all_eq_true.mp hallb hh hm
      rwa [decide_eq_true_eq] at this
    rw [show decide (HitObjectType.Slider = HitObjectType.HitCircle) = false from
      by decide] at hb0
    rw [show decide (HitObjectType.Slider = HitObjectType.Slider) = true from
      by decide] at hb1
    have hehsJc : ',' ∉ List.intercalate ['|']
        (ehs.map (fun hh => nat_to_str hh.bits)) := by
      intro hm
      rcases mem_intercalate '|' _ ',' hm with h1 | ⟨p, hp, hcp⟩
      · simp at h1
      · obtain ⟨hh, -, rfl⟩ := List.mem_map.mp hp
        exact nat_no_comma _ hcp
    have hessJc : ',' ∉ List.intercalate ['|']
        (ess.map HitSampleSet.to_osu_string) := by
      intro hm
      rcases mem_intercalate '|' _ ',' hm with h1 | ⟨p, hp, hcp⟩
      · simp at h1
      · obtain ⟨xs, -, rfl⟩ := List.mem_map.mp hp
        exact hss_no_comma _ hcp
    have hsplit : split_char ','
        (hit_object_line ⟨x, y, tm, .Slider, cc, hsnd,
          .Slider fct pts slides len ehs ess, hsam⟩) =
        [int_to_str x, int_to_str y, q_to_str tm,
         nat_to_str (HitObject.raw_object_type
           ⟨x, y, tm, .Slider, cc, hsnd, .Slider fct pts slides len ehs ess, hsam⟩),
         nat_to_str hsnd.bits, deserialize_curve_points fct pts,
         nat_to_str slides, q_to_str len,
         List.intercalate ['|'] (ehs.map (fun hh => nat_to_str hh.bits)),
         List.intercalate ['|'] (ess.map HitSampleSet.to_osu_string),
         hsam.to_osu_string] := by
      rw [hit_object_line]
      dsimp only
      rw [if_pos (by simp [hptsne, hehsne, hessne])]
      rw [show str "|" = ['|'] from rfl]
      simp only [List.cons_append, List.append_assoc]
      rw [split_char_append ',' _ _ (int_no_comma x),
        split_char_append ',' _ _ (int_no_comma y),
        split_char_append ',' _ _ (q_no_comma tm htm),
        split_char_append ',' _ _ (nat_no_comma _),
        split_char_append ',' _ _ (nat_no_comma _),
        split_char_append ',' _ _ (curve_str_no_comma fct pts),
        split_char_append ',' _ _ (nat_no_comma _),
        split_char_append ',' _ _ (q_no_comma len hlen),
        split_char_append ',' _ _ hehsJc,
        split_char_append ',' _ _ hessJc,
        split_char_single ',' _ (hs_no_comma hsam hhs)]
    have hehsparse : parse_list_of_with_sep HitSound.from_str
        (List.intercalate ['|'] (ehs.map (fun hh => nat_to_str hh.bits))) '|' =
        some ehs :=
      parse_list_sep_inverse _ _ '|' ehs hehsne
        (fun hh hm => ⟨nat_to_str_ne_nil _, nat_no_pipe _,
          hit_sound_round_rec hh (hballb hh hm)⟩)
    have hessparse : parse_list_of_with_sep HitSampleSet.from_str
        (List.intercalate ['|'] (ess.map HitSampleSet.to_osu_string)) '|' =
        some ess :=
      parse_list_sep_inverse _ _ '|' ess hessne
        (fun xs _ => ⟨hss_ne_nil xs, hss_no_pipe xs, hss_round xs⟩)
    rw [parse_hit_object, hsplit]
    simp only [parse_sint_i32 x hx, parse_sint_i32 y hy, parse_float_q tm htm,
      parse_uint_u8 _ hraw255, hit_sound_round_rec hsnd hbits, pure_bind,
      hb0, hb1, Bool.false_eq_true, if_false, if_true,
      parse_curve_points_round fct pts hfct hptsne hheadf hxyf,
      parse_uint_u32 slides hsl, parse_float_q len hlen,
      hehsparse, hessparse, if_neg hehsne]
    rw [hcs]
    simp only [← hcs, parse_hit_sample_round hsam hhs, pure_bind, hb2]
    rfl

theorem not_boundary (c : Char) (t v : Str) (hc : c ≠ '[') :
    ¬ (is_section_boundary ((c :: t) ++ v) = true) := by
  rw [List.cons_append, is_section_boundary_cons c _ hc]
  simp

theorem overlay_trim (op : OverlayPosition) : trim op.debug_str = op.debug_str := by
  cases op <;> decide

theorem gsec_audio_filename (f : Str) (hf : trim f = f) (hstd : to_standardized_path f = f) :
    ∀ (s : GeneralSection) (rest : List Str),
      parse_general_section s ((str "AudioFilename: " ++ f) :: rest) =
        parse_general_section { s with audio_filename := f } rest := by
  intro s rest
  rw [show str "AudioFilename: " ++ f =
    str "AudioFilename" ++ ':' :: ' ' :: f from rfl]
  simp only [parse_general_section]
  rw [if_neg (show ¬(is_section_boundary (str "AudioFilename" ++ ':' :: ' ' :: f) = true) from
    not_boundary 'A' (str "udioFilename") (':' :: ' ' :: f) (by decide))]
  rw [pfvp_key (str "AudioFilename") _ (by decide)]
  rw [show trim (str "AudioFilename") = str "AudioFilename" from by decide]
  rw [show trim (f) = f from hf]
  dsimp only
  rw [if_pos rfl, hstd]

theorem gsec_audio_lead_in (v : ℤ) (hv : i32_ok v = true) :
    ∀ (s : GeneralSection) (rest : List Str),
      parse_general_section s ((str "AudioLeadIn: " ++ int_to_str v) :: rest) =
        parse_general_section { s with audio_lead_in := v } rest := by
  intro s rest
  rw [show str "AudioLeadIn: " ++ int_to_str v =
    str "AudioLeadIn" ++ ':' :: ' ' :: int_to_str v from rfl]
  simp only [parse_general_section]
  rw [if_neg (show ¬(is_section_boundary (str "AudioLeadIn" ++ ':' :: ' ' :: int_to_str v) = true) from
    not_boundary 'A' (str "udioLeadIn") (':' :: ' ' :: int_to_str v) (by decide))]
  rw [pfvp_key (str "AudioLeadIn") _ (by decide)]
  rw [show trim (str "AudioLeadIn") = str "AudioLeadIn" from by decide]
  rw [show trim (int_to_str v) = int_to_str v from trim_of_num_chars _ (int_to_str_chars v)]
  dsimp only
  rw [if_neg (by decide)]
  rw [if_pos rfl, parse_sint_i32 v hv]

theorem gsec_preview_time (v : ℚ) (hv : FiniteDec v = true) :
    ∀ (s : GeneralSection) (rest : List Str),
      parse_general_section s ((str "PreviewTime: " ++ q_to_str v) :: rest) =
        parse_general_section { s with preview_time := v } rest := by
  intro s rest
  rw [show str "PreviewTime: " ++ q_to_str v =
    str "PreviewTime" ++ ':' :: ' ' :: q_to_str v from rfl]
  simp only [parse_general_section]
  rw [if_neg (show ¬(is_section_boundary (str "PreviewTime" ++ ':' :: ' ' :: q_to_str v) = true) from
    not_boundary 'P' (str "reviewTime") (':' :: ' ' :: q_to_str v) (by decide))]
  rw [pfvp_key (str "PreviewTime") _ (by decide)]
  rw [show trim (str "PreviewTime") = str "PreviewTime" from by decide]
  rw [show trim (q_to_str v) = q_to_str v from trim_of_num_chars _ (q_chars v hv)]
  dsimp only
  rw [if_neg (by decide)]
  rw [if_neg (by decide)]
  rw [if_neg (by decide)]
  rw [if_pos rfl, parse_float_q v hv]

theorem gsec_countdown (v : ℤ) (hv : i32_ok v = true) :
    ∀ (s : GeneralSection) (rest : List Str),
      parse_general_section s ((str "Countdown: " ++ int_to_str v) :: rest) =
        parse_general_section { s with countdown := v } rest := by
  intro s rest
  rw [show str "Countdown: " ++ int_to_str v =
    str "Countdown" ++ ':' :: ' ' :: int_to_str v from rfl]
  simp only [parse_general_section]
  rw [if_neg (show ¬(is_section_boundary (str "Countdown" ++ ':' :: ' ' :: int_to_str v) = true) from
    not_boundary 'C' (str "ountdown") (':' :: ' ' :: int_to_str v) (by decide))]
  rw [pfvp_key (str "Countdown") _ (by decide)]
  rw [show trim (str "Countdown") = str "Countdown" from by decide]
  rw [show trim (int_to_str v) = int_to_str v from trim_of_num_chars _ (int_to_str_chars v)]
  dsimp only
  rw [if_neg (by decide)]
  rw [if_neg (by decide)]
  rw [if_neg (by decide)]
  rw [if_neg (by decide)]
  rw [if_pos rfl, parse_sint_i32 v hv]

theorem gsec_sample_set (f : Str) (hf : trim f = f) :
    ∀ (s : GeneralSection) (rest : List Str),
      parse_general_section s ((str "SampleSet: " ++ f) :: rest) =
        parse_general_section { s with sample_set := f } rest := by
  intro s rest
  rw [show str "SampleSet: " ++ f =
    str "SampleSet" ++ ':' :: ' ' :: f from rfl]
  simp only [parse_general_section]
  rw [if_neg (show ¬(is_section_boundary (str "SampleSet" ++ ':' :: ' ' :: f) = true) from
    not_boundary 'S' (str "ampleSet") (':' :: ' ' :: f) (by decide))]
  rw [pfvp_key (str "SampleSet") _ (by decide)]
  rw [show trim (str "SampleSet") = str "SampleSet" from by decide]
  rw [show trim (f) = f from hf]
  dsimp only
  rw [if_neg (by decide)]
  rw [if_neg (by decide)]
  rw [if_neg (by decide)]
  rw [if_neg (by decide)]
  rw [if_neg (by decide)]
  rw [if_pos rfl]

theorem gsec_stack_leniency (v : ℚ) (hv : FiniteDec v = true) :
    ∀ (s : GeneralSection) (rest : List Str),
      parse_general_section s ((str "StackLeniency: " ++ q_to_str v) :: rest) =
        parse_general_section { s with stack_leniency := v } rest := by
  intro s rest
  rw [show str "StackLeniency: " ++ q_to_str v =
    str "StackLeniency" ++ ':' :: ' ' :: q_to_str v from rfl]
  simp only [parse_general_section]
  rw [if_neg (show ¬(is_section_boundary (str "StackLeniency" ++ ':' :: ' ' :: q_to_str v) = true) from
    not_boundary 'S' (str "tackLeniency") (':' :: ' ' :: q_to_str v) (by decide))]
  rw [pfvp_key (str "StackLeniency") _ (by decide)]
  rw [show trim (str "StackLeniency") = str "StackLeniency" from by decide]
  rw [show trim (q_to_str v) = q_to_str v from trim_of_num_chars _ (q_chars v hv)]
  dsimp only
  rw [if_neg (by decide)]
  rw [if_neg (by decide)]
  rw [if_neg (by decide)]
  rw [if_neg (by decide)]
  rw [if_neg (by decide)]
  rw [if_neg (by decide)]
  rw [if_pos rfl, parse_float_q v hv]

theorem gsec_mode (v : ℕ) (hv : v ≤ 255) :
    ∀ (s : GeneralSection) (rest : List Str),
      parse_general_section s ((str "Mode: " ++ nat_to_str v) :: rest) =
        parse_general_section { s with mode := v } rest := by
  intro s rest
  rw [show str "Mode: " ++ nat_to_str v =
    str "Mode" ++ ':' :: ' ' :: nat_to_str v from rfl]
  simp only [parse_general_section]
  rw [if_neg (show ¬(is_section_boundary (str "Mode" ++ ':' :: ' ' :: nat_to_str v) = true) from
    not_boundary 'M' (str "ode") (':' :: ' ' :: nat_to_str v) (by decide))]
  rw [pfvp_key (str "Mode") _ (by decide)]
  rw [show trim (str "Mode") = str "Mode" from by decide]
  rw [show trim (nat_to_str v) = nat_to_str v from trim_of_num_chars _ (nat_to_str_chars v)]
  dsimp only
  rw [if_neg (by decide)]
  rw [if_neg (by decide)]
  rw [if_neg (by decide)]
  rw [if_neg (by decide)]
  rw [if_neg (by decide)]
  rw [if_neg (by decide)]
  rw [if_neg (by decide)]
  rw [if_pos rfl, parse_uint_u8 v hv]

theorem gsec_letterbox_in_breaks (b : Bool) :
    ∀ (s : GeneralSection) (rest : List Str),
      parse_general_section s ((str "LetterboxInBreaks: " ++ bool_to_str b) :: rest) =
        parse_general_section { s with letterbox_in_breaks := b } rest := by
  intro s rest
  rw [show str "LetterboxInBreaks: " ++ bool_to_str b =
    str "LetterboxInBreaks" ++ ':' :: ' ' :: bool_to_str b from rfl]
  simp only [parse_general_section]
  rw [if_neg (show ¬(is_section_boundary (str "LetterboxInBreaks" ++ ':' :: ' ' :: bool_to_str b) = true) from
    not_boundary 'L' (str "etterboxInBreaks") (':' :: ' ' :: bool_to_str b) (by decide))]
  rw [pfvp_key (str "LetterboxInBreaks") _ (by decide)]
  rw [show trim (str "LetterboxInBreaks") = str "LetterboxInBreaks" from by decide]
  rw [show trim (bool_to_str b) = bool_to_str b from trim_of_num_chars _ (bool_to_str_chars b)]
  dsimp only
  rw [if_neg (by decide)]
  rw [if_neg (by decide)]
  rw [if_neg (by decide)]
  rw [if_neg (by decide)]
  rw [if_neg (by decide)]
  rw [if_neg (by decide)]
  rw [if_neg (by decide)]
  rw [if_neg (by decide)]
  rw [if_pos rfl]
  simp only [bool_parse_round b, bool_decide_ne]

theorem gsec_use_skin_sprites (b : Bool) :
    ∀ (s : GeneralSection) (rest : List Str),
      parse_general_section s ((str "UseSkinSprites: " ++ bool_to_str b) :: rest) =
        parse_general_section { s with use_skin_sprites := b } rest := by
  intro s rest
  rw [show str "UseSkinSprites: " ++ bool_to_str b =
    str "UseSkinSprites" ++ ':' :: ' ' :: bool_to_str b from rfl]
  simp only [parse_general_section]
  rw [if_neg (show ¬(is_section_boundary (str "UseSkinSprites" ++ ':' :: ' ' :: bool_to_str b) = true) from
    not_boundary 'U' (str "seSkinSprites") (':' :: ' ' :: bool_to_str b) (by decide))]
  rw [pfvp_key (str "UseSkinSprites") _ (by decide)]
  rw [show trim (str "UseSkinSprites") = str "UseSkinSprites" from by decide]
  rw [show trim (bool_to_str b) = bool_to_str b from trim_of_num_chars _ (bool_to_str_chars b)]
  dsimp only
  rw [if_neg (by decide)]
  rw [if_neg (by decide)]
  rw [if_neg (by decide)]
  rw [if_neg (by decide)]
  rw [if_neg (by decide)]
  rw [if_neg (by decide)]
  rw [if_neg (by decide)]
  rw [if_neg (by decide)]
  rw [if_neg (by decide)]
  rw [if_neg (by decide)]
  rw [if_pos rfl]
  simp only [bool_parse_round b, bool_decide_ne]

theorem gsec_overlay_position (op : OverlayPosition) :
    ∀ (s : GeneralSection) (rest : List Str),
      parse_general_section s ((str "OverlayPosition: " ++ op.debug_str) :: rest) =
        parse_general_section { s with overlay_position := op } rest := by
  intro s rest
  rw [show str "OverlayPosition: " ++ op.debug_str =
    str "OverlayPosition" ++ ':' :: ' ' :: op.debug_str from rfl]
  simp only [parse_general_section]
  rw [if_neg (show ¬(is_section_boundary (str "OverlayPosition" ++ ':' :: ' ' :: op.debug_str) = true) from
    not_boundary 'O' (str "verlayPosition") (':' :: ' ' :: op.debug_str) (by decide))]
  rw [pfvp_key (str "OverlayPosition") _ (by decide)]
  rw [show trim (str "OverlayPosition") = str "OverlayPosition" from by decide]
  rw [show trim (op.debug_str) = op.debug_str from overlay_trim op]
  dsimp only
  rw [if_neg (by decide)]
  rw [if_neg (by decide)]
  rw [if_neg (by decide)]
  rw [if_neg (by decide)]
  rw [if_neg (by decide)]
  rw [if_neg (by decide)]
  rw [if_neg (by decide)]
  rw [if_neg (by decide)]
  rw [if_neg (by decide)]
  rw [if_neg (by decide)]
  rw [if_neg (by decide)]
  rw [if_neg (by decide)]
  rw [if_pos rfl, overlay_round op]

theorem gsec_skin_preference (f : Str) (hf : trim f = f) :
    ∀ (s : GeneralSection) (rest : List Str),
      parse_general_section s ((str "SkinPreference: " ++ f) :: rest) =
        parse_general_section { s with skin_preference := some f } rest := by
  intro s rest
  rw [show str "SkinPreference: " ++ f =
    str "SkinPreference" ++ ':' :: ' ' :: f from rfl]
  simp only [parse_general_section]
  rw [if_neg (show ¬(is_section_boundary (str "SkinPreference" ++ ':' :: ' ' :: f) = true) from
    not_boundary 'S' (str "kinPreference") (':' :: ' ' :: f) (by decide))]
  rw [pfvp_key (str "SkinPreference") _ (by decide)]
  rw [show trim (str "SkinPreference") = str "SkinPreference" from by decide]
  rw [show trim (f) = f from hf]
  dsimp only
  rw [if_neg (by decide)]
  rw [if_neg (by decide)]
  rw [if_neg (by decide)]
  rw [if_neg (by decide)]
  rw [if_neg (by decide)]
  rw [if_neg (by decide)]
  rw [if_neg (by decide)]
  rw [if_neg (by decide)]
  rw [if_neg (by decide)]
  rw [if_neg (by decide)]
  rw [if_neg (by decide)]
  rw [if_neg (by decide)]
  rw [if_neg (by decide)]
  rw [if_pos rfl]

theorem gsec_epilepsy_warning (b : Bool) :
    ∀ (s : GeneralSection) (rest : List Str),
      parse_general_section s ((str "EpilepsyWarning: " ++ bool_to_str b) :: rest) =
        parse_general_section { s with epilepsy_warning := b } rest := by
  intro s rest
  rw [show str "EpilepsyWarning: " ++ bool_to_str b =
    str "EpilepsyWarning" ++ ':' :: ' ' :: bool_to_str b from rfl]
  simp only [parse_general_section]
  rw [if_neg (show ¬(is_section_boundary (str "EpilepsyWarning" ++ ':' :: ' ' :: bool_to_str b) = true) from
    not_boundary 'E' (str "pilepsyWarning") (':' :: ' ' :: bool_to_str b) (by decide))]
  rw [pfvp_key (str "EpilepsyWarning") _ (by decide)]
  rw [show trim (str "EpilepsyWarning") = str "EpilepsyWarning" from by decide]
  rw [show trim (bool_to_str b) = bool_to_str b from trim_of_num_chars _ (bool_to_str_chars b)]
  dsimp only
  rw [if_neg (by decide)]
  rw [if_neg (by decide)]
  rw [if_neg (by decide)]
  rw [if_neg (by decide)]
  rw [if_neg (by decide)]
  rw [if_neg (by decide)]
  rw [if_neg (by decide)]
  rw [if_neg (by decide)]
  rw [if_neg (by decide)]
  rw [if_neg (by decide)]
  rw [if_neg (by decide)]
  rw [if_neg (by decide)]
  rw [if_neg (by decide)]
  rw [if_neg (by decide)]
  rw [if_pos rfl]
  simp only [bool_parse_round b, bool_decide_ne]

theorem gsec_countdown_offset (v : ℤ) (hv : i32_ok v = true) :
    ∀ (s : GeneralSection) (rest : List Str),
      parse_general_section s ((str "CountdownOffset: " ++ int_to_str v) :: rest) =
        parse_general_section { s with countdown_offset := v } rest := by
  intro s rest
  rw [show str "CountdownOffset: " ++ int_to_str v =
    str "CountdownOffset" ++ ':' :: ' ' :: int_to_str v from rfl]
  simp only [parse_general_section]
  rw [if_neg (show ¬(is_section_boundary (str "CountdownOffset" ++ ':' :: ' ' :: int_to_str v) = true) from
    not_boundary 'C' (str "ountdownOffset") (':' :: ' ' :: int_to_str v) (by decide))]
  rw [pfvp_key (str "CountdownOffset") _ (by decide)]
  rw [show trim (str "CountdownOffset") = str "CountdownOffset" from by decide]
  rw [show trim (int_to_str v) = int_to_str v from trim_of_num_chars _ (int_to_str_chars v)]
  dsimp only
  rw [if_neg (by decide)]
  rw [if_neg (by decide)]
  rw [if_neg (by decide)]
  rw [if_neg (by decide)]
  rw [if_neg (by decide)]
  rw [if_neg (by decide)]
  rw [if_neg (by decide)]
  rw [if_neg (by decide)]
  rw [if_neg (by decide)]
  rw [if_neg (by decide)]
  rw [if_neg (by decide)]
  rw [if_neg (by decide)]
  rw [if_neg (by decide)]
  rw [if_neg (by decide)]
  rw [if_neg (by decide)]
  rw [if_pos rfl, parse_sint_i32 v hv]

theorem gsec_special_style (b : Bool) :
    ∀ (s : GeneralSection) (rest : List Str),
      parse_general_section s ((str "SpecialStyle: " ++ bool_to_str b) :: rest) =
        parse_general_section { s with special_style := b } rest := by
  intro s rest
  rw [show str "SpecialStyle: " ++ bool_to_str b =
    str "SpecialStyle" ++ ':' :: ' ' :: bool_to_str b from rfl]
  simp only [parse_general_section]
  rw [if_neg (show ¬(is_section_boundary (str "SpecialStyle" ++ ':' :: ' ' :: bool_to_str b) = true) from
    not_boundary 'S' (str "pecialStyle") (':' :: ' ' :: bool_to_str b) (by decide))]
  rw [pfvp_key (str "SpecialStyle") _ (by decide)]
  rw [show trim (str "SpecialStyle") = str "SpecialStyle" from by decide]
  rw [show trim (bool_to_str b) = bool_to_str b from trim_of_num_chars _ (bool_to_str_chars b)]
  dsimp only
  rw [if_neg (by decide)]
  rw [if_neg (by decide)]
  rw [if_neg (by decide)]
  rw [if_neg (by decide)]
  rw [if_neg (by decide)]
  rw [if_neg (by decide)]
  rw [if_neg (by decide)]
  rw [if_neg (by decide)]
  rw [if_neg (by decide)]
  rw [if_neg (by decide)]
  rw [if_neg (by decide)]
  rw [if_neg (by decide)]
  rw [if_neg (by decide)]
  rw [if_neg (by decide)]
  rw [if_neg (by decide)]
  rw [if_neg (by decide)]
  rw [if_pos rfl]
  simp only [bool_parse_round b, bool_decide_ne]

theorem gsec_widescreen_storyboard (b : Bool) :
    ∀ (s : GeneralSection) (rest : List Str),
      parse_general_section s ((str "WidescreenStoryboard: " ++ bool_to_str b) :: rest) =
        parse_general_section { s with widescreen_storyboard := b } rest := by
  intro s rest
  rw [show str "WidescreenStoryboard: " ++ bool_to_str b =
    str "WidescreenStoryboard" ++ ':' :: ' ' :: bool_to_str b from rfl]
  simp only [parse_general_section]
  rw [if_neg (show ¬(is_section_boundary (str "WidescreenStoryboard" ++ ':' :: ' ' :: bool_to_str b) = true) from
    not_boundary 'W' (str "idescreenStoryboard") (':' :: ' ' :: bool_to_str b) (by decide))]
  rw [pfvp_key (str "WidescreenStoryboard") _ (by decide)]
  rw [show trim (str "WidescreenStoryboard") = str "WidescreenStoryboard" from by decide]
  rw [show trim (bool_to_str b) = bool_to_str b from trim_of_num_chars _ (bool_to_str_chars b)]
  dsimp only
  rw [if_neg (by decide)]
  rw [if_neg (by decide)]
  rw [if_neg (by decide)]
  rw [if_neg (by decide)]
  rw [if_neg (by decide)]
  rw [if_neg (by decide)]
  rw [if_neg (by decide)]
  rw [if_neg (by decide)]
  rw [if_neg (by decide)]
  rw [if_neg (by decide)]
  rw [if_neg (by decide)]
  rw [if_neg (by decide)]
  rw [if_neg (by decide)]
  rw [if_neg (by decide)]
  rw [if_neg (by decide)]
  rw [if_neg (by decide)]
  rw [if_neg (by decide)]
  rw [if_pos rfl]
  simp only [bool_parse_round b, bool_decide_ne]

theorem gsec_samples_match_playback_rate (b : Bool) :
    ∀ (s : GeneralSection) (rest : List Str),
      parse_general_section s ((str "SamplesMatchPlaybackRate: " ++ bool_to_str b) :: rest) =
        parse_general_section { s with samples_match_playback_rate := b } rest := by
  intro s rest
  rw [show str "SamplesMatchPlaybackRate: " ++ bool_to_str b =
    str "SamplesMatchPlaybackRate" ++ ':' :: ' ' :: bool_to_str b from rfl]
  simp only [parse_general_section]
  rw [if_neg (show ¬(is_section_boundary (str "SamplesMatchPlaybackRate" ++ ':' :: ' ' :: bool_to_str b) = true) from
    not_boundary 'S' (str "amplesMatchPlaybackRate") (':' :: ' ' :: bool_to_str b) (by decide))]
  rw [pfvp_key (str "SamplesMatchPlaybackRate") _ (by decide)]
  rw [show trim (str "SamplesMatchPlaybackRate") = str "SamplesMatchPlaybackRate" from by decide]
  rw [show trim (bool_to_str b) = bool_to_str b from trim_of_num_chars _ (bool_to_str_chars b)]
  dsimp only
  rw [if_neg (by decide)]
  rw [if_neg (by decide)]
  rw [if_neg (by decide)]
  rw [if_neg (by decide)]
  rw [if_neg (by decide)]
  rw [if_neg (by decide)]
  rw [if_neg (by decide)]
  rw [if_neg (by decide)]
  rw [if_neg (by decide)]
  rw [if_neg (by decide)]
  rw [if_neg (by decide)]
  rw [if_neg (by decide)]
  rw [if_neg (by decide)]
  rw [if_neg (by decide)]
  rw [if_neg (by decide)]
  rw [if_neg (by decide)]
  rw [if_neg (by decide)]
  rw [if_neg (by decide)]
  rw [if_pos rfl]
  simp only [bool_parse_round b, bool_decide_ne]

theorem esec_bookmarks (bms : List ℚ) (hne : bms ≠ []) (hfd : ∀ q ∈ bms, FiniteDec q = true) :
    ∀ (s : EditorAcc) (rest : List Str),
      parse_editor_section s ((str "Bookmarks: " ++ List.intercalate (str ",") (bms.map q_to_str)) :: rest) =
        parse_editor_section { s with bookmarks := bms } rest := by
  intro s rest
  rw [show str "Bookmarks: " ++ List.intercalate (str ",") (bms.map q_to_str) =
    str "Bookmarks" ++ ':' :: ' ' :: (List.intercalate (str ",") (bms.map q_to_str)) from rfl]
  simp only [parse_editor_section]
  rw [if_neg (show ¬(is_section_boundary (str "Bookmarks" ++ ':' :: ' ' :: (List.intercalate (str ",") (bms.map q_to_str))) = true) from
    not_boundary 'B' (str "ookmarks") (':' :: ' ' :: (List.intercalate (str ",") (bms.map q_to_str))) (by decide))]
  rw [pfvp_key (str "Bookmarks") _ (by decide)]
  rw [show trim (str "Bookmarks") = str "Bookmarks" from by decide]
  rw [show trim (List.intercalate (str ",") (bms.map q_to_str)) = List.intercalate (str ",") (bms.map q_to_str) from trim_eq_self_of_all _ (by
      intro c hc
      rcases mem_intercalate ',' _ c (by
          rwa [show str "," = [','] from rfl] at hc) with h1 | ⟨p2, hp2, hcp2⟩
      · subst h1; decide
      · obtain ⟨q, hq, rfl⟩ := List.mem_map.mp hp2
        exact (num_char_props c (q_chars q (hfd q hq) c hcp2)).1)]
  dsimp only
  rw [if_pos rfl]
  rw [show (str "," : Str) = [','] from rfl,
    parse_list_sep_inverse parse_float q_to_str ',' bms hne
      (fun q hq => ⟨q_to_str_ne_nil q, q_no_comma q (hfd q hq),
        parse_float_q q (hfd q hq)⟩)]

theorem esec_distance_spacing (v : ℚ) (hv : FiniteDec v = true) :
    ∀ (s : EditorAcc) (rest : List Str),
      parse_editor_section s ((str "DistanceSpacing: " ++ q_to_str v) :: rest) =
        parse_editor_section { s with distance_spacing := some v } rest := by
  intro s rest
  rw [show str "DistanceSpacing: " ++ q_to_str v =
    str "DistanceSpacing" ++ ':' :: ' ' :: (q_to_str v) from rfl]
  simp only [parse_editor_section]
  rw [if_neg (show ¬(is_section_boundary (str "DistanceSpacing" ++ ':' :: ' ' :: (q_to_str v)) = true) from
    not_boundary 'D' (str "istanceSpacing") (':' :: ' ' :: (q_to_str v)) (by decide))]
  rw [pfvp_key (str "DistanceSpacing") _ (by decide)]
  rw [show trim (str "DistanceSpacing") = str "DistanceSpacing" from by decide]
  rw [show trim (q_to_str v) = q_to_str v from trim_of_num_chars _ (q_chars v hv)]
  dsimp only
  rw [if_neg (by decide)]
  rw [if_pos rfl, parse_float_q v hv]

theorem esec_beat_divisor (v : ℚ) (hv : FiniteDec v = true) :
    ∀ (s : EditorAcc) (rest : List Str),
      parse_editor_section s ((str "BeatDivisor: " ++ q_to_str v) :: rest) =
        parse_editor_section { s with beat_divisor := some v } rest := by
  intro s rest
  rw [show str "BeatDivisor: " ++ q_to_str v =
    str "BeatDivisor" ++ ':' :: ' ' :: (q_to_str v) from rfl]
  simp only [parse_editor_section]
  rw [if_neg (show ¬(is_section_boundary (str "BeatDivisor" ++ ':' :: ' ' :: (q_to_str v)) = true) from
    not_boundary 'B' (str "eatDivisor") (':' :: ' ' :: (q_to_str v)) (by decide))]
  rw [pfvp_key (str "BeatDivisor") _ (by decide)]
  rw [show trim (str "BeatDivisor") = str "BeatDivisor" from by decide]
  rw [show trim (q_to_str v) = q_to_str v from trim_of_num_chars _ (q_chars v hv)]
  dsimp only
  rw [if_neg (by decide)]
  rw [if_neg (by decide)]
  rw [if_pos rfl, parse_float_q v hv]

theorem esec_grid_size (v : ℤ) (hv : i32_ok v = true) :
    ∀ (s : EditorAcc) (rest : List Str),
      parse_editor_section s ((str "GridSize: " ++ int_to_str v) :: rest) =
        parse_editor_section { s with grid_size := some v } rest := by
  intro s rest
  rw [show str "GridSize: " ++ int_to_str v =
    str "GridSize" ++ ':' :: ' ' :: (int_to_str v) from rfl]
  simp only [parse_editor_section]
  rw [if_neg (show ¬(is_section_boundary (str "GridSize" ++ ':' :: ' ' :: (int_to_str v)) = true) from
    not_boundary 'G' (str "ridSize") (':' :: ' ' :: (int_to_str v)) (by decide))]
  rw [pfvp_key (str "GridSize") _ (by decide)]
  rw [show trim (str "GridSize") = str "GridSize" from by decide]
  rw [show trim (int_to_str v) = int_to_str v from trim_of_num_chars _ (int_to_str_chars v)]
  dsimp only
  rw [if_neg (by decide)]
  rw [if_neg (by decide)]
  rw [if_neg (by decide)]
  rw [if_pos rfl, parse_sint_i32 v hv]

theorem esec_timeline_zoom (v : ℚ) (hv : FiniteDec v = true) :
    ∀ (s : EditorAcc) (rest : List Str),
      parse_editor_section s ((str "TimelineZoom: " ++ q_to_str v) :: rest) =
        parse_editor_section { s with timeline_zoom := some v } rest := by
  intro s rest
  rw [show str "TimelineZoom: " ++ q_to_str v =
    str "TimelineZoom" ++ ':' :: ' ' :: (q_to_str v) from rfl]
  simp only [parse_editor_section]
  rw [if_neg (show ¬(is_section_boundary (str "TimelineZoom" ++ ':' :: ' ' :: (q_to_str v)) = true) from
    not_boundary 'T' (str "imelineZoom") (':' :: ' ' :: (q_to_str v)) (by decide))]
  rw [pfvp_key (str "TimelineZoom") _ (by decide)]
  rw [show trim (str "TimelineZoom") = str "TimelineZoom" from by decide]
  rw [show trim (q_to_str v) = q_to_str v from trim_of_num_chars _ (q_chars v hv)]
  dsimp only
  rw [if_neg (by decide)]
  rw [if_neg (by decide)]
  rw [if_neg (by decide)]
  rw [if_neg (by decide)]
  rw [if_pos rfl, parse_float_q v hv]

theorem msec_title (f : Str) (hf : trim f = f) :
    ∀ (s : MetadataSection) (rest : List Str),
      parse_metadata_section s ((str "Title: " ++ f) :: rest) =
        parse_metadata_section { s with title := f } rest := by
  intro s rest
  rw [show str "Title: " ++ f =
    str "Title" ++ ':' :: ' ' :: (f) from rfl]
  simp only [parse_metadata_section]
  rw [if_neg (show ¬(is_section_boundary (str "Title" ++ ':' :: ' ' :: (f)) = true) from
    not_boundary 'T' (str "itle") (':' :: ' ' :: (f)) (by decide))]
  rw [pfvp_key (str "Title") _ (by decide)]
  rw [show trim (str "Title") = str "Title" from by decide]
  rw [show trim (f) = f from hf]
  dsimp only
  rw [if_pos rfl]

theorem msec_title_unicode (f : Str) (hf : trim f = f) :
    ∀ (s : MetadataSection) (rest : List Str),
      parse_metadata_section s ((str "TitleUnicode: " ++ f) :: rest) =
        parse_metadata_section { s with title_unicode := f } rest := by
  intro s rest
  rw [show str "TitleUnicode: " ++ f =
    str "TitleUnicode" ++ ':' :: ' ' :: (f) from rfl]
  simp only [parse_metadata_section]
  rw [if_neg (show ¬(is_section_boundary (str "TitleUnicode" ++ ':' :: ' ' :: (f)) = true) from
    not_boundary 'T' (str "itleUnicode") (':' :: ' ' :: (f)) (by decide))]
  rw [pfvp_key (str "TitleUnicode") _ (by decide)]
  rw [show trim (str "TitleUnicode") = str "TitleUnicode" from by decide]
  rw [show trim (f) = f from hf]
  dsimp only
  rw [if_neg (by decide)]
  rw [if_pos rfl]

theorem msec_artist (f : Str) (hf : trim f = f) :
    ∀ (s : MetadataSection) (rest : List Str),
      parse_metadata_section s ((str "Artist: " ++ f) :: rest) =
        parse_metadata_section { s with artist := f } rest := by
  intro s rest
  rw [show str "Artist: " ++ f =
    str "Artist" ++ ':' :: ' ' :: (f) from rfl]
  simp only [parse_metadata_section]
  rw [if_neg (show ¬(is_section_boundary (str "Artist" ++ ':' :: ' ' :: (f)) = true) from
    not_boundary 'A' (str "rtist") (':' :: ' ' :: (f)) (by decide))]
  rw [pfvp_key (str "Artist") _ (by decide)]
  rw [show trim (str "Artist") = str "Artist" from by decide]
  rw [show trim (f) = f from hf]
  dsimp only
  rw [if_neg (by decide)]
  rw [if_neg (by decide)]
  rw [if_pos rfl]

theorem msec_artist_unicode (f : Str) (hf : trim f = f) :
    ∀ (s : MetadataSection) (rest : List Str),
      parse_metadata_section s ((str "ArtistUnicode: " ++ f) :: rest) =
        parse_metadata_section { s with artist_unicode := f } rest := by
  intro s rest
  rw [show str "ArtistUnicode: " ++ f =
    str "ArtistUnicode" ++ ':' :: ' ' :: (f) from rfl]
  simp only [parse_metadata_section]
  rw [if_neg (show ¬(is_section_boundary (str "ArtistUnicode" ++ ':' :: ' ' :: (f)) = true) from
    not_boundary 'A' (str "rtistUnicode") (':' :: ' ' :: (f)) (by decide))]
  rw [pfvp_key (str "ArtistUnicode") _ (by decide)]
  rw [show trim (str "ArtistUnicode") = str "ArtistUnicode" from by decide]
  rw [show trim (f) = f from hf]
  dsimp only
  rw [if_neg (by decide)]
  rw [if_neg (by decide)]
  rw [if_neg (by decide)]
  rw [if_pos rfl]

theorem msec_creator (f : Str) (hf : trim f = f) :
    ∀ (s : MetadataSection) (rest : List Str),
      parse_metadata_section s ((str "Creator: " ++ f) :: rest) =
        parse_metadata_section { s with creator := f } rest := by
  intro s rest
  rw [show str "Creator: " ++ f =
    str "Creator" ++ ':' :: ' ' :: (f) from rfl]
  simp only [parse_metadata_section]
  rw [if_neg (show ¬(is_section_boundary (str "Creator" ++ ':' :: ' ' :: (f)) = true) from
    not_boundary 'C' (str "reator") (':' :: ' ' :: (f)) (by decide))]
  rw [pfvp_key (str "Creator") _ (by decide)]
  rw [show trim (str "Creator") = str "Creator" from by decide]
  rw [show trim (f) = f from hf]
  dsimp only
  rw [if_neg (by decide)]
  rw [if_neg (by decide)]
  rw [if_neg (by decide)]
  rw [if_neg (by decide)]
  rw [if_pos rfl]

theorem msec_version (f : Str) (hf : trim f = f) :
    ∀ (s : MetadataSection) (rest : List Str),
      parse_metadata_section s ((str "Version: " ++ f) :: rest) =
        parse_metadata_section { s with version := f } rest := by
  intro s rest
  rw [show str "Version: " ++ f =
    str "Version" ++ ':' :: ' ' :: (f) from rfl]
  simp only [parse_metadata_section]
  rw [if_neg (show ¬(is_section_boundary (str "Version" ++ ':' :: ' ' :: (f)) = true) from
    not_boundary 'V' (str "ersion") (':' :: ' ' :: (f)) (by decide))]
  rw [pfvp_key (str "Version") _ (by decide)]
  rw [show trim (str "Version") = str "Version" from by decide]
  rw [show trim (f) = f from hf]
  dsimp only
  rw [if_neg (by decide)]
  rw [if_neg (by decide)]
  rw [if_neg (by decide)]
  rw [if_neg (by decide)]
  rw [if_neg (by decide)]
  rw [if_pos rfl]

theorem msec_source (f : Str) (hf : trim f = f) :
    ∀ (s : MetadataSection) (rest : List Str),
      parse_metadata_section s ((str "Source: " ++ f) :: rest) =
        parse_metadata_section { s with source := f } rest := by
  intro s rest
  rw [show str "Source: " ++ f =
    str "Source" ++ ':' :: ' ' :: (f) from rfl]
  simp only [parse_metadata_section]
  rw [if_neg (show ¬(is_section_boundary (str "Source" ++ ':' :: ' ' :: (f)) = true) from
    not_boundary 'S' (str "ource") (':' :: ' ' :: (f)) (by decide))]
  rw [pfvp_key (str "Source") _ (by decide)]
  rw [show trim (str "Source") = str "Source" from by decide]
  rw [show trim (f) = f from hf]
  dsimp only
  rw [if_neg (by decide)]
  rw [if_neg (by decide)]
  rw [if_neg (by decide)]
  rw [if_neg (by decide)]
  rw [if_neg (by decide)]
  rw [if_neg (by decide)]
  rw [if_pos rfl]

theorem msec_tags (tags : List Str) (hne : tags ≠ []) (hok : ∀ t ∈ tags, tag_ok t = true) :
    ∀ (s : MetadataSection) (rest : List Str),
      parse_metadata_section s ((str "Tags: " ++ List.intercalate (str " ") tags) :: rest) =
        parse_metadata_section { s with tags := tags } rest := by
  intro s rest
  rw [show str "Tags: " ++ List.intercalate (str " ") tags =
    str "Tags" ++ ':' :: ' ' :: (List.intercalate (str " ") tags) from rfl]
  simp only [parse_metadata_section]
  rw [if_neg (show ¬(is_section_boundary (str "Tags" ++ ':' :: ' ' :: (List.intercalate (str " ") tags)) = true) from
    not_boundary 'T' (str "ags") (':' :: ' ' :: (List.intercalate (str " ") tags)) (by decide))]
  rw [pfvp_key (str "Tags") _ (by decide)]
  rw [show trim (str "Tags") = str "Tags" from by decide]
  rw [show trim (List.intercalate (str " ") tags) = List.intercalate (str " ") tags from by
    rw [show (str " " : Str) = [' '] from rfl]
    exact (tags_round tags hok hne).1]
  dsimp only
  rw [if_neg (by decide)]
  rw [if_neg (by decide)]
  rw [if_neg (by decide)]
  rw [if_neg (by decide)]
  rw [if_neg (by decide)]
  rw [if_neg (by decide)]
  rw [if_neg (by decide)]
  rw [if_pos rfl]
  rw [show (str " " : Str) = [' '] from rfl, (tags_round tags hok hne).2]

theorem msec_beatmap_id (v : ℤ) (hv : i32_ok v = true) :
    ∀ (s : MetadataSection) (rest : List Str),
      parse_metadata_section s ((str "BeatmapID: " ++ int_to_str v) :: rest) =
        parse_metadata_section { s with beatmap_id := some v } rest := by
  intro s rest
  rw [show str "BeatmapID: " ++ int_to_str v =
    str "BeatmapID" ++ ':' :: ' ' :: (int_to_str v) from rfl]
  simp only [parse_metadata_section]
  rw [if_neg (show ¬(is_section_boundary (str "BeatmapID" ++ ':' :: ' ' :: (int_to_str v)) = true) from
    not_boundary 'B' (str "eatmapID") (':' :: ' ' :: (int_to_str v)) (by decide))]
  rw [pfvp_key (str "BeatmapID") _ (by decide)]
  rw [show trim (str "BeatmapID") = str "BeatmapID" from by decide]
  rw [show trim (int_to_str v) = int_to_str v from trim_of_num_chars _ (int_to_str_chars v)]
  dsimp only
  rw [if_neg (by decide)]
  rw [if_neg (by decide)]
  rw [if_neg (by decide)]
  rw [if_neg (by decide)]
  rw [if_neg (by decide)]
  rw [if_neg (by decide)]
  rw [if_neg (by decide)]
  rw [if_neg (by decide)]
  rw [if_pos rfl, parse_sint_i32 v hv]

theorem msec_beatmap_set_id (v : ℤ) (hv : i32_ok v = true) :
    ∀ (s : MetadataSection) (rest : List Str),
      parse_metadata_section s ((str "BeatmapSetID: " ++ int_to_str v) :: rest) =
        parse_metadata_section { s with beatmap_set_id := some v } rest := by
  intro s rest
  rw [show str "BeatmapSetID: " ++ int_to_str v =
    str "BeatmapSetID" ++ ':' :: ' ' :: (int_to_str v) from rfl]
  simp only [parse_metadata_section]
  rw [if_neg (show ¬(is_section_boundary (str "BeatmapSetID" ++ ':' :: ' ' :: (int_to_str v)) = true) from
    not_boundary 'B' (str "eatmapSetID") (':' :: ' ' :: (int_to_str v)) (by decide))]
  rw [pfvp_key (str "BeatmapSetID") _ (by decide)]
  rw [show trim (str "BeatmapSetID") = str "BeatmapSetID" from by decide]
  rw [show trim (int_to_str v) = int_to_str v from trim_of_num_chars _ (int_to_str_chars v)]
  dsimp only
  rw [if_neg (by decide)]
  rw [if_neg (by decide)]
  rw [if_neg (by decide)]
  rw [if_neg (by decide)]
  rw [if_neg (by decide)]
  rw [if_neg (by decide)]
  rw [if_neg (by decide)]
  rw [if_neg (by decide)]
  rw [if_neg (by decide)]
  rw [if_pos rfl, parse_sint_i32 v hv]

theorem dsec_hp_drain_rate (v : ℚ) (hv : FiniteDec v = true) :
    ∀ (s : DifficultySection) (rest : List Str),
      parse_difficulty_section s ((str "HPDrainRate: " ++ q_to_str v) :: rest) =
        parse_difficulty_section { s with hp_drain_rate := v } rest := by
  intro s rest
  rw [show str "HPDrainRate: " ++ q_to_str v =
    str "HPDrainRate" ++ ':' :: ' ' :: (q_to_str v) from rfl]
  simp only [parse_difficulty_section]
  rw [if_neg (show ¬(is_section_boundary (str "HPDrainRate" ++ ':' :: ' ' :: (q_to_str v)) = true) from
    not_boundary 'H' (str "PDrainRate") (':' :: ' ' :: (q_to_str v)) (by decide))]
  rw [pfvp_key (str "HPDrainRate") _ (by decide)]
  rw [show trim (str "HPDrainRate") = str "HPDrainRate" from by decide]
  rw [show trim (q_to_str v) = q_to_str v from trim_of_num_chars _ (q_chars v hv)]
  dsimp only
  rw [if_pos rfl, parse_float_q v hv]

theorem dsec_circle_size (v : ℚ) (hv : FiniteDec v = true) :
    ∀ (s : DifficultySection) (rest : List Str),
      parse_difficulty_section s ((str "CircleSize: " ++ q_to_str v) :: rest) =
        parse_difficulty_section { s with circle_size := v } rest := by
  intro s rest
  rw [show str "CircleSize: " ++ q_to_str v =
    str "CircleSize" ++ ':' :: ' ' :: (q_to_str v) from rfl]
  simp only [parse_difficulty_section]
  rw [if_neg (show ¬(is_section_boundary (str "CircleSize" ++ ':' :: ' ' :: (q_to_str v)) = true) from
    not_boundary 'C' (str "ircleSize") (':' :: ' ' :: (q_to_str v)) (by decide))]
  rw [pfvp_key (str "CircleSize") _ (by decide)]
  rw [show trim (str "CircleSize") = str "CircleSize" from by decide]
  rw [show trim (q_to_str v) = q_to_str v from trim_of_num_chars _ (q_chars v hv)]
  dsimp only
  rw [if_neg (by decide)]
  rw [if_pos rfl, parse_float_q v hv]

theorem dsec_overall_difficulty (v : ℚ) (hv : FiniteDec v = true) :
    ∀ (s : DifficultySection) (rest : List Str),
      parse_difficulty_section s ((str "OverallDifficulty: " ++ q_to_str v) :: rest) =
        parse_difficulty_section { s with overall_difficulty := v } rest := by
  intro s rest
  rw [show str "OverallDifficulty: " ++ q_to_str v =
    str "OverallDifficulty" ++ ':' :: ' ' :: (q_to_str v) from rfl]
  simp only [parse_difficulty_section]
  rw [if_neg (show ¬(is_section_boundary (str "OverallDifficulty" ++ ':' :: ' ' :: (q_to_str v)) = true) from
    not_boundary 'O' (str "verallDifficulty") (':' :: ' ' :: (q_to_str v)) (by decide))]
  rw [pfvp_key (str "OverallDifficulty") _ (by decide)]
  rw [show trim (str "OverallDifficulty") = str "OverallDifficulty" from by decide]
  rw [show trim (q_to_str v) = q_to_str v from trim_of_num_chars _ (q_chars v hv)]
  dsimp only
  rw [if_neg (by decide)]
  rw [if_neg (by decide)]
  rw [if_pos rfl, parse_float_q v hv]

theorem dsec_approach_rate (v : ℚ) (hv : FiniteDec v = true) :
    ∀ (s : DifficultySection) (rest : List Str),
      parse_difficulty_section s ((str "ApproachRate: " ++ q_to_str v) :: rest) =
        parse_difficulty_section { s with approach_rate := v } rest := by
  intro s rest
  rw [show str "ApproachRate: " ++ q_to_str v =
    str "ApproachRate" ++ ':' :: ' ' :: (q_to_str v) from rfl]
  simp only [parse_difficulty_section]
  rw [if_neg (show ¬(is_section_boundary (str "ApproachRate" ++ ':' :: ' ' :: (q_to_str v)) = true) from
    not_boundary 'A' (str "pproachRate") (':' :: ' ' :: (q_to_str v)) (by decide))]
  rw [pfvp_key (str "ApproachRate") _ (by decide)]
  rw [show trim (str "ApproachRate") = str "ApproachRate" from by decide]
  rw [show trim (q_to_str v) = q_to_str v from trim_of_num_chars _ (q_chars v hv)]
  dsimp only
  rw [if_neg (by decide)]
  rw [if_neg (by decide)]
  rw [if_neg (by decide)]
  rw [if_pos rfl, parse_float_q v hv]

theorem dsec_slider_multiplier (v : ℚ) (hv : FiniteDec v = true) :
    ∀ (s : DifficultySection) (rest : List Str),
      parse_difficulty_section s ((str "SliderMultiplier: " ++ q_to_str v) :: rest) =
        parse_difficulty_section { s with slider_multiplier := v } rest := by
  intro s rest
  rw [show str "SliderMultiplier: " ++ q_to_str v =
    str "SliderMultiplier" ++ ':' :: ' ' :: (q_to_str v) from rfl]
  simp only [parse_difficulty_section]
  rw [if_neg (show ¬(is_section_boundary (str "SliderMultiplier" ++ ':' :: ' ' :: (q_to_str v)) = true) from
    not_boundary 'S' (str "liderMultiplier") (':' :: ' ' :: (q_to_str v)) (by decide))]
  rw [pfvp_key (str "SliderMultiplier") _ (by decide)]
  rw [show trim (str "SliderMultiplier") = str "SliderMultiplier" from by decide]
  rw [show trim (q_to_str v) = q_to_str v from trim_of_num_chars _ (q_chars v hv)]
  dsimp only
  rw [if_neg (by decide)]
  rw [if_neg (by decide)]
  rw [if_neg (by decide)]
  rw [if_neg (by decide)]
  rw [if_pos rfl, parse_float_q v hv]

theorem dsec_slider_tick_rate (v : ℚ) (hv : FiniteDec v = true) :
    ∀ (s : DifficultySection) (rest : List Str),
      parse_difficulty_section s ((str "SliderTickRate: " ++ q_to_str v) :: rest) =
        parse_difficulty_section { s with slider_tick_rate := v } rest := by
  intro s rest
  rw [show str "SliderTickRate: " ++ q_to_str v =
    str "SliderTickRate" ++ ':' :: ' ' :: (q_to_str v) from rfl]
  simp only [parse_difficulty_section]
  rw [if_neg (show ¬(is_section_boundary (str "SliderTickRate" ++ ':' :: ' ' :: (q_to_str v)) = true) from
    not_boundary 'S' (str "liderTickRate") (':' :: ' ' :: (q_to_str v)) (by decide))]
  rw [pfvp_key (str "SliderTickRate") _ (by decide)]
  rw [show trim (str "SliderTickRate") = str "SliderTickRate" from by decide]
  rw [show trim (q_to_str v) = q_to_str v from trim_of_num_chars _ (q_chars v hv)]
  dsimp only
  rw [if_neg (by decide)]
  rw [if_neg (by decide)]
  rw [if_neg (by decide)]
  rw [if_neg (by decide)]
  rw [if_neg (by decide)]
  rw [if_pos rfl, parse_float_q v hv]

/-! Terminal behaviour of the section parsers: a boundary line (or the end of
input) stops the section and reports the next header. -/

theorem parse_general_term (s : GeneralSection) (S : List Str)
    (hS : ∀ l, S.head? = some l → is_section_boundary l = true) :
    parse_general_section s S = .ok (s, S.head?, S.tail) := by
  cases S with
  | nil => rfl
  | cons l t =>
    simp only [parse_general_section]
    rw [if_pos (hS l rfl)]
    rfl

theorem parse_editor_term (a : EditorAcc) (S : List Str)
    (hS : ∀ l, S.head? = some l → is_section_boundary l = true) :
    parse_editor_section a S = editor_acc_build a S.head? S.tail := by
  cases S with
  | nil => rfl
  | cons l t =>
    simp only [parse_editor_section]
    rw [if_pos (hS l rfl)]
    rfl

theorem parse_metadata_term (s : MetadataSection) (S : List Str)
    (hS : ∀ l, S.head? = some l → is_section_boundary l = true) :
    parse_metadata_section s S = .ok (s, S.head?, S.tail) := by
  cases S with
  | nil => rfl
  | cons l t =>
    simp only [parse_metadata_section]
    rw [if_pos (hS l rfl)]
    rfl

theorem parse_difficulty_term (s : DifficultySection) (S : List Str)
    (hS : ∀ l, S.head? = some l → is_section_boundary l = true) :
    parse_difficulty_section s S = .ok (s, S.head?, S.tail) := by
  cases S with
  | nil => rfl
  | cons l t =>
    simp only [parse_difficulty_section]
    rw [if_pos (hS l rfl)]
    rfl

theorem parse_events_term (evs : List Event) (S : List Str)
    (hS : ∀ l, S.head? = some l → is_section_boundary l = true) :
    parse_events_section evs S = .ok (evs, S.head?, S.tail) := by
  cases S with
  | nil => rfl
  | cons l t =>
    simp only [parse_events_section]
    rw [if_pos (hS l rfl)]
    rfl

theorem parse_tps_term (tps : List TimingPoint) (S : List Str)
    (hS : ∀ l, S.head? = some l → is_section_boundary l = true) :
    parse_timing_points_section tps S = .ok (tps, S.head?, S.tail) := by
  cases S with
  | nil => rfl
  | cons l t =>
    simp only [parse_timing_points_section]
    rw [if_pos (hS l rfl)]
    rfl

theorem parse_colors_term (s : ColorsSection) (S : List Str)
    (hS : ∀ l, S.head? = some l → is_section_boundary l = true) :
    parse_colors_section s S = .ok (s, S.head?, S.tail) := by
  cases S with
  | nil => rfl
  | cons l t =>
    simp only [parse_colors_section]
    rw [if_pos (hS l rfl)]
    rfl

theorem parse_hos_term (hos : List HitObject) (S : List Str)
    (hS : ∀ l, S.head? = some l → is_section_boundary l = true) :
    parse_hit_objects_section hos S = .ok (hos, S.head?, S.tail) := by
  cases S with
  | nil => rfl
  | cons l t =>
    simp only [parse_hit_objects_section]
    rw [if_pos (hS l rfl)]
    rfl

/-! Field-line lists of the four key-value sections, and the equations relating
them to the serializers. -/

/-- Optional field line (written only when the value is present). -/
def opt_line {α : Type} (o : Option α) (line : α → Str) : List Str :=
  match o with
  | some a => [line a]
  | none => []

/-- The `[General]` field lines the serializer writes, in order. -/
def general_body (g : GeneralSection) : List Str :=
  [str "AudioFilename: " ++ g.audio_filename,
   str "AudioLeadIn: " ++ int_to_str g.audio_lead_in,
   str "PreviewTime: " ++ q_to_str g.preview_time,
   str "Countdown: " ++ int_to_str g.countdown,
   str "SampleSet: " ++ g.sample_set,
   str "StackLeniency: " ++ q_to_str g.stack_leniency,
   str "Mode: " ++ nat_to_str g.mode,
   str "LetterboxInBreaks: " ++ bool_to_str g.letterbox_in_breaks] ++
  (if g.use_skin_sprites then
    [str "UseSkinSprites: " ++ bool_to_str g.use_skin_sprites] else []) ++
  (if g.overlay_position ≠ .NoChange then
    [str "OverlayPosition: " ++ g.overlay_position.debug_str] else []) ++
  opt_line g.skin_preference (fun sp => str "SkinPreference: " ++ sp) ++
  (if g.epilepsy_warning then
    [str "EpilepsyWarning: " ++ bool_to_str g.epilepsy_warning] else []) ++
  (if g.countdown_offset ≠ 0 then
    [str "CountdownOffset: " ++ int_to_str g.countdown_offset] else []) ++
  (if g.special_style then
    [str "SpecialStyle: " ++ bool_to_str g.special_style] else []) ++
  [str "WidescreenStoryboard: " ++ bool_to_str g.widescreen_storyboard,
   str "SamplesMatchPlaybackRate: " ++ bool_to_str g.samples_match_playback_rate]

theorem unlines_ite (c : Prop) [Decidable c] (l : Str) :
    unlines (if c then [l] else []) = if c then l ++ ['\n'] else [] := by
  by_cases hc : c <;> simp [hc, unlines, nl]

theorem deserialize_general_eq (g : GeneralSection) :
    deserialize_general_section g = unlines (str "[General]" :: general_body g ++ [[]]) := by
  cases hsp : g.skin_preference <;>
    (rw [deserialize_general_section, general_body, hsp]
     dsimp only [opt_line]
     simp only [unlines_cons, unlines_append, unlines_nil, unlines_ite, nl,
       List.cons_append, List.append_assoc, List.nil_append, List.append_nil])

/-- The `[Editor]` field lines the serializer writes. -/
def editor_body (e : EditorSection) : List Str :=
  (if e.bookmarks ≠ [] then
    [str "Bookmarks: " ++ List.intercalate (str ",") (e.bookmarks.map q_to_str)]
   else []) ++
  [str "DistanceSpacing: " ++ q_to_str e.distance_spacing,
   str "BeatDivisor: " ++ q_to_str e.beat_divisor,
   str "GridSize: " ++ int_to_str e.grid_size] ++
  opt_line e.timeline_zoom (fun tz => str "TimelineZoom: " ++ q_to_str tz)

theorem deserialize_editor_eq (e : EditorSection) :
    deserialize_editor_section e = unlines (str "[Editor]" :: editor_body e ++ [[]]) := by
  cases htz : e.timeline_zoom <;>
    (rw [deserialize_editor_section, editor_body, htz]
     dsimp only [opt_line]
     simp only [unlines_cons, unlines_append, unlines_nil, unlines_ite, nl,
       List.cons_append, List.append_assoc, List.nil_append, List.append_nil])

/-- The `[Metadata]` field lines the serializer writes. -/
def metadata_body (m : MetadataSection) : List Str :=
  [str "Title: " ++ m.title,
   str "TitleUnicode: " ++ m.title_unicode,
   str "Artist: " ++ m.artist,
   str "ArtistUnicode: " ++ m.artist_unicode,
   str "Creator: " ++ m.creator,
   str "Version: " ++ m.version,
   str "Source: " ++ m.source] ++
  (if m.tags ≠ [] then
    [str "Tags: " ++ List.intercalate (str " ") m.tags] else []) ++
  opt_line m.beatmap_id (fun bid => str "BeatmapID: " ++ int_to_str bid) ++
  opt_line m.beatmap_set_id (fun bsid => str "BeatmapSetID: " ++ int_to_str bsid)

theorem deserialize_metadata_eq (m : MetadataSection) :
    deserialize_metadata_section m =
      unlines (str "[Metadata]" :: metadata_body m ++ [[]]) := by
  cases hbi : m.beatmap_id <;> cases hbsi : m.beatmap_set_id <;>
    (rw [deserialize_metadata_section, metadata_body, hbi, hbsi]
     dsimp only [opt_line]
     simp only [unlines_cons, unlines_append, unlines_nil, unlines_ite, nl,
       List.cons_append, List.append_assoc, List.nil_append, List.append_nil])

/-- The `[Difficulty]` field lines the serializer writes. -/
def difficulty_body (d : DifficultySection) : List Str :=
  [str "HPDrainRate: " ++ q_to_str d.hp_drain_rate,
   str "CircleSize: " ++ q_to_str d.circle_size,
   str "OverallDifficulty: " ++ q_to_str d.overall_difficulty,
   str "ApproachRate: " ++ q_to_str d.approach_rate,
   str "SliderMultiplier: " ++ q_to_str d.slider_multiplier,
   str "SliderTickRate: " ++ q_to_str d.slider_tick_rate]

theorem deserialize_difficulty_eq (d : DifficultySection) :
    deserialize_difficulty_section d =
      unlines (str "[Difficulty]" :: difficulty_body d ++ [[]]) := by
  rw [deserialize_difficulty_section, difficulty_body]
  simp only [unlines_cons, unlines_append, unlines_nil, nl,
    List.cons_append, List.append_assoc, List.nil_append, List.append_nil]

/-! Consuming whole section bodies. -/

theorem consume_opt_general (c : Prop) [Decidable c] (l : Str)
    (upd : GeneralSection → GeneralSection)
    (hl : ∀ s rest, parse_general_section s (l :: rest) =
      parse_general_section (upd s) rest) :
    ∀ s rest, parse_general_section s ((if c then [l] else []) ++ rest) =
      parse_general_section (if c then upd s else s) rest := by
  intro s rest
  by_cases hc : c
  · rw [if_pos hc, if_pos hc, List.singleton_append, hl]
  · rw [if_neg hc, if_neg hc, List.nil_append]

theorem consume_match_general {α : Type} (o : Option α) (line : α → Str)
    (upd : α → GeneralSection → GeneralSection)
    (hl : ∀ a, o = some a → ∀ s rest, parse_general_section s (line a :: rest) =
      parse_general_section (upd a s) rest) :
    ∀ s rest, parse_general_section s (opt_line o line ++ rest) =
      parse_general_section (o.elim s (fun a => upd a s)) rest := by
  intro s rest
  cases o with
  | none => rfl
  | some a =>
    show parse_general_section s (([line a] : List Str) ++ rest) = _
    rw [List.singleton_append, hl a rfl]
    rfl

/-- Canonically-encodable `[General]` section. -/
def general_ok (g : GeneralSection) : Bool :=
  decide (trim g.audio_filename = g.audio_filename) &&
  decide (to_standardized_path g.audio_filename = g.audio_filename) &&
  line_ok g.audio_filename &&
  i32_ok g.audio_lead_in && FiniteDec g.preview_time && i32_ok g.countdown &&
  decide (trim g.sample_set = g.sample_set) && line_ok g.sample_set &&
  FiniteDec g.stack_leniency && (g.mode ≤ 255) &&
  (g.audio_hash = none) && (g.story_fire_in_front = true) &&
  (g.always_show_playfield = false) &&
  (match g.skin_preference with
    | some sp => decide (trim sp = sp) && line_ok sp
    | none => true) &&
  i32_ok g.countdown_offset

set_option maxHeartbeats 1600000 in
theorem general_consume (g : GeneralSection) (hok : general_ok g = true)
    (S : List Str) (hS : ∀ l, S.head? = some l → is_section_boundary l = true) :
    parse_general_section GeneralSection.default (general_body g ++ S) =
      .ok (g, S.head?, S.tail) := by
  obtain ⟨f1, f2, f3, f4, f5, f6, f7, f8, f9, f10, f11, f12, f13, f14, f15, f16,
    f17, f18, f19⟩ := g
  rw [general_ok] at hok
  dsimp only at hok
  rw [Bool.and_eq_true, Bool.and_eq_true, Bool.and_eq_true, Bool.and_eq_true,
    Bool.and_eq_true, Bool.and_eq_true, Bool.and_eq_true, Bool.and_eq_true,
    Bool.and_eq_true, Bool.and_eq_true, Bool.and_eq_true, Bool.and_eq_true,
    Bool.and_eq_true, Bool.and_eq_true] at hok
  obtain ⟨⟨⟨⟨⟨⟨⟨⟨⟨⟨⟨⟨⟨⟨h1, h2⟩, h3⟩, h4⟩, h5⟩, h6⟩, h7⟩, h8⟩, h9⟩, h10⟩, h11⟩,
    h12⟩, h13⟩, h14⟩, h15⟩ := hok
  rw [decide_eq_true_eq] at h1 h2 h7 h10 h11 h12 h13
  subst h11
  subst h12
  subst h13
  rw [general_body]
  dsimp only
  simp only [List.cons_append, List.append_assoc, List.nil_append]
  rw [gsec_audio_filename f1 h1 h2]
  rw [gsec_audio_lead_in f2 h4]
  rw [gsec_preview_time f4 h5]
  rw [gsec_countdown f5 h6]
  rw [gsec_sample_set f6 h7]
  rw [gsec_stack_leniency f7 h9]
  rw [gsec_mode f8 h10]
  rw [gsec_letterbox_in_breaks f9]
  rw [consume_opt_general _ _ _ (gsec_use_skin_sprites f11)]
  rw [consume_opt_general _ _ _ (gsec_overlay_position f13)]
  rw [consume_match_general f14 _ (fun sp s => { s with skin_preference := some sp })
    (by
      intro sp hsp
      rw [hsp] at h14
      dsimp only at h14
      rw [Bool.and_eq_true, decide_eq_true_eq] at h14
      exact gsec_skin_preference sp h14.1)]
  rw [consume_opt_general _ _ _ (gsec_epilepsy_warning f15)]
  rw [consume_opt_general _ _ _ (gsec_countdown_offset f16 h15)]
  rw [consume_opt_general _ _ _ (gsec_special_style f17)]
  rw [gsec_widescreen_storyboard f18]
  rw [gsec_samples_match_playback_rate f19]
  rw [parse_general_term _ S hS]
  by_cases hco : f16 = 0
  · subst hco
    cases f14 <;> cases f11 <;> cases f15 <;> cases f17 <;> cases f13 <;> rfl
  · rw [if_pos hco]
    cases f14 <;> cases f11 <;> cases f15 <;> cases f17 <;> cases f13 <;> rfl

theorem consume_opt_editor (c : Prop) [Decidable c] (l : Str)
    (upd : EditorAcc → EditorAcc)
    (hl : c → ∀ s rest, parse_editor_section s (l :: rest) =
      parse_editor_section (upd s) rest) :
    ∀ s rest, parse_editor_section s ((if c then [l] else []) ++ rest) =
      parse_editor_section (if c then upd s else s) rest := by
  intro s rest
  by_cases hc : c
  · rw [if_pos hc, if_pos hc, List.singleton_append, hl hc]
  · rw [if_neg hc, if_neg hc, List.nil_append]

theorem consume_match_editor {α : Type} (o : Option α) (line : α → Str)
    (upd : α → EditorAcc → EditorAcc)
    (hl : ∀ a, o = some a → ∀ s rest, parse_editor_section s (line a :: rest) =
      parse_editor_section (upd a s) rest) :
    ∀ s rest, parse_editor_section s (opt_line o line ++ rest) =
      parse_editor_section (o.elim s (fun a => upd a s)) rest := by
  intro s rest
  cases o with
  | none => rfl
  | some a =>
    show parse_editor_section s (([line a] : List Str) ++ rest) = _
    rw [List.singleton_append, hl a rfl]
    rfl

/-- Canonically-encodable `[Editor]` section. -/
def editor_ok (e : EditorSection) : Bool :=
  e.bookmarks.all (fun q => FiniteDec q) && FiniteDec e.distance_spacing &&
  FiniteDec e.beat_divisor && i32_ok e.grid_size &&
  (match e.timeline_zoom with | some tz => FiniteDec tz | none => true)

theorem editor_consume (e : EditorSection) (hok : editor_ok e = true)
    (S : List Str) (hS : ∀ l, S.head? = some l → is_section_boundary l = true) :
    parse_editor_section ⟨[], none, none, none, none⟩ (editor_body e ++ S) =
      .ok (e, S.head?, S.tail) := by
  obtain ⟨f1, f2, f3, f4, f5⟩ := e
  rw [editor_ok] at hok
  dsimp only at hok
  rw [Bool.and_eq_true, Bool.and_eq_true, Bool.and_eq_true,
    Bool.and_eq_true] at hok
  obtain ⟨⟨⟨⟨h1, h2⟩, h3⟩, h4⟩, h5⟩ := hok
  rw [editor_body]
  dsimp only
  simp only [List.cons_append, List.append_assoc, List.nil_append]
  rw [consume_opt_editor _ _ _ (fun hne => esec_bookmarks f1 hne (by
    intro q hq
    have := List.all_eq_true.mp h1 q hq
    exact this))]
  rw [esec_distance_spacing f2 h2]
  rw [esec_beat_divisor f3 h3]
  rw [esec_grid_size f4 h4]
  rw [consume_match_editor f5 _ (fun tz a => { a with timeline_zoom := some tz })
    (by
      intro tz htz
      rw [htz] at h5
      dsimp only at h5
      exact esec_timeline_zoom tz h5)]
  rw [parse_editor_term _ S hS]
  by_cases hbm : f1 = []
  · subst hbm
    cases f5 <;> rfl
  · rw [if_pos hbm]
    cases f5 <;> rfl

theorem consume_opt_metadata (c : Prop) [Decidable c] (l : Str)
    (upd : MetadataSection → MetadataSection)
    (hl : c → ∀ s rest, parse_metadata_section s (l :: rest) =
      parse_metadata_section (upd s) rest) :
    ∀ s rest, parse_metadata_section s ((if c then [l] else []) ++ rest) =
      parse_metadata_section (if c then upd s else s) rest := by
  intro s rest
  by_cases hc : c
  · rw [if_pos hc, if_pos hc, List.singleton_append, hl hc]
  · rw [if_neg hc, if_neg hc, List.nil_append]

theorem consume_match_metadata {α : Type} (o : Option α) (line : α → Str)
    (upd : α → MetadataSection → MetadataSection)
    (hl : ∀ a, o = some a → ∀ s rest, parse_metadata_section s (line a :: rest) =
      parse_metadata_section (upd a s) rest) :
    ∀ s rest, parse_metadata_section s (opt_line o line ++ rest) =
      parse_metadata_section (o.elim s (fun a => upd a s)) rest := by
  intro s rest
  cases o with
  | none => rfl
  | some a =>
    show parse_metadata_section s (([line a] : List Str) ++ rest) = _
    rw [List.singleton_append, hl a rfl]
    rfl

/-- Canonically-encodable `[Metadata]` section. -/
def metadata_ok (m : MetadataSection) : Bool :=
  decide (trim m.title = m.title) && line_ok m.title &&
  decide (trim m.title_unicode = m.title_unicode) && line_ok m.title_unicode &&
  decide (trim m.artist = m.artist) && line_ok m.artist &&
  decide (trim m.artist_unicode = m.artist_unicode) && line_ok m.artist_unicode &&
  decide (trim m.creator = m.creator) && line_ok m.creator &&
  decide (trim m.version = m.version) && line_ok m.version &&
  decide (trim m.source = m.source) && line_ok m.source &&
  m.tags.all tag_ok &&
  (match m.beatmap_id with | some v => i32_ok v | none => true) &&
  (match m.beatmap_set_id with | some v => i32_ok v | none => true)

set_option maxHeartbeats 1600000 in
theorem metadata_consume (m : MetadataSection) (hok : metadata_ok m = true)
    (S : List Str) (hS : ∀ l, S.head? = some l → is_section_boundary l = true) :
    parse_metadata_section MetadataSection.default (metadata_body m ++ S) =
      .ok (m, S.head?, S.tail) := by
  obtain ⟨f1, f2, f3, f4, f5, f6, f7, f8, f9, f10⟩ := m
  rw [metadata_ok] at hok
  dsimp only at hok
  rw [Bool.and_eq_true, Bool.and_eq_true, Bool.and_eq_true, Bool.and_eq_true,
    Bool.and_eq_true, Bool.and_eq_true, Bool.and_eq_true, Bool.and_eq_true,
    Bool.and_eq_true, Bool.and_eq_true, Bool.and_eq_true, Bool.and_eq_true,
    Bool.and_eq_true, Bool.and_eq_true, Bool.and_eq_true,
    Bool.and_eq_true] at hok
  obtain ⟨⟨⟨⟨⟨⟨⟨⟨⟨⟨⟨⟨⟨⟨⟨⟨h1, h1b⟩, h2⟩, h2b⟩, h3⟩, h3b⟩, h4⟩, h4b⟩, h5⟩, h5b⟩,
    h6⟩, h6b⟩, h7⟩, h7b⟩, h8⟩, h9⟩, h10⟩ := hok
  rw [decide_eq_true_eq] at h1 h2 h3 h4 h5 h6 h7
  rw [metadata_body]
  dsimp only
  simp only [List.cons_append, List.append_assoc, List.nil_append]
  rw [msec_title f1 h1]
  rw [msec_title_unicode f2 h2]
  rw [msec_artist f3 h3]
  rw [msec_artist_unicode f4 h4]
  rw [msec_creator f5 h5]
  rw [msec_version f6 h6]
  rw [msec_source f7 h7]
  rw [consume_opt_metadata _ _ _ (fun hne => msec_tags f8 hne (by
    intro tg htg
    exact List.all_eq_true.mp h8 tg htg))]
  rw [consume_match_metadata f9 _ (fun v s => { s with beatmap_id := some v })
    (by
      intro v hv
      rw [hv] at h9
      dsimp only at h9
      exact msec_beatmap_id v h9)]
  rw [consume_match_metadata f10 _ (fun v s => { s with beatmap_set_id := some v })
    (by
      intro v hv
      rw [hv] at h10
      dsimp only at h10
      exact msec_beatmap_set_id v h10)]
  rw [parse_metadata_term _ S hS]
  by_cases htg : f8 = []
  · subst htg
    cases f9 <;> cases f10 <;> rfl
  · rw [if_pos htg]
    cases f9 <;> cases f10 <;> rfl

/-- Canonically-encodable `[Difficulty]` section. -/
def difficulty_ok (d : DifficultySection) : Bool :=
  FiniteDec d.hp_drain_rate && FiniteDec d.circle_size &&
  FiniteDec d.overall_difficulty && FiniteDec d.approach_rate &&
  FiniteDec d.slider_multiplier && FiniteDec d.slider_tick_rate

theorem difficulty_consume (d : DifficultySection) (hok : difficulty_ok d = true)
    (S : List Str) (hS : ∀ l, S.head? = some l → is_section_boundary l = true) :
    parse_difficulty_section DifficultySection.default (difficulty_body d ++ S) =
      .ok (d, S.head?, S.tail) := by
  obtain ⟨f1, f2, f3, f4, f5, f6⟩ := d
  rw [difficulty_ok] at hok
  dsimp only at hok
  rw [Bool.and_eq_true, Bool.and_eq_true, Bool.and_eq_true, Bool.and_eq_true,
    Bool.and_eq_true] at hok
  obtain ⟨⟨⟨⟨⟨h1, h2⟩, h3⟩, h4⟩, h5⟩, h6⟩ := hok
  rw [difficulty_body]
  dsimp only
  simp only [List.cons_append, List.append_assoc, List.nil_append]
  rw [dsec_hp_drain_rate f1 h1]
  rw [dsec_circle_size f2 h2]
  rw [dsec_overall_difficulty f3 h3]
  rw [dsec_approach_rate f4 h4]
  rw [dsec_slider_multiplier f5 h5]
  rw [dsec_slider_tick_rate f6 h6]
  rw [parse_difficulty_term _ S hS]

/-! Per-record line facts: collection lines are never section boundaries, are
kept by the filter, and contain no newline. -/

theorem intercalate_all (sep : Char) (parts : List Str) (P : Char → Bool)
    (hsep : P sep = true) (hp : ∀ p ∈ parts, p.all P = true) :
    (List.intercalate [sep] parts).all P = true := by
  rw [List.all_eq_true]
  intro c hc
  rcases mem_intercalate sep parts c hc with h | ⟨p, hp2, hcp⟩
  · rw [h]; exact hsep
  · exact List.all_eq_true.mp (hp p hp2) c hcp

theorem hss_line_ok (x : HitSampleSet) : line_ok x.to_osu_string = true := by
  rw [line_ok, List.all_eq_true]
  intro c hc
  rcases hss_chars x c hc with h | h
  · obtain ⟨-, h1, h2, -⟩ := num_char_props c h
    simp [h1, h2]
  · rw [h]; rfl

theorem head_line_facts (c : Char) (t rest : Str) (hc : num_char c)
    (heq : rest = c :: t) :
    is_section_boundary rest = false ∧ keep_line rest = true := by
  rw [heq]
  exact ⟨boundary_of_head_num c t hc, keep_line_of_head_num c t hc⟩

theorem head_line_facts2 (c : Char) (t rest : Str) (hws : c.isWhitespace = false)
    (hsl : c ≠ '/') (hbr : c ≠ '[') (heq : rest = c :: t) :
    is_section_boundary rest = false ∧ keep_line rest = true := by
  rw [heq]
  exact ⟨is_section_boundary_cons c t hbr, keep_line_cons c t hws hsl⟩

theorem tp_line_facts (tp : TimingPoint) (hok : timing_point_ok tp = true) :
    is_section_boundary (timing_point_line tp) = false ∧
    keep_line (timing_point_line tp) = true ∧
    line_ok (timing_point_line tp) = true := by
  rw [timing_point_ok] at hok
  rw [Bool.and_eq_true, Bool.and_eq_true, Bool.and_eq_true, Bool.and_eq_true,
    Bool.and_eq_true] at hok
  obtain ⟨⟨⟨⟨⟨ht, hbl⟩, -⟩, -⟩, -⟩, -⟩ := hok
  obtain ⟨c, t, heq, hc⟩ := q_to_str_head tp.time
  refine ⟨?_, ?_, ?_⟩
  · rw [timing_point_line, heq, List.cons_append]
    exact boundary_of_head_num c _ hc
  · rw [timing_point_line, heq, List.cons_append]
    exact keep_line_of_head_num c _ hc
  rw [timing_point_line]
  simp only [line_ok, List.all_append, List.all_cons, Bool.and_eq_true]
  repeat' apply And.intro
  all_goals
    first
      | exact line_ok_of_num_chars _ (q_chars _ ht)
      | exact line_ok_of_num_chars _ (q_chars _ hbl)
      | exact line_ok_of_num_chars _ (int_to_str_chars _)
      | exact line_ok_of_num_chars _ (nat_to_str_chars _)
      | exact line_ok_of_num_chars _ (bool_to_str_chars _)
      | decide

theorem event_line_facts (e : Event) (hok : event_ok e = true) :
    is_section_boundary (event_line e) = false ∧
    keep_line (event_line e) = true ∧
    line_ok (event_line e) = true := by
  obtain ⟨et, st, ps⟩ := e
  rw [event_ok] at hok
  dsimp only at hok
  rw [Bool.and_eq_true] at hok
  obtain ⟨hst, hps⟩ := hok
  have hline : ∀ (hhead : is_section_boundary (event_line ⟨et, st, ps⟩) = false ∧
      keep_line (event_line ⟨et, st, ps⟩) = true),
      line_ok (event_line ⟨et, st, ps⟩) = true →
      is_section_boundary (event_line ⟨et, st, ps⟩) = false ∧
      keep_line (event_line ⟨et, st, ps⟩) = true ∧
      line_ok (event_line ⟨et, st, ps⟩) = true :=
    fun hh hl => ⟨hh.1, hh.2, hl⟩
  cases ps with
  | Background f x y =>
    rw [Bool.and_eq_true, Bool.and_eq_true, Bool.and_eq_true,
      Bool.and_eq_true] at hps
    obtain ⟨⟨⟨⟨het, hf⟩, -⟩, -⟩, -⟩ := hps
    rw [decide_eq_true_eq] at het
    subst het
    apply hline
    · exact head_line_facts2 '0' _ _ (by decide) (by decide) (by decide) (by
        rw [event_line]
        rfl)
    · rw [event_line]
      dsimp only
      simp only [line_ok, List.all_append, List.all_cons, Bool.and_eq_true]
      repeat' apply And.intro
      all_goals
        first
          | exact line_ok_of_num_chars _ (q_chars _ hst)
          | exact line_ok_of_num_chars _ (int_to_str_chars _)
          | exact hf
          | decide
  | Video f x y =>
    rw [Bool.and_eq_true, Bool.and_eq_true, Bool.and_eq_true,
      Bool.and_eq_true] at hps
    obtain ⟨⟨⟨⟨het, hf⟩, -⟩, -⟩, -⟩ := hps
    rw [Bool.or_eq_true, decide_eq_true_eq, decide_eq_true_eq] at het
    rcases het with het | het
    · subst het
      apply hline
      · exact head_line_facts2 '1' _ _ (by decide) (by decide) (by decide)
          (by rw [event_line]; rfl)
      · rw [event_line]
        dsimp only
        simp only [line_ok, List.all_append, List.all_cons, Bool.and_eq_true]
        repeat' apply And.intro
        all_goals
          first
            | exact line_ok_of_num_chars _ (q_chars _ hst)
            | exact line_ok_of_num_chars _ (int_to_str_chars _)
            | exact hf
            | decide
    · subst het
      apply hline
      · exact head_line_facts2 'V' _ _ (by decide) (by decide) (by decide)
          (by rw [event_line]; rfl)
      · rw [event_line]
        dsimp only
        simp only [line_ok, List.all_append, List.all_cons, Bool.and_eq_true]
        repeat' apply And.intro
        all_goals
          first
            | exact line_ok_of_num_chars _ (q_chars _ hst)
            | exact line_ok_of_num_chars _ (int_to_str_chars _)
            | exact hf
            | decide
  | Break t2 =>
    rw [Bool.and_eq_true] at hps
    obtain ⟨het, ht2⟩ := hps
    rw [Bool.or_eq_true, decide_eq_true_eq, decide_eq_true_eq] at het
    rcases het with het | het
    · subst het
      apply hline
      · exact head_line_facts2 '2' _ _ (by decide) (by decide) (by decide)
          (by rw [event_line]; rfl)
      · rw [event_line]
        dsimp only
        simp only [line_ok, List.all_append, List.all_cons, Bool.and_eq_true]
        repeat' apply And.intro
        all_goals
          first
            | exact line_ok_of_num_chars _ (q_chars _ hst)
            | exact line_ok_of_num_chars _ (q_chars _ ht2)
            | decide
    · subst het
      apply hline
      · exact head_line_facts2 'B' _ _ (by decide) (by decide) (by decide)
          (by rw [event_line]; rfl)
      · rw [event_line]
        dsimp only
        simp only [line_ok, List.all_append, List.all_cons, Bool.and_eq_true]
        repeat' apply And.intro
        all_goals
          first
            | exact line_ok_of_num_chars _ (q_chars _ hst)
            | exact line_ok_of_num_chars _ (q_chars _ ht2)
            | decide

set_option maxHeartbeats 1600000 in
theorem ho_line_facts (ho : HitObject) (hok : hit_object_ok ho = true) :
    is_section_boundary (hit_object_line ho) = false ∧
    keep_line (hit_object_line ho) = true ∧
    line_ok (hit_object_line ho) = true := by
  obtain ⟨c, t0, heq, hc⟩ := int_to_str_head ho.x
  refine ⟨?_, ?_, ?_⟩
  · rw [hit_object_line, heq, List.cons_append]
    exact boundary_of_head_num c _ hc
  · rw [hit_object_line, heq, List.cons_append]
    exact keep_line_of_head_num c _ hc
  obtain ⟨x, y, tm, ty, cc, hsnd, ps, hsam⟩ := ho
  rw [hit_object_ok] at hok
  dsimp only at hok
  rw [Bool.and_eq_true, Bool.and_eq_true, Bool.and_eq_true, Bool.and_eq_true,
    Bool.and_eq_true, Bool.and_eq_true] at hok
  obtain ⟨⟨⟨⟨⟨⟨-, -⟩, htm⟩, -⟩, -⟩, hhs⟩, hps⟩ := hok
  cases ps with
  | HitCircle =>
    rw [hit_object_line]
    dsimp only
    simp only [line_ok, List.all_append, List.all_cons, Bool.and_eq_true]
    repeat' apply And.intro
    all_goals
      first
        | exact line_ok_of_num_chars _ (int_to_str_chars _)
        | exact line_ok_of_num_chars _ (nat_to_str_chars _)
        | exact line_ok_of_num_chars _ (q_chars _ htm)
        | exact hs_line_ok hsam hhs
        | decide
  | Spinner et =>
    dsimp only at hps
    rw [Bool.and_eq_true] at hps
    obtain ⟨-, het⟩ := hps
    rw [hit_object_line]
    dsimp only
    simp only [line_ok, List.all_append, List.all_cons, Bool.and_eq_true]
    repeat' apply And.intro
    all_goals
      first
        | exact line_ok_of_num_chars _ (int_to_str_chars _)
        | exact line_ok_of_num_chars _ (nat_to_str_chars _)
        | exact line_ok_of_num_chars _ (q_chars _ htm)
        | exact line_ok_of_num_chars _ (q_chars _ het)
        | exact hs_line_ok hsam hhs
        | decide
  | Hold et =>
    dsimp only at hps
    rw [Bool.and_eq_true] at hps
    obtain ⟨-, het⟩ := hps
    rw [hit_object_line]
    dsimp only
    simp only [line_ok, List.all_append, List.all_cons, Bool.and_eq_true]
    repeat' apply And.intro
    all_goals
      first
        | exact line_ok_of_num_chars _ (int_to_str_chars _)
        | exact line_ok_of_num_chars _ (nat_to_str_chars _)
        | exact line_ok_of_num_chars _ (q_chars _ htm)
        | exact line_ok_of_num_chars _ (q_chars _ het)
        | exact hs_line_ok hsam hhs
        | decide
  | Slider fct pts slides len ehs ess =>
    dsimp only at hps
    rw [Bool.and_eq_true, Bool.and_eq_true, Bool.and_eq_true, Bool.and_eq_true,
      Bool.and_eq_true, Bool.and_eq_true, Bool.and_eq_true, Bool.and_eq_true,
      Bool.and_eq_true] at hps
    obtain ⟨⟨⟨⟨⟨⟨⟨⟨⟨-, -⟩, -⟩, -⟩, -⟩, -⟩, hlen⟩, hehs⟩, hess⟩, -⟩ := hps
    have hehsne : ehs ≠ [] := by simpa [List.isEmpty_iff] using hehs
    have hessne : ess ≠ [] := by simpa [List.isEmpty_iff] using hess
    rw [hit_object_line]
    dsimp only
    rw [if_pos (by simp [hehsne, hessne])]
    simp only [line_ok, List.all_append, List.all_cons, Bool.and_eq_true]
    repeat' apply And.intro
    all_goals
      first
        | exact intercalate_all '|' _ _ (by decide) (fun p hp => by
            obtain ⟨hh, -, rfl⟩ := List.mem_map.mp hp
            exact line_ok_of_num_chars _ (nat_to_str_chars _))
        | exact intercalate_all '|' _ _ (by decide) (fun p hp => by
            obtain ⟨xs, -, rfl⟩ := List.mem_map.mp hp
            exact hss_line_ok xs)
        | exact line_ok_of_num_chars _ (int_to_str_chars _)
        | exact line_ok_of_num_chars _ (nat_to_str_chars _)
        | exact line_ok_of_num_chars _ (q_chars _ htm)
        | exact line_ok_of_num_chars _ (q_chars _ hlen)
        | exact curve_str_line_ok fct pts
        | exact hs_line_ok hsam hhs
        | decide

/-! Consuming whole collection-section bodies. -/

theorem events_consume (evs : List Event) (hok : evs.all event_ok = true)
    (S : List Str) (hS : ∀ l, S.head? = some l → is_section_boundary l = true) :
    ∀ acc, parse_events_section acc (evs.map event_line ++ S) =
      .ok (acc ++ evs, S.head?, S.tail) := by
  induction evs with
  | nil =>
    intro acc
    rw [List.map_nil, List.nil_append, List.append_nil]
    cases S with
    | nil => rfl
    | cons l rest =>
      rw [parse_events_section, if_pos (hS l rfl)]
      rfl
  | cons e evs ih =>
    rw [List.all_cons, Bool.and_eq_true] at hok
    obtain ⟨he, hrest⟩ := hok
    intro acc
    rw [List.map_cons, List.cons_append, parse_events_section]
    obtain ⟨hb, -, -⟩ := event_line_facts e he
    rw [hb]
    simp only [Bool.false_eq_true, if_false, parse_event_round e he]
    rw [ih hrest (acc ++ [e]), List.append_assoc, List.singleton_append]

theorem tps_consume (tps : List TimingPoint) (hok : tps.all timing_point_ok = true)
    (S : List Str) (hS : ∀ l, S.head? = some l → is_section_boundary l = true) :
    ∀ acc, parse_timing_points_section acc (tps.map timing_point_line ++ S) =
      .ok (acc ++ tps, S.head?, S.tail) := by
  induction tps with
  | nil =>
    intro acc
    rw [List.map_nil, List.nil_append, List.append_nil]
    cases S with
    | nil => rfl
    | cons l rest =>
      rw [parse_timing_points_section, if_pos (hS l rfl)]
      rfl
  | cons tp tps ih =>
    rw [List.all_cons, Bool.and_eq_true] at hok
    obtain ⟨he, hrest⟩ := hok
    intro acc
    rw [List.map_cons, List.cons_append, parse_timing_points_section]
    obtain ⟨hb, -, -⟩ := tp_line_facts tp he
    rw [hb]
    simp only [Bool.false_eq_true, if_false, parse_timing_point_round tp he]
    rw [ih hrest (acc ++ [tp]), List.append_assoc, List.singleton_append]

theorem hos_consume (hos : List HitObject) (hok : hos.all hit_object_ok = true)
    (S : List Str) (hS : ∀ l, S.head? = some l → is_section_boundary l = true) :
    ∀ acc, parse_hit_objects_section acc (hos.map hit_object_line ++ S) =
      .ok (acc ++ hos, S.head?, S.tail) := by
  induction hos with
  | nil =>
    intro acc
    rw [List.map_nil, List.nil_append, List.append_nil]
    cases S with
    | nil => rfl
    | cons l rest =>
      rw [parse_hit_objects_section, if_pos (hS l rfl)]
      rfl
  | cons ho hos ih =>
    rw [List.all_cons, Bool.and_eq_true] at hok
    obtain ⟨he, hrest⟩ := hok
    intro acc
    rw [List.map_cons, List.cons_append, parse_hit_objects_section]
    obtain ⟨hb, -, -⟩ := ho_line_facts ho he
    rw [hb]
    simp only [Bool.false_eq_true, if_false, parse_hit_object_round ho he]
    rw [ih hrest (acc ++ [ho]), List.append_assoc, List.singleton_append]

/-! The `[Colours]` section: combo-color lines, option lines, consume. -/

theorem color_chars (col : Color) :
    ∀ ch ∈ col.to_osu_string, num_char ch ∨ ch = ',' := by
  intro ch hch
  by_cases hc : ch = ','
  · exact Or.inr hc
  · left
    obtain ⟨r, g, b, a⟩ := col
    have key : ∀ n, ch ∈ ',' :: nat_to_str n → num_char ch := by
      intro n h
      rcases List.mem_cons.mp h with h | h
      · exact absurd h hc
      · exact nat_to_str_chars _ ch h
    cases a with
    | none =>
      rw [Color.to_osu_string] at hch
      dsimp only at hch
      rcases List.mem_append.mp hch with h | h
      · rcases List.mem_append.mp h with h | h
        · exact nat_to_str_chars _ ch h
        · exact key g h
      · exact key b h
    | some a =>
      rw [Color.to_osu_string] at hch
      dsimp only at hch
      rcases List.mem_append.mp hch with h | h
      · rcases List.mem_append.mp h with h | h
        · rcases List.mem_append.mp h with h | h
          · exact nat_to_str_chars _ ch h
          · exact key g h
        · exact key b h
      · exact key a h

theorem color_trim (col : Color) : trim col.to_osu_string = col.to_osu_string :=
  trim_eq_self_of_all _ (fun ch hch => by
    rcases color_chars col ch hch with h | h
    · exact (num_char_props ch h).1
    · rw [h]; rfl)

theorem color_line_ok (col : Color) : line_ok col.to_osu_string = true := by
  rw [line_ok, List.all_eq_true]
  intro ch hch
  rcases color_chars col ch hch with h | h
  · obtain ⟨-, h1, h2, -⟩ := num_char_props ch h
    simp [h1, h2]
  · rw [h]; rfl

theorem starts_with_append (p x : Str) : starts_with p (p ++ x) = true := by
  rw [starts_with, List.isPrefixOf_iff_prefix]
  exact List.prefix_append p x

theorem mem_str_combo (ch : Char) (h : ch ∈ str "Combo") :
    ch.isWhitespace = false := by
  rw [show str "Combo" = ['C', 'o', 'm', 'b', 'o'] from rfl] at h
  simp only [List.mem_cons, List.not_mem_nil, or_false] at h
  rcases h with rfl | rfl | rfl | rfl | rfl <;> decide

theorem combo_key_trim (i : ℕ) :
    trim (str "Combo" ++ nat_to_str i) = str "Combo" ++ nat_to_str i :=
  trim_eq_self_of_all _ (fun ch hch => by
    rcases List.mem_append.mp hch with h | h
    · exact mem_str_combo ch h
    · exact (num_char_props ch (nat_to_str_chars _ ch h)).1)

theorem csec_combo (i : ℕ) (col : Color) (hc : color_ok col = true) :
    ∀ (s : ColorsSection) (rest : List Str),
      parse_colors_section s
        ((str "Combo" ++ nat_to_str (i + 1) ++ str ": " ++ col.to_osu_string) :: rest) =
        parse_colors_section
          { s with combo_colors := s.combo_colors ++ [col] } rest := by
  intro s rest
  rw [show str "Combo" ++ nat_to_str (i + 1) ++ str ": " ++ col.to_osu_string =
    (str "Combo" ++ nat_to_str (i + 1)) ++ ':' :: ' ' :: col.to_osu_string from
    List.append_assoc _ _ _]
  simp only [parse_colors_section]
  rw [if_neg (show ¬(is_section_boundary ((str "Combo" ++ nat_to_str (i + 1)) ++
      ':' :: ' ' :: col.to_osu_string) = true) from
    not_boundary 'C' (str "ombo" ++ nat_to_str (i + 1))
      (':' :: ' ' :: col.to_osu_string) (by decide))]
  rw [pfvp_key (str "Combo" ++ nat_to_str (i + 1)) _ (by
    intro hm
    rcases List.mem_append.mp hm with h | h
    · exact absurd h (by decide)
    · exact nat_no_colon _ h)]
  rw [combo_key_trim (i + 1), color_trim col]
  dsimp only
  rw [parse_color_round col hc]
  dsimp only
  rw [if_pos (starts_with_append (str "Combo") (nat_to_str (i + 1)))]

theorem csec_sto (col : Color) (hc : color_ok col = true) :
    ∀ (s : ColorsSection) (rest : List Str),
      parse_colors_section s
        ((str "SliderTrackOverride: " ++ col.to_osu_string) :: rest) =
        parse_colors_section { s with slider_track_override := some col } rest := by
  intro s rest
  rw [show str "SliderTrackOverride: " ++ col.to_osu_string =
    str "SliderTrackOverride" ++ ':' :: ' ' :: col.to_osu_string from rfl]
  simp only [parse_colors_section]
  rw [if_neg (show ¬(is_section_boundary (str "SliderTrackOverride" ++
      ':' :: ' ' :: col.to_osu_string) = true) from
    not_boundary 'S' (str "liderTrackOverride")
      (':' :: ' ' :: col.to_osu_string) (by decide))]
  rw [pfvp_key (str "SliderTrackOverride") _ (by decide)]
  rw [show trim (str "SliderTrackOverride") = str "SliderTrackOverride" from by decide]
  rw [color_trim col]
  dsimp only
  rw [parse_color_round col hc]
  dsimp only
  rw [if_neg (show ¬(starts_with (str "Combo") (str "SliderTrackOverride") = true)
    from by decide)]
  rw [if_pos rfl]

theorem csec_sb (col : Color) (hc : color_ok col = true) :
    ∀ (s : ColorsSection) (rest : List Str),
      parse_colors_section s
        ((str "SliderBorder: " ++ col.to_osu_string) :: rest) =
        parse_colors_section { s with slider_border := some col } rest := by
  intro s rest
  rw [show str "SliderBorder: " ++ col.to_osu_string =
    str "SliderBorder" ++ ':' :: ' ' :: col.to_osu_string from rfl]
  simp only [parse_colors_section]
  rw [if_neg (show ¬(is_section_boundary (str "SliderBorder" ++
      ':' :: ' ' :: col.to_osu_string) = true) from
    not_boundary 'S' (str "liderBorder")
      (':' :: ' ' :: col.to_osu_string) (by decide))]
  rw [pfvp_key (str "SliderBorder") _ (by decide)]
  rw [show trim (str "SliderBorder") = str "SliderBorder" from by decide]
  rw [color_trim col]
  dsimp only
  rw [parse_color_round col hc]
  dsimp only
  rw [if_neg (show ¬(starts_with (str "Combo") (str "SliderBorder") = true)
    from by decide)]
  rw [if_neg (show ¬(str "SliderBorder" = str "SliderTrackOverride")
    from by decide)]
  rw [if_pos rfl]

/-- The combo-color lines of the `[Colours]` section, as a list of lines. -/
def combo_lines (i : ℕ) : List Color → List Str
  | [] => []
  | col :: rest =>
    (str "Combo" ++ nat_to_str (i + 1) ++ str ": " ++ col.to_osu_string) ::
      combo_lines (i + 1) rest

theorem combo_unlines (cs : List Color) :
    ∀ i, deserialize_combo_colors i cs = unlines (combo_lines i cs) := by
  induction cs with
  | nil => intro i; rfl
  | cons col rest ih =>
    intro i
    rw [deserialize_combo_colors, combo_lines, unlines_cons, ih (i + 1)]
    simp only [nl, List.cons_append, List.append_assoc, List.nil_append]

theorem combo_consume (cs : List Color) (hok : cs.all color_ok = true) :
    ∀ (i : ℕ) (s : ColorsSection) (rest : List Str),
      parse_colors_section s (combo_lines i cs ++ rest) =
        parse_colors_section
          { s with combo_colors := s.combo_colors ++ cs } rest := by
  induction cs with
  | nil =>
    intro i s rest
    obtain ⟨a, b, c⟩ := s
    simp [combo_lines]
  | cons col cs ih =>
    rw [List.all_cons, Bool.and_eq_true] at hok
    obtain ⟨hc, hrest⟩ := hok
    intro i s rest
    rw [combo_lines, List.cons_append, csec_combo i col hc, ih hrest (i + 1)]
    rw [List.append_assoc, List.singleton_append]

/-- The `[Colours]` field lines the serializer writes. -/
def colors_body (sec : ColorsSection) : List Str :=
  combo_lines 0 sec.combo_colors ++
  opt_line sec.slider_track_override
    (fun c => str "SliderTrackOverride: " ++ c.to_osu_string) ++
  opt_line sec.slider_border
    (fun c => str "SliderBorder: " ++ c.to_osu_string)

theorem deserialize_colors_eq (sec : ColorsSection) :
    deserialize_color_section sec =
      unlines (str "[Colours]" :: colors_body sec ++ [[]]) := by
  obtain ⟨cc, sto, sb⟩ := sec
  cases sto <;> cases sb <;>
    (rw [deserialize_color_section, colors_body]
     dsimp only [opt_line]
     simp only [combo_unlines cc, unlines_cons, unlines_append, unlines_nil, nl,
       List.cons_append, List.append_assoc, List.nil_append, List.append_nil])

/-- Canonically-encodable `[Colours]` section. -/
def colors_ok (sec : ColorsSection) : Bool :=
  sec.combo_colors.all color_ok &&
  (match sec.slider_track_override with | some c => color_ok c | none => true) &&
  (match sec.slider_border with | some c => color_ok c | none => true)

theorem colors_end (s : ColorsSection) (S : List Str)
    (hS : ∀ l, S.head? = some l → is_section_boundary l = true) :
    parse_colors_section s S = .ok (s, S.head?, S.tail) := by
  cases S with
  | nil => rfl
  | cons l rest =>
    rw [parse_colors_section, if_pos (hS l rfl)]
    rfl

theorem colors_consume (sec : ColorsSection) (hok : colors_ok sec = true)
    (S : List Str) (hS : ∀ l, S.head? = some l → is_section_boundary l = true) :
    parse_colors_section ColorsSection.default (colors_body sec ++ S) =
      .ok (sec, S.head?, S.tail) := by
  obtain ⟨cc, sto, sb⟩ := sec
  rw [colors_ok] at hok
  dsimp only at hok
  rw [Bool.and_eq_true, Bool.and_eq_true] at hok
  obtain ⟨⟨hcc, hsto⟩, hsb⟩ := hok
  cases sto <;> cases sb <;>
    (rw [colors_body]
     dsimp only [opt_line]
     simp only [List.append_assoc, List.nil_append, List.append_nil,
       List.singleton_append, List.cons_append]
     rw [combo_consume cc hcc 0]
     try rw [csec_sto _ hsto]
     try rw [csec_sb _ hsb]
     rw [colors_end _ S hS]
     simp [ColorsSection.default])

/-! Assembling the whole serialized document: per-line goodness. -/

theorem all_ite_single (c : Prop) [Decidable c] (l : Str) (P : Str → Bool)
    (h : P l = true) : (if c then [l] else []).all P = true := by
  by_cases hc : c
  · rw [if_pos hc]
    simp [h]
  · rw [if_neg hc]
    rfl

theorem all_ite_lines (c : Prop) [Decidable c] (ls : List Str) (P : Str → Bool)
    (h : ls.all P = true) : (if c then ls else []).all P = true := by
  by_cases hc : c
  · rw [if_pos hc]
    exact h
  · rw [if_neg hc]
    rfl

theorem all_opt_single {α : Type} (o : Option α) (line : α → Str) (P : Str → Bool)
    (h : ∀ a, o = some a → P (line a) = true) : (opt_line o line).all P = true := by
  cases o with
  | none => rfl
  | some a => simp [opt_line, h a rfl]

theorem keep_line_append_cons (c : Char) (t v : Str) (hws : c.isWhitespace = false)
    (hsl : c ≠ '/') : keep_line ((c :: t) ++ v) = true := by
  rw [List.cons_append]
  exact keep_line_cons c (t ++ v) hws hsl

theorem line_ok_append_of (a b : Str) (ha : line_ok a = true)
    (hb : line_ok b = true) : line_ok (a ++ b) = true := by
  rw [line_ok_append, ha, hb]
  rfl

theorem line_ok_of_no_ws (s : Str) (h : s.all (fun c => !c.isWhitespace) = true) :
    line_ok s = true := by
  rw [line_ok, List.all_eq_true]
  intro c hc
  have hcw := List.all_eq_true.mp h c hc
  have h1 : c ≠ '\n' := by
    intro he
    rw [he] at hcw
    exact absurd hcw (by decide)
  have h2 : c ≠ '\x0d' := by
    intro he
    rw [he] at hcw
    exact absurd hcw (by decide)
  simp [h1, h2]

theorem overlay_line_ok (op : OverlayPosition) : line_ok op.debug_str = true := by
  cases op <;> decide

theorem filter_of_all_good (ls : List Str)
    (h : ls.all (fun l => keep_line l && line_ok l) = true) :
    ls.filter keep_line = ls := by
  rw [List.filter_eq_self]
  intro l hl
  have hg := List.all_eq_true.mp h l hl
  rw [Bool.and_eq_true] at hg
  exact hg.1

theorem line_ok_of_all_good (ls : List Str)
    (h : ls.all (fun l => keep_line l && line_ok l) = true) :
    ∀ l ∈ ls, line_ok l = true := by
  intro l hl
  have hg := List.all_eq_true.mp h l hl
  rw [Bool.and_eq_true] at hg
  exact hg.2

theorem elim_none_some {α : Type} (o : Option α) :
    o.elim (none : Option α) some = o := by
  cases o <;> rfl

theorem ite_ne_nil {α : Type} [DecidableEq α] (l : List α) :
    (if l ≠ [] then l else []) = l := by
  by_cases h : l = []
  · subst h
    simp
  · rw [if_pos h]

theorem general_body_good (g : GeneralSection) (hok : general_ok g = true) :
    (general_body g).all (fun l => keep_line l && line_ok l) = true := by
  rw [general_ok] at hok
  rw [Bool.and_eq_true, Bool.and_eq_true, Bool.and_eq_true, Bool.and_eq_true,
    Bool.and_eq_true, Bool.and_eq_true, Bool.and_eq_true, Bool.and_eq_true,
    Bool.and_eq_true, Bool.and_eq_true, Bool.and_eq_true, Bool.and_eq_true,
    Bool.and_eq_true, Bool.and_eq_true] at hok
  obtain ⟨⟨⟨⟨⟨⟨⟨⟨⟨⟨⟨⟨⟨⟨h1, h2⟩, h3⟩, h4⟩, h5⟩, h6⟩, h7⟩, h8⟩, h9⟩, h10⟩, h11⟩,
    h12⟩, h13⟩, h14⟩, h15⟩ := hok
  rw [general_body]
  simp only [List.all_append, List.all_cons, List.all_nil, Bool.and_eq_true,
    and_true]
  repeat' apply And.intro
  all_goals
    first
      | exact keep_line_append_cons _ _ _ (by decide) (by decide)
      | exact line_ok_append_of _ _ (by decide) h3
      | exact line_ok_append_of _ _ (by decide) h8
      | exact line_ok_append_of _ _ (by decide)
          (line_ok_of_num_chars _ (int_to_str_chars _))
      | exact line_ok_append_of _ _ (by decide)
          (line_ok_of_num_chars _ (nat_to_str_chars _))
      | exact line_ok_append_of _ _ (by decide)
          (line_ok_of_num_chars _ (bool_to_str_chars _))
      | exact line_ok_append_of _ _ (by decide)
          (line_ok_of_num_chars _ (q_chars _ h5))
      | exact line_ok_append_of _ _ (by decide)
          (line_ok_of_num_chars _ (q_chars _ h9))
      | exact all_ite_single _ _ _ (by
          rw [Bool.and_eq_true]
          exact ⟨keep_line_append_cons _ _ _ (by decide) (by decide),
            line_ok_append_of _ _ (by decide)
              (line_ok_of_num_chars _ (bool_to_str_chars _))⟩)
      | exact all_ite_single _ _ _ (by
          rw [Bool.and_eq_true]
          exact ⟨keep_line_append_cons _ _ _ (by decide) (by decide),
            line_ok_append_of _ _ (by decide)
              (line_ok_of_num_chars _ (int_to_str_chars _))⟩)
      | exact all_ite_single _ _ _ (by
          rw [Bool.and_eq_true]
          exact ⟨keep_line_append_cons _ _ _ (by decide) (by decide),
            line_ok_append_of _ _ (by decide) (overlay_line_ok _)⟩)
      | exact all_opt_single _ _ _ (fun sp hsp => by
          rw [Bool.and_eq_true]
          refine ⟨keep_line_append_cons _ _ _ (by decide) (by decide),
            line_ok_append_of _ _ (by decide) ?_⟩
          rw [hsp] at h14
          dsimp only at h14
          rw [Bool.and_eq_true] at h14
          exact h14.2)
      | trivial

theorem editor_body_good (e : EditorSection) (hok : editor_ok e = true) :
    (editor_body e).all (fun l => keep_line l && line_ok l) = true := by
  rw [editor_ok] at hok
  rw [Bool.and_eq_true, Bool.and_eq_true, Bool.and_eq_true,
    Bool.and_eq_true] at hok
  obtain ⟨⟨⟨⟨h1, h2⟩, h3⟩, h4⟩, h5⟩ := hok
  rw [editor_body]
  simp only [List.all_append, List.all_cons, List.all_nil, Bool.and_eq_true,
    and_true]
  repeat' apply And.intro
  all_goals
    first
      | exact keep_line_append_cons _ _ _ (by decide) (by decide)
      | exact line_ok_append_of _ _ (by decide)
          (line_ok_of_num_chars _ (q_chars _ h2))
      | exact line_ok_append_of _ _ (by decide)
          (line_ok_of_num_chars _ (q_chars _ h3))
      | exact line_ok_append_of _ _ (by decide)
          (line_ok_of_num_chars _ (int_to_str_chars _))
      | exact all_ite_single _ _ _ (by
          rw [Bool.and_eq_true]
          refine ⟨keep_line_append_cons _ _ _ (by decide) (by decide),
            line_ok_append_of _ _ (by decide) ?_⟩
          exact intercalate_all ',' _ _ (by decide) (fun p hp => by
            obtain ⟨q, hqm, rfl⟩ := List.mem_map.mp hp
            exact line_ok_of_num_chars _ (q_chars q (List.all_eq_true.mp h1 q hqm))))
      | exact all_opt_single _ _ _ (fun tz htz => by
          rw [Bool.and_eq_true]
          refine ⟨keep_line_append_cons _ _ _ (by decide) (by decide),
            line_ok_append_of _ _ (by decide) ?_⟩
          rw [htz] at h5
          exact line_ok_of_num_chars _ (q_chars tz h5))
      | trivial

theorem metadata_body_good (m : MetadataSection) (hok : metadata_ok m = true) :
    (metadata_body m).all (fun l => keep_line l && line_ok l) = true := by
  rw [metadata_ok] at hok
  rw [Bool.and_eq_true, Bool.and_eq_true, Bool.and_eq_true, Bool.and_eq_true,
    Bool.and_eq_true, Bool.and_eq_true, Bool.and_eq_true, Bool.and_eq_true,
    Bool.and_eq_true, Bool.and_eq_true, Bool.and_eq_true, Bool.and_eq_true,
    Bool.and_eq_true, Bool.and_eq_true, Bool.and_eq_true,
    Bool.and_eq_true] at hok
  obtain ⟨⟨⟨⟨⟨⟨⟨⟨⟨⟨⟨⟨⟨⟨⟨⟨h1, h1b⟩, h2⟩, h2b⟩, h3⟩, h3b⟩, h4⟩, h4b⟩, h5⟩, h5b⟩,
    h6⟩, h6b⟩, h7⟩, h7b⟩, h8⟩, h9⟩, h10⟩ := hok
  rw [metadata_body]
  simp only [List.all_append, List.all_cons, List.all_nil, Bool.and_eq_true,
    and_true]
  repeat' apply And.intro
  all_goals
    first
      | exact keep_line_append_cons _ _ _ (by decide) (by decide)
      | exact line_ok_append_of _ _ (by decide) h1b
      | exact line_ok_append_of _ _ (by decide) h2b
      | exact line_ok_append_of _ _ (by decide) h3b
      | exact line_ok_append_of _ _ (by decide) h4b
      | exact line_ok_append_of _ _ (by decide) h5b
      | exact line_ok_append_of _ _ (by decide) h6b
      | exact line_ok_append_of _ _ (by decide) h7b
      | exact all_ite_single _ _ _ (by
          rw [Bool.and_eq_true]
          refine ⟨keep_line_append_cons _ _ _ (by decide) (by decide),
            line_ok_append_of _ _ (by decide) ?_⟩
          exact intercalate_all ' ' _ _ (by decide) (fun p hp => by
            have ht := List.all_eq_true.mp h8 p hp
            rw [tag_ok, Bool.and_eq_true] at ht
            exact line_ok_of_no_ws p ht.2))
      | exact all_opt_single _ _ _ (fun v hv => by
          rw [Bool.and_eq_true]
          exact ⟨keep_line_append_cons _ _ _ (by decide) (by decide),
            line_ok_append_of _ _ (by decide)
              (line_ok_of_num_chars _ (int_to_str_chars _))⟩)
      | trivial

theorem difficulty_body_good (d : DifficultySection) (hok : difficulty_ok d = true) :
    (difficulty_body d).all (fun l => keep_line l && line_ok l) = true := by
  rw [difficulty_ok] at hok
  rw [Bool.and_eq_true, Bool.and_eq_true, Bool.and_eq_true, Bool.and_eq_true,
    Bool.and_eq_true] at hok
  obtain ⟨⟨⟨⟨⟨h1, h2⟩, h3⟩, h4⟩, h5⟩, h6⟩ := hok
  rw [difficulty_body]
  simp only [List.all_append, List.all_cons, List.all_nil, Bool.and_eq_true,
    and_true]
  repeat' apply And.intro
  all_goals
    first
      | exact keep_line_append_cons _ _ _ (by decide) (by decide)
      | exact line_ok_append_of _ _ (by decide)
          (line_ok_of_num_chars _ (q_chars _ h1))
      | exact line_ok_append_of _ _ (by decide)
          (line_ok_of_num_chars _ (q_chars _ h2))
      | exact line_ok_append_of _ _ (by decide)
          (line_ok_of_num_chars _ (q_chars _ h3))
      | exact line_ok_append_of _ _ (by decide)
          (line_ok_of_num_chars _ (q_chars _ h4))
      | exact line_ok_append_of _ _ (by decide)
          (line_ok_of_num_chars _ (q_chars _ h5))
      | exact line_ok_append_of _ _ (by decide)
          (line_ok_of_num_chars _ (q_chars _ h6))
      | trivial

theorem events_lines_good (evs : List Event) (hok : evs.all event_ok = true) :
    (evs.map event_line).all (fun l => keep_line l && line_ok l) = true := by
  rw [List.all_eq_true]
  intro l hl
  obtain ⟨e, hm, rfl⟩ := List.mem_map.mp hl
  obtain ⟨-, hk, hlo⟩ := event_line_facts e (List.all_eq_true.mp hok e hm)
  rw [Bool.and_eq_true]
  exact ⟨hk, hlo⟩

theorem tps_lines_good (tps : List TimingPoint)
    (hok : tps.all timing_point_ok = true) :
    (tps.map timing_point_line).all (fun l => keep_line l && line_ok l) = true := by
  rw [List.all_eq_true]
  intro l hl
  obtain ⟨tp, hm, rfl⟩ := List.mem_map.mp hl
  obtain ⟨-, hk, hlo⟩ := tp_line_facts tp (List.all_eq_true.mp hok tp hm)
  rw [Bool.and_eq_true]
  exact ⟨hk, hlo⟩

theorem hos_lines_good (hos : List HitObject)
    (hok : hos.all hit_object_ok = true) :
    (hos.map hit_object_line).all (fun l => keep_line l && line_ok l) = true := by
  rw [List.all_eq_true]
  intro l hl
  obtain ⟨ho, hm, rfl⟩ := List.mem_map.mp hl
  obtain ⟨-, hk, hlo⟩ := ho_line_facts ho (List.all_eq_true.mp hok ho hm)
  rw [Bool.and_eq_true]
  exact ⟨hk, hlo⟩

theorem combo_lines_good (cs : List Color) :
    ∀ i, (combo_lines i cs).all (fun l => keep_line l && line_ok l) = true := by
  induction cs with
  | nil => intro i; rfl
  | cons col rest ih =>
    intro i
    rw [combo_lines, List.all_cons, Bool.and_eq_true]
    refine ⟨?_, ih (i + 1)⟩
    rw [Bool.and_eq_true]
    constructor
    · exact keep_line_append_cons _ _ _ (by decide) (by decide)
    · exact line_ok_append_of _ _
        (line_ok_append_of _ _
          (line_ok_append_of _ _ (by decide)
            (line_ok_of_num_chars _ (nat_to_str_chars _)))
          (by decide))
        (color_line_ok col)

theorem colors_body_good (sec : ColorsSection) :
    (colors_body sec).all (fun l => keep_line l && line_ok l) = true := by
  rw [colors_body]
  simp only [List.all_append, Bool.and_eq_true]
  refine ⟨⟨combo_lines_good _ 0, ?_⟩, ?_⟩
  · exact all_opt_single _ _ _ (fun c hc => by
      rw [Bool.and_eq_true]
      exact ⟨keep_line_append_cons _ _ _ (by decide) (by decide),
        line_ok_append_of _ _ (by decide) (color_line_ok c)⟩)
  · exact all_opt_single _ _ _ (fun c hc => by
      rw [Bool.and_eq_true]
      exact ⟨keep_line_append_cons _ _ _ (by decide) (by decide),
        line_ok_append_of _ _ (by decide) (color_line_ok c)⟩)

/-! The serialized document as a list of lines. -/

def general_block (o : Option GeneralSection) : List Str :=
  match o with
  | some g => str "[General]" :: general_body g ++ [[]]
  | none => []

def editor_block (o : Option EditorSection) : List Str :=
  match o with
  | some e => str "[Editor]" :: editor_body e ++ [[]]
  | none => []

def metadata_block (o : Option MetadataSection) : List Str :=
  match o with
  | some m => str "[Metadata]" :: metadata_body m ++ [[]]
  | none => []

def difficulty_block (o : Option DifficultySection) : List Str :=
  match o with
  | some d => str "[Difficulty]" :: difficulty_body d ++ [[]]
  | none => []

def events_block (evs : List Event) : List Str :=
  if evs ≠ [] then str "[Events]" :: evs.map event_line ++ [[]] else []

def tps_block (tps : List TimingPoint) : List Str :=
  if tps ≠ [] then str "[TimingPoints]" :: tps.map timing_point_line ++ [[]] else []

def colors_block (o : Option ColorsSection) : List Str :=
  match o with
  | some c => str "[Colours]" :: colors_body c ++ [[]]
  | none => []

def ho_block (hos : List HitObject) : List Str :=
  if hos ≠ [] then str "[HitObjects]" :: hos.map hit_object_line else []

/-- Every line of the serialized beatmap file, in order. -/
def beatmap_lines (bm : BeatmapFile) : List Str :=
  str "osu file format v128" :: [] ::
    (general_block bm.general ++ editor_block bm.editor ++
     metadata_block bm.metadata ++ difficulty_block bm.difficulty ++
     events_block bm.events ++ tps_block bm.timing_points ++
     colors_block bm.colors ++ ho_block bm.hit_objects)

theorem flatten_eq_unlines {α : Type} (f : α → Str) (line : α → Str)
    (hf : ∀ a, f a = line a ++ nl) (l : List α) :
    (l.map f).flatten = unlines (l.map line) := by
  induction l with
  | nil => rfl
  | cons a t ih =>
    rw [List.map_cons, List.map_cons, List.flatten_cons, unlines_cons, ih, hf a]
    simp [nl]

theorem events_block_unlines (evs : List Event) :
    (if evs ≠ [] then
      str "[Events]" ++ nl ++ (evs.map deserialize_event).flatten ++ nl
    else []) = unlines (events_block evs) := by
  by_cases h : evs = []
  · subst h
    rw [if_neg (by simp), events_block, if_neg (by simp)]
    rfl
  · rw [if_pos h, events_block, if_pos h,
      flatten_eq_unlines deserialize_event event_line deserialize_event_eq evs]
    simp only [unlines_append, unlines_cons, unlines_nil, nl, List.cons_append,
      List.append_assoc, List.nil_append, List.append_nil]

theorem tps_block_unlines (tps : List TimingPoint) :
    (if tps ≠ [] then
      str "[TimingPoints]" ++ nl ++ (tps.map deserialize_timing_point).flatten ++ nl
    else []) = unlines (tps_block tps) := by
  by_cases h : tps = []
  · subst h
    rw [if_neg (by simp), tps_block, if_neg (by simp)]
    rfl
  · rw [if_pos h, tps_block, if_pos h,
      flatten_eq_unlines deserialize_timing_point timing_point_line
        deserialize_tp_eq tps]
    simp only [unlines_append, unlines_cons, unlines_nil, nl, List.cons_append,
      List.append_assoc, List.nil_append, List.append_nil]

theorem ho_block_unlines (hos : List HitObject) :
    (if hos ≠ [] then
      str "[HitObjects]" ++ nl ++ (hos.map deserialize_hit_object).flatten
    else []) = unlines (ho_block hos) := by
  by_cases h : hos = []
  · subst h
    rw [if_neg (by simp), ho_block, if_neg (by simp)]
    rfl
  · rw [if_pos h, ho_block, if_pos h,
      flatten_eq_unlines deserialize_hit_object hit_object_line
        deserialize_ho_eq hos]
    simp only [unlines_append, unlines_cons, unlines_nil, nl, List.cons_append,
      List.append_assoc, List.nil_append, List.append_nil]

set_option maxHeartbeats 1600000 in
theorem deserialize_beatmap_eq (bm : BeatmapFile) :
    deserialize_beatmap_file bm = unlines (beatmap_lines bm) := by
  obtain ⟨bv, g, e, m, d, evs, tps, co, hos⟩ := bm
  rw [deserialize_beatmap_file, beatmap_lines]
  dsimp only
  cases g <;> cases e <;> cases m <;> cases d <;> cases co <;>
    (dsimp only [general_block, editor_block, metadata_block, difficulty_block,
       colors_block]
     try rw [deserialize_general_eq]
     try rw [deserialize_editor_eq]
     try rw [deserialize_metadata_eq]
     try rw [deserialize_difficulty_eq]
     try rw [deserialize_colors_eq]
     rw [events_block_unlines, tps_block_unlines, ho_block_unlines]
     simp only [unlines_cons, unlines_append, unlines_nil, nl, List.cons_append,
       List.append_assoc, List.nil_append, List.append_nil])

/-! The section loop, chunk by chunk. -/

def general_chunk (o : Option GeneralSection) :
    List Str × (BeatmapFile → BeatmapFile) :=
  match o with
  | some g => (str "[General]" :: general_body g, fun b => { b with general := some g })
  | none => ([], id)

def editor_chunk (o : Option EditorSection) :
    List Str × (BeatmapFile → BeatmapFile) :=
  match o with
  | some e => (str "[Editor]" :: editor_body e, fun b => { b with editor := some e })
  | none => ([], id)

def metadata_chunk (o : Option MetadataSection) :
    List Str × (BeatmapFile → BeatmapFile) :=
  match o with
  | some m => (str "[Metadata]" :: metadata_body m, fun b => { b with metadata := some m })
  | none => ([], id)

def difficulty_chunk (o : Option DifficultySection) :
    List Str × (BeatmapFile → BeatmapFile) :=
  match o with
  | some d => (str "[Difficulty]" :: difficulty_body d,
      fun b => { b with difficulty := some d })
  | none => ([], id)

def events_chunk (evs : List Event) : List Str × (BeatmapFile → BeatmapFile) :=
  if evs ≠ [] then (str "[Events]" :: evs.map event_line,
    fun b => { b with events := evs })
  else ([], id)

def tps_chunk (tps : List TimingPoint) : List Str × (BeatmapFile → BeatmapFile) :=
  if tps ≠ [] then (str "[TimingPoints]" :: tps.map timing_point_line,
    fun b => { b with timing_points := tps })
  else ([], id)

def colors_chunk (o : Option ColorsSection) :
    List Str × (BeatmapFile → BeatmapFile) :=
  match o with
  | some c => (str "[Colours]" :: colors_body c, fun b => { b with colors := some c })
  | none => ([], id)

def ho_chunk (hos : List HitObject) : List Str × (BeatmapFile → BeatmapFile) :=
  if hos ≠ [] then (str "[HitObjects]" :: hos.map hit_object_line,
    fun b => { b with hit_objects := hos })
  else ([], id)

def bm_chunks (bm : BeatmapFile) : List (List Str × (BeatmapFile → BeatmapFile)) :=
  [general_chunk bm.general, editor_chunk bm.editor, metadata_chunk bm.metadata,
   difficulty_chunk bm.difficulty, events_chunk bm.events,
   tps_chunk bm.timing_points, colors_chunk bm.colors, ho_chunk bm.hit_objects]

theorem loop_step_general (g : GeneralSection) (hok : general_ok g = true)
    (fuel : ℕ) (bm : BeatmapFile) (S : List Str)
    (hS : ∀ l, S.head? = some l → is_section_boundary l = true) :
    parse_sections_loop (fuel + 1) (some (str "[General]")) bm
      (general_body g ++ S) =
      parse_sections_loop fuel S.head? { bm with general := some g } S.tail := by
  rw [parse_sections_loop, if_pos rfl, general_consume g hok S hS]

theorem loop_step_editor (e : EditorSection) (hok : editor_ok e = true)
    (fuel : ℕ) (bm : BeatmapFile) (S : List Str)
    (hS : ∀ l, S.head? = some l → is_section_boundary l = true) :
    parse_sections_loop (fuel + 1) (some (str "[Editor]")) bm
      (editor_body e ++ S) =
      parse_sections_loop fuel S.head? { bm with editor := some e } S.tail := by
  rw [parse_sections_loop, if_neg (by decide), if_pos rfl,
    editor_consume e hok S hS]

theorem loop_step_metadata (m : MetadataSection) (hok : metadata_ok m = true)
    (fuel : ℕ) (bm : BeatmapFile) (S : List Str)
    (hS : ∀ l, S.head? = some l → is_section_boundary l = true) :
    parse_sections_loop (fuel + 1) (some (str "[Metadata]")) bm
      (metadata_body m ++ S) =
      parse_sections_loop fuel S.head? { bm with metadata := some m } S.tail := by
  rw [parse_sections_loop, if_neg (by decide), if_neg (by decide), if_pos rfl,
    metadata_consume m hok S hS]

theorem loop_step_difficulty (d : DifficultySection) (hok : difficulty_ok d = true)
    (fuel : ℕ) (bm : BeatmapFile) (S : List Str)
    (hS : ∀ l, S.head? = some l → is_section_boundary l = true) :
    parse_sections_loop (fuel + 1) (some (str "[Difficulty]")) bm
      (difficulty_body d ++ S) =
      parse_sections_loop fuel S.head? { bm with difficulty := some d } S.tail := by
  rw [parse_sections_loop, if_neg (by decide), if_neg (by decide),
    if_neg (by decide), if_pos rfl, difficulty_consume d hok S hS]

theorem loop_step_events (evs : List Event) (hok : evs.all event_ok = true)
    (fuel : ℕ) (bm : BeatmapFile) (S : List Str)
    (hS : ∀ l, S.head? = some l → is_section_boundary l = true) :
    parse_sections_loop (fuel + 1) (some (str "[Events]")) bm
      (evs.map event_line ++ S) =
      parse_sections_loop fuel S.head? { bm with events := evs } S.tail := by
  rw [parse_sections_loop, if_neg (by decide), if_neg (by decide),
    if_neg (by decide), if_neg (by decide), if_pos rfl,
    events_consume evs hok S hS [], List.nil_append]

theorem loop_step_tps (tps : List TimingPoint)
    (hok : tps.all timing_point_ok = true)
    (fuel : ℕ) (bm : BeatmapFile) (S : List Str)
    (hS : ∀ l, S.head? = some l → is_section_boundary l = true) :
    parse_sections_loop (fuel + 1) (some (str "[TimingPoints]")) bm
      (tps.map timing_point_line ++ S) =
      parse_sections_loop fuel S.head? { bm with timing_points := tps } S.tail := by
  rw [parse_sections_loop, if_neg (by decide), if_neg (by decide),
    if_neg (by decide), if_neg (by decide), if_neg (by decide), if_pos rfl,
    tps_consume tps hok S hS [], List.nil_append]

theorem loop_step_colors (c : ColorsSection) (hok : colors_ok c = true)
    (fuel : ℕ) (bm : BeatmapFile) (S : List Str)
    (hS : ∀ l, S.head? = some l → is_section_boundary l = true) :
    parse_sections_loop (fuel + 1) (some (str "[Colours]")) bm
      (colors_body c ++ S) =
      parse_sections_loop fuel S.head? { bm with colors := some c } S.tail := by
  rw [parse_sections_loop, if_neg (by decide), if_neg (by decide),
    if_neg (by decide), if_neg (by decide), if_neg (by decide),
    if_neg (by decide), if_pos rfl, colors_consume c hok S hS]

theorem loop_step_hos (hos : List HitObject)
    (hok : hos.all hit_object_ok = true)
    (fuel : ℕ) (bm : BeatmapFile) (S : List Str)
    (hS : ∀ l, S.head? = some l → is_section_boundary l = true) :
    parse_sections_loop (fuel + 1) (some (str "[HitObjects]")) bm
      (hos.map hit_object_line ++ S) =
      parse_sections_loop fuel S.head? { bm with hit_objects := hos } S.tail := by
  rw [parse_sections_loop, if_neg (by decide), if_neg (by decide),
    if_neg (by decide), if_neg (by decide), if_neg (by decide),
    if_neg (by decide), if_neg (by decide), if_pos rfl,
    hos_consume hos hok S hS [], List.nil_append]

/-- A chunk the section loop can consume in one step: either no lines and no
effect, or a recognised header followed by body lines that the matching section
parser consumes exactly. -/
def chunks_spec (c : List Str × (BeatmapFile → BeatmapFile)) : Prop :=
  (c.1 = [] ∧ c.2 = id) ∨
  (∃ hdr body, c.1 = hdr :: body ∧ is_section_boundary hdr = true ∧
    ∀ fuel bm S, (∀ l, S.head? = some l → is_section_boundary l = true) →
      parse_sections_loop (fuel + 1) (some hdr) bm (body ++ S) =
        parse_sections_loop fuel S.head? (c.2 bm) S.tail)

theorem general_chunk_spec (o : Option GeneralSection)
    (hok : ∀ g, o = some g → general_ok g = true) :
    chunks_spec (general_chunk o) := by
  cases o with
  | none => exact Or.inl ⟨rfl, rfl⟩
  | some g =>
    refine Or.inr ⟨str "[General]", general_body g, rfl, by decide, ?_⟩
    intro fuel bm S hS
    exact loop_step_general g (hok g rfl) fuel bm S hS

theorem editor_chunk_spec (o : Option EditorSection)
    (hok : ∀ e, o = some e → editor_ok e = true) :
    chunks_spec (editor_chunk o) := by
  cases o with
  | none => exact Or.inl ⟨rfl, rfl⟩
  | some e =>
    refine Or.inr ⟨str "[Editor]", editor_body e, rfl, by decide, ?_⟩
    intro fuel bm S hS
    exact loop_step_editor e (hok e rfl) fuel bm S hS

theorem metadata_chunk_spec (o : Option MetadataSection)
    (hok : ∀ m, o = some m → metadata_ok m = true) :
    chunks_spec (metadata_chunk o) := by
  cases o with
  | none => exact Or.inl ⟨rfl, rfl⟩
  | some m =>
    refine Or.inr ⟨str "[Metadata]", metadata_body m, rfl, by decide, ?_⟩
    intro fuel bm S hS
    exact loop_step_metadata m (hok m rfl) fuel bm S hS

theorem difficulty_chunk_spec (o : Option DifficultySection)
    (hok : ∀ d, o = some d → difficulty_ok d = true) :
    chunks_spec (difficulty_chunk o) := by
  cases o with
  | none => exact Or.inl ⟨rfl, rfl⟩
  | some d =>
    refine Or.inr ⟨str "[Difficulty]", difficulty_body d, rfl, by decide, ?_⟩
    intro fuel bm S hS
    exact loop_step_difficulty d (hok d rfl) fuel bm S hS

theorem events_chunk_spec (evs : List Event) (hok : evs.all event_ok = true) :
    chunks_spec (events_chunk evs) := by
  by_cases h : evs = []
  · subst h
    rw [events_chunk, if_neg (by simp)]
    exact Or.inl ⟨rfl, rfl⟩
  · rw [events_chunk, if_pos h]
    refine Or.inr ⟨str "[Events]", evs.map event_line, rfl, by decide, ?_⟩
    intro fuel bm S hS
    exact loop_step_events evs hok fuel bm S hS

theorem tps_chunk_spec (tps : List TimingPoint)
    (hok : tps.all timing_point_ok = true) : chunks_spec (tps_chunk tps) := by
  by_cases h : tps = []
  · subst h
    rw [tps_chunk, if_neg (by simp)]
    exact Or.inl ⟨rfl, rfl⟩
  · rw [tps_chunk, if_pos h]
    refine Or.inr ⟨str "[TimingPoints]", tps.map timing_point_line, rfl,
      by decide, ?_⟩
    intro fuel bm S hS
    exact loop_step_tps tps hok fuel bm S hS

theorem colors_chunk_spec (o : Option ColorsSection)
    (hok : ∀ c, o = some c → colors_ok c = true) :
    chunks_spec (colors_chunk o) := by
  cases o with
  | none => exact Or.inl ⟨rfl, rfl⟩
  | some c =>
    refine Or.inr ⟨str "[Colours]", colors_body c, rfl, by decide, ?_⟩
    intro fuel bm S hS
    exact loop_step_colors c (hok c rfl) fuel bm S hS

theorem ho_chunk_spec (hos : List HitObject)
    (hok : hos.all hit_object_ok = true) : chunks_spec (ho_chunk hos) := by
  by_cases h : hos = []
  · subst h
    rw [ho_chunk, if_neg (by simp)]
    exact Or.inl ⟨rfl, rfl⟩
  · rw [ho_chunk, if_pos h]
    refine Or.inr ⟨str "[HitObjects]", hos.map hit_object_line, rfl,
      by decide, ?_⟩
    intro fuel bm S hS
    exact loop_step_hos hos hok fuel bm S hS

theorem chunks_head_boundary
    (cs : List (List Str × (BeatmapFile → BeatmapFile)))
    (h : ∀ c ∈ cs, chunks_spec c) :
    ∀ l, ((cs.map Prod.fst).flatten).head? = some l →
      is_section_boundary l = true := by
  induction cs with
  | nil => intro l hl; simp at hl
  | cons c cs ih =>
    intro l hl
    rcases h c (List.mem_cons_self c cs) with ⟨hc1, -⟩ | ⟨hdr, body, hc1, hb, -⟩
    · rw [List.map_cons, List.flatten_cons, hc1, List.nil_append] at hl
      exact ih (fun c hm => h c (List.mem_cons_of_mem _ hm)) l hl
    · rw [List.map_cons, List.flatten_cons, hc1, List.cons_append,
        List.head?_cons] at hl
      rw [← Option.some.inj hl]
      exact hb

theorem chunks_consume (cs : List (List Str × (BeatmapFile → BeatmapFile)))
    (h : ∀ c ∈ cs, chunks_spec c) :
    ∀ fuel bm, ((cs.map Prod.fst).flatten).length + 1 ≤ fuel →
      parse_sections_loop fuel ((cs.map Prod.fst).flatten).head? bm
        ((cs.map Prod.fst).flatten).tail =
      .ok (cs.foldl (fun b c => c.2 b) bm) := by
  induction cs with
  | nil =>
    intro fuel bm hf
    cases fuel with
    | zero => omega
    | succ fuel => rfl
  | cons c cs ih =>
    intro fuel bm hf
    rcases h c (List.mem_cons_self c cs) with ⟨hc1, hc2⟩ | ⟨hdr, body, hc1, hb, hstep⟩
    · rw [List.map_cons, List.flatten_cons, hc1, List.nil_append,
        List.foldl_cons, hc2]
      rw [List.map_cons, List.flatten_cons, hc1, List.nil_append] at hf
      exact ih (fun c hm => h c (List.mem_cons_of_mem _ hm)) fuel (id bm) hf
    · rw [List.map_cons, List.flatten_cons, hc1, List.cons_append] at hf ⊢
      rw [List.head?_cons, List.tail_cons]
      cases fuel with
      | zero => simp at hf
      | succ fuel =>
        rw [hstep fuel bm ((cs.map Prod.fst).flatten)
          (chunks_head_boundary cs (fun c hm => h c (List.mem_cons_of_mem _ hm)))]
        rw [List.foldl_cons]
        refine ih (fun c hm => h c (List.mem_cons_of_mem _ hm)) fuel (c.2 bm) ?_
        rw [List.length_cons, List.length_append] at hf
        omega

/-! Filtering and line-validity of the serialized blocks. -/

theorem general_block_filter (o : Option GeneralSection)
    (hok : ∀ x, o = some x → general_ok x = true) :
    (general_block o).filter keep_line = (general_chunk o).1 := by
  cases o with
  | none => rfl
  | some x =>
    show ((str "[General]" :: general_body x) ++ [[]]).filter keep_line =
      str "[General]" :: general_body x
    rw [List.filter_append, List.filter_cons,
      if_pos (show keep_line (str "[General]") = true from by decide),
      List.filter_cons, if_neg (show ¬(keep_line [] = true) from by decide),
      List.filter_nil, List.append_nil,
      filter_of_all_good _ (general_body_good x (hok x rfl))]

theorem general_block_line_ok (o : Option GeneralSection)
    (hok : ∀ x, o = some x → general_ok x = true) :
    ∀ l ∈ general_block o, line_ok l = true := by
  cases o with
  | none => intro l hl; simp [general_block] at hl
  | some x =>
    intro l hl
    rcases List.mem_append.mp hl with h | h
    · rcases List.mem_cons.mp h with h | h
      · rw [h]; decide
      · exact line_ok_of_all_good _ (general_body_good x (hok x rfl)) l h
    · rcases List.mem_cons.mp h with h | h
      · rw [h]; rfl
      · simp at h

theorem editor_block_filter (o : Option EditorSection)
    (hok : ∀ x, o = some x → editor_ok x = true) :
    (editor_block o).filter keep_line = (editor_chunk o).1 := by
  cases o with
  | none => rfl
  | some x =>
    show ((str "[Editor]" :: editor_body x) ++ [[]]).filter keep_line =
      str "[Editor]" :: editor_body x
    rw [List.filter_append, List.filter_cons,
      if_pos (show keep_line (str "[Editor]") = true from by decide),
      List.filter_cons, if_neg (show ¬(keep_line [] = true) from by decide),
      List.filter_nil, List.append_nil,
      filter_of_all_good _ (editor_body_good x (hok x rfl))]

theorem editor_block_line_ok (o : Option EditorSection)
    (hok : ∀ x, o = some x → editor_ok x = true) :
    ∀ l ∈ editor_block o, line_ok l = true := by
  cases o with
  | none => intro l hl; simp [editor_block] at hl
  | some x =>
    intro l hl
    rcases List.mem_append.mp hl with h | h
    · rcases List.mem_cons.mp h with h | h
      · rw [h]; decide
      · exact line_ok_of_all_good _ (editor_body_good x (hok x rfl)) l h
    · rcases List.mem_cons.mp h with h | h
      · rw [h]; rfl
      · simp at h

theorem metadata_block_filter (o : Option MetadataSection)
    (hok : ∀ x, o = some x → metadata_ok x = true) :
    (metadata_block o).filter keep_line = (metadata_chunk o).1 := by
  cases o with
  | none => rfl
  | some x =>
    show ((str "[Metadata]" :: metadata_body x) ++ [[]]).filter keep_line =
      str "[Metadata]" :: metadata_body x
    rw [List.filter_append, List.filter_cons,
      if_pos (show keep_line (str "[Metadata]") = true from by decide),
      List.filter_cons, if_neg (show ¬(keep_line [] = true) from by decide),
      List.filter_nil, List.append_nil,
      filter_of_all_good _ (metadata_body_good x (hok x rfl))]

theorem metadata_block_line_ok (o : Option MetadataSection)
    (hok : ∀ x, o = some x → metadata_ok x = true) :
    ∀ l ∈ metadata_block o, line_ok l = true := by
  cases o with
  | none => intro l hl; simp [metadata_block] at hl
  | some x =>
    intro l hl
    rcases List.mem_append.mp hl with h | h
    · rcases List.mem_cons.mp h with h | h
      · rw [h]; decide
      · exact line_ok_of_all_good _ (metadata_body_good x (hok x rfl)) l h
    · rcases List.mem_cons.mp h with h | h
      · rw [h]; rfl
      · simp at h

theorem difficulty_block_filter (o : Option DifficultySection)
    (hok : ∀ x, o = some x → difficulty_ok x = true) :
    (difficulty_block o).filter keep_line = (difficulty_chunk o).1 := by
  cases o with
  | none => rfl
  | some x =>
    show ((str "[Difficulty]" :: difficulty_body x) ++ [[]]).filter keep_line =
      str "[Difficulty]" :: difficulty_body x
    rw [List.filter_append, List.filter_cons,
      if_pos (show keep_line (str "[Difficulty]") = true from by decide),
      List.filter_cons, if_neg (show ¬(keep_line [] = true) from by decide),
      List.filter_nil, List.append_nil,
      filter_of_all_good _ (difficulty_body_good x (hok x rfl))]

theorem difficulty_block_line_ok (o : Option DifficultySection)
    (hok : ∀ x, o = some x → difficulty_ok x = true) :
    ∀ l ∈ difficulty_block o, line_ok l = true := by
  cases o with
  | none => intro l hl; simp [difficulty_block] at hl
  | some x =>
    intro l hl
    rcases List.mem_append.mp hl with h | h
    · rcases List.mem_cons.mp h with h | h
      · rw [h]; decide
      · exact line_ok_of_all_good _ (difficulty_body_good x (hok x rfl)) l h
    · rcases List.mem_cons.mp h with h | h
      · rw [h]; rfl
      · simp at h

theorem colors_block_filter (o : Option ColorsSection) :
    (colors_block o).filter keep_line = (colors_chunk o).1 := by
  cases o with
  | none => rfl
  | some x =>
    show ((str "[Colours]" :: colors_body x) ++ [[]]).filter keep_line =
      str "[Colours]" :: colors_body x
    rw [List.filter_append, List.filter_cons,
      if_pos (show keep_line (str "[Colours]") = true from by decide),
      List.filter_cons, if_neg (show ¬(keep_line [] = true) from by decide),
      List.filter_nil, List.append_nil,
      filter_of_all_good _ (colors_body_good x)]

theorem colors_block_line_ok (o : Option ColorsSection) :
    ∀ l ∈ colors_block o, line_ok l = true := by
  cases o with
  | none => intro l hl; simp [colors_block] at hl
  | some x =>
    intro l hl
    rcases List.mem_append.mp hl with h | h
    · rcases List.mem_cons.mp h with h | h
      · rw [h]; decide
      · exact line_ok_of_all_good _ (colors_body_good x) l h
    · rcases List.mem_cons.mp h with h | h
      · rw [h]; rfl
      · simp at h

theorem events_block_filter (l0 : List Event) (hok : l0.all event_ok = true) :
    (events_block l0).filter keep_line = (events_chunk l0).1 := by
  by_cases h : l0 = []
  · subst h
    rfl
  · rw [events_block, if_pos h, events_chunk, if_pos h]
    show ((str "[Events]" :: l0.map event_line) ++ [[]]).filter keep_line = _
    rw [List.filter_append, List.filter_cons,
      if_pos (show keep_line (str "[Events]") = true from by decide),
      List.filter_cons, if_neg (show ¬(keep_line [] = true) from by decide),
      List.filter_nil, List.append_nil,
      filter_of_all_good _ (events_lines_good l0 hok)]

theorem events_block_line_ok (l0 : List Event) (hok : l0.all event_ok = true) :
    ∀ l ∈ events_block l0, line_ok l = true := by
  by_cases h : l0 = []
  · subst h
    intro l hl
    simp [events_block] at hl
  · rw [events_block, if_pos h]
    intro l hl
    rcases List.mem_append.mp hl with h2 | h2
    · rcases List.mem_cons.mp h2 with h2 | h2
      · rw [h2]; decide
      · exact line_ok_of_all_good _ (events_lines_good l0 hok) l h2
    · rcases List.mem_cons.mp h2 with h2 | h2
      · rw [h2]; rfl
      · simp at h2

theorem tps_block_filter (l0 : List TimingPoint) (hok : l0.all timing_point_ok = true) :
    (tps_block l0).filter keep_line = (tps_chunk l0).1 := by
  by_cases h : l0 = []
  · subst h
    rfl
  · rw [tps_block, if_pos h, tps_chunk, if_pos h]
    show ((str "[TimingPoints]" :: l0.map timing_point_line) ++ [[]]).filter keep_line = _
    rw [List.filter_append, List.filter_cons,
      if_pos (show keep_line (str "[TimingPoints]") = true from by decide),
      List.filter_cons, if_neg (show ¬(keep_line [] = true) from by decide),
      List.filter_nil, List.append_nil,
      filter_of_all_good _ (tps_lines_good l0 hok)]

theorem tps_block_line_ok (l0 : List TimingPoint) (hok : l0.all timing_point_ok = true) :
    ∀ l ∈ tps_block l0, line_ok l = true := by
  by_cases h : l0 = []
  · subst h
    intro l hl
    simp [tps_block] at hl
  · rw [tps_block, if_pos h]
    intro l hl
    rcases List.mem_append.mp hl with h2 | h2
    · rcases List.mem_cons.mp h2 with h2 | h2
      · rw [h2]; decide
      · exact line_ok_of_all_good _ (tps_lines_good l0 hok) l h2
    · rcases List.mem_cons.mp h2 with h2 | h2
      · rw [h2]; rfl
      · simp at h2

theorem ho_block_filter (l0 : List HitObject) (hok : l0.all hit_object_ok = true) :
    (ho_block l0).filter keep_line = (ho_chunk l0).1 := by
  by_cases h : l0 = []
  · subst h
    rfl
  · rw [ho_block, if_pos h, ho_chunk, if_pos h]
    rw [List.filter_cons,
      if_pos (show keep_line (str "[HitObjects]") = true from by decide),
      filter_of_all_good _ (hos_lines_good l0 hok)]

theorem ho_block_line_ok (l0 : List HitObject) (hok : l0.all hit_object_ok = true) :
    ∀ l ∈ ho_block l0, line_ok l = true := by
  by_cases h : l0 = []
  · subst h
    intro l hl
    simp [ho_block] at hl
  · rw [ho_block, if_pos h]
    intro l hl
    rcases List.mem_cons.mp hl with h2 | h2
    · rw [h2]; decide
    · exact line_ok_of_all_good _ (hos_lines_good l0 hok) l h2

/-- Option-lifted canonicity check. -/
def opt_okb {α : Type} (P : α → Bool) : Option α → Bool
  | some a => P a
  | none => true

theorem opt_okb_some {α : Type} (P : α → Bool) (o : Option α)
    (h : opt_okb P o = true) : ∀ a, o = some a → P a = true := by
  intro a ha
  rw [ha] at h
  exact h

/-- A beatmap document every one of whose field values is canonically
encodable: serializing and re-parsing it reproduces each value exactly. -/
def canonical (bm : BeatmapFile) : Bool :=
  opt_okb general_ok bm.general && opt_okb editor_ok bm.editor &&
  opt_okb metadata_ok bm.metadata && opt_okb difficulty_ok bm.difficulty &&
  bm.events.all event_ok && bm.timing_points.all timing_point_ok &&
  opt_okb colors_ok bm.colors && bm.hit_objects.all hit_object_ok

theorem beatmap_filter (bm : BeatmapFile) (hc : canonical bm = true) :
    (beatmap_lines bm).filter keep_line =
      str "osu file format v128" :: ((bm_chunks bm).map Prod.fst).flatten := by
  rw [canonical] at hc
  rw [Bool.and_eq_true, Bool.and_eq_true, Bool.and_eq_true, Bool.and_eq_true,
    Bool.and_eq_true, Bool.and_eq_true, Bool.and_eq_true] at hc
  obtain ⟨⟨⟨⟨⟨⟨⟨hg, he⟩, hm⟩, hd⟩, hev⟩, htp⟩, hco⟩, hho⟩ := hc
  rw [beatmap_lines, bm_chunks]
  rw [List.filter_cons,
    if_pos (show keep_line (str "osu file format v128") = true from by decide),
    List.filter_cons, if_neg (show ¬(keep_line [] = true) from by decide)]
  rw [List.filter_append, List.filter_append, List.filter_append,
    List.filter_append, List.filter_append, List.filter_append,
    List.filter_append]
  rw [general_block_filter _ (opt_okb_some _ _ hg),
    editor_block_filter _ (opt_okb_some _ _ he),
    metadata_block_filter _ (opt_okb_some _ _ hm),
    difficulty_block_filter _ (opt_okb_some _ _ hd),
    events_block_filter _ hev, tps_block_filter _ htp,
    colors_block_filter _, ho_block_filter _ hho]
  simp only [List.map_cons, List.map_nil, List.flatten_cons, List.flatten_nil,
    List.append_nil, List.append_assoc]

theorem beatmap_line_ok (bm : BeatmapFile) (hc : canonical bm = true) :
    ∀ l ∈ beatmap_lines bm, line_ok l = true := by
  rw [canonical] at hc
  rw [Bool.and_eq_true, Bool.and_eq_true, Bool.and_eq_true, Bool.and_eq_true,
    Bool.and_eq_true, Bool.and_eq_true, Bool.and_eq_true] at hc
  obtain ⟨⟨⟨⟨⟨⟨⟨hg, he⟩, hm⟩, hd⟩, hev⟩, htp⟩, hco⟩, hho⟩ := hc
  intro l hl
  rw [beatmap_lines] at hl
  rcases List.mem_cons.mp hl with h | h
  · rw [h]; decide
  rcases List.mem_cons.mp h with h | h
  · rw [h]; rfl
  rcases List.mem_append.mp h with h | h2
  rotate_left
  · exact ho_block_line_ok _ hho l h2
  rcases List.mem_append.mp h with h | h2
  rotate_left
  · exact colors_block_line_ok _ l h2
  rcases List.mem_append.mp h with h | h2
  rotate_left
  · exact tps_block_line_ok _ htp l h2
  rcases List.mem_append.mp h with h | h2
  rotate_left
  · exact events_block_line_ok _ hev l h2
  rcases List.mem_append.mp h with h | h2
  rotate_left
  · exact difficulty_block_line_ok _ (opt_okb_some _ _ hd) l h2
  rcases List.mem_append.mp h with h | h2
  rotate_left
  · exact metadata_block_line_ok _ (opt_okb_some _ _ hm) l h2
  rcases List.mem_append.mp h with h | h2
  · exact general_block_line_ok _ (opt_okb_some _ _ hg) l h
  · exact editor_block_line_ok _ (opt_okb_some _ _ he) l h2

/-! Folding the chunk updates over the default document. -/

theorem general_chunk_upd (o : Option GeneralSection) (b : BeatmapFile) :
    (general_chunk o).2 b = { b with general := o.elim b.general some } := by
  cases o <;> rfl

theorem editor_chunk_upd (o : Option EditorSection) (b : BeatmapFile) :
    (editor_chunk o).2 b = { b with editor := o.elim b.editor some } := by
  cases o <;> rfl

theorem metadata_chunk_upd (o : Option MetadataSection) (b : BeatmapFile) :
    (metadata_chunk o).2 b = { b with metadata := o.elim b.metadata some } := by
  cases o <;> rfl

theorem difficulty_chunk_upd (o : Option DifficultySection) (b : BeatmapFile) :
    (difficulty_chunk o).2 b = { b with difficulty := o.elim b.difficulty some } := by
  cases o <;> rfl

theorem colors_chunk_upd (o : Option ColorsSection) (b : BeatmapFile) :
    (colors_chunk o).2 b = { b with colors := o.elim b.colors some } := by
  cases o <;> rfl

theorem events_chunk_upd (evs : List Event) (b : BeatmapFile) :
    (events_chunk evs).2 b = { b with events := if evs ≠ [] then evs else b.events } := by
  by_cases h : evs = []
  · subst h
    rw [events_chunk, if_neg (by simp), if_neg (by simp)]
    rfl
  · rw [events_chunk, if_pos h, if_pos h]

theorem tps_chunk_upd (tps : List TimingPoint) (b : BeatmapFile) :
    (tps_chunk tps).2 b =
      { b with timing_points := if tps ≠ [] then tps else b.timing_points } := by
  by_cases h : tps = []
  · subst h
    rw [tps_chunk, if_neg (by simp), if_neg (by simp)]
    rfl
  · rw [tps_chunk, if_pos h, if_pos h]

theorem ho_chunk_upd (hos : List HitObject) (b : BeatmapFile) :
    (ho_chunk hos).2 b =
      { b with hit_objects := if hos ≠ [] then hos else b.hit_objects } := by
  by_cases h : hos = []
  · subst h
    rw [ho_chunk, if_neg (by simp), if_neg (by simp)]
    rfl
  · rw [ho_chunk, if_pos h, if_pos h]

theorem fold_chunks (bm : BeatmapFile) (v : ℕ) :
    (bm_chunks bm).foldl (fun b c => c.2 b)
        { BeatmapFile.default with osu_file_format := v } =
      { bm with osu_file_format := v } := by
  obtain ⟨bv, g, e, m, d, evs, tps, co, hos⟩ := bm
  rw [bm_chunks]
  dsimp only [List.foldl]
  rw [general_chunk_upd, editor_chunk_upd, metadata_chunk_upd,
    difficulty_chunk_upd, events_chunk_upd, tps_chunk_upd, colors_chunk_upd,
    ho_chunk_upd]
  simp only [BeatmapFile.default]
  rw [elim_none_some g, elim_none_some e, elim_none_some m, elim_none_some d,
    elim_none_some co, ite_ne_nil evs, ite_ne_nil tps, ite_ne_nil hos]

theorem general_chunk_nil (o : Option GeneralSection)
    (h : (general_chunk o).1 = []) : o = none := by
  cases o with
  | none => rfl
  | some g => exact absurd h (by simp [general_chunk])

theorem editor_chunk_nil (o : Option EditorSection)
    (h : (editor_chunk o).1 = []) : o = none := by
  cases o with
  | none => rfl
  | some e => exact absurd h (by simp [editor_chunk])

theorem metadata_chunk_nil (o : Option MetadataSection)
    (h : (metadata_chunk o).1 = []) : o = none := by
  cases o with
  | none => rfl
  | some m => exact absurd h (by simp [metadata_chunk])

theorem difficulty_chunk_nil (o : Option DifficultySection)
    (h : (difficulty_chunk o).1 = []) : o = none := by
  cases o with
  | none => rfl
  | some d => exact absurd h (by simp [difficulty_chunk])

theorem colors_chunk_nil (o : Option ColorsSection)
    (h : (colors_chunk o).1 = []) : o = none := by
  cases o with
  | none => rfl
  | some c => exact absurd h (by simp [colors_chunk])

theorem events_chunk_nil (evs : List Event)
    (h : (events_chunk evs).1 = []) : evs = [] := by
  by_cases he : evs = []
  · exact he
  · rw [events_chunk, if_pos he] at h
    exact absurd h (by simp)

theorem tps_chunk_nil (tps : List TimingPoint)
    (h : (tps_chunk tps).1 = []) : tps = [] := by
  by_cases he : tps = []
  · exact he
  · rw [tps_chunk, if_pos he] at h
    exact absurd h (by simp)

theorem ho_chunk_nil (hos : List HitObject)
    (h : (ho_chunk hos).1 = []) : hos = [] := by
  by_cases he : hos = []
  · exact he
  · rw [ho_chunk, if_pos he] at h
    exact absurd h (by simp)

/-- Claim C1 (amended): for every document all of whose field values are
canonically encodable, parsing the text produced by the serializer yields a
document structurally equal to the original in every field EXCEPT
`osu_file_format`, which always comes back as `128`: the serializer hardcodes
the header `osu file format v128` (`deserializing.rs:285`) instead of writing
the document's own `osu_file_format`, so the claimed full structural equality
`parse(serialize(d)) = d` fails for every document whose `osu_file_format`
differs from 128 (see `C1_counterexample`). -/
theorem C1_round_trip (bm : BeatmapFile) (hc : canonical bm = true) :
    parse_osu_file (deserialize_beatmap_file bm) =
      .ok { bm with osu_file_format := 128 } := by
  have hc2 := hc
  rw [canonical] at hc2
  rw [Bool.and_eq_true, Bool.and_eq_true, Bool.and_eq_true, Bool.and_eq_true,
    Bool.and_eq_true, Bool.and_eq_true, Bool.and_eq_true] at hc2
  obtain ⟨⟨⟨⟨⟨⟨⟨hg, he⟩, hm⟩, hd⟩, hev⟩, htp⟩, hco⟩, hho⟩ := hc2
  have hspecs : ∀ c ∈ bm_chunks bm, chunks_spec c := by
    intro c hcm
    rw [bm_chunks] at hcm
    simp only [List.mem_cons, List.not_mem_nil, or_false] at hcm
    rcases hcm with rfl | rfl | rfl | rfl | rfl | rfl | rfl | rfl
    · exact general_chunk_spec _ (opt_okb_some _ _ hg)
    · exact editor_chunk_spec _ (opt_okb_some _ _ he)
    · exact metadata_chunk_spec _ (opt_okb_some _ _ hm)
    · exact difficulty_chunk_spec _ (opt_okb_some _ _ hd)
    · exact events_chunk_spec _ hev
    · exact tps_chunk_spec _ htp
    · exact colors_chunk_spec _ (opt_okb_some _ _ hco)
    · exact ho_chunk_spec _ hho
  rw [deserialize_beatmap_eq bm]
  unfold parse_osu_file
  rw [rust_lines_unlines _ (beatmap_line_ok bm hc), beatmap_filter bm hc]
  simp only [show (str "osu file format v128").dropWhile (fun c => c = '﻿') =
      str "osu file format v128" from by decide,
    show strip_start (str "osu file format v") (str "osu file format v128") =
      some (str "128") from by decide,
    show parse_uint u32_max (str "128") = some 128 from by decide]
  cases hfl : ((bm_chunks bm).map Prod.fst).flatten with
  | nil =>
    have h8 : ∀ c ∈ bm_chunks bm, (c.1 : List Str) = [] := by
      intro c hcm
      exact List.flatten_eq_nil_iff.mp hfl c.1
        (List.mem_map_of_mem Prod.fst hcm)
    obtain ⟨bv, g, e, m, d, evs, tps, co, hos⟩ := bm
    have hg0 := general_chunk_nil g (h8 _ (by simp [bm_chunks]))
    have he0 := editor_chunk_nil e (h8 _ (by simp [bm_chunks]))
    have hm0 := metadata_chunk_nil m (h8 _ (by simp [bm_chunks]))
    have hd0 := difficulty_chunk_nil d (h8 _ (by simp [bm_chunks]))
    have hev0 := events_chunk_nil evs (h8 _ (by simp [bm_chunks]))
    have htp0 := tps_chunk_nil tps (h8 _ (by simp [bm_chunks]))
    have hco0 := colors_chunk_nil co (h8 _ (by simp [bm_chunks]))
    have hho0 := ho_chunk_nil hos (h8 _ (by simp [bm_chunks]))
    subst hg0 he0 hm0 hd0 hev0 htp0 hco0 hho0
    rfl
  | cons line rest =>
    dsimp only
    have hlen : ((bm_chunks bm).map Prod.fst).flatten.length + 1 ≤
        rest.length + 2 := by
      rw [hfl]
      simp
    have hrun := chunks_consume (bm_chunks bm) hspecs (rest.length + 2)
      { BeatmapFile.default with osu_file_format := 128 } hlen
    rw [hfl] at hrun
    simp only [List.head?_cons, List.tail_cons] at hrun
    rw [hrun, fold_chunks bm 128]

/-- A concrete document exercising every section, used as the round-trip
witness. -/
def C1_example : BeatmapFile :=
  { osu_file_format := 14,
    general := some
      { audio_filename := str "audio.mp3", audio_lead_in := 0,
        audio_hash := none, preview_time := -1, countdown := 1,
        sample_set := str "Normal", stack_leniency := mkRat 7 10, mode := 0,
        letterbox_in_breaks := false, story_fire_in_front := true,
        use_skin_sprites := false, always_show_playfield := false,
        overlay_position := .NoChange, skin_preference := none,
        epilepsy_warning := false, countdown_offset := 0,
        special_style := false, widescreen_storyboard := true,
        samples_match_playback_rate := false },
    editor := some
      { bookmarks := [1500, 3000], distance_spacing := 1,
        beat_divisor := 4, grid_size := 32, timeline_zoom := some 2 },
    metadata := some
      { title := str "Example", title_unicode := str "Example",
        artist := str "Artist", artist_unicode := str "Artist",
        creator := str "Creator", version := str "Hard", source := str "Src",
        tags := [str "one", str "two"],
        beatmap_id := some 12345, beatmap_set_id := some 678 },
    difficulty := some
      { hp_drain_rate := 5, circle_size := 4,
        overall_difficulty := 8, approach_rate := 9,
        slider_multiplier := mkRat 9 5, slider_tick_rate := 1 },
    events := [⟨str "0", 0, .Background (str "bg.jpg") 0 0⟩,
      ⟨str "2", 100, .Break 200⟩],
    timing_points := [⟨0, 500, 4, .Normal, 0, 80, true, 0⟩,
      ⟨1000, -50, 4, .Soft, 1, 60, false, 1⟩],
    colors := some
      { combo_colors := [⟨255, 128, 0, none⟩, ⟨0, 202, 0, some 255⟩],
        slider_track_override := some ⟨1, 2, 3, none⟩,
        slider_border := some ⟨10, 20, 30, none⟩ },
    hit_objects :=
      [⟨100, 200, 1500, .HitCircle, none, ⟨0⟩, .HitCircle,
         ⟨.Auto, .Auto, 0, 0, none⟩⟩,
       ⟨50, 60, 3000, .Slider, none, ⟨2⟩,
         .Slider .Linear [⟨.Inherit, 150, 60⟩] 1 140 [⟨0⟩, ⟨2⟩]
           [⟨.Auto, .Auto⟩, ⟨.Normal, .Soft⟩],
         ⟨.Auto, .Auto, 0, 0, none⟩⟩,
       ⟨256, 192, 5000, .Spinner, some 3, ⟨0⟩, .Spinner 6000,
         ⟨.Auto, .Auto, 0, 0, none⟩⟩,
       ⟨320, 100, 7000, .Hold, none, ⟨0⟩, .Hold 8000,
         ⟨.Normal, .Normal, 1, 70, some (str "hit.wav")⟩⟩] }

/-- Witness for `C1_round_trip`: the canonical document `C1_example`
(every section populated) round-trips, with `osu_file_format` forced
to 128. -/
theorem C1_round_trip_witness :
    canonical C1_example = true ∧
    parse_osu_file (deserialize_beatmap_file C1_example) =
      .ok { C1_example with osu_file_format := 128 } :=
  ⟨by decide, C1_round_trip C1_example (by decide)⟩

end Osus
